import Mathlib

/-!
# BleKeyboard_extended: timeline analysis, timing validation, curve lookup, progress and speed

A shallow embedding of

* `Analysis::TimeFrame`, `Analysis::ClipData`, `Analysis::TextParser`
  (`include/analysis/text_parser.h`),
* `TimeAnalysis::DurationCalculator` (`include/aht/calculator.h`),
* `Utils::Interpolation::lerp` / `multiLerp` (`include/utils/interpolation.h`),
* `AHT::CURVE_POINTS` (`include/aht/graph_data.h`),
* `Timing::ProgressTracker` (`include/timing/progress_tracker.h`),
* `Timing::SpeedAdjuster` (`include/timing/speed_adjuster.h`),
* `Utils::TimeConversion::parseTimeString` / `toMillis` (`include/utils/time_conversion.h`),
* `Analysis::DifficultyScorer` (`include/analysis/difficulty_scorer.h`),
* `AHT::TimeDistributor` (`include/aht/time_distributor.h`),
* the typing state machine of `HumanSimulator` and `Keyboard` (`src/human_simulator.cpp`,
  `src/keyboard.cpp`),
* the button handling of `Hardware` (`include/hardware.h`, `src/hardware.cpp`).

Conventions.  A `uint32_t` is a `Nat` below `2 ^ 32`; every `uint32_t` operation
of the source is followed by an explicit `% 2 ^ 32`.  An `int` is an `Int` (the
active-frame counter, the clip numbers and the period counters stay far below
`2 ^ 31`).  The `float` code of the curve lookup, the difficulty score and the
speed adjuster is read in exact arithmetic, a `float` being a rational number.
The `float` code of the progress tracker, the time distributor and the
behavioural simulator is computed in binary32 with round-to-nearest-even after
every operation (`F32.round`); in the progress snapshot and the time
distributor, which divide by quantities that can be zero, a `float` is a
binary32 number or one of the IEEE special values (`XFloat`).  A
reference parameter that a function writes (`String& errorMessage`) is passed in
and returned, and a method that changes its object returns the new object.  The
clock `millis()` is an explicit argument `now`.  Reading `events[0]` of an empty
`std::vector` is undefined behaviour and is modelled by `none`.
-/

namespace BleKeyboard

/-- The number of values of a `uint32_t`. -/
def U32 : Nat := 2 ^ 32

/-- The constant `UINT32_MAX`. -/
def UINT32_MAX : Nat := 2 ^ 32 - 1

/-- Addition of two `uint32_t` values. -/
def add32 (a b : Nat) : Nat := (a + b) % U32

/-- Subtraction of two `uint32_t` values (wraps around below zero). -/
def sub32 (a b : Nat) : Nat := (a + U32 - b % U32) % U32

/-! ## Data model (`analysis/text_parser.h`) -/

/-- The struct `TimeFrame::TimeStamp`. -/
structure TimeStamp where
  minutes : Nat
  seconds : Nat
  milliseconds : Nat
deriving Repr, DecidableEq

/-- The method `TimeStamp::toMillis`: `(minutes * 60 + seconds) * 1000 + milliseconds`
in `uint32_t` arithmetic. -/
def TimeStamp.toMillis (t : TimeStamp) : Nat :=
  ((t.minutes * 60 + t.seconds) * 1000 + t.milliseconds) % U32

/-- The enum `TimeFrame::Type`. -/
inductive FrameType where
  | TYPING
  | CAMERA_MOVEMENT
  | CAMERA_TRANSITION
  | CLIP_BOUNDARY
deriving Repr, DecidableEq

/-- The struct `Analysis::TimeFrame`. -/
structure TimeFrame where
  startTime : TimeStamp
  endTime : TimeStamp
  type : FrameType
  content : String
deriving Repr, DecidableEq

/-- The struct `Analysis::ClipData`. -/
structure ClipData where
  number : Int
  timeframes : List TimeFrame
  mainDescription : String
  totalDurationMillis : Nat
  wordCount : Int
  charCount : Int
  cameraMovements : Int
  cameraTransitions : Int
  actionDescriptions : Int
deriving Repr, DecidableEq

/-- The struct `TextParser::ParseResult`. -/
structure ParseResult where
  videoId : String
  clips : List ClipData
  isValid : Bool
  errorMessage : String
deriving Repr, DecidableEq

/-! ## Timeline analysis (`aht/calculator.h`, namespace `TimeAnalysis`) -/

/-- The struct `DurationAnalysis::TimeRange`. -/
structure TimeRange where
  startMillis : Nat
  endMillis : Nat
deriving Repr, DecidableEq

/-- The method `TimeRange::duration`. -/
def TimeRange.duration (r : TimeRange) : Nat := sub32 r.endMillis r.startMillis

/-- The struct `DurationAnalysis`; its default member initialisers are `DurationAnalysis.zero`. -/
structure DurationAnalysis where
  totalMillis : Nat
  effectiveMillis : Nat
  overlapMillis : Nat
  gapMillis : Nat
  utilizationPercent : ℚ
  gaps : List TimeRange
  overlaps : List TimeRange

/-- A default-constructed `DurationAnalysis`. -/
def DurationAnalysis.zero : DurationAnalysis :=
  { totalMillis := 0, effectiveMillis := 0, overlapMillis := 0, gapMillis := 0,
    utilizationPercent := 0, gaps := [], overlaps := [] }

/-- The pairs `(startTime.toMillis(), endTime.toMillis())` of all frames, in the order in which
the nested loops `for clip … for frame …` visit them. -/
def frameMillis (pr : ParseResult) : List (Nat × Nat) :=
  pr.clips.flatMap (fun clip => clip.timeframes.map (fun frame =>
    (frame.startTime.toMillis, frame.endTime.toMillis)))

/-- The function `findGlobalTimeRange`: the value it stores in `analysis.totalMillis`. -/
def findGlobalTimeRange (pr : ParseResult) : Nat :=
  let r := (frameMillis pr).foldl
    (fun (g : Nat × Nat) (f : Nat × Nat) => (min g.1 f.1, max g.2 f.2)) (UINT32_MAX, 0)
  sub32 r.2 r.1

/-- The event vector built by the first loop of `analyzeTimeframes`. -/
def buildEvents : List (Nat × Nat) → List (Nat × Int)
  | [] => []
  | f :: fs => (f.1, 1) :: (f.2, -1) :: buildEvents fs

/-- The order `operator<=` of `std::pair<uint32_t, int>`: by time, ties by event value. -/
def evLe (a b : Nat × Int) : Prop := a.1 < b.1 ∨ (a.1 = b.1 ∧ a.2 ≤ b.2)

instance evLe_decidable : DecidableRel evLe := fun a b => by
  unfold evLe
  exact inferInstance

/-- The call `std::sort(events.begin(), events.end())`.  The order is total and antisymmetric on
pairs, so the sorted vector does not depend on the sorting algorithm. -/
def sortEvents (evs : List (Nat × Int)) : List (Nat × Int) :=
  evs.insertionSort evLe

/-- The local variables of the sweep loop of `analyzeTimeframes` together with the fields of
`analysis` that the loop writes. -/
structure SweepState where
  activeFrames : Int
  lastTime : Nat
  coveredTime : Nat
  currentRange : TimeRange
  overlapMillis : Nat
  overlaps : List TimeRange
  gapMillis : Nat
  gaps : List TimeRange
deriving Repr, DecidableEq

/-- The state before the first iteration of the sweep; `first` is `events[0].first`. -/
def sweepInit (first : Nat) : SweepState :=
  { activeFrames := 0, lastTime := first, coveredTime := 0, currentRange := ⟨0, 0⟩,
    overlapMillis := 0, overlaps := [], gapMillis := 0, gaps := [] }

/-- One iteration of the loop `for (const auto& event : events)`; `first` is `events[0].first`. -/
def sweepStep (first : Nat) (s : SweepState) (event : Nat × Int) : SweepState :=
  let currentTime := event.1
  let coveredTime :=
    if s.activeFrames > 0 then add32 s.coveredTime (sub32 currentTime s.lastTime)
    else s.coveredTime
  let s1 : SweepState :=
    if s.activeFrames > 1 then
      { s with
        overlapMillis := add32 s.overlapMillis (sub32 currentTime s.lastTime)
        currentRange :=
          if s.currentRange.startMillis = 0 then { s.currentRange with startMillis := s.lastTime }
          else s.currentRange }
    else if s.activeFrames = 1 ∧ s.currentRange.startMillis > 0 then
      { s with
        overlaps := s.overlaps ++ [{ s.currentRange with endMillis := s.lastTime }]
        currentRange := ⟨0, 0⟩ }
    else s
  let s2 : SweepState :=
    if s.activeFrames = 0 ∧ s.lastTime > first then
      { s1 with
        gaps := s1.gaps ++ [⟨s.lastTime, currentTime⟩]
        gapMillis := add32 s1.gapMillis (sub32 currentTime s.lastTime) }
    else s1
  { s2 with
    coveredTime := coveredTime
    activeFrames := s.activeFrames + event.2
    lastTime := currentTime }

/-- The sweep loop of `analyzeTimeframes` over the sorted events. -/
def sweep (first : Nat) (evs : List (Nat × Int)) : SweepState :=
  evs.foldl (sweepStep first) (sweepInit first)

/-- The function `analyzeTimeframes`; `none` when `events[0]` is read from an empty vector. -/
def analyzeTimeframes (pr : ParseResult) (analysis : DurationAnalysis) : Option DurationAnalysis :=
  match sortEvents (buildEvents (frameMillis pr)) with
  | [] => none
  | e0 :: es =>
    let s := sweep e0.1 (e0 :: es)
    some { analysis with
      overlapMillis := add32 analysis.overlapMillis s.overlapMillis
      overlaps := analysis.overlaps ++ s.overlaps
      gapMillis := add32 analysis.gapMillis s.gapMillis
      gaps := analysis.gaps ++ s.gaps
      effectiveMillis := s.coveredTime }

/-- The function `calculateUtilization`. -/
def calculateUtilization (analysis : DurationAnalysis) : DurationAnalysis :=
  { analysis with
    utilizationPercent :=
      if analysis.totalMillis > 0 then
        (analysis.effectiveMillis : ℚ) / (analysis.totalMillis : ℚ) * 100
      else 0 }

/-- The function `DurationCalculator::analyze`. -/
def analyze (pr : ParseResult) : Option DurationAnalysis :=
  if pr.clips.isEmpty then some DurationAnalysis.zero
  else
    let analysis := { DurationAnalysis.zero with totalMillis := findGlobalTimeRange pr }
    (analyzeTimeframes pr analysis).map calculateUtilization

/-- The inner loop of `validateClipSequence` over the frames of one clip, started from
`w = (clipStartTime, clipEndTime)`: the final pair, or `none` when a frame with
`endMs <= startMs` makes the function return `false`. -/
def clipWindow : List TimeFrame → Nat × Nat → Option (Nat × Nat)
  | [], w => some w
  | frame :: rest, w =>
    let startMs := frame.startTime.toMillis
    let endMs := frame.endTime.toMillis
    if endMs ≤ startMs then none
    else clipWindow rest (min w.1 startMs, max w.2 endMs)

/-- The outer loop of `validateClipSequence` over the remaining clips, with the current values of
`lastEndTime` and `expectedClipNum`; returns the result and the error message. -/
def validateClipSequenceLoop : List ClipData → Nat → Int → String → Bool × String
  | [], _, _, errorMessage => (true, errorMessage)
  | clip :: rest, lastEndTime, expectedClipNum, errorMessage =>
    if clip.number ≠ expectedClipNum then
      (false, "Invalid clip numbering sequence")
    else
      match clipWindow clip.timeframes (UINT32_MAX, 0) with
      | none => (false, "Invalid timeframe duration in clip " ++ toString clip.number)
      | some (clipStartTime, clipEndTime) =>
        if lastEndTime > 0 ∧ clipStartTime < lastEndTime then
          (false, "Clip " ++ toString clip.number ++ " overlaps with previous clip")
        else
          validateClipSequenceLoop rest clipEndTime (expectedClipNum + 1) errorMessage

/-- The function `validateClipSequence`. -/
def validateClipSequence (pr : ParseResult) (errorMessage : String) : Bool × String :=
  validateClipSequenceLoop pr.clips 0 1 errorMessage

/-- The loops of `validateTimeframes` over the remaining clips. -/
def validateTimeframesLoop : List ClipData → String → Bool × String
  | [], errorMessage => (true, errorMessage)
  | clip :: rest, errorMessage =>
    if clip.timeframes.all (fun frame => decide (frame.startTime.toMillis < frame.endTime.toMillis))
    then validateTimeframesLoop rest errorMessage
    else (false, "Invalid timeframe in clip " ++ toString clip.number)

/-- The function `validateTimeframes`. -/
def validateTimeframes (pr : ParseResult) (errorMessage : String) : Bool × String :=
  validateTimeframesLoop pr.clips errorMessage

/-- The function `DurationCalculator::validateTiming`: the returned flag and the value left in
`errorMessage`. -/
def validateTiming (pr : ParseResult) (errorMessage : String) : Bool × String :=
  if pr.clips.isEmpty then (false, "No clips found")
  else
    let r := validateClipSequence pr errorMessage
    if r.1 then validateTimeframes pr r.2 else r

/-! ## Interpolation (`utils/interpolation.h`) and the reference curve (`aht/graph_data.h`) -/

/-- The Arduino core macro `constrain(amt, low, high)`, which is
`((amt) < (low) ? (low) : ((amt) > (high) ? (high) : (amt)))`. -/
def constrain (amt low high : ℚ) : ℚ :=
  if amt < low then low else if amt > high then high else amt

/-- The function `Interpolation::lerp`. -/
def lerp (a b t : ℚ) : ℚ := a + (b - a) * constrain t 0 1

/-- The loop `while (i < count - 1 && points[i+1] < x) i++` of `multiLerp`, started at `i` and
running at most `fuel` iterations.  The index `i` starts at 0 and only grows, so it is a natural
number. -/
def multiLerpSearch (points : List Nat) (count : Int) (x : ℚ) : Nat → Nat → Nat
  | 0, i => i
  | fuel + 1, i =>
    if (i : Int) < count - 1 ∧ ((points.getD (i + 1) 0 : Nat) : ℚ) < x then
      multiLerpSearch points count x fuel (i + 1)
    else i

/-- The function `Interpolation::multiLerp<T>` for an unsigned integer type `T`; the arrays are
lists and `count` is the `int` parameter.  The loop runs from `i = 0` and leaves as soon as
`i = count - 1`, so `count - 1` iterations are enough fuel (`multiLerpSearch_exit`). -/
def multiLerp (points : List Nat) (values : List ℚ) (count : Int) (x : ℚ) : ℚ :=
  if count < 2 then (if count = 1 then values.getD 0 0 else 0)
  else if x ≤ ((points.getD 0 0 : Nat) : ℚ) then values.getD 0 0
  else if x ≥ ((points.getD (count - 1).toNat 0 : Nat) : ℚ) then values.getD (count - 1).toNat 0
  else
    let i := multiLerpSearch points count x (count - 1).toNat 0
    let t := (x - ((points.getD i 0 : Nat) : ℚ)) /
      (((points.getD (i + 1) 0 : Nat) : ℚ) - ((points.getD i 0 : Nat) : ℚ))
    lerp (values.getD i 0) (values.getD (i + 1) 0) t

/-- The struct `AHT::GraphPoint`. -/
structure GraphPoint where
  videoDuration : Nat
  lowerBound : Nat
  upperBound : Nat
  targetAHT : Nat
deriving Repr, DecidableEq

/-- The table `AHT::CURVE_POINTS`. -/
def CURVE_POINTS : List GraphPoint :=
  [ ⟨5, 30, 65, 47⟩,
    ⟨10, 60, 130, 95⟩,
    ⟨15, 90, 195, 142⟩,
    ⟨20, 120, 260, 190⟩,
    ⟨25, 150, 325, 237⟩,
    ⟨30, 180, 390, 285⟩,
    ⟨35, 210, 455, 332⟩,
    ⟨40, 240, 520, 380⟩,
    ⟨45, 270, 585, 427⟩ ]

/-- The constant `AHT::NUM_POINTS`. -/
def NUM_POINTS : Nat := CURVE_POINTS.length

/-- The `videoDuration` column of the table, the `points` array of a curve lookup. -/
def curveDurations : List Nat := CURVE_POINTS.map (fun p => p.videoDuration)

/-- The `lowerBound` column of the table as a `float` array. -/
def curveLower : List ℚ := CURVE_POINTS.map (fun p => (p.lowerBound : ℚ))

/-- The `upperBound` column of the table as a `float` array. -/
def curveUpper : List ℚ := CURVE_POINTS.map (fun p => (p.upperBound : ℚ))

/-- The `targetAHT` column of the table as a `float` array. -/
def curveTarget : List ℚ := CURVE_POINTS.map (fun p => (p.targetAHT : ℚ))

/-- The constant `AHT::MIN_DURATION`, the `videoDuration` of the first row. -/
def MIN_DURATION : Nat := (CURVE_POINTS.get ⟨0, by decide⟩).videoDuration

/-- The constant `AHT::MAX_DURATION`, the `videoDuration` of the last row. -/
def MAX_DURATION : Nat := (CURVE_POINTS.get ⟨NUM_POINTS - 1, by decide⟩).videoDuration

/-! ## Binary32 arithmetic

The `float` code of the progress tracker, the time distributor and the behavioural simulator
is computed as on the machine: every operation takes the exact result and rounds it to the
nearest binary32 number (24 significant bits, exponents from -126 on, a tie going to the even
neighbour), operation by operation and without fused multiply-add.  A binary32 number is kept as
the rational number it denotes. -/

/-- Rounding of a rational number to the nearest integer, a tie going to the even one. -/
def roundHalfEven (q : ℚ) : Int :=
  if q - ⌊q⌋ < 1 / 2 then ⌊q⌋
  else if 1 / 2 < q - ⌊q⌋ then ⌊q⌋ + 1
  else if ⌊q⌋ % 2 = 0 then ⌊q⌋ else ⌊q⌋ + 1

/-- The binary exponent of the binary32 format at `x`: the `e` with `2 ^ e <= |x| < 2 ^ (e + 1)`
for a normal number, and `-126` below the normal range. -/
def F32.exponent (x : ℚ) : Int :=
  if |x| < (2 : ℚ) ^ (-126 : Int) then -126 else Int.log 2 |x|

/-- The distance of neighbouring binary32 numbers at `x`: 24 significant bits. -/
def F32.ulp (x : ℚ) : ℚ := (2 : ℚ) ^ (F32.exponent x - 23)

/-- The multiple of `ulp x` nearest to `x`, a tie going to the even multiple: the binary32
number that round-to-nearest-even gives for `x`, as long as it is below `2 ^ 128`.  A `float`
literal such as `0.1f` is `F32.round (1 / 10)`. -/
def F32.round (x : ℚ) : ℚ := (roundHalfEven (x / F32.ulp x) : ℚ) * F32.ulp x

/-! ## Floats with the IEEE special values

The progress snapshot divides by quantities that can be zero.  Its `float` values are therefore
binary32 numbers extended by the three special values of IEEE-754 arithmetic, so that a division
by zero yields an infinity or a NaN as on the machine.  The sign of a zero is not kept: all
divisors in the code are non-negative, so a zero divisor is the positive zero. -/

/-- A `float`: a binary32 number, `+inf`, `-inf` or NaN. -/
inductive XFloat where
  | fin (q : ℚ)
  | posInf
  | negInf
  | nan
deriving Repr, DecidableEq

/-- The sign of a float as a rational (`0` for zero and for NaN). -/
def XFloat.sign : XFloat → ℚ
  | XFloat.fin q => q
  | XFloat.posInf => 1
  | XFloat.negInf => -1
  | XFloat.nan => 0

/-- The infinity of the sign of `s`; NaN when `s` is zero. -/
def XFloat.infOfSign (s : ℚ) : XFloat :=
  if s > 0 then XFloat.posInf else if s < 0 then XFloat.negInf else XFloat.nan

/-- The float that an operation with the exact result `x` returns: `x` rounded to binary32, and
the infinity of its sign when the rounded value does not fit. -/
def XFloat.ofRat (x : ℚ) : XFloat :=
  if (2 : ℚ) ^ (128 : Int) ≤ |F32.round x| then XFloat.infOfSign x else XFloat.fin (F32.round x)

/-- The conversion `(float)n` of a `uint32_t`, which cannot overflow. -/
def XFloat.ofNat (n : Nat) : XFloat := XFloat.fin (F32.round (n : ℚ))

/-- The product `a * b` of two floats. -/
def XFloat.mul : XFloat → XFloat → XFloat
  | XFloat.fin a, XFloat.fin b => XFloat.ofRat (a * b)
  | XFloat.nan, _ => XFloat.nan
  | _, XFloat.nan => XFloat.nan
  | a, b => XFloat.infOfSign (a.sign * b.sign)

/-- The quotient `a / b` of two floats. -/
def XFloat.div : XFloat → XFloat → XFloat
  | XFloat.fin a, XFloat.fin b => if b = 0 then XFloat.infOfSign a else XFloat.ofRat (a / b)
  | XFloat.nan, _ => XFloat.nan
  | _, XFloat.nan => XFloat.nan
  | XFloat.fin _, _ => XFloat.fin 0
  | a, XFloat.fin b => if b < 0 then XFloat.infOfSign (-a.sign) else a
  | _, _ => XFloat.nan

/-- The difference `a - b` of two floats. -/
def XFloat.sub : XFloat → XFloat → XFloat
  | XFloat.fin a, XFloat.fin b => XFloat.ofRat (a - b)
  | XFloat.nan, _ => XFloat.nan
  | _, XFloat.nan => XFloat.nan
  | XFloat.posInf, XFloat.posInf => XFloat.nan
  | XFloat.negInf, XFloat.negInf => XFloat.nan
  | XFloat.posInf, _ => XFloat.posInf
  | XFloat.negInf, _ => XFloat.negInf
  | XFloat.fin _, XFloat.posInf => XFloat.negInf
  | XFloat.fin _, XFloat.negInf => XFloat.posInf

/-- The comparison `a < b` of two floats; false when one of them is NaN. -/
def XFloat.lt : XFloat → XFloat → Bool
  | XFloat.fin a, XFloat.fin b => decide (a < b)
  | XFloat.nan, _ => false
  | _, XFloat.nan => false
  | XFloat.negInf, XFloat.negInf => false
  | XFloat.negInf, _ => true
  | XFloat.fin _, XFloat.posInf => true
  | _, _ => false

/-- The comparison `a <= b` of two floats; false when one of them is NaN. -/
def XFloat.le : XFloat → XFloat → Bool
  | XFloat.fin a, XFloat.fin b => decide (a ≤ b)
  | XFloat.nan, _ => false
  | _, XFloat.nan => false
  | XFloat.negInf, _ => true
  | _, XFloat.posInf => true
  | _, _ => false

/-- The function `std::min(a, b)` on floats, which is `(b < a) ? b : a`. -/
def XFloat.min (a b : XFloat) : XFloat := if XFloat.lt b a then b else a

/-- The function `std::abs` on floats. -/
def XFloat.abs : XFloat → XFloat
  | XFloat.fin q => XFloat.fin |q|
  | XFloat.posInf => XFloat.posInf
  | XFloat.negInf => XFloat.posInf
  | XFloat.nan => XFloat.nan

/-- The conversion of a float to `uint32_t`, which truncates toward zero.  The conversion of a
value that is not finite or does not fit is undefined in C++; here a finite value wraps and the
others give 0. -/
def XFloat.toU32 : XFloat → Nat
  | XFloat.fin q => (Int.toNat ⌊q⌋) % U32
  | _ => 0

/-! ## Progress tracking (`timing/progress_tracker.h`, `timing/duration_calculator.h`) -/

/-- The enum `AHT::ActivityType` (`constants.h`). -/
inductive ActivityType where
  | TYPING
  | NAVIGATION
  | THINKING
  | TRANSITION
deriving Repr, DecidableEq

/-- The struct `Timing::DurationAnalysis` (`timing/duration_calculator.h`). -/
structure Timing.DurationAnalysis where
  totalMillis : Nat
  effectiveMillis : Nat
  overlapMillis : Nat
  gapMillis : Nat
  typingMillis : Nat
  utilizationPercent : ℚ
  gaps : List TimeRange
  overlaps : List TimeRange
deriving Repr, DecidableEq

/-- The anonymous struct `ProgressSnapshot::components`. -/
structure SnapshotComponents where
  typing : XFloat
  navigation : XFloat
  thinking : XFloat
  transitions : XFloat
deriving Repr, DecidableEq

/-- The anonymous struct `ProgressSnapshot::compliance`. -/
structure SnapshotCompliance where
  speedDeviation : XFloat
  timeUtilization : XFloat
  etaDeviation : XFloat
deriving Repr, DecidableEq

/-- The struct `Timing::ProgressSnapshot`. -/
structure ProgressSnapshot where
  percentComplete : XFloat
  elapsedMillis : Nat
  estimatedRemaining : Nat
  currentSpeed : XFloat
  components : SnapshotComponents
  compliance : SnapshotCompliance
  isBehindSchedule : Bool
  isAheadOfSchedule : Bool
  needsSpeedAdjustment : Bool
deriving Repr, DecidableEq

/-- A default-constructed `ProgressSnapshot`. -/
def ProgressSnapshot.zero : ProgressSnapshot :=
  { percentComplete := XFloat.fin 0, elapsedMillis := 0, estimatedRemaining := 0,
    currentSpeed := XFloat.fin 0,
    components := ⟨XFloat.fin 0, XFloat.fin 0, XFloat.fin 0, XFloat.fin 0⟩,
    compliance := ⟨XFloat.fin 0, XFloat.fin 0, XFloat.fin 0⟩,
    isBehindSchedule := false, isAheadOfSchedule := false, needsSpeedAdjustment := false }

/-- The struct `ProgressTracker::ActivityProgress`. -/
structure ActivityProgress where
  typingMillis : Nat
  navigationMillis : Nat
  thinkingMillis : Nat
  transitionMillis : Nat
  wordsTyped : Nat
deriving Repr, DecidableEq

/-- The data members of the class `Timing::ProgressTracker`. -/
structure ProgressTracker where
  videoDuration : Timing.DurationAnalysis
  activityProgress : ActivityProgress
  startTime : Nat
  lastPauseTime : Nat
  totalPausedTime : Nat
  isRunning : Bool
deriving Repr, DecidableEq

/-- The constructor `ProgressTracker(duration)`. -/
def ProgressTracker.new (duration : Timing.DurationAnalysis) : ProgressTracker :=
  { videoDuration := duration, activityProgress := ⟨0, 0, 0, 0, 0⟩, startTime := 0,
    lastPauseTime := 0, totalPausedTime := 0, isRunning := false }

/-- The method `start`; `now` is the value returned by `millis()`. -/
def ProgressTracker.start (tr : ProgressTracker) (now : Nat) : ProgressTracker :=
  if !tr.isRunning then { tr with startTime := now, isRunning := true } else tr

/-- The method `pause`; `now` is the value returned by `millis()`. -/
def ProgressTracker.pause (tr : ProgressTracker) (now : Nat) : ProgressTracker :=
  if tr.isRunning then { tr with lastPauseTime := now, isRunning := false } else tr

/-- The method `resume`; `now` is the value returned by `millis()`. -/
def ProgressTracker.resume (tr : ProgressTracker) (now : Nat) : ProgressTracker :=
  if !tr.isRunning ∧ tr.lastPauseTime > 0 then
    { tr with
      totalPausedTime := add32 tr.totalPausedTime (sub32 now tr.lastPauseTime)
      lastPauseTime := 0
      isRunning := true }
  else tr

/-- The method `updateActivity`. -/
def ProgressTracker.updateActivity (tr : ProgressTracker) (activity : ActivityType)
    (millisUsed : Nat) : ProgressTracker :=
  if !tr.isRunning then tr
  else
    match activity with
    | ActivityType.TYPING =>
      { tr with activityProgress := { tr.activityProgress with
          typingMillis := add32 tr.activityProgress.typingMillis millisUsed } }
    | ActivityType.NAVIGATION =>
      { tr with activityProgress := { tr.activityProgress with
          navigationMillis := add32 tr.activityProgress.navigationMillis millisUsed } }
    | ActivityType.THINKING =>
      { tr with activityProgress := { tr.activityProgress with
          thinkingMillis := add32 tr.activityProgress.thinkingMillis millisUsed } }
    | ActivityType.TRANSITION =>
      { tr with activityProgress := { tr.activityProgress with
          transitionMillis := add32 tr.activityProgress.transitionMillis millisUsed } }

/-- The method `updateWordsTyped`. -/
def ProgressTracker.updateWordsTyped (tr : ProgressTracker) (count : Nat) : ProgressTracker :=
  { tr with activityProgress := { tr.activityProgress with wordsTyped := count } }

/-- The method `calculateElapsedTime`; `now` is the value returned by `millis()`. -/
def ProgressTracker.calculateElapsedTime (tr : ProgressTracker) (now : Nat)
    (snapshot : ProgressSnapshot) : ProgressSnapshot :=
  { snapshot with elapsedMillis := sub32 (sub32 now tr.startTime) tr.totalPausedTime }

/-- The method `calculateComponentProgress`. -/
def ProgressTracker.calculateComponentProgress (used allocated : Nat) : XFloat :=
  if allocated > 0 then
    XFloat.min (XFloat.fin 100)
      (XFloat.mul (XFloat.div (XFloat.ofNat used) (XFloat.ofNat allocated)) (XFloat.fin 100))
  else XFloat.fin 0

/-- The method `calculateProgress`. -/
def ProgressTracker.calculateProgress (tr : ProgressTracker) (snapshot : ProgressSnapshot) :
    ProgressSnapshot :=
  { snapshot with
    percentComplete :=
      XFloat.min (XFloat.fin 100)
        (XFloat.mul (XFloat.div (XFloat.ofNat snapshot.elapsedMillis)
          (XFloat.ofNat tr.videoDuration.totalMillis)) (XFloat.fin 100))
    components :=
      { typing := ProgressTracker.calculateComponentProgress tr.activityProgress.typingMillis
          tr.videoDuration.typingMillis
        navigation := ProgressTracker.calculateComponentProgress
          tr.activityProgress.navigationMillis
          (sub32 tr.videoDuration.totalMillis tr.videoDuration.typingMillis)
        thinking := ProgressTracker.calculateComponentProgress tr.activityProgress.thinkingMillis
          (XFloat.toU32 (XFloat.mul (XFloat.ofNat tr.videoDuration.totalMillis)
            (XFloat.ofRat (1 / 10))))
        transitions := ProgressTracker.calculateComponentProgress
          tr.activityProgress.transitionMillis
          (XFloat.toU32 (XFloat.mul (XFloat.ofNat tr.videoDuration.totalMillis)
            (XFloat.ofRat (1 / 20)))) } }

/-- The method `calculateCompliance`. -/
def ProgressTracker.calculateCompliance (tr : ProgressTracker) (snapshot : ProgressSnapshot) :
    ProgressSnapshot :=
  let expectedWords := XFloat.mul (XFloat.ofNat tr.activityProgress.wordsTyped)
    (XFloat.div (XFloat.ofNat snapshot.elapsedMillis) (XFloat.ofNat tr.videoDuration.totalMillis))
  let speedDeviation := XFloat.mul
    (XFloat.div (XFloat.sub (XFloat.ofNat tr.activityProgress.wordsTyped) expectedWords)
      expectedWords) (XFloat.fin 100)
  let expectedElapsed := XFloat.mul (XFloat.ofNat tr.videoDuration.totalMillis)
    (XFloat.div snapshot.percentComplete (XFloat.fin 100))
  let timeUtilization := XFloat.mul
    (XFloat.div (XFloat.ofNat snapshot.elapsedMillis) expectedElapsed) (XFloat.fin 100)
  { snapshot with
    compliance := { snapshot.compliance with
      speedDeviation := speedDeviation
      timeUtilization := timeUtilization } }

/-- The method `calculateETA`. -/
def ProgressTracker.calculateETA (tr : ProgressTracker) (snapshot : ProgressSnapshot) :
    ProgressSnapshot :=
  if XFloat.le snapshot.percentComplete (XFloat.fin 0) then
    { snapshot with estimatedRemaining := tr.videoDuration.totalMillis }
  else
    let completionRate := XFloat.div snapshot.percentComplete (XFloat.ofNat snapshot.elapsedMillis)
    let estimatedTotal := XFloat.toU32 (XFloat.div (XFloat.fin 100) completionRate)
    let estimatedRemaining := max 0 (sub32 estimatedTotal snapshot.elapsedMillis)
    let targetRemaining := XFloat.ofNat (sub32 tr.videoDuration.totalMillis snapshot.elapsedMillis)
    { snapshot with
      estimatedRemaining := estimatedRemaining
      compliance := { snapshot.compliance with
        etaDeviation := XFloat.mul
          (XFloat.div (XFloat.sub (XFloat.ofNat estimatedRemaining) targetRemaining)
            targetRemaining) (XFloat.fin 100) } }

/-- The method `updateStatusFlags`. -/
def ProgressTracker.updateStatusFlags (snapshot : ProgressSnapshot) : ProgressSnapshot :=
  { snapshot with
    isBehindSchedule := XFloat.lt (XFloat.fin 110) snapshot.compliance.timeUtilization
    isAheadOfSchedule := XFloat.lt snapshot.compliance.timeUtilization (XFloat.fin 90)
    needsSpeedAdjustment :=
      XFloat.lt (XFloat.fin 10) (XFloat.abs snapshot.compliance.speedDeviation) }

/-- The method `getSnapshot`; `now` is the value returned by `millis()`. -/
def ProgressTracker.getSnapshot (tr : ProgressTracker) (now : Nat) : ProgressSnapshot :=
  if !tr.isRunning ∨ tr.startTime = 0 then ProgressSnapshot.zero
  else
    ProgressTracker.updateStatusFlags
      (tr.calculateETA (tr.calculateCompliance (tr.calculateProgress
        (tr.calculateElapsedTime now ProgressSnapshot.zero))))

/-! ## Adaptive speed control (`timing/speed_adjuster.h`, `constants.h`)

The floats of the speed adjuster are exact rationals: the only division is by the constant
`1000.0f`. -/

/-- The constant `Constants::Typing::BASE_WPM`. -/
def BASE_WPM : ℚ := 65

/-- The constant `Constants::Typing::MIN_SPEED_MULTIPLIER` (`0.5f`). -/
def MIN_SPEED_MULTIPLIER : ℚ := 1 / 2

/-- The constant `Constants::Typing::MAX_SPEED_MULTIPLIER` (`2.0f`). -/
def MAX_SPEED_MULTIPLIER : ℚ := 2

/-- The constant `Constants::HumanBehavior::FATIGUE_SPEED_IMPACT` (`0.2f`). -/
def FATIGUE_SPEED_IMPACT : ℚ := 1 / 5

/-- The constant `Constants::HumanBehavior::MAX_FATIGUE_LEVEL` (`0.3f`). -/
def MAX_FATIGUE_LEVEL : ℚ := 3 / 10

/-- The constant `Constants::HumanBehavior::RECOVERY_RATE` (`0.05f`). -/
def RECOVERY_RATE : ℚ := 1 / 20

/-- The function template `clamp` of `speed_adjuster.h`:
`value < min ? min : (value > max ? max : value)`. -/
def clamp (value lo hi : ℚ) : ℚ :=
  if value < lo then lo else if value > hi then hi else value

/-- The struct `Timing::SpeedConfig`. -/
structure SpeedConfig where
  baseWPM : ℚ
  minSpeedFactor : ℚ
  maxSpeedFactor : ℚ
  fatigueImpact : ℚ
deriving Repr, DecidableEq

/-- The default member initialisers of `SpeedConfig`. -/
def SpeedConfig.default : SpeedConfig :=
  { baseWPM := BASE_WPM, minSpeedFactor := MIN_SPEED_MULTIPLIER,
    maxSpeedFactor := MAX_SPEED_MULTIPLIER, fatigueImpact := FATIGUE_SPEED_IMPACT }

/-- The struct `Timing::SpeedAdjustment`. -/
structure SpeedAdjustment where
  speedFactor : ℚ
  adjustedWPM : ℚ
  effectiveFatigue : ℚ
  isAtMaxSpeed : Bool
  isAtMinSpeed : Bool
  needsBreak : Bool
deriving Repr, DecidableEq

/-- The local `SpeedAdjustment adjustment;` of `updateSpeed` before it is filled in; every field
is assigned before `updateSpeed` returns. -/
def SpeedAdjustment.uninitialized : SpeedAdjustment :=
  { speedFactor := 0, adjustedWPM := 0, effectiveFatigue := 0, isAtMaxSpeed := false,
    isAtMinSpeed := false, needsBreak := false }

/-- The data members of the class `Timing::SpeedAdjuster`.  The two counters are `int`s; they
count updates and stay far below `2 ^ 31`. -/
structure SpeedAdjuster where
  config : SpeedConfig
  currentSpeedFactor : ℚ
  currentFatigue : ℚ
  lastAdjustmentTime : Nat
  lastFatigueUpdate : Nat
  consecutiveFastPeriods : Int
  consecutiveSlowPeriods : Int
deriving Repr, DecidableEq

/-- The constructor `SpeedAdjuster(config)`. -/
def SpeedAdjuster.new (config : SpeedConfig) : SpeedAdjuster :=
  { config := config, currentSpeedFactor := 1, currentFatigue := 0, lastAdjustmentTime := 0,
    lastFatigueUpdate := 0, consecutiveFastPeriods := 0, consecutiveSlowPeriods := 0 }

/-- The method `reset`; `now` is the value returned by `millis()`. -/
def SpeedAdjuster.reset (s : SpeedAdjuster) (now : Nat) : SpeedAdjuster :=
  { s with currentSpeedFactor := 1, currentFatigue := 0, lastAdjustmentTime := now,
           lastFatigueUpdate := now, consecutiveFastPeriods := 0, consecutiveSlowPeriods := 0 }

/-- The method `getCurrentFatigue`. -/
def SpeedAdjuster.getCurrentFatigue (s : SpeedAdjuster) : ℚ := s.currentFatigue

/-- The method `getCurrentSpeedFactor`. -/
def SpeedAdjuster.getCurrentSpeedFactor (s : SpeedAdjuster) : ℚ := s.currentSpeedFactor

/-- The method `addFatigue`. -/
def SpeedAdjuster.addFatigue (s : SpeedAdjuster) (amount : ℚ) : SpeedAdjuster :=
  { s with currentFatigue := min (s.currentFatigue + amount) 1 }

/-- The method `applyRecovery`. -/
def SpeedAdjuster.applyRecovery (s : SpeedAdjuster) (amount : ℚ) : SpeedAdjuster :=
  { s with currentFatigue := max 0 (s.currentFatigue - amount) }

/-- The method `updateFatigue`. -/
def SpeedAdjuster.updateFatigue (s : SpeedAdjuster) (currentTime : Nat) : SpeedAdjuster :=
  let deltaSeconds : ℚ := ((sub32 currentTime s.lastFatigueUpdate : Nat) : ℚ) / 1000
  let s1 := if deltaSeconds > 0 then s.applyRecovery (RECOVERY_RATE * deltaSeconds) else s
  { s1 with lastFatigueUpdate := currentTime }

/-- The value of `targetAdjustment` in `calculateSpeedAdjustment`. -/
def targetAdjustment (progress : ProgressSnapshot) : ℚ :=
  if progress.isBehindSchedule then 1 * (11 / 10)
  else if progress.isAheadOfSchedule then 1 * (9 / 10)
  else 1

/-- The method `calculateSpeedAdjustment`, which writes the adjuster only. -/
def SpeedAdjuster.calculateSpeedAdjustment (s : SpeedAdjuster) (progress : ProgressSnapshot) :
    SpeedAdjuster :=
  let s1 : SpeedAdjuster :=
    if progress.isBehindSchedule then
      { s with consecutiveSlowPeriods := s.consecutiveSlowPeriods + 1
               consecutiveFastPeriods := 0 }
    else if progress.isAheadOfSchedule then
      { s with consecutiveFastPeriods := s.consecutiveFastPeriods + 1
               consecutiveSlowPeriods := 0 }
    else
      { s with consecutiveFastPeriods := 0, consecutiveSlowPeriods := 0 }
  let maxChange : ℚ := 1 / 10
  let delta := targetAdjustment progress - s.currentSpeedFactor
  let change := clamp delta (-maxChange) maxChange
  { s1 with currentSpeedFactor := s.currentSpeedFactor + change }

/-- The method `applyFatigueImpact`. -/
def SpeedAdjuster.applyFatigueImpact (s : SpeedAdjuster) (adjustment : SpeedAdjustment) :
    SpeedAdjustment :=
  let fatigueModifier := 1 - s.currentFatigue * s.config.fatigueImpact
  { adjustment with
    speedFactor := s.currentSpeedFactor * fatigueModifier
    effectiveFatigue := s.currentFatigue }

/-- The method `enforceSpeedLimits`. -/
def SpeedAdjuster.enforceSpeedLimits (s : SpeedAdjuster) (adjustment : SpeedAdjustment) :
    SpeedAdjustment :=
  let speedFactor := clamp adjustment.speedFactor s.config.minSpeedFactor s.config.maxSpeedFactor
  { adjustment with
    speedFactor := speedFactor
    adjustedWPM := s.config.baseWPM * speedFactor
    isAtMaxSpeed := decide (speedFactor ≥ s.config.maxSpeedFactor)
    isAtMinSpeed := decide (speedFactor ≤ s.config.minSpeedFactor) }

/-- The method `updateSpeedTracking`. -/
def SpeedAdjuster.updateSpeedTracking (s : SpeedAdjuster) (adjustment : SpeedAdjustment) :
    SpeedAdjustment :=
  { adjustment with
    needsBreak := decide (s.consecutiveFastPeriods ≥ 5) ||
      decide (s.currentFatigue > MAX_FATIGUE_LEVEL * (4 / 5)) }

/-- The method `updateSpeed`; `now` is the value returned by `millis()`.  Returns the adjustment
and the adjuster after the call. -/
def SpeedAdjuster.updateSpeed (s : SpeedAdjuster) (progress : ProgressSnapshot) (now : Nat) :
    SpeedAdjustment × SpeedAdjuster :=
  let s1 := s.updateFatigue now
  let s2 := s1.calculateSpeedAdjustment progress
  let adjustment := s2.updateSpeedTracking
    (s2.enforceSpeedLimits (s2.applyFatigueImpact SpeedAdjustment.uninitialized))
  (adjustment, { s2 with lastAdjustmentTime := now })

/-! ## Arduino strings (`String` of the Arduino core)

The program works on Arduino `String`s.  A `String` is modelled by a Lean string, one Lean
character for one `char`; the methods the program calls are written on the list of characters,
following `WString.cpp` of the Arduino core. -/

/-- The conversion of an `int` argument to `unsigned int`. -/
def toUnsigned (i : Int) : Nat := (i % (U32 : Int)).toNat

/-- The method `String::indexOf(ch, fromIndex)`: the position of the first `ch` at or after
`fromIndex`, or `-1`. -/
def indexOfFrom (s : String) (ch : Char) (fromIndex : Int) : Int :=
  if toUnsigned fromIndex ≥ s.length then -1
  else if ch ∈ s.data.drop (toUnsigned fromIndex) then
    ((toUnsigned fromIndex + (s.data.drop (toUnsigned fromIndex)).indexOf ch : Nat) : Int)
  else -1

/-- The method `String::indexOf(ch)`. -/
def indexOf (s : String) (ch : Char) : Int := indexOfFrom s ch 0

/-- The method `String::substring(left, right)`: the characters at positions `left` up to
`right` (excluded), the two bounds swapped when `left > right` and `right` cut at the length. -/
def substring (s : String) (left right : Int) : String :=
  let lo := min (toUnsigned left) (toUnsigned right)
  let hi := max (toUnsigned left) (toUnsigned right)
  if lo ≥ s.length then "" else String.mk ((s.data.take (min hi s.length)).drop lo)

/-- The method `String::substring(left)`, which is `substring(left, length())`. -/
def substringFrom (s : String) (left : Int) : String := substring s left s.length

/-- The function `isspace` of the C library. -/
def isSpace (c : Char) : Bool :=
  c = ' ' || c = '\t' || c = '\n' || c = '\x0b' || c = '\x0c' || c = '\r'

/-- The digits read by `atol`: the value of the longest run of decimal digits at the front,
continuing from `acc`. -/
def atolDigits : List Char → Int → Int
  | [], acc => acc
  | c :: cs, acc => if c.isDigit then atolDigits cs (acc * 10 + ((c.toNat : Int) - 48)) else acc

/-- The range of a `long`, at which `atol` saturates. -/
def clampLong (v : Int) : Int := max (-(2 ^ 31)) (min (2 ^ 31 - 1) v)

/-- The function `atol` of the C library: white space, an optional sign, decimal digits. -/
def atol (l : List Char) : Int :=
  match l.dropWhile isSpace with
  | '-' :: cs => clampLong (-(atolDigits cs 0))
  | '+' :: cs => clampLong (atolDigits cs 0)
  | cs => clampLong (atolDigits cs 0)

/-- The method `String::toInt`. -/
def toInt (s : String) : Int := atol s.data

/-! ## Time conversion (`utils/time_conversion.h`) -/

/-- The struct `TimeConversion::TimeComponents`: `hours` and `milliseconds` are `uint16_t`,
`minutes` and `seconds` are `uint8_t`. -/
structure TimeComponents where
  hours : Nat
  minutes : Nat
  seconds : Nat
  milliseconds : Nat
deriving Repr, DecidableEq

/-- The conversion of a `long` to `uint16_t`. -/
def toU16 (v : Int) : Nat := (v % 65536).toNat

/-- The conversion of a `long` to `uint8_t`. -/
def toU8 (v : Int) : Nat := (v % 256).toNat

/-- The function `TimeConversion::toMillis`, computed in `unsigned long` (32 bits). -/
def TimeConversion.toMillis (tc : TimeComponents) : Nat :=
  (tc.hours * 60 * 60 * 1000 + tc.minutes * 60 * 1000 + tc.seconds * 1000 + tc.milliseconds) % U32

/-- The function `TimeConversion::parseTimeString`. -/
def TimeConversion.parseTimeString (timeStr : String) : TimeComponents :=
  let firstColon := indexOf timeStr ':'
  let secondColon := indexOfFrom timeStr ':' (firstColon + 1)
  let dot : Int := if indexOf timeStr '.' < 0 then (timeStr.length : Int) else indexOf timeStr '.'
  let tc : TimeComponents :=
    if secondColon > 0 then
      { hours := toU16 (toInt (substring timeStr 0 firstColon))
        minutes := toU8 (toInt (substring timeStr (firstColon + 1) secondColon))
        seconds := toU8 (toInt (substring timeStr (secondColon + 1) dot))
        milliseconds := 0 }
    else
      { hours := 0
        minutes := toU8 (toInt (substring timeStr 0 firstColon))
        seconds := toU8 (toInt (substring timeStr (firstColon + 1) dot))
        milliseconds := 0 }
  if toUnsigned dot < timeStr.length then
    { tc with milliseconds := toU16 (toInt (substringFrom timeStr (dot + 1))) }
  else tc

/-! ## Transcript parser (`analysis/text_parser.h`)

The file `/text.txt` is modelled by what the parser reads from it: `none` when `SPIFFS.open`
fails, otherwise the list of the strings that the successive calls of
`file.readStringUntil('\n')` return while `file.available()` holds (a first call on an empty
file returns the empty string).  `TimeStamp::fromString` is declared in the header but defined
nowhere in the repository; the parser takes it as the parameter `fromString`. -/

/-- The method `String::startsWith`. -/
def startsWith (s start : String) : Bool := start.data.isPrefixOf s.data

/-- The method `String::trim`, which removes the white space at both ends. -/
def trim (s : String) : String :=
  String.mk ((s.data.dropWhile isSpace).reverse.dropWhile isSpace).reverse

/-- The search of `strstr`: the position of the first occurrence of `pat` in the characters
that follow position `k`, or `-1`. -/
def indexOfStrFrom (pat : List Char) : List Char → Nat → Int
  | [], k => if pat = [] then (k : Int) else -1
  | c :: cs, k => if pat.isPrefixOf (c :: cs) then (k : Int) else indexOfStrFrom pat cs (k + 1)

/-- The method `String::indexOf(str)`. -/
def indexOfStr (s pat : String) : Int :=
  if s.length = 0 then -1 else indexOfStrFrom pat.data s.data 0

/-- A value-initialised `ClipData()`. -/
def ClipData.zero : ClipData :=
  { number := 0, timeframes := [], mainDescription := "", totalDurationMillis := 0,
    wordCount := 0, charCount := 0, cameraMovements := 0, cameraTransitions := 0,
    actionDescriptions := 0 }

/-- The function `TextParser::parseTimeStamps`. -/
def parseTimeStamps (fromString : String → TimeStamp) (line : String) (frame : TimeFrame) :
    TimeFrame :=
  let firstStart := indexOf line '<' + 1
  let firstEnd := indexOf line '>'
  let secondStart := indexOfFrom line '<' firstEnd + 1
  let secondEnd := indexOfFrom line '>' secondStart
  { frame with
    startTime := fromString (substring line firstStart firstEnd)
    endTime := fromString (substring line secondStart secondEnd) }

/-- The function `TextParser::parseClipHeader`. -/
def parseClipHeader (fromString : String → TimeStamp) (line : String) (clip : ClipData) :
    ClipData :=
  let numStart := indexOf line '#' + 1
  let numEnd := indexOf line '<'
  let boundary : TimeFrame :=
    parseTimeStamps fromString line
      { startTime := ⟨0, 0, 0⟩, endTime := ⟨0, 0, 0⟩, type := FrameType.CLIP_BOUNDARY,
        content := "" }
  { clip with
    number := toInt (substring line numStart numEnd)
    timeframes := clip.timeframes ++ [boundary] }

/-- The function `TextParser::parseTimeFrame`. -/
def parseTimeFrame (fromString : String → TimeStamp) (line : String) (clip : ClipData) :
    ClipData :=
  let type : FrameType :=
    if indexOfStr line "[CM]" ≥ 0 then FrameType.CAMERA_MOVEMENT
    else if indexOfStr line "[CT]" ≥ 0 then FrameType.CAMERA_TRANSITION
    else FrameType.TYPING
  let clip1 : ClipData :=
    if indexOfStr line "[CM]" ≥ 0 then { clip with cameraMovements := clip.cameraMovements + 1 }
    else if indexOfStr line "[CT]" ≥ 0 then
      { clip with cameraTransitions := clip.cameraTransitions + 1 }
    else { clip with actionDescriptions := clip.actionDescriptions + 1 }
  let frame : TimeFrame :=
    parseTimeStamps fromString line
      { startTime := ⟨0, 0, 0⟩, endTime := ⟨0, 0, 0⟩, type := type, content := "" }
  let contentStart := indexOf line '>' + 1
  let frame1 : TimeFrame :=
    if contentStart < (line.length : Int) then
      { frame with content := trim (substringFrom line contentStart) }
    else frame
  { clip1 with timeframes := clip1.timeframes ++ [frame1] }

/-- The word and character count of `finalizeClip`: the loop over the characters of the
description, with the flag `inWord`. -/
def countWords : List Char → Bool → Int × Int → Int × Int
  | [], _, counts => counts
  | c :: cs, inWord, (wordCount, charCount) =>
    if c.isAlphanum then
      countWords cs true (if inWord then wordCount else wordCount + 1, charCount + 1)
    else countWords cs false (wordCount, charCount)

/-- The function `TextParser::finalizeClip`. -/
def finalizeClip (clip : ClipData) : ClipData :=
  let clip1 : ClipData :=
    match clip.timeframes.head?, clip.timeframes.getLast? with
    | some firstFrame, some lastFrame =>
      { clip with
        totalDurationMillis :=
          sub32 lastFrame.endTime.toMillis firstFrame.startTime.toMillis }
    | _, _ => clip
  { clip1 with
    wordCount := (countWords clip1.mainDescription.data false (0, 0)).1
    charCount := (countWords clip1.mainDescription.data false (0, 0)).2 }

/-- The local variables of `parseFile` that its loop updates. -/
structure ParserState where
  clips : List ClipData
  currentClip : ClipData
  inClip : Bool
  contentBuffer : String
deriving Repr, DecidableEq

/-- One pass through the body of the `while` loop of `parseFile`, for the line just read. -/
def parseLine (fromString : String → TimeStamp) (st : ParserState) (line : String) :
    ParserState :=
  let trimmedLine := trim line
  if startsWith trimmedLine "Clip #" then
    { st with
      clips := if st.inClip then st.clips ++ [finalizeClip st.currentClip] else st.clips
      currentClip := parseClipHeader fromString trimmedLine ClipData.zero
      inClip := true }
  else if st.inClip then
    if indexOf trimmedLine '<' ≥ 0 then
      let st1 : ParserState :=
        if !st.contentBuffer.isEmpty then
          { st with
            currentClip := { st.currentClip with mainDescription := st.contentBuffer }
            contentBuffer := "" }
        else st
      { st1 with currentClip := parseTimeFrame fromString trimmedLine st1.currentClip }
    else if !trimmedLine.isEmpty then
      { st with contentBuffer := st.contentBuffer ++ trimmedLine ++ "\n" }
    else st
  else st

/-- The function `TextParser::parseFile`.  The local `currentClip` is declared without an
initial value and is not read before the first clip header replaces it; it starts as
`ClipData.zero`. -/
def parseFile (fromString : String → TimeStamp) (file : Option (List String)) : ParseResult :=
  match file with
  | none =>
    { videoId := "", clips := [], isValid := false, errorMessage := "Failed to open text.txt" }
  | some lines =>
    let line := lines.headD ""
    if startsWith line "Video " then
      let st := lines.tail.foldl (parseLine fromString) ⟨[], ClipData.zero, false, ""⟩
      { videoId := trim (substringFrom line 6)
        clips := if st.inClip then st.clips ++ [finalizeClip st.currentClip] else st.clips
        isValid := true
        errorMessage := "" }
    else
      { videoId := "", clips := [], isValid := false,
        errorMessage := "Invalid file format: Missing Video ID" }

/-! ## Difficulty score (`analysis/difficulty_scorer.h`, `analysis/metrics_calculator.h`)

The `float` values of the scorer are exact rationals. -/

/-- The struct `Analysis::TaskMetrics`. -/
structure TaskMetrics where
  charsPerSecond : ℚ
  wordsPerSecond : ℚ
  averageWordLength : ℚ
  timeframesPerClip : ℚ
  averageTimeframeDuration : ℚ
  timeframeOverlapPercent : ℚ
  cameraActionsPerClip : ℚ
  cameraActionDensity : ℚ
  transitionFrequency : ℚ
  averageWordsPerClip : ℚ
  totalWords : ℚ
  descriptionDensity : ℚ
  totalDurationMillis : Nat
  totalClips : Int
  totalTimeframes : Int
deriving Repr, DecidableEq

/-- The anonymous struct `DifficultyScores::metrics`. -/
structure ScoreDetails where
  charsPerSecond : ℚ
  wordsPerSecond : ℚ
  timeframeOverlap : ℚ
  actionsPerMinute : ℚ
  wordsPerClip : ℚ
deriving Repr, DecidableEq

/-- The struct `Analysis::DifficultyScores`. -/
structure DifficultyScores where
  timeDensityScore : ℚ
  complexityScore : ℚ
  cameraActionScore : ℚ
  textLengthScore : ℚ
  finalScore : ℚ
  normalizedScore : ℚ
  metrics : ScoreDetails
deriving Repr, DecidableEq

/-- The weights `AHT::TIME_DENSITY_WEIGHT`, `COMPLEXITY_WEIGHT`, `CAMERA_ACTIONS_WEIGHT` and
`TEXT_LENGTH_WEIGHT` (`aht/graph_data.h`). -/
def TIME_DENSITY_WEIGHT : ℚ := 20

/-- The weight of the complexity score. -/
def COMPLEXITY_WEIGHT : ℚ := 30

/-- The weight of the camera-action score. -/
def CAMERA_ACTIONS_WEIGHT : ℚ := 30

/-- The weight of the text-length score. -/
def TEXT_LENGTH_WEIGHT : ℚ := 20

/-- The constant `ReferenceValues::MIN_CHARS_PER_SEC`. -/
def ReferenceValues.MIN_CHARS_PER_SEC : ℚ := 1

/-- The constant `ReferenceValues::MAX_CHARS_PER_SEC`. -/
def ReferenceValues.MAX_CHARS_PER_SEC : ℚ := 5

/-- The constant `ReferenceValues::MIN_WORDS_PER_SEC`. -/
def ReferenceValues.MIN_WORDS_PER_SEC : ℚ := 1 / 5

/-- The constant `ReferenceValues::MAX_WORDS_PER_SEC`. -/
def ReferenceValues.MAX_WORDS_PER_SEC : ℚ := 1

/-- The constant `ReferenceValues::MIN_TIMEFRAMES_PER_CLIP`. -/
def ReferenceValues.MIN_TIMEFRAMES_PER_CLIP : ℚ := 1

/-- The constant `ReferenceValues::MAX_TIMEFRAMES_PER_CLIP`. -/
def ReferenceValues.MAX_TIMEFRAMES_PER_CLIP : ℚ := 5

/-- The constant `ReferenceValues::MIN_OVERLAP_PERCENT`. -/
def ReferenceValues.MIN_OVERLAP_PERCENT : ℚ := 0

/-- The constant `ReferenceValues::MAX_OVERLAP_PERCENT`. -/
def ReferenceValues.MAX_OVERLAP_PERCENT : ℚ := 30

/-- The constant `ReferenceValues::MIN_ACTIONS_PER_CLIP`. -/
def ReferenceValues.MIN_ACTIONS_PER_CLIP : ℚ := 0

/-- The constant `ReferenceValues::MAX_ACTIONS_PER_CLIP`. -/
def ReferenceValues.MAX_ACTIONS_PER_CLIP : ℚ := 3

/-- The constant `ReferenceValues::MIN_TRANSITIONS_PER_MIN`. -/
def ReferenceValues.MIN_TRANSITIONS_PER_MIN : ℚ := 0

/-- The constant `ReferenceValues::MAX_TRANSITIONS_PER_MIN`. -/
def ReferenceValues.MAX_TRANSITIONS_PER_MIN : ℚ := 4

/-- The constant `ReferenceValues::MIN_WORDS_PER_CLIP`. -/
def ReferenceValues.MIN_WORDS_PER_CLIP : ℚ := 20

/-- The constant `ReferenceValues::MAX_WORDS_PER_CLIP`. -/
def ReferenceValues.MAX_WORDS_PER_CLIP : ℚ := 200

/-- The constant `ReferenceValues::MIN_DESC_DENSITY`. -/
def ReferenceValues.MIN_DESC_DENSITY : ℚ := 5

/-- The constant `ReferenceValues::MAX_DESC_DENSITY`. -/
def ReferenceValues.MAX_DESC_DENSITY : ℚ := 50

/-- The function `DifficultyScorer::normalizeValue`. -/
def DifficultyScorer.normalizeValue (value min max : ℚ) : ℚ :=
  constrain ((value - min) / (max - min)) 0 1

/-- The function `DifficultyScorer::calculateTimeDensityScore`. -/
def DifficultyScorer.calculateTimeDensityScore (metrics : TaskMetrics) : ℚ :=
  let charScore := DifficultyScorer.normalizeValue metrics.charsPerSecond
    ReferenceValues.MIN_CHARS_PER_SEC ReferenceValues.MAX_CHARS_PER_SEC
  let wordScore := DifficultyScorer.normalizeValue metrics.wordsPerSecond
    ReferenceValues.MIN_WORDS_PER_SEC ReferenceValues.MAX_WORDS_PER_SEC
  (charScore * (6 / 10) + wordScore * (4 / 10)) * 10

/-- The function `DifficultyScorer::calculateComplexityScore`. -/
def DifficultyScorer.calculateComplexityScore (metrics : TaskMetrics) : ℚ :=
  let timeframeScore := DifficultyScorer.normalizeValue metrics.timeframesPerClip
    ReferenceValues.MIN_TIMEFRAMES_PER_CLIP ReferenceValues.MAX_TIMEFRAMES_PER_CLIP
  let overlapScore := DifficultyScorer.normalizeValue metrics.timeframeOverlapPercent
    ReferenceValues.MIN_OVERLAP_PERCENT ReferenceValues.MAX_OVERLAP_PERCENT
  (timeframeScore * (7 / 10) + overlapScore * (3 / 10)) * 10

/-- The function `DifficultyScorer::calculateCameraActionScore`. -/
def DifficultyScorer.calculateCameraActionScore (metrics : TaskMetrics) : ℚ :=
  let actionScore := DifficultyScorer.normalizeValue metrics.cameraActionsPerClip
    ReferenceValues.MIN_ACTIONS_PER_CLIP ReferenceValues.MAX_ACTIONS_PER_CLIP
  let transitionScore := DifficultyScorer.normalizeValue metrics.transitionFrequency
    ReferenceValues.MIN_TRANSITIONS_PER_MIN ReferenceValues.MAX_TRANSITIONS_PER_MIN
  (actionScore * (1 / 2) + transitionScore * (1 / 2)) * 10

/-- The function `DifficultyScorer::calculateTextLengthScore`. -/
def DifficultyScorer.calculateTextLengthScore (metrics : TaskMetrics) : ℚ :=
  let wordCountScore := DifficultyScorer.normalizeValue metrics.averageWordsPerClip
    ReferenceValues.MIN_WORDS_PER_CLIP ReferenceValues.MAX_WORDS_PER_CLIP
  let densityScore := DifficultyScorer.normalizeValue metrics.descriptionDensity
    ReferenceValues.MIN_DESC_DENSITY ReferenceValues.MAX_DESC_DENSITY
  (wordCountScore * (8 / 10) + densityScore * (2 / 10)) * 10

/-- The function `DifficultyScorer::calculate`. -/
def DifficultyScorer.calculate (metrics : TaskMetrics) : DifficultyScores :=
  let timeDensityScore := DifficultyScorer.calculateTimeDensityScore metrics
  let complexityScore := DifficultyScorer.calculateComplexityScore metrics
  let cameraActionScore := DifficultyScorer.calculateCameraActionScore metrics
  let textLengthScore := DifficultyScorer.calculateTextLengthScore metrics
  let finalScore :=
    (timeDensityScore * TIME_DENSITY_WEIGHT + complexityScore * COMPLEXITY_WEIGHT +
      cameraActionScore * CAMERA_ACTIONS_WEIGHT + textLengthScore * TEXT_LENGTH_WEIGHT) / 100
  { timeDensityScore := timeDensityScore
    complexityScore := complexityScore
    cameraActionScore := cameraActionScore
    textLengthScore := textLengthScore
    finalScore := finalScore
    normalizedScore := constrain (finalScore / 10) 0 1
    metrics :=
      { charsPerSecond := metrics.charsPerSecond
        wordsPerSecond := metrics.wordsPerSecond
        timeframeOverlap := metrics.timeframeOverlapPercent
        actionsPerMinute := metrics.cameraActionDensity * 60
        wordsPerClip := metrics.averageWordsPerClip } }

/-! ## Time distribution (`aht/time_distributor.h`) -/

/-- The constant `AHT::MILLIS_PER_MINUTE`. -/
def MILLIS_PER_MINUTE : Nat := 60000

/-- The struct `AHT::TimeAllocation`. -/
structure TimeAllocation where
  totalMillis : Nat
  typingMillis : Nat
  typingSpeedFactor : XFloat
deriving Repr, DecidableEq

/-- The struct `AHT::ActivityTimings`. -/
structure ActivityTimings where
  typingMillis : Nat
  navigationMillis : Nat
  thinkingPauseMillis : Nat
  correctionMillis : Nat
  transitionMillis : Nat
  baseWPM : XFloat
  adjustedWPM : XFloat
deriving Repr, DecidableEq

/-- The data members of the class `AHT::TimeDistributor`. -/
structure TimeDistributor where
  totalAllocation : TimeAllocation
  timings : ActivityTimings
  estimatedWords : XFloat
deriving Repr, DecidableEq

/-- The method `TimeDistributor::calculateActivityTimings`: each sub-budget is the product of
the `uint32_t` typing allocation, converted to `float`, and a `float` share (`0.70f`, `0.10f`,
`0.05f`), converted back to `uint32_t`. -/
def TimeDistributor.calculateActivityTimings (totalAllocation : TimeAllocation)
    (estimatedWords : XFloat) : ActivityTimings :=
  let totalMinutes := XFloat.div (XFloat.ofNat totalAllocation.totalMillis)
    (XFloat.ofNat MILLIS_PER_MINUTE)
  let baseWPM := XFloat.div estimatedWords totalMinutes
  { baseWPM := baseWPM
    adjustedWPM := XFloat.mul baseWPM totalAllocation.typingSpeedFactor
    typingMillis :=
      XFloat.toU32 (XFloat.mul (XFloat.ofNat totalAllocation.typingMillis) (XFloat.ofRat (7 / 10)))
    navigationMillis :=
      XFloat.toU32 (XFloat.mul (XFloat.ofNat totalAllocation.typingMillis) (XFloat.ofRat (1 / 10)))
    thinkingPauseMillis :=
      XFloat.toU32 (XFloat.mul (XFloat.ofNat totalAllocation.typingMillis) (XFloat.ofRat (1 / 10)))
    correctionMillis :=
      XFloat.toU32 (XFloat.mul (XFloat.ofNat totalAllocation.typingMillis) (XFloat.ofRat (1 / 20)))
    transitionMillis :=
      XFloat.toU32
        (XFloat.mul (XFloat.ofNat totalAllocation.typingMillis) (XFloat.ofRat (1 / 20))) }

/-- The constructor `TimeDistributor(allocation, wordsPerClip)`. -/
def TimeDistributor.new (allocation : TimeAllocation) (wordsPerClip : XFloat) :
    TimeDistributor :=
  { totalAllocation := allocation
    timings := TimeDistributor.calculateActivityTimings allocation wordsPerClip
    estimatedWords := wordsPerClip }

/-- A byte passed to `bleKeyboard.write`: a character of a text (`Keyboard::type`) or a key
code (`Keyboard::pressKey`). -/
inductive Key where
  | char (c : Char)
  | code (k : Nat)
deriving Repr, DecidableEq

/-- The key code `KEY_BACKSPACE` of the BleKeyboard library. -/
def KEY_BACKSPACE : Nat := 0xB2

/-- The key code `KEY_TAB` of the BleKeyboard library. -/
def KEY_TAB : Nat := 0xB3

/-- The class `Keyboard`, as far as typing goes: whether the BLE link is connected and the
bytes written to it so far. -/
structure Keyboard where
  connected : Bool
  written : List Key
deriving Repr, DecidableEq

/-- The method `Keyboard::type`. -/
def Keyboard.type (kb : Keyboard) (text : String) : Keyboard :=
  if !kb.connected then kb else { kb with written := kb.written ++ text.data.map Key.char }

/-- The method `Keyboard::pressKey`. -/
def Keyboard.pressKey (kb : Keyboard) (key : Nat) : Keyboard :=
  if kb.connected then { kb with written := kb.written ++ [Key.code key] } else kb

/-- The method `Keyboard::navigateWithSpeed`: `tabCount` times `pressKey(KEY_TAB)`. -/
def Keyboard.navigateWithSpeed (kb : Keyboard) (tabCount : Int) : Keyboard :=
  if !kb.connected then kb
  else (List.range tabCount.toNat).foldl (fun k _ => k.pressKey KEY_TAB) kb

/-- The struct `HumanSimulator::BehaviorState` (without `lastBreakTime`); the `float` members
hold binary32 numbers. -/
structure BehaviorState where
  fatigueLevel : ℚ
  alertnessLevel : ℚ
  confidenceLevel : ℚ
  consecutiveErrors : Int
  wordsWithoutBreak : Int
deriving Repr, DecidableEq

/-- The struct `HumanSimulator::BehaviorConfig`. -/
structure BehaviorConfig where
  typoChance : ℚ
  correctionChance : ℚ
  thinkingFrequency : ℚ
  recoveryRate : ℚ
  maxWordsBeforeBreak : Int
deriving Repr, DecidableEq

/-- The constant `Constants::HumanBehavior::TYPO_CHANCE` (`0.15f`). -/
def TYPO_CHANCE : ℚ := F32.round (15 / 100)

/-- The constant `Constants::HumanBehavior::DOUBLE_SPACE_CHANCE` (`0.02f`). -/
def DOUBLE_SPACE_CHANCE : ℚ := F32.round (2 / 100)

/-- The constant `Constants::HumanBehavior::UNCORRECTED_TYPO_CHANCE` (`0.066f`). -/
def UNCORRECTED_TYPO_CHANCE : ℚ := F32.round (66 / 1000)

/-- The constant `Constants::HumanBehavior::UNCORRECTED_TYPO_THRESHOLD`. -/
def UNCORRECTED_TYPO_THRESHOLD : Int := 6

/-- The constant `Constants::HumanBehavior::THINKING_PAUSE_CHANCE`, an `int`. -/
def THINKING_PAUSE_CHANCE : Int := 15

/-- The constant `Constants::Navigation::FIRST_CLIP_TAB_COUNT`. -/
def FIRST_CLIP_TAB_COUNT : Int := 0

/-- The constant `Constants::Navigation::NEXT_CLIP_TAB_COUNT`. -/
def NEXT_CLIP_TAB_COUNT : Int := 0

/-- The members of the class `HumanSimulator` that decide what is typed, the random source
`rng` and the record `wordsHandled` of the calls of `handleWord`. -/
structure HumanSimulator where
  keyboard : Keyboard
  behavior : BehaviorState
  behaviorConfig : BehaviorConfig
  currentWord : String
  wordsInBurst : Int
  isPaused : Bool
  totalClips : Int
  currentClip : Int
  rng : List Nat
  wordsHandled : List String
deriving Repr, DecidableEq

/-- The function `random(howbig)` of the Arduino core: 0 when `howbig` is 0, otherwise the
next value of the random source reduced modulo `howbig`. -/
def HumanSimulator.random (sim : HumanSimulator) (howbig : Int) : Int × HumanSimulator :=
  if howbig = 0 then (0, sim)
  else ((sim.rng.headD 0 : Int) % howbig, { sim with rng := sim.rng.tail })

/-- The call `keyboard.type(text)`. -/
def HumanSimulator.type (sim : HumanSimulator) (text : String) : HumanSimulator :=
  { sim with keyboard := sim.keyboard.type text }

/-- The loop `{ if (isPaused) return; keyboard.type(String(word[i])); simulateTypingDelay(); }`
over the characters `chars` of a word; the flag tells whether the `return` was taken. -/
def HumanSimulator.typeChars : HumanSimulator → List Char → HumanSimulator × Bool
  | sim, [] => (sim, false)
  | sim, c :: cs =>
    if sim.isPaused then (sim, true)
    else HumanSimulator.typeChars (sim.type (String.mk [c])) cs

/-- The table `keyMaps` of `getRandomTypo`. -/
def keyMaps : List (Char × String) := [('a', "qwsz"), ('b', "vghn"), ('c', "xdfv")]

/-- The method `getRandomTypo`. -/
def HumanSimulator.getRandomTypo (sim : HumanSimulator) (originalChar : Char) :
    Char × HumanSimulator :=
  match keyMaps.find? (fun m => m.1 = originalChar.toLower) with
  | some m =>
    ((m.2.data.getD ((sim.random (m.2.length : Int)).1.toNat) (Char.ofNat 0)),
      (sim.random (m.2.length : Int)).2)
  | none => (Char.ofNat ('a'.toNat + (sim.random 26).1.toNat), (sim.random 26).2)

/-- The method `decideCorrectionStrategy`. -/
def HumanSimulator.decideCorrectionStrategy (sim : HumanSimulator) (word : String)
    (typoPos : Int) : Bool × HumanSimulator :=
  let correctionProb0 := sim.behaviorConfig.correctionChance
  let correctionProb1 :=
    if (word.length : Int) < UNCORRECTED_TYPO_THRESHOLD then
      F32.round (correctionProb0 + F32.round (2 / 10))
    else correctionProb0
  let correctionProb2 :=
    if typoPos < 2 then F32.round (correctionProb1 + F32.round (15 / 100)) else correctionProb1
  let correctionProb := F32.round (correctionProb2 * sim.behavior.alertnessLevel)
  (decide ((((sim.random 100).1 : Int) : ℚ) < F32.round (correctionProb * 100)),
    (sim.random 100).2)

/-- The method `correctTypo`. -/
def HumanSimulator.correctTypo (sim : HumanSimulator) (word : String) (typoPos : Int) :
    HumanSimulator :=
  let sim1 : HumanSimulator := { sim with keyboard := sim.keyboard.pressKey KEY_BACKSPACE }
  let sim2 := sim1.type (String.mk [word.data.getD typoPos.toNat (Char.ofNat 0)])
  (sim2.typeChars (word.data.drop (typoPos.toNat + 1))).1

/-- The method `makeTypo`. -/
def HumanSimulator.makeTypo (sim : HumanSimulator) (word : String) : HumanSimulator :=
  let typoPos := (sim.random (word.length : Int)).1
  let sim1 := (sim.random (word.length : Int)).2
  let typed := sim1.typeChars (word.data.take typoPos.toNat)
  if typed.2 then typed.1
  else
    let wrongChar := (typed.1.getRandomTypo (word.data.getD typoPos.toNat (Char.ofNat 0))).1
    let sim2 := (typed.1.getRandomTypo (word.data.getD typoPos.toNat (Char.ofNat 0))).2
    let sim3 := sim2.type (String.mk [wrongChar])
    let shouldCorrect := (sim3.decideCorrectionStrategy word typoPos).1
    let sim4 := (sim3.decideCorrectionStrategy word typoPos).2
    let sim5 :=
      if shouldCorrect && !sim4.isPaused then sim4.correctTypo word typoPos
      else sim4.type (substringFrom word (typoPos + 1))
    { sim5 with
      behavior := { sim5.behavior with
        consecutiveErrors := sim5.behavior.consecutiveErrors + 1 } }

/-- Modelled from the spec: the method `typeWordNormally`, declared in `human_simulator.h` and
called by `handleWord` but defined nowhere in the repository.  The spec says that the word is
typed verbatim; the characters are typed one by one as in the loops of `makeTypo`. -/
def HumanSimulator.typeWordNormally (sim : HumanSimulator) (word : String) : HumanSimulator :=
  (sim.typeChars word.data).1

/-- The method `updateAlertness`. -/
def HumanSimulator.updateAlertness (sim : HumanSimulator) : HumanSimulator :=
  let sim1 : HumanSimulator :=
    if sim.behavior.consecutiveErrors > 0 then
      { sim with
        behavior := { sim.behavior with
          alertnessLevel :=
            max (1 / 2)
              (F32.round (sim.behavior.alertnessLevel -
                F32.round (F32.round (sim.behavior.consecutiveErrors : ℚ) *
                  F32.round (5 / 100)))) } }
    else sim
  if sim1.behavior.consecutiveErrors = 0 ∧ sim1.behavior.wordsWithoutBreak > 0 then
    { sim1 with
      behavior := { sim1.behavior with
        alertnessLevel :=
          min 1 (F32.round (sim1.behavior.alertnessLevel + F32.round (2 / 100))) } }
  else sim1

/-- The method `handleWord`. -/
def HumanSimulator.handleWord (sim : HumanSimulator) (word : String) : HumanSimulator :=
  let typoChance :=
    F32.round (F32.round (sim.behaviorConfig.typoChance *
      F32.round (1 + sim.behavior.fatigueLevel)) * F32.round (2 - sim.behavior.alertnessLevel))
  let sim1 := (sim.random 100).2
  let sim2 :=
    if (((sim.random 100).1 : Int) : ℚ) < F32.round (typoChance * 100) then sim1.makeTypo word
    else sim1.typeWordNormally word
  let sim3 : HumanSimulator :=
    { sim2 with
      behavior := { sim2.behavior with wordsWithoutBreak := sim2.behavior.wordsWithoutBreak + 1 }
      wordsHandled := sim2.wordsHandled ++ [word] }
  sim3.updateAlertness

/-- The method `simulateThinking`. -/
def HumanSimulator.simulateThinking (sim : HumanSimulator) : HumanSimulator :=
  if sim.isPaused then sim
  else if (((sim.random 100).1 : Int) : ℚ) <
      F32.round (sim.behaviorConfig.thinkingFrequency * 100) then
    { (sim.random 100).2 with
      behavior := { (sim.random 100).2.behavior with
        wordsWithoutBreak := 0
        fatigueLevel :=
          max 0 (F32.round
            ((sim.random 100).2.behavior.fatigueLevel - sim.behaviorConfig.recoveryRate)) } }
  else (sim.random 100).2

/-- The block `if (!currentWord.isEmpty()) { ... }` that `typeText` runs at a space or
newline. -/
def HumanSimulator.finishWord (sim : HumanSimulator) : HumanSimulator :=
  if !sim.currentWord.isEmpty then
    let handled : HumanSimulator :=
      { sim.handleWord sim.currentWord with
        currentWord := ""
        wordsInBurst := (sim.handleWord sim.currentWord).wordsInBurst + 1 }
    if handled.wordsInBurst ≥ handled.behaviorConfig.maxWordsBeforeBreak then
      { handled.simulateThinking with wordsInBurst := 0 }
    else handled
  else sim

/-- The body of the loop of `typeText` at a space or newline `c`. -/
def HumanSimulator.typeBoundary (sim : HumanSimulator) (c : Char) : HumanSimulator :=
  let sim1 := sim.finishWord
  let sim2 :=
    if (((sim1.random 100).1 : Int) : ℚ) < F32.round (DOUBLE_SPACE_CHANCE * 100) then
      (sim1.random 100).2.type " "
    else (sim1.random 100).2
  sim2.type (String.mk [c])

/-- The loop `for (char c : text)` of `typeText`; the flag tells whether the `return` at a set
pause flag was taken. -/
def HumanSimulator.typeTextLoop (applyFatigue : BehaviorState → BehaviorState) :
    HumanSimulator → List Char → HumanSimulator × Bool
  | sim, [] => (sim, false)
  | sim, c :: cs =>
    if sim.isPaused then (sim, true)
    else
      let sim1 : HumanSimulator :=
        if c = ' ' ∨ c = '\n' then sim.typeBoundary c
        else { sim with currentWord := sim.currentWord.push c }
      HumanSimulator.typeTextLoop applyFatigue
        { sim1 with behavior := applyFatigue sim1.behavior } cs

/-- The method `typeText`. -/
def HumanSimulator.typeText (applyFatigue : BehaviorState → BehaviorState)
    (sim : HumanSimulator) (text : String) : HumanSimulator :=
  if text.isEmpty then sim
  else
    let looped :=
      HumanSimulator.typeTextLoop applyFatigue { sim with currentWord := "", wordsInBurst := 0 }
        text.data
    if looped.2 then looped.1
    else if !looped.1.currentWord.isEmpty && !looped.1.isPaused then
      looped.1.handleWord looped.1.currentWord
    else looped.1

/-- The method `processTimeframe`. -/
def HumanSimulator.processTimeframe (applyFatigue : BehaviorState → BehaviorState)
    (sim : HumanSimulator) (frame : TimeFrame) : HumanSimulator :=
  match frame.type with
  | FrameType.TYPING =>
    if !frame.content.isEmpty then sim.typeText applyFatigue frame.content else sim
  | _ => sim

/-- The method `validateClipNumber`. -/
def HumanSimulator.validateClipNumber (sim : HumanSimulator) (clipNumber : Int) : Bool :=
  if clipNumber < 1 ∨ clipNumber > sim.totalClips then false else true

/-- The method `navigateToClip`. -/
def HumanSimulator.navigateToClip (sim : HumanSimulator) (clipNumber : Int) : HumanSimulator :=
  { sim with
    keyboard := sim.keyboard.navigateWithSpeed
      (if clipNumber = 1 then FIRST_CLIP_TAB_COUNT else NEXT_CLIP_TAB_COUNT) }

/-- The loop of `readClipContent` over the lines of the file, with its local variables
`clipContent`, `isReadingClip` and `currentClip`. -/
def readClipContentLoop (clipNumber : Int) : List String → String → Bool → Int → String
  | [], clipContent, _, _ => clipContent
  | line :: rest, clipContent, isReadingClip, currentClip =>
    if indexOfStr (trim line) "Clip #" ≥ 0 then
      if currentClip + 1 = clipNumber then
        readClipContentLoop clipNumber rest clipContent true (currentClip + 1)
      else if isReadingClip then clipContent
      else readClipContentLoop clipNumber rest clipContent isReadingClip (currentClip + 1)
    else if isReadingClip ∧ (trim line).length > 0 then
      readClipContentLoop clipNumber rest (clipContent ++ trim line ++ "\n") isReadingClip
        currentClip
    else readClipContentLoop clipNumber rest clipContent isReadingClip currentClip

/-- The method `readClipContent`; `file` is the file `/text.txt` as for `parseFile`. -/
def readClipContent (file : Option (List String)) (clipNumber : Int) : String :=
  match file with
  | none => ""
  | some lines => readClipContentLoop clipNumber lines "" false 0

/-- The method `HumanSimulator::parseTimeframes`, whose body is the comment
`// Implementation here` between the declaration of the empty vector and its return. -/
def HumanSimulator.parseTimeframes (_content : String) : List TimeFrame := []

/-- The loop `for (frame : frames) { processTimeframe(frame); if (isPaused) break; }`. -/
def HumanSimulator.processFrames (applyFatigue : BehaviorState → BehaviorState) :
    HumanSimulator → List TimeFrame → HumanSimulator
  | sim, [] => sim
  | sim, frame :: rest =>
    if (sim.processTimeframe applyFatigue frame).isPaused then
      sim.processTimeframe applyFatigue frame
    else HumanSimulator.processFrames applyFatigue (sim.processTimeframe applyFatigue frame) rest

/-- The method `processClip`; `file` is the file `/text.txt`. -/
def HumanSimulator.processClip (applyFatigue : BehaviorState → BehaviorState)
    (file : Option (List String)) (sim : HumanSimulator) (clipNumber : Int) : HumanSimulator :=
  if !sim.validateClipNumber clipNumber then sim
  else
    let sim1 := ({ sim with currentClip := clipNumber } : HumanSimulator).navigateToClip clipNumber
    if sim1.isPaused then sim1
    else if (readClipContent file clipNumber).length > 0 ∧ !sim1.isPaused then
      HumanSimulator.processFrames applyFatigue sim1
        (HumanSimulator.parseTimeframes (readClipContent file clipNumber))
    else sim1

/-- The count of `countClips`: the lines of the file that contain `"Clip #"`. -/
def countClips (file : Option (List String)) (totalClips : Int) : Int :=
  match file with
  | none => totalClips
  | some lines => ((lines.filter (fun line => indexOfStr line "Clip #" ≥ 0)).length : Int)

/-! ## Button handling (`hardware.h`, `hardware.cpp`)

The pin reading `digitalRead(BUTTON_PIN)` and the clock `millis()` are the arguments `reading`
and `now`.  The levels that `digitalWrite` puts on the two LED pins are kept in `redLedPin`
and `blueLedPin`; `resetCalls` is not a member of the class: it counts the calls of
`reset()`.  Serial output is not modelled. -/

/-- The enum `Hardware::ButtonEvent`. -/
inductive ButtonEvent where
  | NONE
  | SINGLE_PRESS
  | DOUBLE_PRESS
  | LONG_PRESS
  | TRIPLE_PRESS
deriving Repr, DecidableEq

/-- The enum `Hardware::Pattern`. -/
inductive Pattern where
  | ALL_OFF
  | ALL_ON
  | ALTERNATING
  | RED_ONLY
  | BLUE_ONLY
  | SYNC_FLASH
  | PROGRESS_INDICATOR
  | SPEED_INDICATOR
  | ERROR_PATTERN
  | SUCCESS_PATTERN
deriving Repr, DecidableEq

/-- The pin level `HIGH` of the Arduino core. -/
def HIGH : Int := 1

/-- The pin level `LOW` of the Arduino core. -/
def LOW : Int := 0

/-- The constant `Constants::Hardware::DEBOUNCE_DELAY`. -/
def DEBOUNCE_DELAY : Nat := 200

/-- The constant `Constants::Hardware::LONG_PRESS_DURATION`. -/
def LONG_PRESS_DURATION : Nat := 1000

/-- The constant `Constants::Hardware::DOUBLE_PRESS_WINDOW`. -/
def DOUBLE_PRESS_WINDOW : Nat := 300

/-- The data members of the class `Hardware`, the levels of the two LED pins and the count
`resetCalls` of the calls of `reset()`. -/
structure Hardware where
  paused : Bool
  sectionComplete : Bool
  error : Bool
  soundEnabled : Bool
  lastError : String
  currentPattern : Pattern
  ledState : Bool
  progressBrightness : ℚ
  speedIndicatorValue : ℚ
  lastLedToggle : Nat
  lastProgressUpdate : Nat
  lastDebounceTime : Nat
  lastButtonState : Int
  lastButtonPressTime : Nat
  buttonPressCount : Int
  longPressActive : Bool
  redLedPin : Int
  blueLedPin : Int
  resetCalls : Nat
deriving Repr, DecidableEq

/-- The default member initialisers of `Hardware`, with both LED pins at `pins`. -/
def Hardware.new (pins : Int) : Hardware :=
  { paused := true, sectionComplete := false, error := false, soundEnabled := true,
    lastError := "", currentPattern := Pattern.ALL_OFF, ledState := false,
    progressBrightness := 0, speedIndicatorValue := 0, lastLedToggle := 0,
    lastProgressUpdate := 0, lastDebounceTime := 0, lastButtonState := HIGH,
    lastButtonPressTime := 0, buttonPressCount := 0, longPressActive := false,
    redLedPin := pins, blueLedPin := pins, resetCalls := 0 }

/-- The method `resetButtonState`. -/
def Hardware.resetButtonState (hw : Hardware) : Hardware :=
  { hw with buttonPressCount := 0, longPressActive := false, lastButtonPressTime := 0 }

/-- The method `reset`; `setPhysicalLed(pin, false)` writes `HIGH` (the LEDs are active
low). -/
def Hardware.reset (hw : Hardware) : Hardware :=
  { ({ hw with
        paused := true, sectionComplete := false, error := false, lastError := "",
        currentPattern := Pattern.ALL_OFF, progressBrightness := 0,
        speedIndicatorValue := 0 } : Hardware).resetButtonState with
    redLedPin := HIGH
    blueLedPin := HIGH
    resetCalls := hw.resetCalls + 1 }

/-- The event that `detectButtonEvent` chooses at a release of the button. -/
def Hardware.releaseEvent (hw : Hardware) (currentTime : Nat) : ButtonEvent :=
  if hw.longPressActive ∧ sub32 currentTime hw.lastButtonPressTime ≥ LONG_PRESS_DURATION then
    ButtonEvent.LONG_PRESS
  else if sub32 currentTime hw.lastButtonPressTime < DOUBLE_PRESS_WINDOW then
    (if hw.buttonPressCount = 2 then ButtonEvent.DOUBLE_PRESS
     else if hw.buttonPressCount = 3 then ButtonEvent.TRIPLE_PRESS
     else ButtonEvent.SINGLE_PRESS)
  else ButtonEvent.SINGLE_PRESS

/-- The method `detectButtonEvent`; `reading` is the value of `digitalRead(BUTTON_PIN)` and
`now` the value of `millis()`. -/
def Hardware.detectButtonEvent (hw : Hardware) (reading : Int) (now : Nat) :
    ButtonEvent × Hardware :=
  let hw1 : Hardware :=
    if reading ≠ hw.lastButtonState then { hw with lastDebounceTime := now } else hw
  let r : ButtonEvent × Hardware :=
    if sub32 now hw1.lastDebounceTime > DEBOUNCE_DELAY then
      if reading = LOW ∧ hw1.lastButtonState = HIGH then
        (ButtonEvent.NONE,
          { hw1 with
            buttonPressCount := hw1.buttonPressCount + 1
            lastButtonPressTime := now
            longPressActive := true })
      else if reading = HIGH ∧ hw1.lastButtonState = LOW then
        (hw1.releaseEvent now, hw1.resetButtonState)
      else (ButtonEvent.NONE, hw1)
    else (ButtonEvent.NONE, hw1)
  (r.1, { r.2 with lastButtonState := reading })

/-- The method `handleButton`. -/
def Hardware.handleButton (hw : Hardware) (reading : Int) (now : Nat) :
    ButtonEvent × Hardware :=
  let r := hw.detectButtonEvent reading now
  match r.1 with
  | ButtonEvent.NONE => (r.1, r.2)
  | ButtonEvent.SINGLE_PRESS => (r.1, { r.2 with paused := !r.2.paused })
  | ButtonEvent.DOUBLE_PRESS => (r.1, { r.2 with sectionComplete := !r.2.sectionComplete })
  | ButtonEvent.LONG_PRESS => (r.1, r.2.reset)
  | ButtonEvent.TRIPLE_PRESS => (r.1, r.2)

/-! ## Specification-level notions -/

/-- The sum of the values of the events at or before time `t`: the value of `activeFrames` while
the sweep over these events, once sorted, is between the last event at or before `t` and the
next one. -/
def evSum (evs : List (Nat × Int)) (t : Nat) : Int :=
  ((evs.filter (fun e => decide (e.1 ≤ t))).map (fun e => e.2)).sum

/-- The number of frames active during the millisecond `[t, t + 1]`: those with
`start ≤ t < end`. -/
def activeAt (frames : List (Nat × Nat)) (t : Nat) : Nat :=
  frames.countP (fun f => decide (f.1 ≤ t ∧ t < f.2))

/-- Whether the millisecond `[t, t + 1]` lies in at least one frame interval `[start, end]`. -/
def coveredAt (frames : List (Nat × Nat)) (t : Nat) : Bool :=
  frames.any (fun f => decide (f.1 ≤ t ∧ t < f.2))

/-- The measure of the union of the frame intervals `[start, end]`: all endpoints are whole
milliseconds below `2 ^ 32`, so the union consists of whole milliseconds `[t, t + 1]` and its
measure is the number of those. -/
def unionMeasure (frames : List (Nat × Nat)) : Nat :=
  (List.range U32).countP (coveredAt frames)

/-- The number of `t` with `a ≤ t < b` that satisfy `p`. -/
def cellCount (p : Nat → Bool) (a b : Nat) : Nat := (List.range' a (b - a)).countP p

/-- The time on which at least `k` frames are active. -/
def timeActiveAtLeast (frames : List (Nat × Nat)) (k : Nat) : Nat :=
  (List.range U32).countP (fun t => decide (k ≤ activeAt frames t))

/-- The time on which exactly `k` frames are active. -/
def timeActiveExactly (frames : List (Nat × Nat)) (k : Nat) : Nat :=
  (List.range U32).countP (fun t => decide (activeAt frames t = k))

/-- The chain of frames `[t0, t1], [t1, t2], …` through the times `t0 :: ts`. -/
def chainFrames : Nat → List Nat → List (Nat × Nat)
  | _, [] => []
  | t0, t1 :: ts => (t0, t1) :: chainFrames t1 ts

/-- The time window of clip `c` lies before that of clip `d`: every frame of `c` ends at or before
the start of every frame of `d`, i.e. the latest frame end of `c` is at most the earliest frame
start of `d`. -/
def clipPrecedes (c d : ClipData) : Prop :=
  ∀ f ∈ c.timeframes, ∀ g ∈ d.timeframes, f.endTime.toMillis ≤ g.startTime.toMillis

/-- The clips carry the numbers `k, k + 1, k + 2, …` in list order. -/
def numberedFrom : Int → List ClipData → Prop
  | _, [] => True
  | k, c :: cs => c.number = k ∧ numberedFrom (k + 1) cs

/-- A sequence of `pause()`/`resume()` pairs: each pair holds the clock readings of the `pause`
call and of the following `resume` call. -/
def pauseResumeCycles (tr : ProgressTracker) (pairs : List (Nat × Nat)) : ProgressTracker :=
  pairs.foldl (fun t pr => (t.pause pr.1).resume pr.2) tr

/-- The clock readings of a sequence of `pause()`/`resume()` pairs, in call order. -/
def cycleTimes (pairs : List (Nat × Nat)) : List Nat :=
  pairs.flatMap (fun pr => [pr.1, pr.2])

/-- The sum of the pause intervals of a sequence of `pause()`/`resume()` pairs. -/
def pausedSum (pairs : List (Nat × Nat)) : Int :=
  (pairs.map (fun pr => (pr.2 : Int) - (pr.1 : Int))).sum

/-- The accumulator of `ActivityProgress` that belongs to an activity kind. -/
def ActivityProgress.accumulator (p : ActivityProgress) : ActivityType → Nat
  | ActivityType.TYPING => p.typingMillis
  | ActivityType.NAVIGATION => p.navigationMillis
  | ActivityType.THINKING => p.thinkingMillis
  | ActivityType.TRANSITION => p.transitionMillis

/-- A sequence of `updateActivity(kind, amount)` calls. -/
def updateActivities (tr : ProgressTracker) (calls : List (ActivityType × Nat)) :
    ProgressTracker :=
  calls.foldl (fun t c => t.updateActivity c.1 c.2) tr

/-- The sum of the amounts that a sequence of calls passes for an activity kind. -/
def amountFor (kind : ActivityType) (calls : List (ActivityType × Nat)) : Nat :=
  ((calls.filter (fun c => decide (c.1 = kind))).map (fun c => c.2)).sum

/-- The adjuster states that can be reached from a newly constructed adjuster by `reset`,
`updateSpeed` at any clock reading, and `addFatigue` and `applyRecovery` with amounts `>= 0`. -/
inductive SpeedAdjuster.Reachable (config : SpeedConfig) : SpeedAdjuster → Prop where
  | new : SpeedAdjuster.Reachable config (SpeedAdjuster.new config)
  | reset (s : SpeedAdjuster) (now : Nat) :
      SpeedAdjuster.Reachable config s → SpeedAdjuster.Reachable config (s.reset now)
  | updateSpeed (s : SpeedAdjuster) (progress : ProgressSnapshot) (now : Nat) :
      SpeedAdjuster.Reachable config s →
      SpeedAdjuster.Reachable config (s.updateSpeed progress now).2
  | addFatigue (s : SpeedAdjuster) (amount : ℚ) :
      SpeedAdjuster.Reachable config s → 0 ≤ amount →
      SpeedAdjuster.Reachable config (s.addFatigue amount)
  | applyRecovery (s : SpeedAdjuster) (amount : ℚ) :
      SpeedAdjuster.Reachable config s → 0 ≤ amount →
      SpeedAdjuster.Reachable config (s.applyRecovery amount)

/-- The adjustments returned by a sequence of consecutive `updateSpeed` calls, each given by its
snapshot and its clock reading. -/
def runUpdates : SpeedAdjuster → List (ProgressSnapshot × Nat) → List SpeedAdjustment
  | _, [] => []
  | s, c :: cs => (s.updateSpeed c.1 c.2).1 :: runUpdates (s.updateSpeed c.1 c.2).2 cs

/-- The character of a decimal digit. -/
def digitChar : Fin 10 → Char
  | 0 => '0' | 1 => '1' | 2 => '2' | 3 => '3' | 4 => '4'
  | 5 => '5' | 6 => '6' | 7 => '7' | 8 => '8' | 9 => '9'

/-- A field of two digits and its value. -/
def twoDigits (d : Fin 10 × Fin 10) : List Char := [digitChar d.1, digitChar d.2]

/-- The value of a field of two digits. -/
def twoDigitsValue (d : Fin 10 × Fin 10) : Nat := d.1.val * 10 + d.2.val

/-- The timestamp string `MM:SS` or `HH:MM:SS` (a field of two digits each, the hours
optional) with the optional suffix `.mmm` of three digits. -/
def timeString (hh : Option (Fin 10 × Fin 10)) (mm ss : Fin 10 × Fin 10)
    (ms : Option (Fin 10 × Fin 10 × Fin 10)) : String :=
  String.mk
    ((match hh with
      | some h => twoDigits h ++ [':']
      | none => []) ++ twoDigits mm ++ [':'] ++ twoDigits ss ++
     (match ms with
      | some m => ['.', digitChar m.1, digitChar m.2.1, digitChar m.2.2]
      | none => []))

/-- The number of milliseconds that a timestamp string stands for. -/
def timeStringMillis (hh : Option (Fin 10 × Fin 10)) (mm ss : Fin 10 × Fin 10)
    (ms : Option (Fin 10 × Fin 10 × Fin 10)) : Nat :=
  (((match hh with
      | some h => twoDigitsValue h
      | none => 0) * 60 + twoDigitsValue mm) * 60 + twoDigitsValue ss) * 1000 +
    (match ms with
      | some m => m.1.val * 100 + m.2.1.val * 10 + m.2.2.val
      | none => 0)

/-- All eight scored metrics are at or above their reference maxima. -/
def TaskMetrics.atOrAboveMaxima (m : TaskMetrics) : Prop :=
  ReferenceValues.MAX_CHARS_PER_SEC ≤ m.charsPerSecond ∧
  ReferenceValues.MAX_WORDS_PER_SEC ≤ m.wordsPerSecond ∧
  ReferenceValues.MAX_TIMEFRAMES_PER_CLIP ≤ m.timeframesPerClip ∧
  ReferenceValues.MAX_OVERLAP_PERCENT ≤ m.timeframeOverlapPercent ∧
  ReferenceValues.MAX_ACTIONS_PER_CLIP ≤ m.cameraActionsPerClip ∧
  ReferenceValues.MAX_TRANSITIONS_PER_MIN ≤ m.transitionFrequency ∧
  ReferenceValues.MAX_WORDS_PER_CLIP ≤ m.averageWordsPerClip ∧
  ReferenceValues.MAX_DESC_DENSITY ≤ m.descriptionDensity

/-- All eight scored metrics are at or below their reference minima. -/
def TaskMetrics.atOrBelowMinima (m : TaskMetrics) : Prop :=
  m.charsPerSecond ≤ ReferenceValues.MIN_CHARS_PER_SEC ∧
  m.wordsPerSecond ≤ ReferenceValues.MIN_WORDS_PER_SEC ∧
  m.timeframesPerClip ≤ ReferenceValues.MIN_TIMEFRAMES_PER_CLIP ∧
  m.timeframeOverlapPercent ≤ ReferenceValues.MIN_OVERLAP_PERCENT ∧
  m.cameraActionsPerClip ≤ ReferenceValues.MIN_ACTIONS_PER_CLIP ∧
  m.transitionFrequency ≤ ReferenceValues.MIN_TRANSITIONS_PER_MIN ∧
  m.averageWordsPerClip ≤ ReferenceValues.MIN_WORDS_PER_CLIP ∧
  m.descriptionDensity ≤ ReferenceValues.MIN_DESC_DENSITY

/-- The two simulator states agree on the pause flag, on the word being collected and on the
record of the handled words. -/
def HumanSimulator.SameControl (a b : HumanSimulator) : Prop :=
  a.isPaused = b.isPaused ∧ a.currentWord = b.currentWord ∧ a.wordsHandled = b.wordsHandled

/-- A space or a newline, the word boundaries of `typeText`. -/
def isWordBoundary (c : Char) : Bool := c = ' ' || c = '\n'

/-- The maximal runs of characters of `text` that contain no space and no newline, in text
order. -/
def wordRuns (text : String) : List String :=
  ((text.data.splitOnP isWordBoundary).filter (fun run => run ≠ [])).map String.mk

/-- The text that a sequence of keystrokes leaves in an empty-ended editor holding `text`: a
character is appended, `KEY_BACKSPACE` deletes the previous character, other key codes leave
the text as it is. -/
def applyKeys : List Key → List Char → List Char
  | [], text => text
  | Key.char c :: keys, text => applyKeys keys (text ++ [c])
  | Key.code k :: keys, text => applyKeys keys (if k = KEY_BACKSPACE then text.dropLast else text)

/-- The keystrokes of a typo at position `p` of `word` with the substituted character `w`:
the characters before `p`, then `w`, then either `KEY_BACKSPACE` and the word from `p` on
(corrected) or the word after `p` (not corrected). -/
def typoKeys (word : String) (p : Nat) (w : Char) (corrected : Bool) : List Key :=
  (word.data.take p).map Key.char ++ [Key.char w] ++
    (if corrected then Key.code KEY_BACKSPACE :: (word.data.drop p).map Key.char
      else (word.data.drop (p + 1)).map Key.char)

/-- The typo position that `makeTypo` draws for `word`. -/
def HumanSimulator.typoPos (sim : HumanSimulator) (word : String) : Nat :=
  (sim.random (word.length : Int)).1.toNat

/-- The state in which `makeTypo` draws the substituted character: after the characters before
the typo position have been typed. -/
def HumanSimulator.beforeTypo (sim : HumanSimulator) (word : String) : HumanSimulator :=
  ((sim.random (word.length : Int)).2.typeChars (word.data.take (sim.typoPos word))).1

/-- The substituted character that `makeTypo` draws for `word`. -/
def HumanSimulator.typoChar (sim : HumanSimulator) (word : String) : Char :=
  ((sim.beforeTypo word).getRandomTypo (word.data.getD (sim.typoPos word) (Char.ofNat 0))).1

/-- Whether `makeTypo` chooses to correct the typo in `word`. -/
def HumanSimulator.correctionChosen (sim : HumanSimulator) (word : String) : Bool :=
  ((((sim.beforeTypo word).getRandomTypo
      (word.data.getD (sim.typoPos word) (Char.ofNat 0))).2.type
    (String.mk [sim.typoChar word])).decideCorrectionStrategy word
      (sim.random (word.length : Int)).1).1

/-- The events returned by a sequence of calls of `handleButton`, each with its pin reading and
its clock value, and the state after the last call. -/
def handleButtons : Hardware → List (Int × Nat) → List ButtonEvent × Hardware
  | hw, [] => ([], hw)
  | hw, c :: cs =>
    ((hw.handleButton c.1 c.2).1 :: (handleButtons (hw.handleButton c.1 c.2).2 cs).1,
      (handleButtons (hw.handleButton c.1 c.2).2 cs).2)

/-- The character `c` is one of the lowercase letters `'d'` to `'z'`, the lowercase letters
for which `keyMaps` has no entry. -/
def isUnmappedLowercase (c : Char) : Bool :=
  decide ('d'.toNat ≤ c.toNat ∧ c.toNat ≤ 'z'.toNat)

/-- The number `a` is `b` up to a factor between `lo` and `hi`. -/
def F32.Within (lo hi a b : ℚ) : Prop := lo * b ≤ a ∧ a ≤ hi * b

/-! ## Sample inputs -/

/-- The timestamp `MM:SS.mmm` of the absolute offset `ms`. -/
def stampOfMillis (ms : Nat) : TimeStamp :=
  { minutes := ms / 60000, seconds := ms / 1000 % 60, milliseconds := ms % 1000 }

/-- A typing frame from `a` to `b` milliseconds. -/
def typingFrame (a b : Nat) : TimeFrame :=
  { startTime := stampOfMillis a, endTime := stampOfMillis b, type := FrameType.TYPING,
    content := "" }

/-- A clip with the given number and frames. -/
def clipOf (number : Int) (frames : List TimeFrame) : ClipData :=
  { number := number, timeframes := frames, mainDescription := "", totalDurationMillis := 0,
    wordCount := 0, charCount := 0, cameraMovements := 0, cameraTransitions := 0,
    actionDescriptions := 0 }

/-- A parse result with the given clips. -/
def resultOf (clips : List ClipData) : ParseResult :=
  { videoId := "1", clips := clips, isValid := true, errorMessage := "" }

/-- Two frames `[0, 1000]` and `[2000, 3000]` in one clip. -/
def sampleDisjoint : ParseResult :=
  resultOf [clipOf 1 [typingFrame 0 1000, typingFrame 2000 3000]]

/-- The two frames `[0, 1000]` and `[500, 1500]` in one clip. -/
def sampleOverlapping : ParseResult :=
  resultOf [clipOf 1 [typingFrame 0 1000, typingFrame 500 1500]]

/-- The frames `[0, 1000]` and `[500, 1500]` in two clips. -/
def sampleOverlappingClips : ParseResult :=
  resultOf [clipOf 1 [typingFrame 0 1000], clipOf 2 [typingFrame 500 1500]]

/-- The frames `[0, 1000]` and `[500, 1500]` again, with a gap before a third frame. -/
def sampleOverlapThenGap : ParseResult :=
  resultOf [clipOf 1 [typingFrame 0 1000, typingFrame 500 1500], clipOf 2 [typingFrame 2000 2500]]

/-- Two frames `[0, 1000]` and `[0, 500]`, which overlap from time 0 on. -/
def sampleOverlapAtZero : ParseResult :=
  resultOf [clipOf 1 [typingFrame 0 1000, typingFrame 0 500]]

/-- Four contiguous frames spanning `[0, 10000]`, in two clips. -/
def sampleContiguous : ParseResult :=
  resultOf [clipOf 1 [typingFrame 0 2500, typingFrame 2500 4000],
    clipOf 2 [typingFrame 4000 9000, typingFrame 9000 10000]]

/-- Clips numbered 1 and 3. -/
def sampleNumbering13 : ParseResult :=
  resultOf [clipOf 1 [typingFrame 0 1000], clipOf 3 [typingFrame 1000 2000]]

/-- Clips numbered 1, 2 and 3. -/
def sampleNumbering123 : ParseResult :=
  resultOf [clipOf 1 [typingFrame 0 1000], clipOf 2 [typingFrame 1000 2000],
    clipOf 3 [typingFrame 2500 3000]]

/-- Three clips of which the third starts before the second has ended. -/
def sampleClipOverlap : ParseResult :=
  resultOf [clipOf 1 [typingFrame 0 1000], clipOf 2 [typingFrame 1000 1500, typingFrame 1200 2000],
    clipOf 3 [typingFrame 1900 3000]]

/-- A second clip that holds a frame of zero duration. -/
def sampleZeroDuration : ParseResult :=
  resultOf [clipOf 1 [typingFrame 0 1000], clipOf 2 [typingFrame 1000 2000, typingFrame 2000 2000]]

/-- A duration analysis of 10 seconds with 8 seconds of typing. -/
def sampleDuration : Timing.DurationAnalysis :=
  { totalMillis := 10000, effectiveMillis := 10000, overlapMillis := 0, gapMillis := 0,
    typingMillis := 8000, utilizationPercent := 100, gaps := [], overlaps := [] }

/-- A snapshot that is behind schedule. -/
def sampleBehind : ProgressSnapshot := { ProgressSnapshot.zero with isBehindSchedule := true }

/-- A snapshot that is ahead of schedule. -/
def sampleAhead : ProgressSnapshot := { ProgressSnapshot.zero with isAheadOfSchedule := true }

/-- A `fromString` that reads `MM:SS` with `parseTimeString`. -/
def sampleFromString (s : String) : TimeStamp :=
  { minutes := (TimeConversion.parseTimeString s).minutes
    seconds := (TimeConversion.parseTimeString s).seconds
    milliseconds := (TimeConversion.parseTimeString s).milliseconds }

/-- A transcript of two clips in which free text follows the last timeframe of the first
clip. -/
def sampleTranscript : List String :=
  ["Video 7",
   "Clip #1 <00:00><00:05>",
   "<00:00><00:05>walk",
   "tail of one",
   "Clip #2 <00:05><00:10>",
   "head of two",
   "<00:05><00:10>run"]

/-- A transcript whose first line does not declare the video. -/
def sampleNoVideo : List String :=
  ["Clip #1 <00:00><00:05>", "text", "<00:00><00:05>walk"]

/-- Task metrics whose scored values are the reference maxima. -/
def sampleHardTask : TaskMetrics :=
  { charsPerSecond := 5, wordsPerSecond := 1, averageWordLength := 5, timeframesPerClip := 5,
    averageTimeframeDuration := 1000, timeframeOverlapPercent := 30, cameraActionsPerClip := 3,
    cameraActionDensity := 1, transitionFrequency := 4, averageWordsPerClip := 200,
    totalWords := 200, descriptionDensity := 50, totalDurationMillis := 200000, totalClips := 1,
    totalTimeframes := 5 }

/-- Task metrics whose scored values are the reference minima. -/
def sampleEasyTask : TaskMetrics :=
  { charsPerSecond := 1, wordsPerSecond := 1 / 5, averageWordLength := 5,
    timeframesPerClip := 1, averageTimeframeDuration := 1000, timeframeOverlapPercent := 0,
    cameraActionsPerClip := 0, cameraActionDensity := 0, transitionFrequency := 0,
    averageWordsPerClip := 20, totalWords := 20, descriptionDensity := 5,
    totalDurationMillis := 100000, totalClips := 1, totalTimeframes := 4 }

/-- A simulator as `init()` leaves it for a keyboard `kb` and the file `/text.txt`, with the
pause flag cleared and the random source `rng`. -/
def HumanSimulator.started (kb : Keyboard) (file : Option (List String)) (rng : List Nat) :
    HumanSimulator :=
  { keyboard := kb
    behavior :=
      { fatigueLevel := 0, alertnessLevel := 1, confidenceLevel := F32.round (8 / 10),
        consecutiveErrors := 0, wordsWithoutBreak := 0 }
    behaviorConfig :=
      { typoChance := TYPO_CHANCE
        correctionChance := F32.round (1 - UNCORRECTED_TYPO_CHANCE)
        thinkingFrequency := F32.round ((THINKING_PAUSE_CHANCE : ℚ) / 100)
        recoveryRate := F32.round RECOVERY_RATE
        maxWordsBeforeBreak := 20 }
    currentWord := ""
    wordsInBurst := 0
    isPaused := false
    totalClips := countClips file 0
    currentClip := 0
    rng := rng
    wordsHandled := [] }


/-- A connected keyboard on which nothing has been typed. -/
def sampleKeyboard : Keyboard := { connected := true, written := [] }

/-- The transcript of one clip with one typing timeframe of content `"hi there"`. -/
def sampleHiThere : List String :=
  ["Video 1", "Clip #1 <00:00.000><00:05.000>", "<00:00.000><00:05.000>hi there"]

/-- A simulator about to mistype at position 1 of a short word and correct it. -/
def sampleCorrecting : HumanSimulator :=
  HumanSimulator.started sampleKeyboard none [1, 2, 0]

/-- A simulator about to mistype at position 3 of a long word and leave it. -/
def sampleNotCorrecting : HumanSimulator :=
  HumanSimulator.started sampleKeyboard none [3, 5, 99]

/-- One clip that has no timeframes. -/
def sampleNoFrames : ParseResult := resultOf [clipOf 1 []]

/-- Two frames `[0, 1000]` and `[1000, 2000]`, the second starting when the first ends. -/
def sampleBackToBack : ParseResult :=
  resultOf [clipOf 1 [typingFrame 0 1000, typingFrame 1000 2000]]

/-- A tracker that is started at 1000, paused from 2000 to 3000, paused again at 4000 and then
started, instead of resumed, at 5000. -/
def sampleRestarted : ProgressTracker :=
  (((((ProgressTracker.new sampleDuration).start 1000).pause 2000).resume 3000).pause 4000).start
    5000

/-- A tracker on `sampleDuration` (10 seconds) that was started at 1000. -/
def sampleStarted : ProgressTracker := (ProgressTracker.new sampleDuration).start 1000

/-- A simulator whose next draw is 3. -/
def sampleDrawThree : HumanSimulator :=
  HumanSimulator.started sampleKeyboard none [3]

/-- A simulator about to mistype at position 3 of a long word with the draw 4 for the
substituted character. -/
def sampleSameLetter : HumanSimulator :=
  HumanSimulator.started sampleKeyboard none [3, 4, 99]

/-- A duration analysis of `2 ^ 24` milliseconds (about 4 hours 40 minutes). -/
def sampleLongDuration : Timing.DurationAnalysis :=
  { totalMillis := 16777216, effectiveMillis := 16777216, overlapMillis := 0, gapMillis := 0,
    typingMillis := 13421772, utilizationPercent := 100, gaps := [], overlaps := [] }

/-- A tracker on `sampleLongDuration` that was started at 1000. -/
def sampleLongStarted : ProgressTracker := (ProgressTracker.new sampleLongDuration).start 1000

/-- A duration analysis of 11 seconds. -/
def sampleElevenSeconds : Timing.DurationAnalysis :=
  { totalMillis := 11000, effectiveMillis := 11000, overlapMillis := 0, gapMillis := 0,
    typingMillis := 8800, utilizationPercent := 100, gaps := [], overlaps := [] }

/-- A tracker on `sampleElevenSeconds` that was started at 1000. -/
def sampleElevenStarted : ProgressTracker :=
  (ProgressTracker.new sampleElevenSeconds).start 1000

/-- A transcript that holds the video line and no clip. -/
def sampleVideoOnly : List String := ["Video 1"]

/-! ## Basic facts -/

theorem toMillis_lt (t : TimeStamp) : t.toMillis < U32 := by
  unfold TimeStamp.toMillis U32
  exact Nat.mod_lt _ (by norm_num)

theorem sub32_eq {a b : Nat} (hba : b ≤ a) (ha : a < U32) : sub32 a b = a - b := by
  unfold sub32 U32 at *
  omega

theorem add32_eq {a b : Nat} (h : a + b < U32) : add32 a b = a + b := by
  unfold add32 U32 at *
  omega

theorem frameMillis_lt (pr : ParseResult) : ∀ f ∈ frameMillis pr, f.1 < U32 ∧ f.2 < U32 := by
  intro f hf
  simp only [frameMillis, List.mem_flatMap, List.mem_map] at hf
  obtain ⟨c, -, fr, -, rfl⟩ := hf
  exact ⟨toMillis_lt _, toMillis_lt _⟩

theorem clips_ne_nil_of_frameMillis (pr : ParseResult) (h : frameMillis pr ≠ []) :
    pr.clips.isEmpty = false := by
  cases hc : pr.clips with
  | nil => simp [frameMillis, hc] at h
  | cons c cs => rfl

instance evLe_total : IsTotal (Nat × Int) evLe := ⟨fun a b => by
  unfold evLe
  omega⟩

instance evLe_antisymm : IsAntisymm (Nat × Int) evLe := ⟨fun a b hab hba => by
  unfold evLe at *
  apply Prod.ext <;> omega⟩

instance evLe_trans : IsTrans (Nat × Int) evLe := ⟨fun a b c hab hbc => by
  unfold evLe at *
  omega⟩

theorem sortEvents_eq_of_perm {evs sorted : List (Nat × Int)} (hp : evs.Perm sorted)
    (hs : sorted.Sorted evLe) : sortEvents evs = sorted :=
  List.eq_of_perm_of_sorted ((List.perm_insertionSort evLe evs).trans hp)
    (List.sorted_insertionSort evLe evs) hs

/-! ## The sweep of `analyzeTimeframes` -/

theorem sweepStep_lastTime (first : Nat) (s : SweepState) (e : Nat × Int) :
    (sweepStep first s e).lastTime = e.1 := rfl

theorem sweepStep_activeFrames (first : Nat) (s : SweepState) (e : Nat × Int) :
    (sweepStep first s e).activeFrames = s.activeFrames + e.2 := rfl

theorem sweepStep_coveredTime (first : Nat) (s : SweepState) (e : Nat × Int) :
    (sweepStep first s e).coveredTime =
      if s.activeFrames > 0 then add32 s.coveredTime (sub32 e.1 s.lastTime) else s.coveredTime :=
  rfl

theorem sweepStep_overlapMillis (first : Nat) (s : SweepState) (e : Nat × Int) :
    (sweepStep first s e).overlapMillis =
      if s.activeFrames > 1 then add32 s.overlapMillis (sub32 e.1 s.lastTime)
      else s.overlapMillis := by
  unfold sweepStep
  split_ifs <;> rfl

theorem sweepStep_gapMillis (first : Nat) (s : SweepState) (e : Nat × Int) :
    (sweepStep first s e).gapMillis =
      if s.activeFrames = 0 ∧ s.lastTime > first then add32 s.gapMillis (sub32 e.1 s.lastTime)
      else s.gapMillis := by
  unfold sweepStep
  split_ifs <;> rfl

theorem cellCount_self (p : Nat → Bool) (a : Nat) : cellCount p a a = 0 := by
  simp [cellCount]

theorem cellCount_split (p : Nat → Bool) {a b c : Nat} (hab : a ≤ b) (hbc : b ≤ c) :
    cellCount p a c = cellCount p a b + cellCount p b c := by
  unfold cellCount
  have h : List.range' a (c - a) = List.range' a (b - a) ++ List.range' b (c - b) := by
    have := List.range'_append a (b - a) (c - b) 1
    rw [show a + 1 * (b - a) = b by omega, show c - b + (b - a) = c - a by omega] at this
    exact this.symm
  rw [h, List.countP_append]

theorem cellCount_congr (p q : Nat → Bool) {a b : Nat}
    (h : ∀ t, a ≤ t → t < b → p t = q t) : cellCount p a b = cellCount q a b := by
  unfold cellCount
  apply List.countP_congr
  intro t ht
  rw [List.mem_range'_1] at ht
  rw [h t ht.1 (by omega)]

theorem cellCount_const (c : Bool) (a b : Nat) :
    cellCount (fun _ => c) a b = if c then b - a else 0 := by
  unfold cellCount
  cases c <;> simp

theorem cellCount_le (p : Nat → Bool) (a b : Nat) : cellCount p a b ≤ b - a := by
  unfold cellCount
  simpa using @List.countP_le_length _ p (List.range' a (b - a))

theorem evSum_cons (e : Nat × Int) (evs : List (Nat × Int)) (t : Nat) :
    evSum (e :: evs) t = (if e.1 ≤ t then e.2 else 0) + evSum evs t := by
  unfold evSum
  by_cases h : e.1 ≤ t <;> simp [List.filter_cons, h]

theorem evSum_eq_zero_of_lt {evs : List (Nat × Int)} {t : Nat} (h : ∀ e ∈ evs, t < e.1) :
    evSum evs t = 0 := by
  induction evs with
  | nil => rfl
  | cons e es ih =>
    rw [evSum_cons, ih (fun x hx => h x (List.mem_cons_of_mem _ hx))]
    have := h e (List.mem_cons_self _ _)
    simp; omega


/-- The counters of the sweep after the events `evs`, started in state `s`. -/
theorem sweep_foldl_counts (first : Nat) :
    ∀ (evs : List (Nat × Int)) (s : SweepState),
      evs.Pairwise (fun a b => a.1 ≤ b.1) →
      (∀ e ∈ evs, s.lastTime ≤ e.1 ∧ e.1 < U32) →
      s.coveredTime ≤ s.lastTime → s.overlapMillis ≤ s.lastTime →
      s.lastTime ≤ (evs.foldl (sweepStep first) s).lastTime ∧
      (∀ e ∈ evs, e.1 ≤ (evs.foldl (sweepStep first) s).lastTime) ∧
      (evs.foldl (sweepStep first) s).coveredTime =
        s.coveredTime + cellCount (fun t => decide (0 < s.activeFrames + evSum evs t))
          s.lastTime (evs.foldl (sweepStep first) s).lastTime ∧
      (evs.foldl (sweepStep first) s).overlapMillis =
        s.overlapMillis + cellCount (fun t => decide (1 < s.activeFrames + evSum evs t))
          s.lastTime (evs.foldl (sweepStep first) s).lastTime := by
  intro evs
  induction evs with
  | nil =>
    intro s _ _ _ _
    simp [cellCount_self]
  | cons e es ih =>
    intro s hsorted hbound hcov hov
    have he := hbound e (List.mem_cons_self _ _)
    rw [List.pairwise_cons] at hsorted
    have hsub : sub32 e.1 s.lastTime = e.1 - s.lastTime := sub32_eq he.1 he.2
    have hcov2 : (sweepStep first s e).coveredTime =
        s.coveredTime + (if 0 < s.activeFrames then e.1 - s.lastTime else 0) := by
      rw [sweepStep_coveredTime, hsub]
      split_ifs with h
      · exact add32_eq (by omega)
      · rfl
    have hov2 : (sweepStep first s e).overlapMillis =
        s.overlapMillis + (if 1 < s.activeFrames then e.1 - s.lastTime else 0) := by
      rw [sweepStep_overlapMillis, hsub]
      split_ifs with h
      · exact add32_eq (by omega)
      · rfl
    obtain ⟨h1, h2, h3, h4⟩ := ih (sweepStep first s e) hsorted.2
      (fun x hx => ⟨hsorted.1 x hx, (hbound x (List.mem_cons_of_mem _ hx)).2⟩)
      (by rw [hcov2, sweepStep_lastTime]; split_ifs <;> omega)
      (by rw [hov2, sweepStep_lastTime]; split_ifs <;> omega)
    rw [sweepStep_lastTime] at h1 h3 h4
    rw [sweepStep_activeFrames] at h3 h4
    simp only [List.foldl_cons]
    have hzero : ∀ t, t < e.1 → evSum (e :: es) t = 0 := fun t ht =>
      evSum_eq_zero_of_lt (fun x hx => by
        rcases List.mem_cons.1 hx with rfl | hx
        · exact ht
        · exact lt_of_lt_of_le ht (hsorted.1 x hx))
    have hafter : ∀ t, e.1 ≤ t → evSum (e :: es) t = e.2 + evSum es t := fun t ht => by
      rw [evSum_cons, if_pos ht]
    refine ⟨le_trans he.1 h1, ?_, ?_, ?_⟩
    · intro x hx
      rcases List.mem_cons.1 hx with rfl | hx
      · exact h1
      · exact h2 x hx
    · rw [h3, hcov2, cellCount_split _ he.1 h1]
      have hA : cellCount (fun t => decide (0 < s.activeFrames + evSum (e :: es) t))
          s.lastTime e.1 = if 0 < s.activeFrames then e.1 - s.lastTime else 0 := by
        rw [cellCount_congr _ (fun _ => decide (0 < s.activeFrames))
          (fun t _ ht => by rw [hzero t ht, add_zero]), cellCount_const]
        simp
      have hB : cellCount (fun t => decide (0 < s.activeFrames + evSum (e :: es) t))
          e.1 (List.foldl (sweepStep first) (sweepStep first s e) es).lastTime =
          cellCount (fun t => decide (0 < s.activeFrames + e.2 + evSum es t))
          e.1 (List.foldl (sweepStep first) (sweepStep first s e) es).lastTime :=
        cellCount_congr _ _ (fun t ht _ => by rw [hafter t ht, add_assoc])
      rw [hA, hB, add_assoc]
    · rw [h4, hov2, cellCount_split _ he.1 h1]
      have hA : cellCount (fun t => decide (1 < s.activeFrames + evSum (e :: es) t))
          s.lastTime e.1 = if 1 < s.activeFrames then e.1 - s.lastTime else 0 := by
        rw [cellCount_congr _ (fun _ => decide (1 < s.activeFrames))
          (fun t _ ht => by rw [hzero t ht, add_zero]), cellCount_const]
        simp
      have hB : cellCount (fun t => decide (1 < s.activeFrames + evSum (e :: es) t))
          e.1 (List.foldl (sweepStep first) (sweepStep first s e) es).lastTime =
          cellCount (fun t => decide (1 < s.activeFrames + e.2 + evSum es t))
          e.1 (List.foldl (sweepStep first) (sweepStep first s e) es).lastTime :=
        cellCount_congr _ _ (fun t ht _ => by rw [hafter t ht, add_assoc])
      rw [hA, hB, add_assoc]


/-- The sweep adds every interval between two events either to the covered time or to the gap
time, provided the counter is positive, or zero after the first event time, on each of them. -/
theorem sweep_foldl_gap (first : Nat) :
    ∀ (evs : List (Nat × Int)) (s : SweepState),
      evs.Pairwise (fun a b => a.1 ≤ b.1) →
      (∀ e ∈ evs, s.lastTime ≤ e.1 ∧ e.1 < U32) →
      (∀ t, s.lastTime ≤ t → 0 < s.activeFrames + evSum evs t ∨
        (s.activeFrames + evSum evs t = 0 ∧ first < t)) →
      s.coveredTime + s.gapMillis ≤ s.lastTime →
      (evs.foldl (sweepStep first) s).coveredTime + (evs.foldl (sweepStep first) s).gapMillis =
        s.coveredTime + s.gapMillis + ((evs.foldl (sweepStep first) s).lastTime - s.lastTime) ∧
      s.lastTime ≤ (evs.foldl (sweepStep first) s).lastTime := by
  intro evs
  induction evs with
  | nil =>
    intro s _ _ _ _
    simp
  | cons e es ih =>
    intro s hsorted hbound hH hle
    have he := hbound e (List.mem_cons_self _ _)
    rw [List.pairwise_cons] at hsorted
    have hsub : sub32 e.1 s.lastTime = e.1 - s.lastTime := sub32_eq he.1 he.2
    have hzero : ∀ t, t < e.1 → evSum (e :: es) t = 0 := fun t ht =>
      evSum_eq_zero_of_lt (fun x hx => by
        rcases List.mem_cons.1 hx with rfl | hx
        · exact ht
        · exact lt_of_lt_of_le ht (hsorted.1 x hx))
    have hstep : (sweepStep first s e).coveredTime + (sweepStep first s e).gapMillis =
        s.coveredTime + s.gapMillis + (e.1 - s.lastTime) := by
      rw [sweepStep_coveredTime, sweepStep_gapMillis, hsub]
      rcases Nat.eq_or_lt_of_le he.1 with heq | hlt
      · rw [← heq]
        simp only [Nat.sub_self, add_zero]
        have h0a : add32 s.coveredTime 0 = s.coveredTime := add32_eq (by omega)
        have h0b : add32 s.gapMillis 0 = s.gapMillis := add32_eq (by omega)
        rw [h0a, h0b]
        split_ifs <;> rfl
      · have := hH s.lastTime (le_refl _)
        rw [hzero _ hlt, add_zero] at this
        rcases this with hpos | ⟨hz, hf⟩
        · rw [if_pos hpos, if_neg (by omega), add32_eq (by omega)]
          omega
        · rw [if_neg (by omega), if_pos ⟨hz, hf⟩, add32_eq (by omega)]
          omega
    obtain ⟨h1, h2⟩ := ih (sweepStep first s e) hsorted.2
      (fun x hx => ⟨hsorted.1 x hx, (hbound x (List.mem_cons_of_mem _ hx)).2⟩)
      (fun t ht => by
        rw [sweepStep_lastTime] at ht
        rw [sweepStep_activeFrames]
        have := hH t (le_trans he.1 ht)
        rw [evSum_cons, if_pos ht] at this
        rw [add_assoc]
        exact this)
      (by rw [hstep, sweepStep_lastTime]; omega)
    rw [sweepStep_lastTime] at h1 h2
    simp only [List.foldl_cons]
    refine ⟨?_, le_trans he.1 h2⟩
    rw [h1, hstep]
    omega

theorem evSum_perm {l₁ l₂ : List (Nat × Int)} (h : l₁.Perm l₂) (t : Nat) :
    evSum l₁ t = evSum l₂ t := by
  unfold evSum
  exact ((h.filter _).map _).sum_eq

theorem evSum_sortEvents (evs : List (Nat × Int)) (t : Nat) :
    evSum (sortEvents evs) t = evSum evs t :=
  evSum_perm (List.perm_insertionSort evLe evs) t


theorem evSum_buildEvents {frames : List (Nat × Nat)} (hvalid : ∀ f ∈ frames, f.1 < f.2)
    (t : Nat) : evSum (buildEvents frames) t = (activeAt frames t : Int) := by
  induction frames with
  | nil => rfl
  | cons f fs ih =>
    have hf := hvalid f (List.mem_cons_self _ _)
    have ih2 := ih (fun x hx => hvalid x (List.mem_cons_of_mem _ hx))
    simp only [buildEvents, evSum_cons, ih2, activeAt, List.countP_cons, decide_eq_true_eq]
    split_ifs <;> omega

theorem mem_buildEvents {frames : List (Nat × Nat)} {e : Nat × Int} :
    e ∈ buildEvents frames ↔ ∃ f ∈ frames, e = (f.1, 1) ∨ e = (f.2, -1) := by
  induction frames with
  | nil => simp [buildEvents]
  | cons f fs ih =>
    simp only [buildEvents, List.mem_cons, ih]
    constructor
    · rintro (h | h | ⟨g, hg, h⟩)
      · exact ⟨f, Or.inl rfl, Or.inl h⟩
      · exact ⟨f, Or.inl rfl, Or.inr h⟩
      · exact ⟨g, Or.inr hg, h⟩
    · rintro ⟨g, rfl | hg, h | h⟩
      · exact Or.inl h
      · exact Or.inr (Or.inl h)
      · exact Or.inr (Or.inr ⟨g, hg, Or.inl h⟩)
      · exact Or.inr (Or.inr ⟨g, hg, Or.inr h⟩)

theorem mem_sortEvents {evs : List (Nat × Int)} {e : Nat × Int} :
    e ∈ sortEvents evs ↔ e ∈ evs :=
  (List.perm_insertionSort evLe evs).mem_iff

theorem coveredAt_iff (frames : List (Nat × Nat)) (t : Nat) :
    coveredAt frames t = true ↔ ∃ f ∈ frames, f.1 ≤ t ∧ t < f.2 := by
  simp [coveredAt]

theorem activeAt_pos_iff (frames : List (Nat × Nat)) (t : Nat) :
    0 < activeAt frames t ↔ coveredAt frames t = true := by
  rw [coveredAt_iff, activeAt, List.countP_pos_iff]
  simp

theorem foldl_lastTime_mem (first : Nat) :
    ∀ (evs : List (Nat × Int)) (s : SweepState), evs ≠ [] →
      ∃ e ∈ evs, (evs.foldl (sweepStep first) s).lastTime = e.1 := by
  intro evs
  induction evs with
  | nil => intro s h; exact absurd rfl h
  | cons e es ih =>
    intro s _
    by_cases hes : es = []
    · subst hes
      exact ⟨e, List.mem_cons_self _ _, rfl⟩
    · obtain ⟨x, hx, h⟩ := ih (sweepStep first s e) hes
      exact ⟨x, List.mem_cons_of_mem _ hx, h⟩

theorem cellCount_range (p : Nat → Bool) {a b n : Nat} (hab : a ≤ b) (hbn : b ≤ n)
    (hout : ∀ t, p t = true → a ≤ t ∧ t < b) : (List.range n).countP p = cellCount p a b := by
  have h0 : (List.range n).countP p = cellCount p 0 n := by
    simp [cellCount, List.range_eq_range']
  rw [h0, cellCount_split p (Nat.zero_le a) (le_trans hab hbn), cellCount_split p hab hbn]
  have h1 : cellCount p 0 a = 0 := by
    rw [cellCount_congr p (fun _ => false) (fun t _ ht => by
      cases hp : p t
      · rfl
      · have := hout t hp; omega), cellCount_const]
    rfl
  have h2 : cellCount p b n = 0 := by
    rw [cellCount_congr p (fun _ => false) (fun t ht _ => by
      cases hp : p t
      · rfl
      · have := hout t hp; omega), cellCount_const]
    rfl
  rw [h1, h2]
  omega


theorem evLe_fst {a b : Nat × Int} (h : evLe a b) : a.1 ≤ b.1 := by
  unfold evLe at h
  omega

theorem sortEvents_pairwise (evs : List (Nat × Int)) :
    (sortEvents evs).Pairwise (fun a b => a.1 ≤ b.1) :=
  List.Pairwise.imp (fun h => evLe_fst h) (List.sorted_insertionSort evLe evs)

theorem sortEvents_buildEvents_ne_nil {frames : List (Nat × Nat)} (hne : frames ≠ []) :
    ∃ e0 es, sortEvents (buildEvents frames) = e0 :: es := by
  cases hs : sortEvents (buildEvents frames) with
  | nil =>
    cases frames with
    | nil => exact absurd rfl hne
    | cons f fs =>
      have : (f.1, (1 : Int)) ∈ sortEvents (buildEvents (f :: fs)) :=
        mem_sortEvents.2 (mem_buildEvents.2 ⟨f, List.mem_cons_self _ _, Or.inl rfl⟩)
      rw [hs] at this
      cases this
  | cons e0 es => exact ⟨e0, es, rfl⟩

/-- What the sweep computes on the sorted events of a non-empty list of frames that all have
`end > start`. -/
theorem sweep_valid {frames : List (Nat × Nat)}
    (hlt : ∀ f ∈ frames, f.1 < U32 ∧ f.2 < U32) (hvalid : ∀ f ∈ frames, f.1 < f.2)
    {e0 : Nat × Int} {es : List (Nat × Int)}
    (hs : sortEvents (buildEvents frames) = e0 :: es) :
    (sweep e0.1 (e0 :: es)).coveredTime = unionMeasure frames ∧
    (sweep e0.1 (e0 :: es)).overlapMillis =
      (List.range U32).countP (fun t => decide (2 ≤ activeAt frames t)) ∧
    (sweep e0.1 (e0 :: es)).coveredTime + (sweep e0.1 (e0 :: es)).gapMillis =
      (sweep e0.1 (e0 :: es)).lastTime - e0.1 ∧
    (∀ f ∈ frames, e0.1 ≤ f.1 ∧ f.2 ≤ (sweep e0.1 (e0 :: es)).lastTime) ∧
    (∃ f ∈ frames, f.1 = e0.1) ∧ (∃ f ∈ frames, f.2 = (sweep e0.1 (e0 :: es)).lastTime) ∧
    (sweep e0.1 (e0 :: es)).lastTime < U32 ∧
    (sweep e0.1 (e0 :: es)).overlapMillis ≤ (sweep e0.1 (e0 :: es)).lastTime := by
  have hmem : ∀ e, e ∈ e0 :: es ↔ ∃ f ∈ frames, e = (f.1, 1) ∨ e = (f.2, -1) := fun e => by
    rw [← hs, mem_sortEvents, mem_buildEvents]
  have hpw : (e0 :: es).Pairwise (fun a b => a.1 ≤ b.1) := hs ▸ sortEvents_pairwise _
  have hfirst : ∀ e ∈ e0 :: es, e0.1 ≤ e.1 := fun e he => by
    rcases List.mem_cons.1 he with rfl | he
    · exact le_refl _
    · exact (List.pairwise_cons.1 hpw).1 e he
  have hbound : ∀ e ∈ e0 :: es, (sweepInit e0.1).lastTime ≤ e.1 ∧ e.1 < U32 := fun e he => by
    refine ⟨hfirst e he, ?_⟩
    obtain ⟨f, hf, rfl | rfl⟩ := (hmem e).1 he
    · exact (hlt f hf).1
    · exact (hlt f hf).2
  have hev : ∀ t, evSum (e0 :: es) t = (activeAt frames t : Int) := fun t => by
    rw [← hs, evSum_sortEvents, evSum_buildEvents hvalid]
  obtain ⟨-, hlast, hcov, hov⟩ := sweep_foldl_counts e0.1 (e0 :: es) (sweepInit e0.1) hpw hbound
    (Nat.zero_le _) (Nat.zero_le _)
  have hfr : ∀ f ∈ frames, e0.1 ≤ f.1 ∧ f.2 ≤ (sweep e0.1 (e0 :: es)).lastTime := fun f hf =>
    ⟨hfirst (f.1, 1) ((hmem _).2 ⟨f, hf, Or.inl rfl⟩),
     hlast (f.2, -1) ((hmem _).2 ⟨f, hf, Or.inr rfl⟩)⟩
  have hstart : ∃ f ∈ frames, f.1 = e0.1 := by
    obtain ⟨f, hf, h | h⟩ := (hmem e0).1 (List.mem_cons_self _ _)
    · exact ⟨f, hf, by rw [h]⟩
    · have h1 := (hfr f hf).1
      have h2 := hvalid f hf
      rw [h] at h1
      simp only at h1
      omega
  obtain ⟨eL, heL, hLeq⟩ := foldl_lastTime_mem e0.1 (e0 :: es) (sweepInit e0.1)
    (List.cons_ne_nil _ _)
  have hLlt : (sweep e0.1 (e0 :: es)).lastTime < U32 := by
    unfold sweep
    rw [hLeq]
    exact (hbound eL heL).2
  have hend : ∃ f ∈ frames, f.2 = (sweep e0.1 (e0 :: es)).lastTime := by
    obtain ⟨f, hf, h | h⟩ := (hmem eL).1 heL
    · have h1 := (hfr f hf).2
      have h2 := hvalid f hf
      unfold sweep at h1
      rw [hLeq, h] at h1
      simp only at h1
      omega
    · refine ⟨f, hf, ?_⟩
      unfold sweep
      rw [hLeq, h]
  have hle : e0.1 ≤ (sweep e0.1 (e0 :: es)).lastTime := by
    obtain ⟨f, hf, -⟩ := hstart
    have := hfr f hf
    have := hvalid f hf
    omega
  have hovle : (sweep e0.1 (e0 :: es)).overlapMillis ≤ (sweep e0.1 (e0 :: es)).lastTime := by
    unfold sweep
    rw [hov]
    have := cellCount_le (fun t => decide (1 < (sweepInit e0.1).activeFrames + evSum (e0 :: es) t))
      (sweepInit e0.1).lastTime (List.foldl (sweepStep e0.1) (sweepInit e0.1) (e0 :: es)).lastTime
    have h0 : (sweepInit e0.1).overlapMillis = 0 := rfl
    omega
  refine ⟨?_, ?_, ?_, hfr, hstart, hend, hLlt, hovle⟩
  · unfold sweep unionMeasure
    rw [hcov, cellCount_range (coveredAt frames) hle (le_of_lt hLlt) (fun t ht => by
      obtain ⟨f, hf, h1, h2⟩ := (coveredAt_iff frames t).1 ht
      have := hfr f hf
      omega)]
    simp only [sweepInit, zero_add]
    apply cellCount_congr
    intro t _ _
    rw [hev t, Bool.eq_iff_iff, decide_eq_true_eq, ← activeAt_pos_iff]
    omega
  · unfold sweep
    rw [hov, cellCount_range (fun t => decide (2 ≤ activeAt frames t)) hle (le_of_lt hLlt)
      (fun t ht => by
        have h2 : 0 < activeAt frames t := by
          have := of_decide_eq_true ht
          omega
        obtain ⟨f, hf, h1, h2⟩ := (coveredAt_iff frames t).1 ((activeAt_pos_iff frames t).1 h2)
        have := hfr f hf
        omega)]
    simp only [sweepInit, zero_add]
    apply cellCount_congr
    intro t _ _
    rw [hev t, Bool.eq_iff_iff, decide_eq_true_eq, decide_eq_true_eq]
    omega
  · have := (sweep_foldl_gap e0.1 (e0 :: es) (sweepInit e0.1) hpw hbound (fun t ht => by
      simp only [sweepInit] at ht ⊢
      rw [zero_add, hev t]
      rcases Nat.eq_zero_or_pos (activeAt frames t) with h0 | hp
      · right
        refine ⟨by omega, ?_⟩
        rcases Nat.eq_or_lt_of_le ht with heq | hlt2
        · obtain ⟨f, hf, hfe⟩ := hstart
          have hcovd : coveredAt frames t = true :=
            (coveredAt_iff frames t).2 ⟨f, hf, by omega, by have := hvalid f hf; omega⟩
          have := (activeAt_pos_iff frames t).2 hcovd
          omega
        · exact hlt2
      · left
        omega) (Nat.zero_le _)).1
    unfold sweep
    rw [this]
    simp [sweepInit]

/-! ## Claims about the timeline analysis -/

theorem sorted_two_overlapping {a b c d : Nat} (hac : a < c) (hcb : c < b) (hbd : b < d) :
    List.Sorted evLe [((a, 1) : Nat × Int), (c, 1), (b, -1), (d, -1)] := by
  simp [List.Sorted, evLe]
  omega

theorem sweep_two_overlapping {a b c d : Nat} (hac : a < c) (hcb : c < b) (hbd : b < d)
    (hd : d < U32) :
    sweep a [((a, 1) : Nat × Int), (c, 1), (b, -1), (d, -1)] =
      { activeFrames := 0, lastTime := d, coveredTime := d - a, currentRange := ⟨0, 0⟩,
        overlapMillis := b - c, overlaps := [⟨c, b⟩], gapMillis := 0, gaps := [] } := by
  have h1 : sub32 a a = 0 := by rw [sub32_eq (le_refl _) (by omega)]; omega
  have h2 : sub32 c a = c - a := sub32_eq (by omega) (by omega)
  have h3 : sub32 b c = b - c := sub32_eq (by omega) (by omega)
  have h4 : sub32 d b = d - b := sub32_eq (by omega) (by omega)
  have h5 : add32 0 (c - a) = c - a := by rw [add32_eq (by omega)]; omega
  have h6 : add32 (c - a) (b - c) = b - a := by rw [add32_eq (by omega)]; omega
  have h7 : add32 (b - a) (d - b) = d - a := by rw [add32_eq (by omega)]; omega
  have h8 : add32 0 (b - c) = b - c := by rw [add32_eq (by omega)]; omega
  have hc0 : c ≠ 0 := by omega
  have hc1 : 0 < c := by omega
  simp [sweep, sweepStep, sweepInit, h1, h2, h3, h4, h5, h6, h7, h8, hc0, hc1]


theorem analyze_of_events {pr : ParseResult} {e0 : Nat × Int} {es : List (Nat × Int)}
    (hne : pr.clips.isEmpty = false)
    (hs : sortEvents (buildEvents (frameMillis pr)) = e0 :: es) :
    analyze pr = some
      { totalMillis := findGlobalTimeRange pr
        effectiveMillis := (sweep e0.1 (e0 :: es)).coveredTime
        overlapMillis := add32 0 (sweep e0.1 (e0 :: es)).overlapMillis
        gapMillis := add32 0 (sweep e0.1 (e0 :: es)).gapMillis
        utilizationPercent :=
          if findGlobalTimeRange pr > 0 then
            ((sweep e0.1 (e0 :: es)).coveredTime : ℚ) / (findGlobalTimeRange pr : ℚ) * 100
          else 0
        gaps := (sweep e0.1 (e0 :: es)).gaps
        overlaps := (sweep e0.1 (e0 :: es)).overlaps } := by
  simp [analyze, hne, analyzeTimeframes, hs, calculateUtilization, DurationAnalysis.zero]

/-- C2.  For all millisecond values `a < c < b < d`, `analyze` on a `ParseResult` whose only
timeframes are `[a,b]` and `[c,d]` (in either order) reports `overlapMillis == b - c` and an
overlaps list holding exactly one range, `[c,b]`. -/
theorem analyze_two_overlapping (pr : ParseResult) (a b c d : Nat)
    (hac : a < c) (hcb : c < b) (hbd : b < d)
    (hfr : frameMillis pr = [(a, b), (c, d)] ∨ frameMillis pr = [(c, d), (a, b)]) :
    ∃ r, analyze pr = some r ∧ r.overlapMillis = b - c ∧ r.overlaps = [⟨c, b⟩] := by
  have hd : d < U32 := by
    rcases hfr with h | h
    · exact (frameMillis_lt pr (c, d) (by simp [h])).2
    · exact (frameMillis_lt pr (c, d) (by simp [h])).2
  have hne : pr.clips.isEmpty = false :=
    clips_ne_nil_of_frameMillis pr (by rcases hfr with h | h <;> simp [h])
  have hs : sortEvents (buildEvents (frameMillis pr)) = [(a, 1), (c, 1), (b, -1), (d, -1)] := by
    apply sortEvents_eq_of_perm _ (sorted_two_overlapping hac hcb hbd)
    rcases hfr with h | h
    · rw [h]
      simp only [buildEvents]
      exact List.Perm.cons _ (List.Perm.swap _ _ _)
    · rw [h]
      simp only [buildEvents]
      have hswap : ([((c, 1) : Nat × Int), (d, -1)] ++ [(a, 1), (b, -1)]).Perm
          ([(a, 1), (b, -1)] ++ [(c, 1), (d, -1)]) := List.perm_append_comm
      exact hswap.trans (List.Perm.cons _ (List.Perm.swap _ _ _))
  refine ⟨_, analyze_of_events hne hs, ?_, ?_⟩
  · simp only [sweep_two_overlapping hac hcb hbd hd]
    rw [add32_eq (by omega)]; omega
  · simp only [sweep_two_overlapping hac hcb hbd hd]

/-- C2 at the frames `[0, 1000]` and `[500, 1500]`: exactly one overlap range `[500, 1000]` and
`overlapMillis == 500`. -/
theorem analyze_two_overlapping_witness :
    ∃ r, analyze sampleOverlapping = some r ∧ r.overlapMillis = 500 ∧
      r.overlaps = [⟨500, 1000⟩] :=
  analyze_two_overlapping sampleOverlapping 0 1000 500 1500 (by decide) (by decide) (by decide)
    (Or.inl (by decide))

theorem foldl_min_max (frames : List (Nat × Nat)) :
    ∀ g : Nat × Nat,
      ((frames.foldl (fun (g : Nat × Nat) (f : Nat × Nat) => (min g.1 f.1, max g.2 f.2)) g).1 ≤ g.1 ∧
        ∀ f ∈ frames,
          (frames.foldl (fun (g : Nat × Nat) (f : Nat × Nat) => (min g.1 f.1, max g.2 f.2)) g).1 ≤ f.1) ∧
      ((frames.foldl (fun (g : Nat × Nat) (f : Nat × Nat) => (min g.1 f.1, max g.2 f.2)) g).1 = g.1 ∨
        ∃ f ∈ frames,
          (frames.foldl (fun (g : Nat × Nat) (f : Nat × Nat) => (min g.1 f.1, max g.2 f.2)) g).1 = f.1) ∧
      (g.2 ≤ (frames.foldl (fun (g : Nat × Nat) (f : Nat × Nat) => (min g.1 f.1, max g.2 f.2)) g).2 ∧
        ∀ f ∈ frames,
          f.2 ≤ (frames.foldl (fun (g : Nat × Nat) (f : Nat × Nat) => (min g.1 f.1, max g.2 f.2)) g).2) ∧
      ((frames.foldl (fun (g : Nat × Nat) (f : Nat × Nat) => (min g.1 f.1, max g.2 f.2)) g).2 = g.2 ∨
        ∃ f ∈ frames,
          (frames.foldl (fun (g : Nat × Nat) (f : Nat × Nat) => (min g.1 f.1, max g.2 f.2)) g).2 = f.2) := by
  induction frames with
  | nil => intro g; simp
  | cons f fs ih =>
    intro g
    obtain ⟨⟨h1, h2⟩, h3, ⟨h4, h5⟩, h6⟩ := ih (min g.1 f.1, max g.2 f.2)
    simp only [List.foldl_cons, List.mem_cons, forall_eq_or_imp, exists_eq_or_imp]
    have h1 : _ ≤ min g.1 f.1 := h1
    have h4 : max g.2 f.2 ≤ _ := h4
    refine ⟨⟨le_trans h1 (min_le_left _ _), le_trans h1 (min_le_right _ _), h2⟩, ?_,
      ⟨le_trans (le_max_left _ _) h4, le_trans (le_max_right _ _) h4, h5⟩, ?_⟩
    · rcases h3 with h | h
      · rcases Nat.le_total g.1 f.1 with hle | hle
        · left; rw [h]; exact min_eq_left hle
        · right; left; rw [h]; exact min_eq_right hle
      · right; right; exact h
    · rcases h6 with h | h
      · rcases Nat.le_total g.2 f.2 with hle | hle
        · right; left; rw [h]; exact max_eq_right hle
        · left; rw [h]; exact max_eq_left hle
      · right; right; exact h

theorem findGlobalTimeRange_eq {pr : ParseResult} {first last : Nat}
    (hfr : ∀ f ∈ frameMillis pr, first ≤ f.1 ∧ f.2 ≤ last)
    (hstart : ∃ f ∈ frameMillis pr, f.1 = first) (hend : ∃ f ∈ frameMillis pr, f.2 = last)
    (hle : first ≤ last) (hlast : last < U32) :
    findGlobalTimeRange pr = last - first := by
  obtain ⟨⟨h1, h2⟩, h3, ⟨h4, h5⟩, h6⟩ := foldl_min_max (frameMillis pr) (UINT32_MAX, 0)
  obtain ⟨fs, hfs, hfse⟩ := hstart
  obtain ⟨fe, hfe, hfee⟩ := hend
  have hA : ((frameMillis pr).foldl
      (fun (g : Nat × Nat) (f : Nat × Nat) => (min g.1 f.1, max g.2 f.2)) (UINT32_MAX, 0)).1
      = first := by
    have := h2 fs hfs
    rcases h3 with h | ⟨f, hf, h⟩
    · have h : _ = 2 ^ 32 - 1 := h
      have hlast : last < 2 ^ 32 := hlast
      have := (hfr fe hfe).1
      have := (hfr fs hfs).2
      omega
    · have := (hfr f hf).1
      omega
  have hB : ((frameMillis pr).foldl
      (fun (g : Nat × Nat) (f : Nat × Nat) => (min g.1 f.1, max g.2 f.2)) (UINT32_MAX, 0)).2
      = last := by
    have := h5 fe hfe
    rcases h6 with h | ⟨f, hf, h⟩
    · have h : _ = 0 := h
      omega
    · have := (hfr f hf).2
      omega
  unfold findGlobalTimeRange
  simp only [hA, hB]
  exact sub32_eq hle hlast

theorem analyze_valid {pr : ParseResult} (hne : frameMillis pr ≠ [])
    (hvalid : ∀ f ∈ frameMillis pr, f.1 < f.2) :
    ∃ r, analyze pr = some r ∧
      r.effectiveMillis = unionMeasure (frameMillis pr) ∧
      r.overlapMillis = timeActiveAtLeast (frameMillis pr) 2 ∧
      r.effectiveMillis + r.gapMillis = r.totalMillis := by
  obtain ⟨e0, es, hs⟩ := sortEvents_buildEvents_ne_nil hne
  obtain ⟨h1, h2, h3, h4, h5, h6, h7, h8⟩ := sweep_valid (frameMillis_lt pr) hvalid hs
  have hle : e0.1 ≤ (sweep e0.1 (e0 :: es)).lastTime := by
    obtain ⟨f, hf, hfe⟩ := h5
    have := h4 f hf
    have := hvalid f hf
    omega
  have htot := findGlobalTimeRange_eq h4 h5 h6 hle h7
  refine ⟨_, analyze_of_events (clips_ne_nil_of_frameMillis pr hne) hs, h1, ?_, ?_⟩
  · show add32 0 _ = _
    rw [add32_eq (by omega), zero_add, h2]
    rfl
  · show (sweep e0.1 (e0 :: es)).coveredTime + add32 0 (sweep e0.1 (e0 :: es)).gapMillis =
      findGlobalTimeRange pr
    rw [add32_eq (by omega), zero_add, h3, htot]

theorem unionMeasure_nil : unionMeasure [] = 0 := by
  simp [unionMeasure, coveredAt]


theorem countP_split {α : Type} (p q r : α → Bool) (l : List α)
    (h : ∀ x, p x = true ↔ (q x = true ∨ r x = true)) (hqr : ∀ x, q x = true → r x = false) :
    l.countP p = l.countP q + l.countP r := by
  induction l with
  | nil => rfl
  | cons x xs ih =>
    simp only [List.countP_cons, ih]
    have h1 := h x
    have h2 := hqr x
    cases hp : p x <;> cases hq : q x <;> cases hr : r x <;> simp_all <;> omega

theorem unionMeasure_eq_timeActive (frames : List (Nat × Nat)) :
    unionMeasure frames = timeActiveAtLeast frames 1 := by
  unfold unionMeasure timeActiveAtLeast
  apply List.countP_congr
  intro t _
  rw [decide_eq_true_eq, ← activeAt_pos_iff]
  omega

theorem timeActive_split (frames : List (Nat × Nat)) :
    timeActiveAtLeast frames 1 = timeActiveExactly frames 1 + timeActiveAtLeast frames 2 := by
  unfold timeActiveAtLeast timeActiveExactly
  apply countP_split
  · intro t
    simp only [decide_eq_true_eq]
    omega
  · intro t
    simp only [decide_eq_true_eq, decide_eq_false_iff_not]
    omega

/-- C1.  For every `ParseResult` with at least one timeframe, in which every timeframe has
`endTime > startTime` and no two timeframes overlap in time, `analyze` returns an analysis with
`effectiveMillis + gapMillis == totalMillis`.  (The proof does not use the third hypothesis.) -/
theorem analyze_effective_add_gap_eq_total (pr : ParseResult) (hne : frameMillis pr ≠ [])
    (hvalid : ∀ f ∈ frameMillis pr, f.1 < f.2)
    (_hdisjoint : (frameMillis pr).Pairwise (fun f g => f.2 ≤ g.1 ∨ g.2 ≤ f.1)) :
    ∃ r, analyze pr = some r ∧ r.effectiveMillis + r.gapMillis = r.totalMillis := by
  obtain ⟨r, hr, -, -, h⟩ := analyze_valid hne hvalid
  exact ⟨r, hr, h⟩

/-- C1 at the frames `[0, 1000]` and `[2000, 3000]`. -/
theorem analyze_effective_add_gap_eq_total_witness :
    ∃ r, analyze sampleDisjoint = some r ∧ r.effectiveMillis + r.gapMillis = r.totalMillis :=
  analyze_effective_add_gap_eq_total sampleDisjoint (by decide) (by decide) (by decide)

/-- C4.  For every `ParseResult` whose timeframes all have `endTime > startTime`, the
`effectiveMillis` returned by `analyze` is the measure of the union of the frame intervals; and
`analyze` does return an analysis whenever the result has no clip or has a timeframe. -/
theorem analyze_effective_eq_unionMeasure (pr : ParseResult)
    (hvalid : ∀ f ∈ frameMillis pr, f.1 < f.2) :
    (∀ r, analyze pr = some r → r.effectiveMillis = unionMeasure (frameMillis pr)) ∧
    ((pr.clips = [] ∨ frameMillis pr ≠ []) → ∃ r, analyze pr = some r) := by
  by_cases hne : frameMillis pr = []
  · constructor
    · intro r hr
      rw [hne, unionMeasure_nil]
      cases hc : pr.clips with
      | nil =>
        simp only [analyze, hc, List.isEmpty_nil, if_true, Option.some.injEq] at hr
        rw [← hr]
        rfl
      | cons c cs =>
        simp [analyze, hc, analyzeTimeframes, hne, buildEvents, sortEvents] at hr
    · rintro (hc | h)
      · exact ⟨DurationAnalysis.zero, by simp [analyze, hc]⟩
      · exact absurd hne h
  · obtain ⟨r, hr, h, -, -⟩ := analyze_valid hne hvalid
    constructor
    · intro r2 hr2
      rw [hr] at hr2
      cases hr2
      exact h
    · intro _
      exact ⟨r, hr⟩

/-- C4 at the frames `[0, 1000]`, `[500, 1500]` and `[2000, 2500]`. -/
theorem analyze_effective_eq_unionMeasure_witness :
    (∀ r, analyze sampleOverlapThenGap = some r →
      r.effectiveMillis = unionMeasure (frameMillis sampleOverlapThenGap)) ∧
    ((sampleOverlapThenGap.clips = [] ∨ frameMillis sampleOverlapThenGap ≠ []) →
      ∃ r, analyze sampleOverlapThenGap = some r) :=
  analyze_effective_eq_unionMeasure sampleOverlapThenGap (by decide)

/-- C5, as stated, fails: for the frames `[0, 1000]` and `[500, 1500]` the time `[500, 1000]` on
which both frames are active is part of `effectiveMillis`, which is 1500 and not 1000. -/
theorem analyze_effective_not_only_single :
    (analyze sampleOverlappingClips).map (fun r => (r.effectiveMillis, r.overlapMillis)) =
      some (1500, 500) ∧
    ¬ ∃ r, analyze sampleOverlappingClips = some r ∧ r.effectiveMillis = 1000 := by
  have h : (analyze sampleOverlappingClips).map (fun r => (r.effectiveMillis, r.overlapMillis)) =
      some (1500, 500) := by decide
  refine ⟨h, ?_⟩
  rintro ⟨r, hr, h1000⟩
  rw [hr] at h
  simp only [Option.map_some', Option.some.injEq, Prod.mk.injEq] at h
  omega

/-- C5, amended.  For every `ParseResult` with at least one timeframe whose timeframes all have
`endTime > startTime`, `effectiveMillis` is the time on which at least one timeframe is active
and `overlapMillis` the time on which two or more are active: the latter is counted in
`overlapMillis` and is also part of `effectiveMillis`, which is the time with exactly one active
timeframe plus `overlapMillis`. -/
theorem analyze_effective_includes_overlap (pr : ParseResult) (hne : frameMillis pr ≠ [])
    (hvalid : ∀ f ∈ frameMillis pr, f.1 < f.2) :
    ∃ r, analyze pr = some r ∧
      r.effectiveMillis = timeActiveAtLeast (frameMillis pr) 1 ∧
      r.overlapMillis = timeActiveAtLeast (frameMillis pr) 2 ∧
      r.effectiveMillis = timeActiveExactly (frameMillis pr) 1 + r.overlapMillis := by
  obtain ⟨r, hr, h1, h2, -⟩ := analyze_valid hne hvalid
  refine ⟨r, hr, ?_, h2, ?_⟩
  · rw [h1, unionMeasure_eq_timeActive]
  · rw [h1, h2, unionMeasure_eq_timeActive, timeActive_split]

/-- C5, amended, at the frames `[0, 1000]` and `[500, 1500]`. -/
theorem analyze_effective_includes_overlap_witness :
    ∃ r, analyze sampleOverlapping = some r ∧
      r.effectiveMillis = timeActiveAtLeast (frameMillis sampleOverlapping) 1 ∧
      r.overlapMillis = timeActiveAtLeast (frameMillis sampleOverlapping) 2 ∧
      r.effectiveMillis = timeActiveExactly (frameMillis sampleOverlapping) 1 + r.overlapMillis :=
  analyze_effective_includes_overlap sampleOverlapping (by decide) (by decide)

/-- C6: the code at the frames `[0, 1000]` and `[0, 500]`.  Both frames are active on `[0, 500]`
and `overlapMillis` is 500, but the overlaps list is empty, so its durations sum to 0. -/
theorem analyze_overlap_at_zero_not_listed :
    (analyze sampleOverlapAtZero).map
      (fun r => (r.overlapMillis, r.overlaps, (r.overlaps.map TimeRange.duration).sum)) =
      some (500, [], 0) := by
  decide

theorem sweepStep_currentRange (first : Nat) (s : SweepState) (e : Nat × Int) :
    (sweepStep first s e).currentRange =
      if s.activeFrames > 1 then
        (if s.currentRange.startMillis = 0 then { s.currentRange with startMillis := s.lastTime }
         else s.currentRange)
      else if s.activeFrames = 1 ∧ s.currentRange.startMillis > 0 then ⟨0, 0⟩
      else s.currentRange := by
  unfold sweepStep
  split_ifs <;> rfl

theorem buildEvents_eq_flatMap (frames : List (Nat × Nat)) :
    buildEvents frames = frames.flatMap (fun f => [((f.1, 1) : Nat × Int), (f.2, -1)]) := by
  induction frames with
  | nil => rfl
  | cons f fs ih => simp [buildEvents, ih]

theorem buildEvents_perm {l₁ l₂ : List (Nat × Nat)} (h : l₁.Perm l₂) :
    (buildEvents l₁).Perm (buildEvents l₂) := by
  rw [buildEvents_eq_flatMap, buildEvents_eq_flatMap]
  exact h.flatMap_right _

theorem chainFrames_events_chain :
    ∀ (ts : List Nat) (t0 : Nat), List.Chain (fun a b => a < b) t0 ts →
      List.Chain evLe (t0, -1) (buildEvents (chainFrames t0 ts)) := by
  intro ts
  induction ts with
  | nil => intro t0 _; exact List.Chain.nil
  | cons t1 rest ih =>
    intro t0 h
    rw [List.chain_cons] at h
    simp only [chainFrames, buildEvents]
    refine List.Chain.cons ?_ (List.Chain.cons ?_ (ih t1 h.2))
    · right; exact ⟨rfl, by norm_num⟩
    · left; exact h.1

theorem chainFrames_events_sorted {ts : List Nat} {t0 : Nat}
    (h : List.Chain (fun a b => a < b) t0 ts) :
    List.Sorted evLe (buildEvents (chainFrames t0 ts)) :=
  (List.pairwise_cons.1 (List.chain_iff_pairwise.1 (chainFrames_events_chain ts t0 h))).2

theorem chainFrames_valid :
    ∀ (ts : List Nat) (t0 : Nat), List.Chain (fun a b => a < b) t0 ts →
      ∀ f ∈ chainFrames t0 ts, f.1 < f.2 := by
  intro ts
  induction ts with
  | nil => intro t0 _ f hf; cases hf
  | cons t1 rest ih =>
    intro t0 h f hf
    rw [List.chain_cons] at h
    rcases List.mem_cons.1 hf with rfl | hf
    · exact h.1
    · exact ih t1 h.2 f hf

theorem chain_getLast_ge :
    ∀ (ts : List Nat) (t0 : Nat), List.Chain (fun a b => a < b) t0 ts →
      t0 ≤ (t0 :: ts).getLast (List.cons_ne_nil _ _) := by
  intro ts
  induction ts with
  | nil => intro t0 _; simp
  | cons t1 rest ih =>
    intro t0 h
    rw [List.chain_cons] at h
    have := ih t1 h.2
    rw [List.getLast_cons (List.cons_ne_nil _ _)]
    omega

/-- The sweep over the events of a chain of frames, entered with no active frame at the start
of the chain. -/
theorem sweep_foldl_chain (first : Nat) :
    ∀ (ts : List Nat) (t0 : Nat) (s : SweepState),
      List.Chain (fun a b => a < b) t0 ts → (∀ t ∈ ts, t < U32) →
      s.activeFrames = 0 → s.lastTime = t0 → s.currentRange.startMillis = 0 →
      s.coveredTime ≤ t0 → s.gapMillis = 0 → s.overlapMillis = 0 →
      ((buildEvents (chainFrames t0 ts)).foldl (sweepStep first) s).coveredTime =
        s.coveredTime + ((t0 :: ts).getLast (List.cons_ne_nil _ _) - t0) ∧
      ((buildEvents (chainFrames t0 ts)).foldl (sweepStep first) s).gapMillis = 0 ∧
      ((buildEvents (chainFrames t0 ts)).foldl (sweepStep first) s).overlapMillis = 0 := by
  intro ts
  induction ts with
  | nil =>
    intro t0 s _ _ _ _ _ _ hg ho
    simp [chainFrames, buildEvents, hg, ho]
  | cons t1 rest ih =>
    intro t0 s hch hlt ha hl hc hcov hg ho
    rw [List.chain_cons] at hch
    have ht1 : t1 < U32 := hlt t1 (List.mem_cons_self _ _)
    have hsub0 : sub32 t0 t0 = 0 := by rw [sub32_eq (le_refl _) (by omega)]; omega
    have hsub1 : sub32 t1 t0 = t1 - t0 := sub32_eq (by omega) ht1
    have hadd0 : add32 0 0 = 0 := rfl
    -- the state after the start event of the frame `[t0, t1]`
    have a1 : (sweepStep first s (t0, 1)).activeFrames = 1 := by
      rw [sweepStep_activeFrames, ha]; rfl
    have l1 : (sweepStep first s (t0, 1)).lastTime = t0 := rfl
    have c1 : (sweepStep first s (t0, 1)).coveredTime = s.coveredTime := by
      rw [sweepStep_coveredTime, if_neg (by omega)]
    have o1 : (sweepStep first s (t0, 1)).overlapMillis = 0 := by
      rw [sweepStep_overlapMillis, if_neg (by omega), ho]
    have g1 : (sweepStep first s (t0, 1)).gapMillis = 0 := by
      rw [sweepStep_gapMillis, hg, hl]
      split_ifs
      · show add32 0 (sub32 t0 t0) = 0
        rw [hsub0]; rfl
      · rfl
    have r1 : (sweepStep first s (t0, 1)).currentRange.startMillis = 0 := by
      rw [sweepStep_currentRange, if_neg (by omega), if_neg (by omega), hc]
    -- the state after its end event
    have a2 : (sweepStep first (sweepStep first s (t0, 1)) (t1, -1)).activeFrames = 0 := by
      rw [sweepStep_activeFrames, a1]; rfl
    have l2 : (sweepStep first (sweepStep first s (t0, 1)) (t1, -1)).lastTime = t1 := rfl
    have c2 : (sweepStep first (sweepStep first s (t0, 1)) (t1, -1)).coveredTime =
        s.coveredTime + (t1 - t0) := by
      rw [sweepStep_coveredTime, if_pos (by omega), c1, l1]
      show add32 s.coveredTime (sub32 t1 t0) = _
      rw [hsub1, add32_eq (by omega)]
    have o2 : (sweepStep first (sweepStep first s (t0, 1)) (t1, -1)).overlapMillis = 0 := by
      rw [sweepStep_overlapMillis, if_neg (by omega), o1]
    have g2 : (sweepStep first (sweepStep first s (t0, 1)) (t1, -1)).gapMillis = 0 := by
      rw [sweepStep_gapMillis, if_neg (by omega), g1]
    have r2 : (sweepStep first (sweepStep first s (t0, 1)) (t1, -1)).currentRange.startMillis
        = 0 := by
      rw [sweepStep_currentRange, if_neg (by omega), if_neg (by omega), r1]
    obtain ⟨h1, h2, h3⟩ := ih t1 _ hch.2 (fun t ht => hlt t (List.mem_cons_of_mem _ ht))
      a2 l2 r2 (by rw [c2]; omega) g2 o2
    simp only [chainFrames, buildEvents, List.foldl_cons]
    refine ⟨?_, h2, h3⟩
    rw [h1, c2, List.getLast_cons (List.cons_ne_nil _ _)]
    have := chain_getLast_ge rest t1 hch.2
    omega


theorem chainFrames_mem_end :
    ∀ (ts : List Nat) (t0 : Nat), ∀ t ∈ ts, ∃ f ∈ chainFrames t0 ts, f.2 = t := by
  intro ts
  induction ts with
  | nil => intro t0 t ht; cases ht
  | cons t1 rest ih =>
    intro t0 t ht
    rcases List.mem_cons.1 ht with rfl | ht
    · exact ⟨(t0, t), List.mem_cons_self _ _, rfl⟩
    · obtain ⟨f, hf, h⟩ := ih t1 t ht
      exact ⟨f, List.mem_cons_of_mem _ hf, h⟩

/-- C3.  For every non-empty chain of timeframes `[t0,t1],[t1,t2],…,[t(n-1),tn]` with
`t0 < t1 < … < tn`, in whatever order and clips the frames are listed, `analyze` returns
`gapMillis == 0`, `overlapMillis == 0`, `effectiveMillis == totalMillis == tn - t0` and
`utilizationPercent == 100`. -/
theorem analyze_contiguous_chain (pr : ParseResult) (t0 : Nat) (ts : List Nat) (hne : ts ≠ [])
    (hinc : List.Chain (fun a b => a < b) t0 ts)
    (hfr : (frameMillis pr).Perm (chainFrames t0 ts)) :
    ∃ r, analyze pr = some r ∧ r.gapMillis = 0 ∧ r.overlapMillis = 0 ∧
      r.effectiveMillis = ts.getLast hne - t0 ∧ r.totalMillis = ts.getLast hne - t0 ∧
      r.utilizationPercent = 100 := by
  obtain ⟨t1, rest, rfl⟩ := List.exists_cons_of_ne_nil hne
  have hfne : frameMillis pr ≠ [] := by
    intro h
    rw [h] at hfr
    have := hfr.length_eq
    simp [chainFrames] at this
  have hvalid : ∀ f ∈ frameMillis pr, f.1 < f.2 := fun f hf =>
    chainFrames_valid _ _ hinc f (hfr.mem_iff.1 hf)
  have hlt : ∀ t ∈ t1 :: rest, t < U32 := fun t ht => by
    obtain ⟨f, hf, h⟩ := chainFrames_mem_end (t1 :: rest) t0 t ht
    rw [← h]
    exact (frameMillis_lt pr f (hfr.mem_iff.2 hf)).2
  have hs : sortEvents (buildEvents (frameMillis pr)) =
      (t0, 1) :: (t1, -1) :: buildEvents (chainFrames t1 rest) :=
    sortEvents_eq_of_perm (buildEvents_perm hfr) (chainFrames_events_sorted hinc)
  have hr := analyze_of_events (clips_ne_nil_of_frameMillis pr hfne) hs
  obtain ⟨h1, h2, h3⟩ := sweep_foldl_chain t0 (t1 :: rest) t0 (sweepInit t0) hinc hlt rfl rfl rfl
    (Nat.zero_le _) rfl rfl
  have hsw : sweep t0 ((t0, 1) :: (t1, -1) :: buildEvents (chainFrames t1 rest)) =
      (buildEvents (chainFrames t0 (t1 :: rest))).foldl (sweepStep t0) (sweepInit t0) := rfl
  have hlast : (t0 :: t1 :: rest).getLast (List.cons_ne_nil _ _) = (t1 :: rest).getLast hne :=
    List.getLast_cons hne
  rw [hlast] at h1
  have hcov0 : (sweepInit t0).coveredTime = 0 := rfl
  rw [hcov0, zero_add] at h1
  obtain ⟨r, hr2, -, -, hsum⟩ := analyze_valid hfne hvalid
  have hpos : t0 < (t1 :: rest).getLast hne := by
    have := chain_getLast_ge rest t1 (List.chain_cons.1 hinc).2
    have := (List.chain_cons.1 hinc).1
    rw [hlast] at *
    omega
  rw [hr] at hr2
  cases hr2
  have hsum2 : (t1 :: rest).getLast hne - t0 = findGlobalTimeRange pr := by
    have h := hsum
    simp only [hsw, h1, h2] at h
    have hgap : add32 0 0 = 0 := rfl
    rw [hgap, add_zero] at h
    exact h
  refine ⟨_, hr, ?_, ?_, ?_, ?_, ?_⟩
  · show add32 0 (sweep t0 _).gapMillis = 0
    rw [hsw, h2]
    rfl
  · show add32 0 (sweep t0 _).overlapMillis = 0
    rw [hsw, h3]
    rfl
  · show (sweep t0 _).coveredTime = _
    rw [hsw, h1]
  · exact hsum2.symm
  · show (if findGlobalTimeRange pr > 0 then
      ((sweep t0 ((t0, 1) :: (t1, -1) :: buildEvents (chainFrames t1 rest))).coveredTime : ℚ) /
        (findGlobalTimeRange pr : ℚ) * 100 else 0) = 100
    rw [hsw, h1, ← hsum2, if_pos (by omega)]
    have hne0 : (((t1 :: rest).getLast hne - t0 : Nat) : ℚ) ≠ 0 := by
      have : 0 < (t1 :: rest).getLast hne - t0 := by omega
      exact_mod_cast this.ne'
    rw [div_self hne0, one_mul]

/-- C3 at four contiguous frames spanning `[0, 10000]`. -/
theorem analyze_contiguous_chain_witness :
    ∃ r, analyze sampleContiguous = some r ∧ r.gapMillis = 0 ∧ r.overlapMillis = 0 ∧
      r.effectiveMillis = 10000 ∧ r.totalMillis = 10000 ∧ r.utilizationPercent = 100 :=
  analyze_contiguous_chain sampleContiguous 0 [2500, 4000, 9000, 10000] (by decide)
    (by simp) (by decide)

/-! ## Timing validation -/

theorem clipWindow_some :
    ∀ (frames : List TimeFrame) (w : Nat × Nat),
      (∀ f ∈ frames, f.startTime.toMillis < f.endTime.toMillis) →
      ∃ m M, clipWindow frames w = some (m, M) ∧
        (∀ f ∈ frames, m ≤ f.startTime.toMillis ∧ f.endTime.toMillis ≤ M) ∧
        (m = w.1 ∨ ∃ f ∈ frames, m = f.startTime.toMillis) ∧
        (M = w.2 ∨ ∃ f ∈ frames, M = f.endTime.toMillis) ∧ m ≤ w.1 ∧ w.2 ≤ M := by
  intro frames
  induction frames with
  | nil =>
    intro w _
    exact ⟨w.1, w.2, rfl, by simp, Or.inl rfl, Or.inl rfl, le_refl _, le_refl _⟩
  | cons f fs ih =>
    intro w hvalid
    have hf := hvalid f (List.mem_cons_self _ _)
    obtain ⟨m, M, h, h1, h2, h3, h4, h5⟩ :=
      ih (min w.1 f.startTime.toMillis, max w.2 f.endTime.toMillis)
        (fun x hx => hvalid x (List.mem_cons_of_mem _ hx))
    have h4 : m ≤ min w.1 f.startTime.toMillis := h4
    have h5 : max w.2 f.endTime.toMillis ≤ M := h5
    refine ⟨m, M, ?_, ?_, ?_, ?_, le_trans h4 (min_le_left _ _), le_trans (le_max_left _ _) h5⟩
    · simp only [clipWindow]
      rw [if_neg (by omega)]
      exact h
    · intro x hx
      rcases List.mem_cons.1 hx with rfl | hx
      · exact ⟨le_trans h4 (min_le_right _ _), le_trans (le_max_right _ _) h5⟩
      · exact h1 x hx
    · rcases h2 with h2 | ⟨x, hx, h2⟩
      · have h2 : m = min w.1 f.startTime.toMillis := h2
        rcases Nat.le_total w.1 f.startTime.toMillis with hle | hle
        · left; rw [h2]; exact min_eq_left hle
        · right; exact ⟨f, List.mem_cons_self _ _, by rw [h2]; exact min_eq_right hle⟩
      · right; exact ⟨x, List.mem_cons_of_mem _ hx, h2⟩
    · rcases h3 with h3 | ⟨x, hx, h3⟩
      · have h3 : M = max w.2 f.endTime.toMillis := h3
        rcases Nat.le_total w.2 f.endTime.toMillis with hle | hle
        · right; exact ⟨f, List.mem_cons_self _ _, by rw [h3]; exact max_eq_right hle⟩
        · left; rw [h3]; exact max_eq_left hle
      · right; exact ⟨x, List.mem_cons_of_mem _ hx, h3⟩

theorem clipWindow_valid :
    ∀ (frames : List TimeFrame) (w r : Nat × Nat), clipWindow frames w = some r →
      ∀ f ∈ frames, f.startTime.toMillis < f.endTime.toMillis := by
  intro frames
  induction frames with
  | nil => intro w r _ f hf; cases hf
  | cons x xs ih =>
    intro w r h f hf
    simp only [clipWindow] at h
    split_ifs at h with hx
    rcases List.mem_cons.1 hf with rfl | hf
    · omega
    · exact ih _ r h f hf

theorem validateTimeframesLoop_valid :
    ∀ (clips : List ClipData) (msg : String),
      (∀ c ∈ clips, ∀ f ∈ c.timeframes, f.startTime.toMillis < f.endTime.toMillis) →
      validateTimeframesLoop clips msg = (true, msg) := by
  intro clips
  induction clips with
  | nil => intro msg _; rfl
  | cons c cs ih =>
    intro msg h
    simp only [validateTimeframesLoop]
    rw [if_pos]
    · exact ih msg (fun x hx => h x (List.mem_cons_of_mem _ hx))
    · rw [List.all_eq_true]
      intro f hf
      exact decide_eq_true (h c (List.mem_cons_self _ _) f hf)


theorem validateClipSequenceLoop_pass {clip : ClipData} {rest : List ClipData}
    {lastEnd m M : Nat} {k : Int} (msg : String) (hnum : clip.number = k)
    (hw : clipWindow clip.timeframes (UINT32_MAX, 0) = some (m, M))
    (hcheck : ¬ (lastEnd > 0 ∧ m < lastEnd)) :
    validateClipSequenceLoop (clip :: rest) lastEnd k msg =
      validateClipSequenceLoop rest M (k + 1) msg := by
  simp only [validateClipSequenceLoop, hw]
  rw [if_neg (by simpa using hnum), if_neg hcheck]

/-- The overlap check of `validateClipSequence` passes for a clip that starts at or after
`lastEnd`. -/
theorem overlap_check_passes {frames : List TimeFrame} {lastEnd m : Nat}
    (hlast : lastEnd < U32)
    (hprev : lastEnd = 0 ∨ ∀ g ∈ frames, lastEnd ≤ g.startTime.toMillis)
    (hm : m = (UINT32_MAX, 0).1 ∨ ∃ f ∈ frames, m = f.startTime.toMillis) :
    ¬ (lastEnd > 0 ∧ m < lastEnd) := by
  rintro ⟨hpos, hlt⟩
  rcases hprev with h0 | hprev
  · omega
  · rcases hm with hm | ⟨f, hf, hm⟩
    · have hm : m = 2 ^ 32 - 1 := hm
      have hlast : lastEnd < 2 ^ 32 := hlast
      omega
    · have := hprev f hf
      omega

/-- The value of `clipEndTime` after a clip is zero or the end of one of its frames, hence
below `2 ^ 32`, and the next clip starts at or after it when the clip precedes the next one. -/
theorem window_end_facts {c : ClipData} {M : Nat}
    (hM : M = (UINT32_MAX, 0).2 ∨ ∃ f ∈ c.timeframes, M = f.endTime.toMillis) :
    M < U32 ∧ ∀ d, clipPrecedes c d → (M = 0 ∨ ∀ g ∈ d.timeframes, M ≤ g.startTime.toMillis) := by
  rcases hM with h | ⟨f, hf, h⟩
  · have h : M = 0 := h
    exact ⟨by rw [h]; exact Nat.pos_of_ne_zero (by decide), fun _ _ => Or.inl h⟩
  · exact ⟨by rw [h]; exact toMillis_lt _, fun d hd => Or.inr (fun g hg => by
      rw [h]; exact hd f hf g hg)⟩

theorem validateClipSequenceLoop_accepts :
    ∀ (clips : List ClipData) (lastEnd : Nat) (k : Int) (msg : String),
      (∀ c ∈ clips, ∀ f ∈ c.timeframes, f.startTime.toMillis < f.endTime.toMillis) →
      clips.Chain' clipPrecedes → lastEnd < U32 →
      (lastEnd = 0 ∨ ∀ c ∈ clips.head?, ∀ g ∈ c.timeframes, lastEnd ≤ g.startTime.toMillis) →
      numberedFrom k clips →
      validateClipSequenceLoop clips lastEnd k msg = (true, msg) := by
  intro clips
  induction clips with
  | nil => intro _ _ _ _ _ _ _ _; rfl
  | cons c cs ih =>
    intro lastEnd k msg hvalid hchain hlast hprev hnum
    obtain ⟨m, M, hw, -, hm, hM, -, -⟩ := clipWindow_some c.timeframes (UINT32_MAX, 0)
      (hvalid c (List.mem_cons_self _ _))
    have hprev2 : lastEnd = 0 ∨ ∀ g ∈ c.timeframes, lastEnd ≤ g.startTime.toMillis := by
      rcases hprev with h | h
      · exact Or.inl h
      · exact Or.inr (h c (by simp))
    rw [validateClipSequenceLoop_pass msg hnum.1 hw (overlap_check_passes hlast hprev2 hm)]
    obtain ⟨hMlt, hMnext⟩ := window_end_facts hM
    refine ih M (k + 1) msg (fun x hx => hvalid x (List.mem_cons_of_mem _ hx))
      hchain.tail hMlt ?_ hnum.2
    cases cs with
    | nil => right; intro d hd; simp at hd
    | cons d ds =>
      rcases hMnext d (List.chain'_cons.1 hchain).1 with h | h
      · exact Or.inl h
      · right
        intro x hx
        simp only [List.head?_cons, Option.mem_def, Option.some.injEq] at hx
        rw [← hx]
        exact h

theorem validateClipSequenceLoop_numbering :
    ∀ (clips : List ClipData) (lastEnd : Nat) (k : Int) (msg : String),
      (∀ c ∈ clips, ∀ f ∈ c.timeframes, f.startTime.toMillis < f.endTime.toMillis) →
      clips.Chain' clipPrecedes → lastEnd < U32 →
      (lastEnd = 0 ∨ ∀ c ∈ clips.head?, ∀ g ∈ c.timeframes, lastEnd ≤ g.startTime.toMillis) →
      ¬ numberedFrom k clips →
      validateClipSequenceLoop clips lastEnd k msg =
        (false, "Invalid clip numbering sequence") := by
  intro clips
  induction clips with
  | nil => intro _ k _ _ _ _ _ hnum; exact absurd trivial hnum
  | cons c cs ih =>
    intro lastEnd k msg hvalid hchain hlast hprev hnum
    by_cases hk : c.number = k
    · obtain ⟨m, M, hw, -, hm, hM, -, -⟩ := clipWindow_some c.timeframes (UINT32_MAX, 0)
        (hvalid c (List.mem_cons_self _ _))
      have hprev2 : lastEnd = 0 ∨ ∀ g ∈ c.timeframes, lastEnd ≤ g.startTime.toMillis := by
        rcases hprev with h | h
        · exact Or.inl h
        · exact Or.inr (h c (by simp))
      rw [validateClipSequenceLoop_pass msg hk hw (overlap_check_passes hlast hprev2 hm)]
      obtain ⟨hMlt, hMnext⟩ := window_end_facts hM
      refine ih M (k + 1) msg (fun x hx => hvalid x (List.mem_cons_of_mem _ hx))
        hchain.tail hMlt ?_ (fun h => hnum ⟨hk, h⟩)
      cases cs with
      | nil => right; intro d hd; simp at hd
      | cons d ds =>
        rcases hMnext d (List.chain'_cons.1 hchain).1 with h | h
        · exact Or.inl h
        · right
          intro x hx
          simp only [List.head?_cons, Option.mem_def, Option.some.injEq] at hx
          rw [← hx]
          exact h
    · simp only [validateClipSequenceLoop]
      rw [if_pos (by simpa using hk)]


theorem validateClipSequenceLoop_overlap :
    ∀ (pre : List ClipData) (c d : ClipData) (post : List ClipData) (lastEnd : Nat) (k : Int)
      (msg : String),
      (∀ x ∈ pre ++ c :: d :: post, ∀ f ∈ x.timeframes,
        f.startTime.toMillis < f.endTime.toMillis) →
      (pre ++ [c]).Chain' clipPrecedes → lastEnd < U32 →
      (lastEnd = 0 ∨
        ∀ x ∈ (pre ++ [c]).head?, ∀ g ∈ x.timeframes, lastEnd ≤ g.startTime.toMillis) →
      numberedFrom k (pre ++ c :: d :: post) → ¬ clipPrecedes c d →
      validateClipSequenceLoop (pre ++ c :: d :: post) lastEnd k msg =
        (false, "Clip " ++ toString d.number ++ " overlaps with previous clip") := by
  intro pre
  induction pre with
  | nil =>
    intro c d post lastEnd k msg hvalid _ hlast hprev hnum hnot
    simp only [List.nil_append] at hvalid hprev hnum ⊢
    obtain ⟨m, M, hw, hall, hm, -, -, -⟩ := clipWindow_some c.timeframes (UINT32_MAX, 0)
      (hvalid c (List.mem_cons_self _ _))
    have hprev2 : lastEnd = 0 ∨ ∀ g ∈ c.timeframes, lastEnd ≤ g.startTime.toMillis := by
      rcases hprev with h | h
      · exact Or.inl h
      · exact Or.inr (h c (by simp))
    rw [validateClipSequenceLoop_pass msg hnum.1 hw (overlap_check_passes hlast hprev2 hm)]
    obtain ⟨m2, M2, hw2, hall2, -, -, -, -⟩ := clipWindow_some d.timeframes (UINT32_MAX, 0)
      (hvalid d (List.mem_cons_of_mem _ (List.mem_cons_self _ _)))
    have hcheck : M > 0 ∧ m2 < M := by
      unfold clipPrecedes at hnot
      push_neg at hnot
      obtain ⟨f, hf, g, hg, hlt⟩ := hnot
      have := hall f hf
      have := hall2 g hg
      omega
    simp only [validateClipSequenceLoop, hw2]
    rw [if_neg (by simpa using hnum.2.1), if_pos hcheck]
  | cons p pre ih =>
    intro c d post lastEnd k msg hvalid hchain hlast hprev hnum hnot
    simp only [List.cons_append] at hvalid hchain hprev hnum ⊢
    obtain ⟨m, M, hw, -, hm, hM, -, -⟩ := clipWindow_some p.timeframes (UINT32_MAX, 0)
      (hvalid p (List.mem_cons_self _ _))
    have hprev2 : lastEnd = 0 ∨ ∀ g ∈ p.timeframes, lastEnd ≤ g.startTime.toMillis := by
      rcases hprev with h | h
      · exact Or.inl h
      · exact Or.inr (h p (by simp))
    rw [validateClipSequenceLoop_pass msg hnum.1 hw (overlap_check_passes hlast hprev2 hm)]
    obtain ⟨hMlt, hMnext⟩ := window_end_facts hM
    refine ih c d post M (k + 1) msg (fun x hx => hvalid x (List.mem_cons_of_mem _ hx))
      hchain.tail hMlt ?_ hnum.2 hnot
    cases hpc : pre ++ [c] with
    | nil => simp at hpc
    | cons y ys =>
      rw [hpc] at hchain
      rcases hMnext y (List.chain'_cons.1 hchain).1 with h | h
      · exact Or.inl h
      · right
        intro x hx
        simp only [List.head?_cons, Option.mem_def, Option.some.injEq] at hx
        rw [← hx]
        exact h

theorem validateClipSequenceLoop_true :
    ∀ (clips : List ClipData) (lastEnd : Nat) (k : Int) (msg : String),
      (validateClipSequenceLoop clips lastEnd k msg).1 = true →
      (lastEnd = 0 ∨ ∀ c ∈ clips.head?, ∀ g ∈ c.timeframes, lastEnd ≤ g.startTime.toMillis) ∧
      clips.Chain' clipPrecedes ∧ numberedFrom k clips ∧
      ∀ c ∈ clips, ∀ f ∈ c.timeframes, f.startTime.toMillis < f.endTime.toMillis := by
  intro clips
  induction clips with
  | nil =>
    intro lastEnd k msg _
    exact ⟨Or.inr (by simp), List.chain'_nil, trivial, by simp⟩
  | cons c cs ih =>
    intro lastEnd k msg h
    simp only [validateClipSequenceLoop] at h
    by_cases hk : c.number ≠ k
    · rw [if_pos hk] at h
      cases h
    rw [if_neg hk] at h
    cases hw : clipWindow c.timeframes (UINT32_MAX, 0) with
    | none => rw [hw] at h; cases h
    | some w =>
      obtain ⟨m0, M0⟩ := w
      rw [hw] at h
      simp only at h
      by_cases hcheck : lastEnd > 0 ∧ m0 < lastEnd
      · rw [if_pos hcheck] at h
        cases h
      rw [if_neg hcheck] at h
      have hvc := clipWindow_valid _ _ _ hw
      obtain ⟨m, M, hw', hall, -, -, -, -⟩ := clipWindow_some c.timeframes (UINT32_MAX, 0) hvc
      rw [hw] at hw'
      cases hw'
      obtain ⟨h1, h2, h3, h4⟩ := ih _ _ _ h
      refine ⟨?_, ?_, ⟨by simpa using hk, h3⟩, ?_⟩
      · by_cases h0 : lastEnd = 0
        · exact Or.inl h0
        · right
          intro x hx g hg
          simp only [List.head?_cons, Option.mem_def, Option.some.injEq] at hx
          rw [← hx] at hg
          have := (hall g hg).1
          omega
      · cases cs with
        | nil => exact List.chain'_singleton _
        | cons d ds =>
          refine List.chain'_cons.2 ⟨?_, h2⟩
          intro f hf g hg
          have hfM := (hall f hf).2
          rcases h1 with h1 | h1
          · have := hvc f hf
            omega
          · exact le_trans hfM (h1 d (by simp) g hg)
      · intro x hx
        rcases List.mem_cons.1 hx with rfl | hx
        · exact hvc
        · exact h4 x hx

theorem string_append_ne_empty_left {a : String} (b : String) (h : a.length ≠ 0) :
    a ++ b ≠ "" := by
  intro hab
  have := congrArg String.length hab
  rw [String.length_append] at this
  have h0 : "".length = 0 := rfl
  omega

theorem validateClipSequenceLoop_invalid :
    ∀ (clips : List ClipData) (lastEnd : Nat) (k : Int) (msg : String),
      (∃ c ∈ clips, ∃ f ∈ c.timeframes, f.endTime.toMillis ≤ f.startTime.toMillis) →
      (validateClipSequenceLoop clips lastEnd k msg).1 = false ∧
      (validateClipSequenceLoop clips lastEnd k msg).2 ≠ "" := by
  intro clips lastEnd k msg h
  cases hb : (validateClipSequenceLoop clips lastEnd k msg).1 with
  | true =>
    obtain ⟨c, hc, f, hf, hle⟩ := h
    have := (validateClipSequenceLoop_true clips lastEnd k msg hb).2.2.2 c hc f hf
    omega
  | false =>
    refine ⟨rfl, ?_⟩
    clear h
    induction clips generalizing lastEnd k with
    | nil => simp [validateClipSequenceLoop] at hb
    | cons c cs ih =>
      simp only [validateClipSequenceLoop] at hb ⊢
      split_ifs with hk
      · decide
      · cases hw : clipWindow c.timeframes (UINT32_MAX, 0) with
        | none =>
          exact string_append_ne_empty_left _ (by decide)
        | some w =>
          rw [hw] at hb
          simp only at hb ⊢
          split_ifs with hcheck
          · rw [String.append_assoc]
            exact string_append_ne_empty_left _ (by decide)
          · rw [if_neg hk, if_neg hcheck] at hb
            exact ih _ _ hb


theorem numberedFrom_iff :
    ∀ (clips : List ClipData) (k : Int),
      numberedFrom k clips ↔
        clips.map (fun c => c.number) = (List.range clips.length).map (fun (i : Nat) => (i : Int) + k) := by
  intro clips
  induction clips with
  | nil => intro k; simp [numberedFrom]
  | cons c cs ih =>
    intro k
    simp only [numberedFrom, List.map_cons, List.length_cons, List.range_succ_eq_map,
      List.map_map, ih (k + 1), List.cons.injEq, Nat.cast_zero, zero_add]
    have hfun : ((fun i : Nat => (i : Int) + k) ∘ Nat.succ) = fun i : Nat => (i : Int) + (k + 1) := by
      funext i
      simp only [Function.comp, Nat.succ_eq_add_one, Nat.cast_add, Nat.cast_one]
      ring
    rw [hfun]

theorem validateTiming_eq {pr : ParseResult} (msg : String) (hne : pr.clips ≠ []) :
    validateTiming pr msg =
      if (validateClipSequenceLoop pr.clips 0 1 msg).1 then
        validateTimeframesLoop pr.clips (validateClipSequenceLoop pr.clips 0 1 msg).2
      else validateClipSequenceLoop pr.clips 0 1 msg := by
  cases hc : pr.clips with
  | nil => exact absurd hc hne
  | cons c cs => simp [validateTiming, hc, validateClipSequence, validateTimeframes]

theorem zero_lt_U32 : 0 < U32 := Nat.pos_of_ne_zero (by decide)

/-- C7.  For every non-empty `ParseResult` whose timeframes all have `endTime > startTime` and
whose clip windows do not overlap (each clip lies before the next one), `validateTiming` returns
true if and only if the clip numbers, in list order, are exactly `1, 2, …, N`; when it returns
false the message is "Invalid clip numbering sequence". -/
theorem validateTiming_numbering (pr : ParseResult) (msg : String) (hne : pr.clips ≠ [])
    (hvalid : ∀ c ∈ pr.clips, ∀ f ∈ c.timeframes, f.startTime.toMillis < f.endTime.toMillis)
    (hwin : pr.clips.Chain' clipPrecedes) :
    ((validateTiming pr msg).1 = true ↔
      pr.clips.map (fun c => c.number) =
        (List.range pr.clips.length).map (fun (i : Nat) => (i : Int) + 1)) ∧
    ((validateTiming pr msg).1 = false →
      (validateTiming pr msg).2 = "Invalid clip numbering sequence") := by
  rw [← numberedFrom_iff]
  by_cases hnum : numberedFrom 1 pr.clips
  · have hv : validateTiming pr msg = (true, msg) := by
      rw [validateTiming_eq msg hne, validateClipSequenceLoop_accepts pr.clips 0 1 msg hvalid hwin
        zero_lt_U32 (Or.inl rfl) hnum]
      exact validateTimeframesLoop_valid pr.clips msg hvalid
    rw [hv]
    exact ⟨⟨fun _ => hnum, fun _ => rfl⟩, fun h => by cases h⟩
  · have hv : validateTiming pr msg = (false, "Invalid clip numbering sequence") := by
      rw [validateTiming_eq msg hne, validateClipSequenceLoop_numbering pr.clips 0 1 msg hvalid
        hwin zero_lt_U32 (Or.inl rfl) hnum]
      rfl
    rw [hv]
    exact ⟨⟨fun h => (by cases h), fun h => absurd h hnum⟩, fun _ => rfl⟩

/-- C7 at the numbering `{1, 3}`, which is rejected, next to the numbering `{1, 2, 3}`, which is
accepted. -/
theorem validateTiming_numbering_witness :
    (((validateTiming sampleNumbering13 "").1 = true ↔
      sampleNumbering13.clips.map (fun c => c.number) =
        (List.range sampleNumbering13.clips.length).map (fun (i : Nat) => (i : Int) + 1)) ∧
    ((validateTiming sampleNumbering13 "").1 = false →
      (validateTiming sampleNumbering13 "").2 = "Invalid clip numbering sequence")) ∧
    validateTiming sampleNumbering13 "" = (false, "Invalid clip numbering sequence") ∧
    validateTiming sampleNumbering123 "" = (true, "") :=
  ⟨validateTiming_numbering sampleNumbering13 "" (by decide) (by decide)
    (List.chain'_cons.2 ⟨by unfold clipPrecedes; decide, List.chain'_singleton _⟩),
    by decide, by decide⟩

/-- C8.  For every `ParseResult` with clips numbered `1..N` (`N ≥ 1`), each clip holding at least
one timeframe and every timeframe having `endTime > startTime`, `validateTiming` returns true if
and only if every clip after the first lies after its previous clip (its earliest frame start is
`>=` the previous clip's latest frame end); and the first clip `d` whose earliest frame start is
`<` the latest frame end of its previous clip `c` is rejected with the message
"Clip <number of d> overlaps with previous clip". -/
theorem validateTiming_clip_windows (pr : ParseResult) (msg : String) (hne : pr.clips ≠ [])
    (hnum : pr.clips.map (fun c => c.number) =
      (List.range pr.clips.length).map (fun (i : Nat) => (i : Int) + 1))
    (_hframes : ∀ c ∈ pr.clips, c.timeframes ≠ [])
    (hvalid : ∀ c ∈ pr.clips, ∀ f ∈ c.timeframes, f.startTime.toMillis < f.endTime.toMillis) :
    ((validateTiming pr msg).1 = true ↔ pr.clips.Chain' clipPrecedes) ∧
    (∀ pre c d post, pr.clips = pre ++ c :: d :: post → (pre ++ [c]).Chain' clipPrecedes →
      ¬ clipPrecedes c d →
      validateTiming pr msg =
        (false, "Clip " ++ toString d.number ++ " overlaps with previous clip")) := by
  rw [← numberedFrom_iff] at hnum
  constructor
  · rw [validateTiming_eq msg hne]
    constructor
    · intro h
      cases hb : (validateClipSequenceLoop pr.clips 0 1 msg).1 with
      | true => exact (validateClipSequenceLoop_true pr.clips 0 1 msg hb).2.1
      | false =>
        rw [hb] at h
        simp only [Bool.false_eq_true, if_false] at h
        rw [hb] at h
        cases h
    · intro hwin
      have h := validateClipSequenceLoop_accepts pr.clips 0 1 msg hvalid hwin zero_lt_U32
        (Or.inl rfl) hnum
      rw [h]
      simp only [if_true, validateTimeframesLoop_valid pr.clips msg hvalid]
  · intro pre c d post hsplit hchain hnot
    rw [validateTiming_eq msg hne]
    have h := validateClipSequenceLoop_overlap pre c d post 0 1 msg (hsplit ▸ hvalid) hchain
      zero_lt_U32 (Or.inl rfl) (hsplit ▸ hnum) hnot
    rw [hsplit, h]
    simp

/-- C8 at three clips of which the third starts before the second has ended. -/
theorem validateTiming_clip_windows_witness :
    (((validateTiming sampleClipOverlap "").1 = true ↔
      sampleClipOverlap.clips.Chain' clipPrecedes) ∧
    (∀ pre c d post, sampleClipOverlap.clips = pre ++ c :: d :: post →
      (pre ++ [c]).Chain' clipPrecedes → ¬ clipPrecedes c d →
      validateTiming sampleClipOverlap "" =
        (false, "Clip " ++ toString d.number ++ " overlaps with previous clip"))) ∧
    validateTiming sampleClipOverlap "" = (false, "Clip 3 overlaps with previous clip") :=
  ⟨validateTiming_clip_windows sampleClipOverlap "" (by decide) (by decide) (by decide)
    (by decide), by decide⟩

/-- C9.  `validateTiming` returns false, with a non-empty error message, for every `ParseResult`
that contains at least one timeframe with `endTime <= startTime`, whatever the rest of the input
is. -/
theorem validateTiming_rejects_invalid_frame (pr : ParseResult) (msg : String)
    (h : ∃ c ∈ pr.clips, ∃ f ∈ c.timeframes, f.endTime.toMillis ≤ f.startTime.toMillis) :
    (validateTiming pr msg).1 = false ∧ (validateTiming pr msg).2 ≠ "" := by
  have hne : pr.clips ≠ [] := by
    obtain ⟨c, hc, -⟩ := h
    exact List.ne_nil_of_mem hc
  obtain ⟨h1, h2⟩ := validateClipSequenceLoop_invalid pr.clips 0 1 msg h
  rw [validateTiming_eq msg hne, h1]
  simp only [Bool.false_eq_true, if_false]
  exact ⟨h1, h2⟩

/-- C9 at a result whose second clip holds a frame of zero duration. -/
theorem validateTiming_rejects_invalid_frame_witness :
    ((validateTiming sampleZeroDuration "").1 = false ∧
      (validateTiming sampleZeroDuration "").2 ≠ "") ∧
    validateTiming sampleZeroDuration "" = (false, "Invalid timeframe duration in clip 2") :=
  ⟨validateTiming_rejects_invalid_frame sampleZeroDuration "" (by decide), by decide⟩

/-! ## Reference-curve lookup -/

/-- The search loop of `multiLerp` does not run out of fuel: with at least `count - 1 - i`
iterations allowed it stops because its condition fails. -/
theorem multiLerpSearch_exit (points : List Nat) (count : Int) (x : ℚ) :
    ∀ (fuel i : Nat), count - 1 - (i : Int) ≤ (fuel : Int) →
      i ≤ multiLerpSearch points count x fuel i ∧
      ¬ ((multiLerpSearch points count x fuel i : Int) < count - 1 ∧
        ((points.getD (multiLerpSearch points count x fuel i + 1) 0 : Nat) : ℚ) < x) := by
  intro fuel
  induction fuel with
  | zero =>
    intro i h
    simp only [multiLerpSearch]
    refine ⟨le_refl _, fun hc => ?_⟩
    have := hc.1
    simp only [Nat.cast_zero] at h
    omega
  | succ n ih =>
    intro i h
    simp only [multiLerpSearch]
    split_ifs with hc
    · obtain ⟨h1, h2⟩ := ih (i + 1) (by push_cast at h ⊢; omega)
      exact ⟨by omega, h2⟩
    · exact ⟨le_refl _, hc⟩

theorem getD_lt_of_sorted {points : List Nat} (hs : points.Sorted (fun a b => a < b))
    {i j : Nat} (hij : i < j) (hj : j < points.length) :
    points.getD i 0 < points.getD j 0 := by
  rw [List.getD_eq_getElem _ _ (lt_trans hij hj), List.getD_eq_getElem _ _ hj]
  exact List.pairwise_iff_getElem.1 hs i j (lt_trans hij hj) hj hij

/-- Looking up the point `points[k]` of a strictly increasing table, the search loop of
`multiLerp` stops at `k - 1`. -/
theorem multiLerpSearch_at_point {points : List Nat} (hs : points.Sorted (fun a b => a < b))
    {k : Nat} (hk : k < points.length) :
    ∀ (fuel i : Nat), i + 1 ≤ k → k - 1 - i ≤ fuel →
      multiLerpSearch points (points.length : Int) ((points.getD k 0 : Nat) : ℚ) fuel i = k - 1 := by
  intro fuel
  induction fuel with
  | zero =>
    intro i h1 h2
    simp only [multiLerpSearch]
    omega
  | succ n ih =>
    intro i h1 h2
    simp only [multiLerpSearch]
    rcases Nat.eq_or_lt_of_le h1 with heq | hlt
    · rw [if_neg]
      · omega
      · rintro ⟨-, h⟩
        rw [heq] at h
        exact lt_irrefl _ h
    · rw [if_pos]
      · exact ih (i + 1) hlt (by omega)
      · refine ⟨by omega, ?_⟩
        exact_mod_cast getD_lt_of_sorted hs hlt hk

/-- A lookup at a point of a strictly increasing table returns the value stored for it. -/
theorem multiLerp_at_point {points : List Nat} (values : List ℚ)
    (hs : points.Sorted (fun a b => a < b)) {k : Nat} (hk : k < points.length) :
    multiLerp points values (points.length : Int) ((points.getD k 0 : Nat) : ℚ) =
      values.getD k 0 := by
  unfold multiLerp
  by_cases hc : (points.length : Int) < 2
  · have hk0 : k = 0 := by omega
    have hlen : (points.length : Int) = 1 := by omega
    rw [if_pos hc, if_pos hlen, hk0]
  rw [if_neg hc]
  rcases Nat.eq_zero_or_pos k with hk0 | hkpos
  · rw [hk0, if_pos (le_refl _)]
  have h0k : ¬ (((points.getD k 0 : Nat) : ℚ) ≤ ((points.getD 0 0 : Nat) : ℚ)) := by
    have := getD_lt_of_sorted hs hkpos hk
    exact_mod_cast not_le.2 this
  rw [if_neg h0k]
  have hlast : ((points.length : Int) - 1).toNat = points.length - 1 := by omega
  rw [hlast]
  by_cases hkl : k = points.length - 1
  · rw [if_pos (by rw [hkl]), hkl]
  have hklt : k < points.length - 1 := by omega
  have hkn : ¬ (((points.getD k 0 : Nat) : ℚ) ≥ ((points.getD (points.length - 1) 0 : Nat) : ℚ)) := by
    have := getD_lt_of_sorted hs hklt (by omega)
    exact_mod_cast not_le.2 this
  rw [if_neg hkn]
  simp only
  rw [multiLerpSearch_at_point hs hk _ 0 (by omega) (by omega)]
  have hk1 : k - 1 + 1 = k := by omega
  rw [hk1]
  have hlt : ((points.getD (k - 1) 0 : Nat) : ℚ) < ((points.getD k 0 : Nat) : ℚ) := by
    have := getD_lt_of_sorted hs (show k - 1 < k by omega) hk
    exact_mod_cast this
  have hdiv : (((points.getD k 0 : Nat) : ℚ) - ((points.getD (k - 1) 0 : Nat) : ℚ)) /
      (((points.getD k 0 : Nat) : ℚ) - ((points.getD (k - 1) 0 : Nat) : ℚ)) = 1 :=
    div_self (by linarith)
  rw [hdiv]
  unfold lerp constrain
  norm_num

theorem curveDurations_sorted : curveDurations.Sorted (fun a b => a < b) := by
  simp [curveDurations, CURVE_POINTS, List.Sorted]

/-- C10.  For every row `k` of the reference curve `CURVE_POINTS`, looking up the duration
`CURVE_POINTS[k].videoDuration` with `multiLerp` over the `videoDuration` column returns exactly
that row's `lowerBound`, `upperBound` and `targetAHT`, for first, interior and last rows alike. -/
theorem multiLerp_at_table_row (k : Nat) (hk : k < NUM_POINTS) :
    multiLerp curveDurations curveLower (NUM_POINTS : Int)
      ((CURVE_POINTS.get ⟨k, hk⟩).videoDuration : ℚ) =
        ((CURVE_POINTS.get ⟨k, hk⟩).lowerBound : ℚ) ∧
    multiLerp curveDurations curveUpper (NUM_POINTS : Int)
      ((CURVE_POINTS.get ⟨k, hk⟩).videoDuration : ℚ) =
        ((CURVE_POINTS.get ⟨k, hk⟩).upperBound : ℚ) ∧
    multiLerp curveDurations curveTarget (NUM_POINTS : Int)
      ((CURVE_POINTS.get ⟨k, hk⟩).videoDuration : ℚ) =
        ((CURVE_POINTS.get ⟨k, hk⟩).targetAHT : ℚ) := by
  have hlen : curveDurations.length = NUM_POINTS := by simp [curveDurations, NUM_POINTS]
  have hk2 : k < curveDurations.length := by rw [hlen]; exact hk
  have hx : (CURVE_POINTS.get ⟨k, hk⟩).videoDuration = curveDurations.getD k 0 := by
    rw [List.getD_eq_getElem _ _ hk2]
    simp [curveDurations]
  have hl : ((CURVE_POINTS.get ⟨k, hk⟩).lowerBound : ℚ) = curveLower.getD k 0 := by
    rw [List.getD_eq_getElem _ _ (by simpa [curveLower] using hk)]
    simp [curveLower]
  have hu : ((CURVE_POINTS.get ⟨k, hk⟩).upperBound : ℚ) = curveUpper.getD k 0 := by
    rw [List.getD_eq_getElem _ _ (by simpa [curveUpper] using hk)]
    simp [curveUpper]
  have ht : ((CURVE_POINTS.get ⟨k, hk⟩).targetAHT : ℚ) = curveTarget.getD k 0 := by
    rw [List.getD_eq_getElem _ _ (by simpa [curveTarget] using hk)]
    simp [curveTarget]
  rw [hx, hl, hu, ht, ← hlen]
  exact ⟨multiLerp_at_point _ curveDurations_sorted hk2,
    multiLerp_at_point _ curveDurations_sorted hk2,
    multiLerp_at_point _ curveDurations_sorted hk2⟩

/-- C10 at the interior row `{20, 120, 260, 190}`. -/
theorem multiLerp_at_table_row_witness :
    multiLerp curveDurations curveLower (NUM_POINTS : Int) ((20 : Nat) : ℚ) = ((120 : Nat) : ℚ) ∧
    multiLerp curveDurations curveUpper (NUM_POINTS : Int) ((20 : Nat) : ℚ) = ((260 : Nat) : ℚ) ∧
    multiLerp curveDurations curveTarget (NUM_POINTS : Int) ((20 : Nat) : ℚ) = ((190 : Nat) : ℚ) :=
  multiLerp_at_table_row 3 (by decide)

/-- Looking up an `x` with `points[i] < x ≤ points[i+1]` in a strictly increasing table, the
search loop of `multiLerp` stops at `i`. -/
theorem multiLerpSearch_between {points : List Nat} (hs : points.Sorted (fun a b => a < b))
    {i : Nat} (hi : i + 1 < points.length) {x : ℚ}
    (hlo : ((points.getD i 0 : Nat) : ℚ) < x) (hhi : x ≤ ((points.getD (i + 1) 0 : Nat) : ℚ)) :
    ∀ (fuel j : Nat), j ≤ i → i - j ≤ fuel →
      multiLerpSearch points (points.length : Int) x fuel j = i := by
  intro fuel
  induction fuel with
  | zero =>
    intro j h1 h2
    simp only [multiLerpSearch]
    omega
  | succ n ih =>
    intro j h1 h2
    simp only [multiLerpSearch]
    rcases Nat.eq_or_lt_of_le h1 with heq | hlt
    · rw [if_neg]
      · exact heq
      · rintro ⟨-, h⟩
        rw [heq] at h
        exact absurd hhi (not_le.2 h)
    · rw [if_pos]
      · exact ih (j + 1) hlt (by omega)
      · refine ⟨by omega, lt_of_le_of_lt ?_ hlo⟩
        rcases Nat.eq_or_lt_of_le hlt with heq2 | hlt2
        · rw [← heq2]
        · exact_mod_cast le_of_lt (getD_lt_of_sorted hs hlt2 (by omega))

/-- A lookup strictly between two neighbouring points of a strictly increasing table is the
linear interpolation between their values. -/
theorem multiLerp_between {points : List Nat} (values : List ℚ)
    (hs : points.Sorted (fun a b => a < b)) {i : Nat} (hi : i + 1 < points.length) {x : ℚ}
    (hlo : ((points.getD i 0 : Nat) : ℚ) < x) (hhi : x < ((points.getD (i + 1) 0 : Nat) : ℚ)) :
    multiLerp points values (points.length : Int) x =
      values.getD i 0 + (values.getD (i + 1) 0 - values.getD i 0) *
        (x - ((points.getD i 0 : Nat) : ℚ)) /
        (((points.getD (i + 1) 0 : Nat) : ℚ) - ((points.getD i 0 : Nat) : ℚ)) := by
  unfold multiLerp
  have h0 : ((points.getD 0 0 : Nat) : ℚ) < x := by
    rcases Nat.eq_zero_or_pos i with h | h
    · subst h; exact hlo
    · exact lt_trans (by exact_mod_cast getD_lt_of_sorted hs h (by omega)) hlo
  have hlast : ((points.length : Int) - 1).toNat = points.length - 1 := by omega
  have hn : x < ((points.getD (points.length - 1) 0 : Nat) : ℚ) := by
    rcases Nat.eq_or_lt_of_le (show i + 1 ≤ points.length - 1 by omega) with h | h
    · rw [← h]; exact hhi
    · exact lt_trans hhi (by exact_mod_cast getD_lt_of_sorted hs h (by omega))
  rw [if_neg (by omega), if_neg (not_le.2 h0), hlast, if_neg (not_le.2 hn)]
  simp only
  rw [multiLerpSearch_between hs hi hlo (le_of_lt hhi) _ 0 (Nat.zero_le _) (by omega)]
  have hpos : (0 : ℚ) < ((points.getD (i + 1) 0 : Nat) : ℚ) - ((points.getD i 0 : Nat) : ℚ) := by
    linarith
  have ht0 : ¬ ((x - ((points.getD i 0 : Nat) : ℚ)) /
      (((points.getD (i + 1) 0 : Nat) : ℚ) - ((points.getD i 0 : Nat) : ℚ)) < 0) :=
    not_lt.2 (div_nonneg (by linarith) (le_of_lt hpos))
  have ht1 : ¬ ((x - ((points.getD i 0 : Nat) : ℚ)) /
      (((points.getD (i + 1) 0 : Nat) : ℚ) - ((points.getD i 0 : Nat) : ℚ)) > 1) := by
    rw [gt_iff_lt, not_lt, div_le_one hpos]
    linarith
  unfold lerp constrain
  rw [if_neg ht0, if_neg ht1, mul_div_assoc]

/-- A lookup at or below the first point, or at or above the last point, of a table with at
least two points returns the value of that edge point. -/
theorem multiLerp_outside (points : List Nat) (values : List ℚ) (hlen : 2 ≤ points.length)
    (x : ℚ) :
    (x ≤ ((points.getD 0 0 : Nat) : ℚ) →
      multiLerp points values (points.length : Int) x = values.getD 0 0) ∧
    (((points.getD 0 0 : Nat) : ℚ) < x → ((points.getD (points.length - 1) 0 : Nat) : ℚ) ≤ x →
      multiLerp points values (points.length : Int) x = values.getD (points.length - 1) 0) := by
  have hlast : ((points.length : Int) - 1).toNat = points.length - 1 := by omega
  constructor
  · intro h
    unfold multiLerp
    rw [if_neg (by omega), if_pos h]
  · intro h0 h
    unfold multiLerp
    rw [if_neg (by omega), if_neg (not_le.2 h0), hlast, if_pos h]


theorem getD_lt_getD_of_sorted {values : List ℚ} (hs : values.Sorted (fun a b => a < b))
    {i j : Nat} (hij : i < j) (hj : j < values.length) :
    values.getD i 0 < values.getD j 0 := by
  rw [List.getD_eq_getElem _ _ (lt_trans hij hj), List.getD_eq_getElem _ _ hj]
  exact List.pairwise_iff_getElem.1 hs i j (lt_trans hij hj) hj hij

theorem curveDurations_length : curveDurations.length = NUM_POINTS := by
  simp [curveDurations, NUM_POINTS]

theorem curve_columns :
    ∀ values ∈ [curveLower, curveUpper, curveTarget],
      values.length = NUM_POINTS ∧ values.Sorted (fun a b => a < b) := by
  intro values hv
  simp only [List.mem_cons, List.mem_singleton, List.not_mem_nil, or_false] at hv
  rcases hv with rfl | rfl | rfl
  · constructor
    · simp [curveLower, NUM_POINTS]
    · simp only [curveLower, CURVE_POINTS, List.map, List.Sorted, List.pairwise_cons]
      norm_num
  · constructor
    · simp [curveUpper, NUM_POINTS]
    · simp only [curveUpper, CURVE_POINTS, List.map, List.Sorted, List.pairwise_cons]
      norm_num
  · constructor
    · simp [curveTarget, NUM_POINTS]
    · simp only [curveTarget, CURVE_POINTS, List.map, List.Sorted, List.pairwise_cons]
      norm_num

/-- C11.  For every duration `x` strictly between the `videoDuration` values `p[i]` and `p[i+1]`
of two consecutive rows of `CURVE_POINTS`, `multiLerp` over each of the three value columns `v`
returns the linear interpolation `v[i] + (v[i+1] - v[i]) * (x - p[i]) / (p[i+1] - p[i])`, which
lies strictly between `v[i]` and `v[i+1]`. -/
theorem multiLerp_between_table_rows (i : Nat) (hi : i + 1 < NUM_POINTS) (x : ℚ)
    (hlo : ((curveDurations.getD i 0 : Nat) : ℚ) < x)
    (hhi : x < ((curveDurations.getD (i + 1) 0 : Nat) : ℚ)) :
    ∀ values ∈ [curveLower, curveUpper, curveTarget],
      multiLerp curveDurations values (NUM_POINTS : Int) x =
        values.getD i 0 + (values.getD (i + 1) 0 - values.getD i 0) *
          (x - ((curveDurations.getD i 0 : Nat) : ℚ)) /
          (((curveDurations.getD (i + 1) 0 : Nat) : ℚ) - ((curveDurations.getD i 0 : Nat) : ℚ)) ∧
      values.getD i 0 < multiLerp curveDurations values (NUM_POINTS : Int) x ∧
      multiLerp curveDurations values (NUM_POINTS : Int) x < values.getD (i + 1) 0 := by
  intro values hv
  obtain ⟨hlen, hsorted⟩ := curve_columns values hv
  have hi2 : i + 1 < curveDurations.length := by rw [curveDurations_length]; exact hi
  have hval := multiLerp_between values curveDurations_sorted hi2 hlo hhi
  rw [curveDurations_length] at hval
  refine ⟨hval, ?_⟩
  rw [hval, mul_div_assoc]
  have hpos : (0 : ℚ) < ((curveDurations.getD (i + 1) 0 : Nat) : ℚ) -
      ((curveDurations.getD i 0 : Nat) : ℚ) := by linarith
  have ht0 : 0 < (x - ((curveDurations.getD i 0 : Nat) : ℚ)) /
      (((curveDurations.getD (i + 1) 0 : Nat) : ℚ) - ((curveDurations.getD i 0 : Nat) : ℚ)) :=
    div_pos (by linarith) hpos
  have ht1 : (x - ((curveDurations.getD i 0 : Nat) : ℚ)) /
      (((curveDurations.getD (i + 1) 0 : Nat) : ℚ) - ((curveDurations.getD i 0 : Nat) : ℚ)) < 1 := by
    rw [div_lt_one hpos]
    linarith
  have hdv : 0 < values.getD (i + 1) 0 - values.getD i 0 := by
    have := getD_lt_getD_of_sorted hsorted (Nat.lt_succ_self i) (by rw [hlen]; exact hi)
    linarith
  constructor
  · have := mul_pos hdv ht0
    linarith
  · have := mul_lt_mul_of_pos_left ht1 hdv
    linarith

/-- C11 at `x = 12`, between the rows for 10 and 15 seconds: each lookup lies strictly between
the two rows' values. -/
theorem multiLerp_between_table_rows_witness :
    (curveLower.getD 1 0 < multiLerp curveDurations curveLower (NUM_POINTS : Int) 12 ∧
      multiLerp curveDurations curveLower (NUM_POINTS : Int) 12 < curveLower.getD (1 + 1) 0) ∧
    (curveUpper.getD 1 0 < multiLerp curveDurations curveUpper (NUM_POINTS : Int) 12 ∧
      multiLerp curveDurations curveUpper (NUM_POINTS : Int) 12 < curveUpper.getD (1 + 1) 0) ∧
    (curveTarget.getD 1 0 < multiLerp curveDurations curveTarget (NUM_POINTS : Int) 12 ∧
      multiLerp curveDurations curveTarget (NUM_POINTS : Int) 12 < curveTarget.getD (1 + 1) 0) :=
  have h := multiLerp_between_table_rows 1 (by decide) 12
    (by simp [curveDurations, CURVE_POINTS]; norm_num)
    (by simp [curveDurations, CURVE_POINTS]; norm_num)
  ⟨(h curveLower (by simp)).2, (h curveUpper (by simp)).2, (h curveTarget (by simp)).2⟩

/-- C12.  For every duration `x` below the first table duration (`MIN_DURATION = 5`) `multiLerp`
over `CURVE_POINTS` returns the first row's value, and for every `x` above the last table
duration (`MAX_DURATION = 45`) it returns the last row's value, for each of the three value
columns. -/
theorem multiLerp_clamps_outside_table (x : ℚ) :
    MIN_DURATION = 5 ∧ MAX_DURATION = 45 ∧
    (x < (MIN_DURATION : ℚ) →
      multiLerp curveDurations curveLower (NUM_POINTS : Int) x = 30 ∧
      multiLerp curveDurations curveUpper (NUM_POINTS : Int) x = 65 ∧
      multiLerp curveDurations curveTarget (NUM_POINTS : Int) x = 47) ∧
    ((MAX_DURATION : ℚ) < x →
      multiLerp curveDurations curveLower (NUM_POINTS : Int) x = 270 ∧
      multiLerp curveDurations curveUpper (NUM_POINTS : Int) x = 585 ∧
      multiLerp curveDurations curveTarget (NUM_POINTS : Int) x = 427) := by
  have hlen : 2 ≤ curveDurations.length := by decide
  have hmin : ((curveDurations.getD 0 0 : Nat) : ℚ) = 5 := by
    simp [curveDurations, CURVE_POINTS]
  have hmax : ((curveDurations.getD (curveDurations.length - 1) 0 : Nat) : ℚ) = 45 := by
    simp [curveDurations, CURVE_POINTS]
  have hMIN : (MIN_DURATION : ℚ) = 5 := by
    rw [show MIN_DURATION = 5 from rfl]; norm_num
  have hMAX : (MAX_DURATION : ℚ) = 45 := by
    rw [show MAX_DURATION = 45 from rfl]; norm_num
  have hN : (NUM_POINTS : Int) = (curveDurations.length : Int) := by
    rw [curveDurations_length]
  refine ⟨rfl, rfl, ?_, ?_⟩
  · intro hx
    rw [hMIN] at hx
    rw [hN]
    have h := fun values => (multiLerp_outside curveDurations values hlen x).1
      (by rw [hmin]; exact le_of_lt hx)
    rw [h curveLower, h curveUpper, h curveTarget]
    simp [curveLower, curveUpper, curveTarget, CURVE_POINTS]
  · intro hx
    rw [hMAX] at hx
    rw [hN]
    have h := fun values => (multiLerp_outside curveDurations values hlen x).2
      (by rw [hmin]; linarith) (by rw [hmax]; exact le_of_lt hx)
    rw [h curveLower, h curveUpper, h curveTarget]
    simp [curveLower, curveUpper, curveTarget, CURVE_POINTS, curveDurations]

/-- C12 at `x = 2` and at `x = 60`. -/
theorem multiLerp_clamps_outside_table_witness :
    (multiLerp curveDurations curveLower (NUM_POINTS : Int) 2 = 30 ∧
      multiLerp curveDurations curveUpper (NUM_POINTS : Int) 2 = 65 ∧
      multiLerp curveDurations curveTarget (NUM_POINTS : Int) 2 = 47) ∧
    (multiLerp curveDurations curveLower (NUM_POINTS : Int) 60 = 270 ∧
      multiLerp curveDurations curveUpper (NUM_POINTS : Int) 60 = 585 ∧
      multiLerp curveDurations curveTarget (NUM_POINTS : Int) 60 = 427) :=
  ⟨(multiLerp_clamps_outside_table 2).2.2.1 (by rw [show MIN_DURATION = 5 from rfl]; norm_num),
   (multiLerp_clamps_outside_table 60).2.2.2
     (by rw [show MAX_DURATION = 45 from rfl]; norm_num)⟩

/-! ## Rounding to binary32 -/

theorem roundHalfEven_le {q : ℚ} {n : Int} (h : q < n + 1 / 2) : roundHalfEven q ≤ n := by
  have h1 : ((⌊q⌋ : Int) : ℚ) ≤ q := Int.floor_le q
  have h2 : q < ((⌊q⌋ : Int) : ℚ) + 1 := Int.lt_floor_add_one q
  unfold roundHalfEven
  split_ifs with c1 c2 c3
  · have : ((⌊q⌋ : Int) : ℚ) < (n : ℚ) + 1 := by linarith
    have : ⌊q⌋ < n + 1 := by exact_mod_cast this
    omega
  · have : ((⌊q⌋ : Int) : ℚ) < (n : ℚ) := by linarith
    have : ⌊q⌋ < n := by exact_mod_cast this
    omega
  · have : ((⌊q⌋ : Int) : ℚ) < (n : ℚ) + 1 := by linarith
    have : ⌊q⌋ < n + 1 := by exact_mod_cast this
    omega
  · have : ((⌊q⌋ : Int) : ℚ) < (n : ℚ) := by linarith
    have : ⌊q⌋ < n := by exact_mod_cast this
    omega

theorem le_roundHalfEven {q : ℚ} {n : Int} (h : (n : ℚ) - 1 / 2 < q) : n ≤ roundHalfEven q := by
  have h1 : ((⌊q⌋ : Int) : ℚ) ≤ q := Int.floor_le q
  have h2 : q < ((⌊q⌋ : Int) : ℚ) + 1 := Int.lt_floor_add_one q
  unfold roundHalfEven
  split_ifs with c1 c2 c3
  · have : (n : ℚ) < ((⌊q⌋ : Int) : ℚ) + 1 := by linarith
    have : n < ⌊q⌋ + 1 := by exact_mod_cast this
    omega
  · have : (n : ℚ) < ((⌊q⌋ : Int) : ℚ) + 2 := by linarith
    have : n < ⌊q⌋ + 2 := by exact_mod_cast this
    omega
  · have : (n : ℚ) < ((⌊q⌋ : Int) : ℚ) + 1 := by linarith
    have : n < ⌊q⌋ + 1 := by exact_mod_cast this
    omega
  · have : (n : ℚ) < ((⌊q⌋ : Int) : ℚ) + 1 := by linarith
    have : n < ⌊q⌋ + 1 := by exact_mod_cast this
    omega

theorem roundHalfEven_eq {q : ℚ} {n : Int} (h1 : (n : ℚ) - 1 / 2 < q) (h2 : q < n + 1 / 2) :
    roundHalfEven q = n :=
  le_antisymm (roundHalfEven_le h2) (le_roundHalfEven h1)

theorem roundHalfEven_intCast (n : Int) : roundHalfEven (n : ℚ) = n :=
  roundHalfEven_eq (by linarith) (by linarith)

theorem roundHalfEven_close (q : ℚ) : |(roundHalfEven q : ℚ) - q| ≤ 1 / 2 := by
  have h1 : ((⌊q⌋ : Int) : ℚ) ≤ q := Int.floor_le q
  have h2 : q < ((⌊q⌋ : Int) : ℚ) + 1 := Int.lt_floor_add_one q
  rw [abs_le]
  unfold roundHalfEven
  split_ifs with c1 c2 c3
  · constructor <;> linarith
  · push_cast
    constructor <;> linarith
  · constructor <;> linarith
  · push_cast
    constructor <;> linarith

theorem roundHalfEven_mono {q r : ℚ} (h : q ≤ r) : roundHalfEven q ≤ roundHalfEven r := by
  by_cases hq : q < (roundHalfEven r : ℚ) + 1 / 2
  · exact roundHalfEven_le hq
  · have hr := (abs_le.1 (roundHalfEven_close r)).1
    have hqr : q = r := le_antisymm h (by linarith)
    rw [hqr]

theorem F32.two_zpow_pos (e : Int) : (0 : ℚ) < (2 : ℚ) ^ e := zpow_pos (by norm_num) e

theorem F32.zpow_le_iff_le_log {e : Int} {r : ℚ} (hr : 0 < r) :
    (2 : ℚ) ^ e ≤ r ↔ e ≤ Int.log 2 r := by
  have h := @Int.zpow_le_iff_le_log ℚ _ _ 2 (by norm_num) e r hr
  simpa using h

theorem F32.lt_zpow_iff_log_lt {e : Int} {r : ℚ} (hr : 0 < r) :
    r < (2 : ℚ) ^ e ↔ Int.log 2 r < e := by
  have h := @Int.lt_zpow_iff_log_lt ℚ _ _ 2 (by norm_num) e r hr
  simpa using h

theorem F32.exponent_ge (x : ℚ) : -126 ≤ F32.exponent x := by
  unfold F32.exponent
  split_ifs with h
  · exact le_refl _
  · have hpos : 0 < |x| := lt_of_lt_of_le (F32.two_zpow_pos _) (not_lt.1 h)
    exact (F32.zpow_le_iff_le_log hpos).1 (not_lt.1 h)

theorem F32.lt_zpow_exponent (x : ℚ) : |x| < (2 : ℚ) ^ (F32.exponent x + 1) := by
  unfold F32.exponent
  split_ifs with h
  · exact lt_of_lt_of_le h (zpow_le_zpow_right₀ (by norm_num) (by norm_num))
  · have hpos : 0 < |x| := lt_of_lt_of_le (F32.two_zpow_pos _) (not_lt.1 h)
    exact (F32.lt_zpow_iff_log_lt hpos).2 (by omega)

theorem F32.zpow_exponent_le {x : ℚ} (h : (2 : ℚ) ^ (-126 : Int) ≤ |x|) :
    (2 : ℚ) ^ F32.exponent x ≤ |x| := by
  unfold F32.exponent
  rw [if_neg (not_lt.2 h)]
  have hpos : 0 < |x| := lt_of_lt_of_le (F32.two_zpow_pos _) h
  exact (F32.zpow_le_iff_le_log hpos).2 (le_refl _)

theorem F32.exponent_le {x : ℚ} {e : Int} (he : -126 ≤ e) (h : |x| < (2 : ℚ) ^ (e + 1)) :
    F32.exponent x ≤ e := by
  unfold F32.exponent
  split_ifs with hs
  · exact he
  · have hpos : 0 < |x| := lt_of_lt_of_le (F32.two_zpow_pos _) (not_lt.1 hs)
    have := (F32.lt_zpow_iff_log_lt hpos).1 h
    omega

theorem F32.le_exponent {x : ℚ} {e : Int} (he : -126 ≤ e) (h : (2 : ℚ) ^ e ≤ |x|) :
    e ≤ F32.exponent x := by
  have h126 : (2 : ℚ) ^ (-126 : Int) ≤ |x| :=
    le_trans (zpow_le_zpow_right₀ (by norm_num) he) h
  unfold F32.exponent
  rw [if_neg (not_lt.2 h126)]
  have hpos : 0 < |x| := lt_of_lt_of_le (F32.two_zpow_pos _) h
  exact (F32.zpow_le_iff_le_log hpos).1 h

theorem F32.exponent_eq {x : ℚ} {e : Int} (he : -126 ≤ e) (h1 : (2 : ℚ) ^ e ≤ |x|)
    (h2 : |x| < (2 : ℚ) ^ (e + 1)) : F32.exponent x = e :=
  le_antisymm (F32.exponent_le he h2) (F32.le_exponent he h1)

theorem F32.ulp_pos (x : ℚ) : 0 < F32.ulp x := F32.two_zpow_pos _

theorem F32.ulp_eq {x : ℚ} {e : Int} (he : -126 ≤ e) (h1 : (2 : ℚ) ^ e ≤ |x|)
    (h2 : |x| < (2 : ℚ) ^ (e + 1)) : F32.ulp x = (2 : ℚ) ^ (e - 23) := by
  unfold F32.ulp
  rw [F32.exponent_eq he h1 h2]

theorem F32.le_ulp {x : ℚ} {e : Int} (he : -126 ≤ e) (h : (2 : ℚ) ^ e ≤ |x|) :
    (2 : ℚ) ^ (e - 23) ≤ F32.ulp x :=
  zpow_le_zpow_right₀ (by norm_num) (by have := F32.le_exponent he h; omega)

theorem F32.ulp_le_rel {x : ℚ} (h : (2 : ℚ) ^ (-126 : Int) ≤ |x|) :
    F32.ulp x ≤ (2 : ℚ) ^ (-23 : Int) * |x| := by
  have h1 := F32.zpow_exponent_le h
  unfold F32.ulp
  rw [sub_eq_add_neg, zpow_add₀ (by norm_num : (2 : ℚ) ≠ 0), mul_comm]
  exact mul_le_mul_of_nonneg_left h1 (F32.two_zpow_pos _).le

theorem F32.lt_ulp_rel (x : ℚ) : |x| < (2 : ℚ) ^ (24 : Int) * F32.ulp x := by
  have h1 := F32.lt_zpow_exponent x
  unfold F32.ulp
  rw [← zpow_add₀ (by norm_num : (2 : ℚ) ≠ 0)]
  have : (24 : Int) + (F32.exponent x - 23) = F32.exponent x + 1 := by ring
  rw [this]
  exact h1

theorem F32.round_zero : F32.round 0 = 0 := by
  unfold F32.round
  rw [zero_div]
  have : roundHalfEven (0 : ℚ) = 0 := roundHalfEven_intCast 0
  rw [this]
  simp

theorem F32.round_err (x : ℚ) : |F32.round x - x| ≤ F32.ulp x / 2 := by
  have hu := F32.ulp_pos x
  have h := roundHalfEven_close (x / F32.ulp x)
  have : F32.round x - x = ((roundHalfEven (x / F32.ulp x) : ℚ) - x / F32.ulp x) * F32.ulp x := by
    unfold F32.round
    field_simp
  rw [this, abs_mul, abs_of_pos hu]
  calc |(roundHalfEven (x / F32.ulp x) : ℚ) - x / F32.ulp x| * F32.ulp x
      ≤ 1 / 2 * F32.ulp x := mul_le_mul_of_nonneg_right h hu.le
    _ = F32.ulp x / 2 := by ring

theorem F32.round_rel {x : ℚ} (h : (2 : ℚ) ^ (-126 : Int) ≤ |x|) :
    |F32.round x - x| ≤ (2 : ℚ) ^ (-24 : Int) * |x| := by
  have h1 := F32.round_err x
  have h2 := F32.ulp_le_rel h
  have h3 : (2 : ℚ) ^ (-24 : Int) * |x| = (2 : ℚ) ^ (-23 : Int) * |x| / 2 := by
    norm_num
    ring
  rw [h3]
  refine le_trans h1 ?_
  gcongr

theorem F32.round_err_any (x : ℚ) :
    |F32.round x - x| ≤ (2 : ℚ) ^ (-24 : Int) * |x| + (2 : ℚ) ^ (-150 : Int) := by
  by_cases h : (2 : ℚ) ^ (-126 : Int) ≤ |x|
  · have := F32.round_rel h
    have := F32.two_zpow_pos (-150)
    linarith
  · have h1 := F32.round_err x
    have h2 : F32.ulp x = (2 : ℚ) ^ (-149 : Int) := by
      unfold F32.ulp F32.exponent
      rw [if_pos (not_le.1 h)]
      norm_num
    rw [h2] at h1
    have h3 : (0 : ℚ) ≤ (2 : ℚ) ^ (-24 : Int) * |x| :=
      mul_nonneg (F32.two_zpow_pos _).le (abs_nonneg x)
    have h4 : (2 : ℚ) ^ (-149 : Int) / 2 = (2 : ℚ) ^ (-150 : Int) := by norm_num
    rw [h4] at h1
    exact le_trans h1 (le_add_of_nonneg_left h3)

theorem F32.round_nonneg {x : ℚ} (h : 0 ≤ x) : 0 ≤ F32.round x := by
  unfold F32.round
  have hu := F32.ulp_pos x
  have : (0 : Int) ≤ roundHalfEven (x / F32.ulp x) :=
    le_roundHalfEven (by
      have := div_nonneg h hu.le
      push_cast
      linarith)
  exact mul_nonneg (by exact_mod_cast this) hu.le

/-- Evaluation of `F32.round` at a positive number in the binade of exponent `e`. -/
theorem F32.round_eq {x : ℚ} (e m : Int) (he : -126 ≤ e) (h1 : (2 : ℚ) ^ e ≤ |x|)
    (h2 : |x| < (2 : ℚ) ^ (e + 1)) (h3 : (m : ℚ) - 1 / 2 < x / (2 : ℚ) ^ (e - 23))
    (h4 : x / (2 : ℚ) ^ (e - 23) < (m : ℚ) + 1 / 2) :
    F32.round x = (m : ℚ) * (2 : ℚ) ^ (e - 23) := by
  unfold F32.round
  rw [F32.ulp_eq he h1 h2, roundHalfEven_eq h3 h4]

theorem F32.round_of_grid {x : ℚ} (k : Int) (h : x = (k : ℚ) * F32.ulp x) : F32.round x = x := by
  have hu := F32.ulp_pos x
  have hk : x / F32.ulp x = (k : ℚ) := by
    rw [div_eq_iff hu.ne']
    exact h
  unfold F32.round
  rw [hk, roundHalfEven_intCast]
  exact h.symm

theorem F32.round_intCast {n : Int} (h : |n| < 2 ^ 24) : F32.round (n : ℚ) = n := by
  have hx : |(n : ℚ)| < (2 : ℚ) ^ ((23 : Int) + 1) := by
    have : ((|n| : Int) : ℚ) < ((2 ^ 24 : Int) : ℚ) := by exact_mod_cast h
    rw [Int.cast_abs] at this
    norm_num at this ⊢
    exact this
  have he : F32.exponent (n : ℚ) ≤ 23 := F32.exponent_le (by norm_num) hx
  have hge := F32.exponent_ge (n : ℚ)
  obtain ⟨j, hj⟩ : ∃ j : Nat, (j : Int) = 23 - F32.exponent (n : ℚ) :=
    ⟨(23 - F32.exponent (n : ℚ)).toNat, Int.toNat_of_nonneg (by omega)⟩
  have hulp : F32.ulp (n : ℚ) = ((2 : ℚ) ^ j)⁻¹ := by
    unfold F32.ulp
    rw [← zpow_natCast, hj, ← zpow_neg]
    congr 1
    ring
  apply F32.round_of_grid (n * 2 ^ j)
  rw [hulp]
  push_cast
  field_simp

theorem F32.round_natCast {n : Nat} (h : n < 2 ^ 24) : F32.round (n : ℚ) = n := by
  have := @F32.round_intCast (n : Int) (by
    rw [abs_of_nonneg (Int.natCast_nonneg n)]
    exact_mod_cast h)
  simpa using this

theorem F32.exponent_mono {x y : ℚ} (h : |x| ≤ |y|) : F32.exponent x ≤ F32.exponent y := by
  have hge := F32.exponent_ge x
  by_cases hx : (2 : ℚ) ^ (-126 : Int) ≤ |x|
  · exact F32.le_exponent hge (le_trans (F32.zpow_exponent_le hx) h)
  · have : F32.exponent x = -126 := by
      unfold F32.exponent
      rw [if_pos (not_le.1 hx)]
    rw [this]
    exact F32.exponent_ge y

theorem F32.round_le_zpow {x : ℚ} : F32.round x ≤ (2 : ℚ) ^ (F32.exponent x + 1) := by
  have hu := F32.ulp_pos x
  have h1 := F32.lt_ulp_rel x
  have h2 : x / F32.ulp x < ((2 ^ 24 : Int) : ℚ) + 1 / 2 := by
    rw [div_lt_iff₀ hu]
    have : x ≤ |x| := le_abs_self x
    have h3 : ((2 ^ 24 : Int) : ℚ) = (2 : ℚ) ^ (24 : Int) := by norm_num
    rw [h3]
    nlinarith
  have h4 := roundHalfEven_le h2
  have h5 : (roundHalfEven (x / F32.ulp x) : ℚ) ≤ ((2 ^ 24 : Int) : ℚ) := by exact_mod_cast h4
  unfold F32.round
  calc (roundHalfEven (x / F32.ulp x) : ℚ) * F32.ulp x
      ≤ ((2 ^ 24 : Int) : ℚ) * F32.ulp x := mul_le_mul_of_nonneg_right h5 hu.le
    _ = (2 : ℚ) ^ (F32.exponent x + 1) := by
        unfold F32.ulp
        have h3 : ((2 ^ 24 : Int) : ℚ) = (2 : ℚ) ^ (24 : Int) := by norm_num
        rw [h3, ← zpow_add₀ (by norm_num : (2 : ℚ) ≠ 0)]
        congr 1
        ring

theorem F32.zpow_le_round {x : ℚ} (hx : (2 : ℚ) ^ (-126 : Int) ≤ x) :
    (2 : ℚ) ^ F32.exponent x ≤ F32.round x := by
  have hu := F32.ulp_pos x
  have hpos : 0 < x := lt_of_lt_of_le (F32.two_zpow_pos _) hx
  have habs : |x| = x := abs_of_pos hpos
  have h1 := F32.zpow_exponent_le (by rw [habs]; exact hx : (2 : ℚ) ^ (-126 : Int) ≤ |x|)
  rw [habs] at h1
  have hulp : (2 : ℚ) ^ F32.exponent x = 8388608 * F32.ulp x := by
    unfold F32.ulp
    have h3 : (8388608 : ℚ) = (2 : ℚ) ^ (23 : Int) := by norm_num
    rw [h3, ← zpow_add₀ (by norm_num : (2 : ℚ) ≠ 0)]
    congr 1
    ring
  have h2 : ((8388608 : Int) : ℚ) - 1 / 2 < x / F32.ulp x := by
    rw [lt_div_iff₀ hu]
    rw [hulp] at h1
    push_cast
    linarith
  have h4 := le_roundHalfEven h2
  have h5 : (8388608 : ℚ) ≤ (roundHalfEven (x / F32.ulp x) : ℚ) := by exact_mod_cast h4
  rw [hulp]
  unfold F32.round
  exact mul_le_mul_of_nonneg_right h5 hu.le

theorem F32.round_mono {x y : ℚ} (hx : 0 ≤ x) (h : x ≤ y) : F32.round x ≤ F32.round y := by
  have hy : 0 ≤ y := le_trans hx h
  have habs : |x| ≤ |y| := by
    rw [abs_of_nonneg hx, abs_of_nonneg hy]
    exact h
  have he := F32.exponent_mono habs
  rcases lt_or_eq_of_le he with hlt | heq
  · have hy126 : (2 : ℚ) ^ (-126 : Int) ≤ y := by
      by_contra hc
      have : F32.exponent y = -126 := by
        unfold F32.exponent
        rw [if_pos (by rw [abs_of_nonneg hy]; exact not_le.1 hc)]
      have := F32.exponent_ge x
      omega
    calc F32.round x ≤ (2 : ℚ) ^ (F32.exponent x + 1) := F32.round_le_zpow
      _ ≤ (2 : ℚ) ^ F32.exponent y := zpow_le_zpow_right₀ (by norm_num) (by omega)
      _ ≤ F32.round y := F32.zpow_le_round hy126
  · have hu : F32.ulp x = F32.ulp y := by
      unfold F32.ulp
      rw [heq]
    unfold F32.round
    rw [hu]
    have hup := F32.ulp_pos y
    have : roundHalfEven (x / F32.ulp y) ≤ roundHalfEven (y / F32.ulp y) :=
      roundHalfEven_mono (div_le_div_of_nonneg_right h hup.le)
    exact mul_le_mul_of_nonneg_right (by exact_mod_cast this) hup.le

theorem chain_le_last :
    ∀ (l : List Nat) (a b : Nat), List.Chain (fun x y => x ≤ y) a (l ++ [b]) → a ≤ b := by
  intro l
  induction l with
  | nil =>
    intro a b h
    exact (List.chain_cons.1 h).1
  | cons x xs ih =>
    intro a b h
    rw [List.cons_append, List.chain_cons] at h
    exact le_trans h.1 (ih x b h.2)

theorem pauseResumeCycles_spec (t3 : Nat) (ht3 : t3 < U32) :
    ∀ (pairs : List (Nat × Nat)) (tr : ProgressTracker) (tprev : Nat),
      tr.isRunning = true → 0 < tprev →
      List.Chain (fun x y => x ≤ y) tprev (cycleTimes pairs ++ [t3]) →
      tr.totalPausedTime + tr.startTime ≤ tprev →
      (pauseResumeCycles tr pairs).isRunning = true ∧
      (pauseResumeCycles tr pairs).startTime = tr.startTime ∧
      ((pauseResumeCycles tr pairs).totalPausedTime : Int) =
        (tr.totalPausedTime : Int) + pausedSum pairs ∧
      (pauseResumeCycles tr pairs).totalPausedTime + (pauseResumeCycles tr pairs).startTime
        ≤ t3 := by
  intro pairs
  induction pairs with
  | nil =>
    intro tr tprev hrun _ hch hle
    refine ⟨hrun, rfl, ?_, le_trans hle (chain_le_last _ _ _ hch)⟩
    simp [pauseResumeCycles, pausedSum]
  | cons pr rest ih =>
    intro tr tprev hrun hpos hch hle
    obtain ⟨p, r⟩ := pr
    simp only [cycleTimes, List.flatMap_cons, List.cons_append, List.nil_append,
      List.chain_cons] at hch
    obtain ⟨hp, hr, hrest⟩ := hch
    have hr3 : r ≤ t3 := chain_le_last _ _ _ hrest
    have hstep : (tr.pause p).resume r =
        { tr with totalPausedTime := tr.totalPausedTime + (r - p), lastPauseTime := 0,
                  isRunning := true } := by
      have h1 : sub32 r p = r - p := sub32_eq hr (by omega)
      have h2 : add32 tr.totalPausedTime (r - p) = tr.totalPausedTime + (r - p) :=
        add32_eq (by omega)
      simp only [ProgressTracker.pause, hrun, if_true, ProgressTracker.resume, Bool.not_false,
        true_and, gt_iff_lt, show 0 < p by omega, h1, h2]
    obtain ⟨h1, h2, h3, h4⟩ := ih ((tr.pause p).resume r) r (by rw [hstep]) (by omega) hrest
      (by rw [hstep]; simp only; omega)
    have hfold : pauseResumeCycles tr ((p, r) :: rest) =
        pauseResumeCycles ((tr.pause p).resume r) rest := rfl
    rw [hfold]
    refine ⟨h1, ?_, ?_, h4⟩
    · rw [h2, hstep]
    · rw [h3, hstep]
      simp only [pausedSum, List.map_cons, List.sum_cons]
      push_cast
      omega

theorem getSnapshot_running {tr : ProgressTracker} (now : Nat) (hrun : tr.isRunning = true)
    (hstart : tr.startTime ≠ 0) :
    tr.getSnapshot now =
      ProgressTracker.updateStatusFlags
        (tr.calculateETA (tr.calculateCompliance (tr.calculateProgress
          (tr.calculateElapsedTime now ProgressSnapshot.zero)))) := by
  simp [ProgressTracker.getSnapshot, hrun, hstart]

theorem getSnapshot_elapsedMillis {tr : ProgressTracker} (now : Nat) (hrun : tr.isRunning = true)
    (hstart : tr.startTime ≠ 0) :
    (tr.getSnapshot now).elapsedMillis = sub32 (sub32 now tr.startTime) tr.totalPausedTime := by
  rw [getSnapshot_running now hrun hstart]
  simp only [ProgressTracker.updateStatusFlags, ProgressTracker.calculateETA]
  split_ifs <;> rfl

/-- C13.  With the clock modelled explicitly: after `start()` at `t0 > 0` on a new tracker and
any number of `pause()`/`resume()` pairs at non-decreasing clock readings, `getSnapshot` at a
later reading `t3` reports `elapsedMillis == (t3 - t0)` minus the sum of all pause intervals; for
one pair `pause()` at `t1`, `resume()` at `t2` this is `(t3 - t0) - (t2 - t1)`. -/
theorem getSnapshot_elapsed_excludes_pauses (duration : Timing.DurationAnalysis) (t0 t3 : Nat)
    (pairs : List (Nat × Nat)) (ht0 : 0 < t0) (ht3 : t3 < U32)
    (hclock : List.Chain (fun x y => x ≤ y) t0 (cycleTimes pairs ++ [t3])) :
    (((pauseResumeCycles ((ProgressTracker.new duration).start t0) pairs).getSnapshot
      t3).elapsedMillis : Int) = ((t3 : Int) - (t0 : Int)) - pausedSum pairs := by
  have hs : (ProgressTracker.new duration).start t0 =
      { ProgressTracker.new duration with startTime := t0, isRunning := true } := rfl
  obtain ⟨h1, h2, h3, h4⟩ := pauseResumeCycles_spec t3 ht3 pairs
    ((ProgressTracker.new duration).start t0) t0 rfl ht0 hclock (by rw [hs]; simp [ProgressTracker.new])
  have hst : (pauseResumeCycles ((ProgressTracker.new duration).start t0) pairs).startTime = t0 :=
    h2
  rw [getSnapshot_elapsedMillis t3 h1 (by rw [hst]; omega), hst]
  rw [hst] at h4
  have hz : (((ProgressTracker.new duration).start t0).totalPausedTime : Int) = 0 := rfl
  rw [hz, zero_add] at h3
  rw [sub32_eq (by omega) ht3, sub32_eq (by omega) (by omega), ← h3]
  omega

/-- C13 at `start()` at 1000, `pause()` at 3000, `resume()` at 4500 and a snapshot at 9000:
`elapsedMillis == (9000 - 1000) - (4500 - 3000) == 6500`. -/
theorem getSnapshot_elapsed_excludes_pauses_witness :
    ((((((ProgressTracker.new sampleDuration).start 1000).pause 3000).resume 4500).getSnapshot
      9000).elapsedMillis : Int) = ((9000 : Int) - 1000) - ((4500 - 3000) + 0) :=
  getSnapshot_elapsed_excludes_pauses sampleDuration 1000 9000 [(3000, 4500)] (by decide)
    (by decide) (by simp [cycleTimes])


theorem updateActivity_running (tr : ProgressTracker) (kind : ActivityType) (amount : Nat)
    (hrun : tr.isRunning = true) :
    (∀ k, (tr.updateActivity kind amount).activityProgress.accumulator k =
      if k = kind then add32 (tr.activityProgress.accumulator k) amount
      else tr.activityProgress.accumulator k) ∧
    (tr.updateActivity kind amount).activityProgress.wordsTyped =
      tr.activityProgress.wordsTyped ∧
    (tr.updateActivity kind amount).startTime = tr.startTime ∧
    (tr.updateActivity kind amount).lastPauseTime = tr.lastPauseTime ∧
    (tr.updateActivity kind amount).totalPausedTime = tr.totalPausedTime ∧
    (tr.updateActivity kind amount).isRunning = tr.isRunning ∧
    (tr.updateActivity kind amount).videoDuration = tr.videoDuration := by
  refine ⟨?_, ?_, ?_, ?_, ?_, ?_, ?_⟩ <;>
    first
    | (intro k; cases kind <;> cases k <;>
        simp [ProgressTracker.updateActivity, hrun, ActivityProgress.accumulator])
    | (cases kind <;> simp [ProgressTracker.updateActivity, hrun])

theorem amountFor_cons (k : ActivityType) (c : ActivityType × Nat)
    (calls : List (ActivityType × Nat)) :
    amountFor k (c :: calls) = (if c.1 = k then c.2 else 0) + amountFor k calls := by
  unfold amountFor
  by_cases h : c.1 = k <;> simp [List.filter_cons, h]

theorem updateActivities_running :
    ∀ (calls : List (ActivityType × Nat)) (tr : ProgressTracker), tr.isRunning = true →
      (∀ k, tr.activityProgress.accumulator k < U32) →
      (updateActivities tr calls).isRunning = true ∧
      ∀ k, (updateActivities tr calls).activityProgress.accumulator k =
        (tr.activityProgress.accumulator k + amountFor k calls) % U32 := by
  intro calls
  induction calls with
  | nil =>
    intro tr hrun hlt
    refine ⟨hrun, fun k => ?_⟩
    simp only [updateActivities, List.foldl_nil, amountFor, List.filter_nil, List.map_nil,
      List.sum_nil, add_zero]
    exact (Nat.mod_eq_of_lt (hlt k)).symm
  | cons c rest ih =>
    intro tr hrun hlt
    obtain ⟨hacc, -, -, -, -, hr, -⟩ := updateActivity_running tr c.1 c.2 hrun
    have hlt2 : ∀ k, (tr.updateActivity c.1 c.2).activityProgress.accumulator k < U32 := by
      intro k
      rw [hacc k]
      split_ifs
      · exact Nat.mod_lt _ (Nat.pos_of_ne_zero (by decide))
      · exact hlt k
    obtain ⟨h1, h2⟩ := ih (tr.updateActivity c.1 c.2) (by rw [hr]; exact hrun) hlt2
    have hfold : updateActivities tr (c :: rest) =
        updateActivities (tr.updateActivity c.1 c.2) rest := rfl
    rw [hfold]
    refine ⟨h1, fun k => ?_⟩
    rw [h2 k, hacc k, amountFor_cons]
    by_cases hk : k = c.1
    · rw [if_pos hk, if_pos hk.symm]
      unfold add32
      rw [Nat.mod_add_mod, add_assoc]
    · rw [if_neg hk, if_neg (fun h => hk h.symm), zero_add]

/-- C14.  `updateActivity(kind, amount)` leaves the whole tracker state unchanged when the
tracker is not running; when running it adds `amount` (in `uint32_t` arithmetic) to the
accumulator of exactly that activity kind and leaves the other accumulators, `wordsTyped`,
`startTime`, `lastPauseTime`, `totalPausedTime`, the running flag and `videoDuration` unchanged;
so after any sequence of calls while running each accumulator has grown by the sum of the amounts
passed for its kind, modulo `2 ^ 32`, which is the sum itself as long as it fits `uint32_t`. -/
theorem updateActivity_accumulates (tr : ProgressTracker) (kind : ActivityType) (amount : Nat) :
    (tr.isRunning = false → tr.updateActivity kind amount = tr) ∧
    (tr.isRunning = true →
      (∀ k, (tr.updateActivity kind amount).activityProgress.accumulator k =
        if k = kind then add32 (tr.activityProgress.accumulator k) amount
        else tr.activityProgress.accumulator k) ∧
      (tr.updateActivity kind amount).activityProgress.wordsTyped =
        tr.activityProgress.wordsTyped ∧
      (tr.updateActivity kind amount).startTime = tr.startTime ∧
      (tr.updateActivity kind amount).lastPauseTime = tr.lastPauseTime ∧
      (tr.updateActivity kind amount).totalPausedTime = tr.totalPausedTime ∧
      (tr.updateActivity kind amount).isRunning = tr.isRunning ∧
      (tr.updateActivity kind amount).videoDuration = tr.videoDuration) ∧
    (∀ calls : List (ActivityType × Nat), tr.isRunning = true →
      (∀ k, tr.activityProgress.accumulator k < U32) →
      ∀ k, (updateActivities tr calls).activityProgress.accumulator k =
          (tr.activityProgress.accumulator k + amountFor k calls) % U32 ∧
        (tr.activityProgress.accumulator k + amountFor k calls < U32 →
          (updateActivities tr calls).activityProgress.accumulator k =
            tr.activityProgress.accumulator k + amountFor k calls)) := by
  refine ⟨fun h => ?_, updateActivity_running tr kind amount, fun calls hrun hlt k => ?_⟩
  · simp [ProgressTracker.updateActivity, h]
  · have h := (updateActivities_running calls tr hrun hlt).2 k
    exact ⟨h, fun hfit => by rw [h, Nat.mod_eq_of_lt hfit]⟩

/-- C14 at a running tracker: three calls for typing (400 and 100) and thinking (250) leave 500
in the typing accumulator, 250 in the thinking accumulator and 0 in the others; the same calls
on a paused tracker change nothing. -/
theorem updateActivity_accumulates_witness :
    (∀ k, (updateActivities ((ProgressTracker.new sampleDuration).start 1000)
        [(ActivityType.TYPING, 400), (ActivityType.THINKING, 250),
          (ActivityType.TYPING, 100)]).activityProgress.accumulator k =
      ((((ProgressTracker.new sampleDuration).start 1000).activityProgress.accumulator k +
        amountFor k [(ActivityType.TYPING, 400), (ActivityType.THINKING, 250),
          (ActivityType.TYPING, 100)]) % U32)) ∧
    (updateActivities ((ProgressTracker.new sampleDuration).start 1000)
        [(ActivityType.TYPING, 400), (ActivityType.THINKING, 250),
          (ActivityType.TYPING, 100)]).activityProgress = ⟨500, 0, 250, 0, 0⟩ ∧
    (((ProgressTracker.new sampleDuration).start 1000).pause 2000).updateActivity
      ActivityType.TYPING 400 = ((ProgressTracker.new sampleDuration).start 1000).pause 2000 :=
  ⟨fun k => ((updateActivity_accumulates ((ProgressTracker.new sampleDuration).start 1000)
      ActivityType.TYPING 0).2.2 _ rfl (fun k => by cases k <;> decide) k).1,
    by decide,
    (updateActivity_accumulates (((ProgressTracker.new sampleDuration).start 1000).pause 2000)
      ActivityType.TYPING 400).1 rfl⟩

theorem calculateETA_estimatedRemaining (tr : ProgressTracker) (snapshot : ProgressSnapshot) :
    (tr.calculateETA snapshot).estimatedRemaining =
      if XFloat.le snapshot.percentComplete (XFloat.fin 0) then tr.videoDuration.totalMillis
      else max 0 (sub32 (XFloat.toU32 (XFloat.div (XFloat.fin 100)
        (XFloat.div snapshot.percentComplete (XFloat.ofNat snapshot.elapsedMillis))))
        snapshot.elapsedMillis) := by
  unfold ProgressTracker.calculateETA
  split_ifs <;> rfl

theorem getSnapshot_percentComplete {tr : ProgressTracker} (now : Nat)
    (hrun : tr.isRunning = true) (hstart : tr.startTime ≠ 0) :
    (tr.getSnapshot now).percentComplete =
      XFloat.min (XFloat.fin 100)
        (XFloat.mul (XFloat.div (XFloat.ofNat (tr.getSnapshot now).elapsedMillis)
          (XFloat.ofNat tr.videoDuration.totalMillis)) (XFloat.fin 100)) := by
  rw [getSnapshot_elapsedMillis now hrun hstart, getSnapshot_running now hrun hstart]
  simp only [ProgressTracker.updateStatusFlags, ProgressTracker.calculateETA]
  split_ifs <;> rfl

theorem getSnapshot_estimatedRemaining {tr : ProgressTracker} (now : Nat)
    (hrun : tr.isRunning = true) (hstart : tr.startTime ≠ 0) :
    (tr.getSnapshot now).estimatedRemaining =
      if XFloat.le (tr.getSnapshot now).percentComplete (XFloat.fin 0) then
        tr.videoDuration.totalMillis
      else max 0 (sub32 (XFloat.toU32 (XFloat.div (XFloat.fin 100)
        (XFloat.div (tr.getSnapshot now).percentComplete
          (XFloat.ofNat (tr.getSnapshot now).elapsedMillis))))
        (tr.getSnapshot now).elapsedMillis) := by
  rw [getSnapshot_percentComplete now hrun hstart, getSnapshot_elapsedMillis now hrun hstart,
    getSnapshot_running now hrun hstart]
  exact calculateETA_estimatedRemaining tr _

theorem sub32_lt (a b : Nat) : sub32 a b < U32 :=
  Nat.mod_lt _ (Nat.pos_of_ne_zero (by decide))

theorem toU32_ofNat {n : Nat} (h : n < U32) : XFloat.toU32 (XFloat.fin (n : ℚ)) = n := by
  simp only [XFloat.toU32, Int.floor_natCast, Int.toNat_ofNat]
  exact Nat.mod_eq_of_lt h

/-! ## Speed adjuster -/

theorem clamp_bounds (value : ℚ) {lo hi : ℚ} (h : lo ≤ hi) :
    lo ≤ clamp value lo hi ∧ clamp value lo hi ≤ hi := by
  unfold clamp
  split_ifs with h1 h2
  · exact ⟨le_refl _, h⟩
  · exact ⟨h, le_refl _⟩
  · exact ⟨not_lt.1 h1, not_lt.1 h2⟩

theorem clamp_mono {a b : ℚ} (hab : a ≤ b) {lo hi : ℚ} (h : lo ≤ hi) :
    clamp a lo hi ≤ clamp b lo hi := by
  unfold clamp
  split_ifs <;> linarith

theorem updateFatigue_currentFatigue (s : SpeedAdjuster) (now : Nat) :
    (s.updateFatigue now).currentFatigue =
      if ((sub32 now s.lastFatigueUpdate : Nat) : ℚ) / 1000 > 0 then
        max 0 (s.currentFatigue - RECOVERY_RATE * (((sub32 now s.lastFatigueUpdate : Nat) : ℚ) / 1000))
      else s.currentFatigue := by
  unfold SpeedAdjuster.updateFatigue
  simp only
  split_ifs <;> rfl

theorem updateFatigue_le (s : SpeedAdjuster) (now : Nat) (h0 : 0 ≤ s.currentFatigue) :
    0 ≤ (s.updateFatigue now).currentFatigue ∧
    (s.updateFatigue now).currentFatigue ≤ s.currentFatigue := by
  rw [updateFatigue_currentFatigue]
  split_ifs with h
  · refine ⟨le_max_left _ _, max_le h0 ?_⟩
    have : 0 ≤ RECOVERY_RATE * (((sub32 now s.lastFatigueUpdate : Nat) : ℚ) / 1000) :=
      mul_nonneg (by unfold RECOVERY_RATE; norm_num) (le_of_lt h)
    linarith
  · exact ⟨h0, le_refl _⟩

theorem updateSpeed_currentFatigue (s : SpeedAdjuster) (progress : ProgressSnapshot)
    (now : Nat) :
    (s.updateSpeed progress now).2.currentFatigue = (s.updateFatigue now).currentFatigue := by
  simp only [SpeedAdjuster.updateSpeed, SpeedAdjuster.calculateSpeedAdjustment]
  split_ifs <;> rfl

theorem updateFatigue_currentSpeedFactor (s : SpeedAdjuster) (now : Nat) :
    (s.updateFatigue now).currentSpeedFactor = s.currentSpeedFactor := by
  unfold SpeedAdjuster.updateFatigue
  simp only
  split_ifs <;> rfl

theorem updateFatigue_config (s : SpeedAdjuster) (now : Nat) :
    (s.updateFatigue now).config = s.config := by
  unfold SpeedAdjuster.updateFatigue
  simp only
  split_ifs <;> rfl

theorem updateSpeed_currentSpeedFactor (s : SpeedAdjuster) (progress : ProgressSnapshot)
    (now : Nat) :
    (s.updateSpeed progress now).2.currentSpeedFactor =
      s.currentSpeedFactor +
        clamp (targetAdjustment progress - s.currentSpeedFactor) (-(1 / 10)) (1 / 10) := by
  simp only [SpeedAdjuster.updateSpeed, SpeedAdjuster.calculateSpeedAdjustment,
    updateFatigue_currentSpeedFactor]

theorem updateSpeed_config (s : SpeedAdjuster) (progress : ProgressSnapshot) (now : Nat) :
    (s.updateSpeed progress now).2.config = s.config := by
  simp only [SpeedAdjuster.updateSpeed, SpeedAdjuster.calculateSpeedAdjustment]
  split_ifs <;> exact updateFatigue_config s now

theorem updateSpeed_speedFactor (s : SpeedAdjuster) (progress : ProgressSnapshot) (now : Nat) :
    (s.updateSpeed progress now).1.speedFactor =
      clamp ((s.updateSpeed progress now).2.currentSpeedFactor *
          (1 - (s.updateSpeed progress now).2.currentFatigue * s.config.fatigueImpact))
        s.config.minSpeedFactor s.config.maxSpeedFactor := by
  have hc := updateSpeed_config s progress now
  simp only [SpeedAdjuster.updateSpeed] at hc ⊢
  simp only [SpeedAdjuster.updateSpeedTracking, SpeedAdjuster.enforceSpeedLimits,
    SpeedAdjuster.applyFatigueImpact, hc]

/-- C16.  For every `SpeedConfig` with `minSpeedFactor <= maxSpeedFactor`, every adjuster state
and every snapshot, `updateSpeed` returns a `speedFactor` with
`minSpeedFactor <= speedFactor <= maxSpeedFactor`, sets `isAtMaxSpeed` exactly when
`speedFactor == maxSpeedFactor` and `isAtMinSpeed` exactly when `speedFactor == minSpeedFactor`,
and returns `adjustedWPM == baseWPM * speedFactor`. -/
theorem updateSpeed_enforces_limits (s : SpeedAdjuster) (progress : ProgressSnapshot) (now : Nat)
    (hcfg : s.config.minSpeedFactor ≤ s.config.maxSpeedFactor) :
    s.config.minSpeedFactor ≤ (s.updateSpeed progress now).1.speedFactor ∧
    (s.updateSpeed progress now).1.speedFactor ≤ s.config.maxSpeedFactor ∧
    ((s.updateSpeed progress now).1.isAtMaxSpeed = true ↔
      (s.updateSpeed progress now).1.speedFactor = s.config.maxSpeedFactor) ∧
    ((s.updateSpeed progress now).1.isAtMinSpeed = true ↔
      (s.updateSpeed progress now).1.speedFactor = s.config.minSpeedFactor) ∧
    (s.updateSpeed progress now).1.adjustedWPM =
      s.config.baseWPM * (s.updateSpeed progress now).1.speedFactor := by
  have hc := updateSpeed_config s progress now
  have hsf := updateSpeed_speedFactor s progress now
  obtain ⟨hlo, hhi⟩ := clamp_bounds ((s.updateSpeed progress now).2.currentSpeedFactor *
    (1 - (s.updateSpeed progress now).2.currentFatigue * s.config.fatigueImpact)) hcfg
  rw [← hsf] at hlo hhi
  have hmax : (s.updateSpeed progress now).1.isAtMaxSpeed =
      decide ((s.updateSpeed progress now).1.speedFactor ≥ s.config.maxSpeedFactor) := by
    simp only [SpeedAdjuster.updateSpeed] at hc ⊢
    simp only [SpeedAdjuster.updateSpeedTracking, SpeedAdjuster.enforceSpeedLimits, hc]
  have hmin : (s.updateSpeed progress now).1.isAtMinSpeed =
      decide ((s.updateSpeed progress now).1.speedFactor ≤ s.config.minSpeedFactor) := by
    simp only [SpeedAdjuster.updateSpeed] at hc ⊢
    simp only [SpeedAdjuster.updateSpeedTracking, SpeedAdjuster.enforceSpeedLimits, hc]
  have hwpm : (s.updateSpeed progress now).1.adjustedWPM =
      s.config.baseWPM * (s.updateSpeed progress now).1.speedFactor := by
    simp only [SpeedAdjuster.updateSpeed] at hc ⊢
    simp only [SpeedAdjuster.updateSpeedTracking, SpeedAdjuster.enforceSpeedLimits, hc]
  refine ⟨hlo, hhi, ?_, ?_, hwpm⟩
  · rw [hmax, decide_eq_true_eq]
    exact ⟨fun h => le_antisymm hhi h, fun h => h.ge⟩
  · rw [hmin, decide_eq_true_eq]
    exact ⟨fun h => le_antisymm h hlo, fun h => h.le⟩

/-- C16 at a new adjuster with the default configuration and a snapshot behind schedule. -/
theorem updateSpeed_enforces_limits_witness :
    (SpeedAdjuster.new SpeedConfig.default).config.minSpeedFactor ≤
      ((SpeedAdjuster.new SpeedConfig.default).updateSpeed sampleBehind 1000).1.speedFactor ∧
    ((SpeedAdjuster.new SpeedConfig.default).updateSpeed sampleBehind 1000).1.speedFactor ≤
      (SpeedAdjuster.new SpeedConfig.default).config.maxSpeedFactor :=
  ⟨(updateSpeed_enforces_limits (SpeedAdjuster.new SpeedConfig.default) sampleBehind 1000
      (by norm_num [SpeedAdjuster.new, SpeedConfig.default, MIN_SPEED_MULTIPLIER,
        MAX_SPEED_MULTIPLIER])).1,
   (updateSpeed_enforces_limits (SpeedAdjuster.new SpeedConfig.default) sampleBehind 1000
      (by norm_num [SpeedAdjuster.new, SpeedConfig.default, MIN_SPEED_MULTIPLIER,
        MAX_SPEED_MULTIPLIER])).2.1⟩

/-- In every reachable state the configuration is the one given at construction, the stored
speed factor lies between 0.9 and 1.1 and the fatigue between 0 and 1. -/
theorem reachable_invariant {config : SpeedConfig} {s : SpeedAdjuster}
    (hs : SpeedAdjuster.Reachable config s) :
    s.config = config ∧ 9 / 10 ≤ s.currentSpeedFactor ∧ s.currentSpeedFactor ≤ 11 / 10 ∧
    0 ≤ s.currentFatigue ∧ s.currentFatigue ≤ 1 := by
  induction hs with
  | new => exact ⟨rfl, by norm_num [SpeedAdjuster.new], by norm_num [SpeedAdjuster.new],
      le_refl _, by norm_num [SpeedAdjuster.new]⟩
  | reset s now _ ih =>
    exact ⟨ih.1, by norm_num [SpeedAdjuster.reset], by norm_num [SpeedAdjuster.reset],
      le_refl _, by norm_num [SpeedAdjuster.reset]⟩
  | updateSpeed s progress now _ ih =>
    obtain ⟨h1, h2, h3, h4, h5⟩ := ih
    have hf := updateFatigue_le s now h4
    refine ⟨by rw [updateSpeed_config, h1], ?_, ?_, ?_, ?_⟩
    · rw [updateSpeed_currentSpeedFactor]
      unfold clamp targetAdjustment
      split_ifs <;> linarith
    · rw [updateSpeed_currentSpeedFactor]
      unfold clamp targetAdjustment
      split_ifs <;> linarith
    · rw [updateSpeed_currentFatigue]
      exact hf.1
    · rw [updateSpeed_currentFatigue]
      exact le_trans hf.2 h5
  | addFatigue s amount _ ha ih =>
    obtain ⟨h1, h2, h3, h4, h5⟩ := ih
    refine ⟨h1, h2, h3, ?_, ?_⟩
    · exact le_min (add_nonneg h4 ha) (by norm_num)
    · exact min_le_right _ _
  | applyRecovery s amount _ ha ih =>
    obtain ⟨h1, h2, h3, h4, h5⟩ := ih
    refine ⟨h1, h2, h3, ?_, ?_⟩
    · exact le_max_left _ _
    · exact max_le (by linarith) (by linarith)

/-- C19.  The fatigue of the speed adjuster stays in `[0, 1]`: in every state reached from
construction by `reset()`, `updateSpeed`, `addFatigue(a)` and `applyRecovery(a)` with `a >= 0`,
`getCurrentFatigue()` is `>= 0` and `<= 1`, and an `updateSpeed` call never increases it. -/
theorem fatigue_stays_in_unit_interval (config : SpeedConfig) (s : SpeedAdjuster)
    (hs : SpeedAdjuster.Reachable config s) :
    0 ≤ s.getCurrentFatigue ∧ s.getCurrentFatigue ≤ 1 ∧
    ∀ (progress : ProgressSnapshot) (now : Nat),
      (s.updateSpeed progress now).2.getCurrentFatigue ≤ s.getCurrentFatigue := by
  obtain ⟨-, -, -, h4, h5⟩ := reachable_invariant hs
  refine ⟨h4, h5, fun progress now => ?_⟩
  unfold SpeedAdjuster.getCurrentFatigue
  rw [updateSpeed_currentFatigue]
  exact (updateFatigue_le s now h4).2

/-- C19 at the state after `addFatigue(0.7)`, `addFatigue(0.6)` and an update. -/
theorem fatigue_stays_in_unit_interval_witness :
    0 ≤ ((((SpeedAdjuster.new SpeedConfig.default).addFatigue (7 / 10)).addFatigue
      (6 / 10)).updateSpeed sampleAhead 2000).2.getCurrentFatigue ∧
    ((((SpeedAdjuster.new SpeedConfig.default).addFatigue (7 / 10)).addFatigue
      (6 / 10)).updateSpeed sampleAhead 2000).2.getCurrentFatigue ≤ 1 :=
  ⟨(fatigue_stays_in_unit_interval SpeedConfig.default _
      (SpeedAdjuster.Reachable.updateSpeed _ sampleAhead 2000
        (SpeedAdjuster.Reachable.addFatigue _ (6 / 10)
          (SpeedAdjuster.Reachable.addFatigue _ (7 / 10) SpeedAdjuster.Reachable.new
            (by norm_num)) (by norm_num)))).1,
   (fatigue_stays_in_unit_interval SpeedConfig.default _
      (SpeedAdjuster.Reachable.updateSpeed _ sampleAhead 2000
        (SpeedAdjuster.Reachable.addFatigue _ (6 / 10)
          (SpeedAdjuster.Reachable.addFatigue _ (7 / 10) SpeedAdjuster.Reachable.new
            (by norm_num)) (by norm_num)))).2.1⟩

/-- The speed factor that an update returns, as a function of the adjuster after the update. -/
theorem updateSpeed_behind_step {s : SpeedAdjuster} {progress : ProgressSnapshot} (now : Nat)
    (hbehind : progress.isBehindSchedule = true)
    (hcsf : s.currentSpeedFactor ≤ 11 / 10) (hf : 0 ≤ s.currentFatigue) :
    s.currentSpeedFactor ≤ (s.updateSpeed progress now).2.currentSpeedFactor ∧
    (s.updateSpeed progress now).2.currentSpeedFactor ≤ 11 / 10 ∧
    0 ≤ (s.updateSpeed progress now).2.currentFatigue ∧
    (s.updateSpeed progress now).2.currentFatigue ≤ s.currentFatigue := by
  rw [updateSpeed_currentSpeedFactor, updateSpeed_currentFatigue]
  have ht : targetAdjustment progress = 11 / 10 := by
    unfold targetAdjustment
    rw [if_pos hbehind]
    norm_num
  rw [ht]
  refine ⟨?_, ?_, (updateFatigue_le s now hf).1, (updateFatigue_le s now hf).2⟩
  · unfold clamp
    split_ifs <;> linarith
  · unfold clamp
    split_ifs <;> linarith

theorem runUpdates_behind_chain (lo hi impact : ℚ) (hlohi : lo ≤ hi) (himp0 : 0 ≤ impact)
    (himp1 : impact ≤ 1) :
    ∀ (calls : List (ProgressSnapshot × Nat)) (s : SpeedAdjuster) (b : ℚ),
      s.config.minSpeedFactor = lo → s.config.maxSpeedFactor = hi →
      s.config.fatigueImpact = impact →
      (∀ c ∈ calls, c.1.isBehindSchedule = true) →
      0 ≤ s.currentSpeedFactor → s.currentSpeedFactor ≤ 11 / 10 →
      0 ≤ s.currentFatigue → s.currentFatigue ≤ 1 →
      b ≤ clamp (s.currentSpeedFactor * (1 - s.currentFatigue * impact)) lo hi →
      List.Chain (fun x y => x ≤ y) b ((runUpdates s calls).map (fun a => a.speedFactor)) ∧
      ∀ a ∈ runUpdates s calls, a.speedFactor ≤ hi := by
  intro calls
  induction calls with
  | nil =>
    intro s b _ _ _ _ _ _ _ _ _
    exact ⟨List.Chain.nil, fun a ha => by cases ha⟩
  | cons c cs ih =>
    intro s b hlo hhi himp hall h0 h1 hf0 hf1 hb
    have hbehind := hall c (List.mem_cons_self _ _)
    obtain ⟨k1, k2, k3, k4⟩ := updateSpeed_behind_step c.2 hbehind h1 hf0
    have hsf := updateSpeed_speedFactor s c.1 c.2
    rw [hlo, hhi, himp] at hsf
    have hc := updateSpeed_config s c.1 c.2
    have hraw : s.currentSpeedFactor * (1 - s.currentFatigue * impact) ≤
        (s.updateSpeed c.1 c.2).2.currentSpeedFactor *
          (1 - (s.updateSpeed c.1 c.2).2.currentFatigue * impact) := by
      have hm1 : 0 ≤ 1 - s.currentFatigue * impact := by nlinarith
      have hm2 : 1 - s.currentFatigue * impact ≤
          1 - (s.updateSpeed c.1 c.2).2.currentFatigue * impact := by nlinarith
      have hcsf0 : 0 ≤ (s.updateSpeed c.1 c.2).2.currentSpeedFactor := le_trans h0 k1
      calc s.currentSpeedFactor * (1 - s.currentFatigue * impact)
          ≤ (s.updateSpeed c.1 c.2).2.currentSpeedFactor * (1 - s.currentFatigue * impact) :=
            mul_le_mul_of_nonneg_right k1 hm1
        _ ≤ (s.updateSpeed c.1 c.2).2.currentSpeedFactor *
            (1 - (s.updateSpeed c.1 c.2).2.currentFatigue * impact) :=
            mul_le_mul_of_nonneg_left hm2 hcsf0
    have hstep : b ≤ (s.updateSpeed c.1 c.2).1.speedFactor := by
      rw [hsf]
      exact le_trans hb (clamp_mono hraw hlohi)
    obtain ⟨i1, i2⟩ := ih (s.updateSpeed c.1 c.2).2 (s.updateSpeed c.1 c.2).1.speedFactor
      (by rw [hc, hlo]) (by rw [hc, hhi]) (by rw [hc, himp])
      (fun x hx => hall x (List.mem_cons_of_mem _ hx)) (le_trans h0 k1) k2 k3 (le_trans k4 hf1)
      (by rw [hsf])
    constructor
    · simp only [runUpdates, List.map_cons]
      exact List.Chain.cons hstep i1
    · intro a ha
      simp only [runUpdates, List.mem_cons] at ha
      rcases ha with rfl | ha
      · rw [hsf]
        exact (clamp_bounds _ hlohi).2
      · exact i2 a ha

/-- C15.  For a `SpeedAdjuster` with the default `SpeedConfig` in any reachable state, over any
sequence of consecutive `updateSpeed` calls whose snapshots all have `isBehindSchedule == true`,
taken at non-decreasing clock values with no other call in between, the returned `speedFactor`
is non-decreasing from one update to the next and never exceeds `config.maxSpeedFactor`.  (The
proof does not use the hypothesis on the clock values.) -/
theorem updateSpeed_behind_monotone (s : SpeedAdjuster)
    (hs : SpeedAdjuster.Reachable SpeedConfig.default s)
    (calls : List (ProgressSnapshot × Nat))
    (hbehind : ∀ c ∈ calls, c.1.isBehindSchedule = true)
    (_hclock : (calls.map (fun c => c.2)).Chain' (fun x y => x ≤ y)) :
    ((runUpdates s calls).map (fun a => a.speedFactor)).Chain' (fun x y => x ≤ y) ∧
    ∀ a ∈ runUpdates s calls, a.speedFactor ≤ s.config.maxSpeedFactor := by
  obtain ⟨h1, h2, h3, h4, h5⟩ := reachable_invariant hs
  have hchain := runUpdates_behind_chain MIN_SPEED_MULTIPLIER MAX_SPEED_MULTIPLIER
    FATIGUE_SPEED_IMPACT (by norm_num [MIN_SPEED_MULTIPLIER, MAX_SPEED_MULTIPLIER])
    (by norm_num [FATIGUE_SPEED_IMPACT]) (by norm_num [FATIGUE_SPEED_IMPACT]) calls s
    (clamp (s.currentSpeedFactor * (1 - s.currentFatigue * FATIGUE_SPEED_IMPACT))
      MIN_SPEED_MULTIPLIER MAX_SPEED_MULTIPLIER)
    (by rw [h1]; rfl) (by rw [h1]; rfl) (by rw [h1]; rfl) hbehind (by linarith) h3 h4 h5
    (le_refl _)
  refine ⟨?_, ?_⟩
  · have := hchain.1
    cases hr : (runUpdates s calls).map (fun a => a.speedFactor) with
    | nil => exact List.chain'_nil
    | cons x xs =>
      rw [hr] at this
      exact (List.chain_cons.1 this).2
  · rw [h1]
    exact hchain.2

/-- C15 at a new adjuster with fatigue 0.5 added and three updates behind schedule. -/
theorem updateSpeed_behind_monotone_witness :
    ((runUpdates ((SpeedAdjuster.new SpeedConfig.default).addFatigue (1 / 2))
        [(sampleBehind, 1000), (sampleBehind, 2000), (sampleBehind, 2000)]).map
      (fun a => a.speedFactor)).Chain' (fun x y => x ≤ y) ∧
    ∀ a ∈ runUpdates ((SpeedAdjuster.new SpeedConfig.default).addFatigue (1 / 2))
        [(sampleBehind, 1000), (sampleBehind, 2000), (sampleBehind, 2000)],
      a.speedFactor ≤ ((SpeedAdjuster.new SpeedConfig.default).addFatigue
        (1 / 2)).config.maxSpeedFactor :=
  updateSpeed_behind_monotone _
    (SpeedAdjuster.Reachable.addFatigue _ (1 / 2) SpeedAdjuster.Reachable.new (by norm_num))
    [(sampleBehind, 1000), (sampleBehind, 2000), (sampleBehind, 2000)]
    (by simp [sampleBehind]) (by simp)

theorem getSnapshot_timeUtilization {tr : ProgressTracker} (now : Nat)
    (hrun : tr.isRunning = true) (hstart : tr.startTime ≠ 0) :
    (tr.getSnapshot now).compliance.timeUtilization =
      XFloat.mul
        (XFloat.div (XFloat.ofNat (tr.getSnapshot now).elapsedMillis)
          (XFloat.mul (XFloat.ofNat tr.videoDuration.totalMillis)
            (XFloat.div (tr.getSnapshot now).percentComplete (XFloat.fin 100))))
        (XFloat.fin 100) := by
  rw [getSnapshot_percentComplete now hrun hstart, getSnapshot_elapsedMillis now hrun hstart,
    getSnapshot_running now hrun hstart]
  simp only [ProgressTracker.updateStatusFlags, ProgressTracker.calculateETA]
  split_ifs <;> rfl

/-! ## Timestamp strings -/

theorem digitChar_facts (d : Fin 10) :
    digitChar d ≠ ':' ∧ digitChar d ≠ '.' ∧ ':' ≠ digitChar d ∧ '.' ≠ digitChar d := by
  revert d; decide

theorem toU8_toInt_twoDigits (a b : Fin 10) :
    toU8 (toInt (String.mk [digitChar a, digitChar b])) = a.val * 10 + b.val := by
  revert a b; decide

theorem toU16_toInt_twoDigits (a b : Fin 10) :
    toU16 (toInt (String.mk [digitChar a, digitChar b])) = a.val * 10 + b.val := by
  revert a b; decide

set_option maxRecDepth 4000 in
theorem toU16_toInt_threeDigits (a b c : Fin 10) :
    toU16 (toInt (String.mk [digitChar a, digitChar b, digitChar c])) =
      a.val * 100 + b.val * 10 + c.val := by
  revert a b c; decide

theorem parseTimeString_timeString (hh : Option (Fin 10 × Fin 10)) (mm ss : Fin 10 × Fin 10)
    (ms : Option (Fin 10 × Fin 10 × Fin 10)) :
    TimeConversion.parseTimeString (timeString hh mm ss ms) =
      { hours := (match hh with
          | some h => twoDigitsValue h
          | none => 0)
        minutes := twoDigitsValue mm
        seconds := twoDigitsValue ss
        milliseconds := (match ms with
          | some m => m.1.val * 100 + m.2.1.val * 10 + m.2.2.val
          | none => 0) } := by
  obtain ⟨m1, m2⟩ := mm
  obtain ⟨s1, s2⟩ := ss
  have f1 := digitChar_facts m1
  have f2 := digitChar_facts m2
  have f3 := digitChar_facts s1
  have f4 := digitChar_facts s2
  rcases hh with _ | ⟨h1, h2⟩ <;> rcases ms with _ | ⟨d1, d2, d3⟩
  · simp [timeString, twoDigits, TimeConversion.parseTimeString, indexOf, indexOfFrom, toUnsigned,
      U32, f1, f2, f3, f4, List.indexOf_cons, substring, substringFrom, toU8_toInt_twoDigits,
      twoDigitsValue]
  · have f5 := digitChar_facts d1
    have f6 := digitChar_facts d2
    have f7 := digitChar_facts d3
    simp [timeString, twoDigits, TimeConversion.parseTimeString, indexOf, indexOfFrom, toUnsigned,
      U32, f1, f2, f3, f4, f5, f6, f7, List.indexOf_cons, substring, substringFrom,
      toU8_toInt_twoDigits, toU16_toInt_threeDigits, twoDigitsValue]
  · have g1 := digitChar_facts h1
    have g2 := digitChar_facts h2
    simp [timeString, twoDigits, TimeConversion.parseTimeString, indexOf, indexOfFrom, toUnsigned,
      U32, f1, f2, f3, f4, g1, g2, List.indexOf_cons, substring, substringFrom,
      toU8_toInt_twoDigits, toU16_toInt_twoDigits, twoDigitsValue]
  · have g1 := digitChar_facts h1
    have g2 := digitChar_facts h2
    have f5 := digitChar_facts d1
    have f6 := digitChar_facts d2
    have f7 := digitChar_facts d3
    simp [timeString, twoDigits, TimeConversion.parseTimeString, indexOf, indexOfFrom, toUnsigned,
      U32, f1, f2, f3, f4, f5, f6, f7, g1, g2, List.indexOf_cons, substring, substringFrom,
      toU8_toInt_twoDigits, toU16_toInt_twoDigits, toU16_toInt_threeDigits, twoDigitsValue]

/-- C30.  For every timestamp string `MM:SS` or `HH:MM:SS` of two-digit fields, with or without
the suffix `.mmm` of three digits, `toMillis (parseTimeString s)` is
`((HH * 60 + MM) * 60 + SS) * 1000 + mmm`, where `HH` and `mmm` are 0 when absent; the string
`"00:05.000"` gives 5000. -/
theorem toMillis_parseTimeString (hh : Option (Fin 10 × Fin 10)) (mm ss : Fin 10 × Fin 10)
    (ms : Option (Fin 10 × Fin 10 × Fin 10)) :
    TimeConversion.toMillis (TimeConversion.parseTimeString (timeString hh mm ss ms)) =
        timeStringMillis hh mm ss ms ∧
      TimeConversion.toMillis (TimeConversion.parseTimeString "00:05.000") = 5000 := by
  refine ⟨?_, by decide⟩
  rw [parseTimeString_timeString]
  obtain ⟨m1, m2⟩ := mm
  obtain ⟨s1, s2⟩ := ss
  have hm1 := m1.isLt
  have hm2 := m2.isLt
  have hs1 := s1.isLt
  have hs2 := s2.isLt
  rcases hh with _ | ⟨h1, h2⟩ <;> rcases ms with _ | ⟨d1, d2, d3⟩ <;>
    simp only [TimeConversion.toMillis, timeStringMillis, twoDigitsValue, U32]
  · omega
  · have := d1.isLt
    have := d2.isLt
    have := d3.isLt
    omega
  · have := h1.isLt
    have := h2.isLt
    omega
  · have := h1.isLt
    have := h2.isLt
    have := d1.isLt
    have := d2.isLt
    have := d3.isLt
    omega

/-! ## Transcript parser -/

/-- C22.  For a transcript that can be opened, `parseFile` returns `isValid == true` exactly
when the first line starts with `"Video "`; when it does not, the result is the failure with
the message `"Invalid file format: Missing Video ID"`, an empty `videoId` and no clips,
whatever the other lines are. -/
theorem parseFile_isValid_iff (fromString : String → TimeStamp) (lines : List String) :
    ((parseFile fromString (some lines)).isValid = true ↔
        "Video ".data <+: (lines.headD "").data) ∧
      (¬ "Video ".data <+: (lines.headD "").data →
        parseFile fromString (some lines) =
          { videoId := "", clips := [], isValid := false,
            errorMessage := "Invalid file format: Missing Video ID" }) := by
  have hs : startsWith (lines.headD "") "Video " = true ↔
      "Video ".data <+: (lines.headD "").data := by
    simp only [startsWith, List.isPrefixOf_iff_prefix]
  by_cases h : startsWith (lines.headD "") "Video " = true
  · refine ⟨⟨fun _ => hs.1 h, fun _ => ?_⟩, fun hn => absurd (hs.1 h) hn⟩
    simp only [parseFile, h, if_true]
  · have hfail : parseFile fromString (some lines) =
        { videoId := "", clips := [], isValid := false,
          errorMessage := "Invalid file format: Missing Video ID" } := by
      simp only [parseFile]
      rw [if_neg h]
    refine ⟨⟨fun hv => ?_, fun hp => absurd (hs.2 hp) h⟩, fun _ => hfail⟩
    rw [hfail] at hv
    cases hv

theorem parseFile_isValid_iff_witness :
    ((parseFile sampleFromString (some sampleNoVideo)).isValid = true ↔
        "Video ".data <+: (sampleNoVideo.headD "").data) ∧
      parseFile sampleFromString (some sampleNoVideo) =
        { videoId := "", clips := [], isValid := false,
          errorMessage := "Invalid file format: Missing Video ID" } :=
  ⟨(parseFile_isValid_iff sampleFromString sampleNoVideo).1,
    (parseFile_isValid_iff sampleFromString sampleNoVideo).2 (by decide)⟩

/-- C23.  The code carries free text over a clip header: on the transcript `sampleTranscript`,
whose line `"tail of one"` lies in clip 1 (after its timeframe) and whose line `"head of two"`
lies in clip 2, `parseFile` gives clip 1 an empty `mainDescription` and clip 2 the description
`"tail of one\nhead of two\n"`, for every `fromString`. -/
theorem parseFile_description_crosses_clips (fromString : String → TimeStamp) :
    (parseFile fromString (some sampleTranscript)).clips.map
        (fun c => (c.number, c.mainDescription)) =
      [(1, ""), (2, "tail of one\nhead of two\n")] := by
  rfl

/-! ## Difficulty score -/

theorem constrain_unit (x : ℚ) : 0 ≤ constrain x 0 1 ∧ constrain x 0 1 ≤ 1 := by
  unfold constrain
  split_ifs with h1 h2
  · exact ⟨le_refl _, zero_le_one⟩
  · exact ⟨zero_le_one, le_refl _⟩
  · exact ⟨not_lt.1 h1, not_lt.1 h2⟩

theorem constrain_id {x : ℚ} (h0 : 0 ≤ x) (h1 : x ≤ 1) : constrain x 0 1 = x := by
  unfold constrain
  rw [if_neg (not_lt.2 h0), if_neg (not_lt.2 h1)]

theorem normalizeValue_unit (value min max : ℚ) :
    0 ≤ DifficultyScorer.normalizeValue value min max ∧
      DifficultyScorer.normalizeValue value min max ≤ 1 :=
  constrain_unit _

theorem normalizeValue_max {value min max : ℚ} (hlt : min < max) (h : max ≤ value) :
    DifficultyScorer.normalizeValue value min max = 1 := by
  have hpos : 0 < max - min := sub_pos.2 hlt
  have h1 : 1 ≤ (value - min) / (max - min) := by
    rw [le_div_iff₀ hpos]
    linarith
  unfold DifficultyScorer.normalizeValue constrain
  rw [if_neg (not_lt.2 (le_trans zero_le_one h1))]
  split_ifs with h2
  · rfl
  · exact le_antisymm (not_lt.1 h2) h1

theorem normalizeValue_min {value min max : ℚ} (hlt : min < max) (h : value ≤ min) :
    DifficultyScorer.normalizeValue value min max = 0 := by
  have hpos : 0 < max - min := sub_pos.2 hlt
  have h1 : (value - min) / (max - min) ≤ 0 :=
    div_nonpos_of_nonpos_of_nonneg (by linarith) hpos.le
  unfold DifficultyScorer.normalizeValue constrain
  split_ifs with h2 h3
  · rfl
  · linarith
  · exact le_antisymm h1 (not_lt.1 h2)

theorem referenceRanges :
    ReferenceValues.MIN_CHARS_PER_SEC < ReferenceValues.MAX_CHARS_PER_SEC ∧
    ReferenceValues.MIN_WORDS_PER_SEC < ReferenceValues.MAX_WORDS_PER_SEC ∧
    ReferenceValues.MIN_TIMEFRAMES_PER_CLIP < ReferenceValues.MAX_TIMEFRAMES_PER_CLIP ∧
    ReferenceValues.MIN_OVERLAP_PERCENT < ReferenceValues.MAX_OVERLAP_PERCENT ∧
    ReferenceValues.MIN_ACTIONS_PER_CLIP < ReferenceValues.MAX_ACTIONS_PER_CLIP ∧
    ReferenceValues.MIN_TRANSITIONS_PER_MIN < ReferenceValues.MAX_TRANSITIONS_PER_MIN ∧
    ReferenceValues.MIN_WORDS_PER_CLIP < ReferenceValues.MAX_WORDS_PER_CLIP ∧
    ReferenceValues.MIN_DESC_DENSITY < ReferenceValues.MAX_DESC_DENSITY := by
  norm_num [ReferenceValues.MIN_CHARS_PER_SEC, ReferenceValues.MAX_CHARS_PER_SEC,
    ReferenceValues.MIN_WORDS_PER_SEC, ReferenceValues.MAX_WORDS_PER_SEC,
    ReferenceValues.MIN_TIMEFRAMES_PER_CLIP, ReferenceValues.MAX_TIMEFRAMES_PER_CLIP,
    ReferenceValues.MIN_OVERLAP_PERCENT, ReferenceValues.MAX_OVERLAP_PERCENT,
    ReferenceValues.MIN_ACTIONS_PER_CLIP, ReferenceValues.MAX_ACTIONS_PER_CLIP,
    ReferenceValues.MIN_TRANSITIONS_PER_MIN, ReferenceValues.MAX_TRANSITIONS_PER_MIN,
    ReferenceValues.MIN_WORDS_PER_CLIP, ReferenceValues.MAX_WORDS_PER_CLIP,
    ReferenceValues.MIN_DESC_DENSITY, ReferenceValues.MAX_DESC_DENSITY]

theorem subscores_unit (m : TaskMetrics) :
    (0 ≤ DifficultyScorer.calculateTimeDensityScore m ∧
      DifficultyScorer.calculateTimeDensityScore m ≤ 10) ∧
    (0 ≤ DifficultyScorer.calculateComplexityScore m ∧
      DifficultyScorer.calculateComplexityScore m ≤ 10) ∧
    (0 ≤ DifficultyScorer.calculateCameraActionScore m ∧
      DifficultyScorer.calculateCameraActionScore m ≤ 10) ∧
    (0 ≤ DifficultyScorer.calculateTextLengthScore m ∧
      DifficultyScorer.calculateTextLengthScore m ≤ 10) := by
  simp only [DifficultyScorer.calculateTimeDensityScore,
    DifficultyScorer.calculateComplexityScore, DifficultyScorer.calculateCameraActionScore,
    DifficultyScorer.calculateTextLengthScore]
  have a1 := normalizeValue_unit m.charsPerSecond ReferenceValues.MIN_CHARS_PER_SEC
    ReferenceValues.MAX_CHARS_PER_SEC
  have a2 := normalizeValue_unit m.wordsPerSecond ReferenceValues.MIN_WORDS_PER_SEC
    ReferenceValues.MAX_WORDS_PER_SEC
  have a3 := normalizeValue_unit m.timeframesPerClip ReferenceValues.MIN_TIMEFRAMES_PER_CLIP
    ReferenceValues.MAX_TIMEFRAMES_PER_CLIP
  have a4 := normalizeValue_unit m.timeframeOverlapPercent ReferenceValues.MIN_OVERLAP_PERCENT
    ReferenceValues.MAX_OVERLAP_PERCENT
  have a5 := normalizeValue_unit m.cameraActionsPerClip ReferenceValues.MIN_ACTIONS_PER_CLIP
    ReferenceValues.MAX_ACTIONS_PER_CLIP
  have a6 := normalizeValue_unit m.transitionFrequency ReferenceValues.MIN_TRANSITIONS_PER_MIN
    ReferenceValues.MAX_TRANSITIONS_PER_MIN
  have a7 := normalizeValue_unit m.averageWordsPerClip ReferenceValues.MIN_WORDS_PER_CLIP
    ReferenceValues.MAX_WORDS_PER_CLIP
  have a8 := normalizeValue_unit m.descriptionDensity ReferenceValues.MIN_DESC_DENSITY
    ReferenceValues.MAX_DESC_DENSITY
  refine ⟨⟨?_, ?_⟩, ⟨?_, ?_⟩, ⟨?_, ?_⟩, ⟨?_, ?_⟩⟩ <;> linarith [a1.1, a1.2, a2.1, a2.2, a3.1,
    a3.2, a4.1, a4.2, a5.1, a5.2, a6.1, a6.2, a7.1, a7.2, a8.1, a8.2]

theorem calculate_finalScore (m : TaskMetrics) :
    (DifficultyScorer.calculate m).finalScore =
      (DifficultyScorer.calculateTimeDensityScore m * 20 +
        DifficultyScorer.calculateComplexityScore m * 30 +
        DifficultyScorer.calculateCameraActionScore m * 30 +
        DifficultyScorer.calculateTextLengthScore m * 20) / 100 := rfl

/-- C24.  With exact arithmetic for the `float` values, `DifficultyScorer::calculate` yields
for every `TaskMetrics` four sub-scores in `[0, 10]`, a `finalScore` equal to
`0.20 * timeDensity + 0.30 * complexity + 0.30 * cameraAction + 0.20 * textLength` that lies in
`[0, 10]`, and `normalizedScore == finalScore / 10` in `[0, 1]` (the final `constrain` changes
nothing); when all scored metrics are at or above their reference maxima `normalizedScore` is
1, when all are at or below their minima it is 0. -/
theorem calculate_score_ranges (m : TaskMetrics) :
    ((0 ≤ (DifficultyScorer.calculate m).timeDensityScore ∧
        (DifficultyScorer.calculate m).timeDensityScore ≤ 10) ∧
      (0 ≤ (DifficultyScorer.calculate m).complexityScore ∧
        (DifficultyScorer.calculate m).complexityScore ≤ 10) ∧
      (0 ≤ (DifficultyScorer.calculate m).cameraActionScore ∧
        (DifficultyScorer.calculate m).cameraActionScore ≤ 10) ∧
      (0 ≤ (DifficultyScorer.calculate m).textLengthScore ∧
        (DifficultyScorer.calculate m).textLengthScore ≤ 10)) ∧
    (DifficultyScorer.calculate m).finalScore =
      (20 / 100) * (DifficultyScorer.calculate m).timeDensityScore +
        (30 / 100) * (DifficultyScorer.calculate m).complexityScore +
        (30 / 100) * (DifficultyScorer.calculate m).cameraActionScore +
        (20 / 100) * (DifficultyScorer.calculate m).textLengthScore ∧
    (0 ≤ (DifficultyScorer.calculate m).finalScore ∧
      (DifficultyScorer.calculate m).finalScore ≤ 10) ∧
    (DifficultyScorer.calculate m).normalizedScore =
      (DifficultyScorer.calculate m).finalScore / 10 ∧
    (0 ≤ (DifficultyScorer.calculate m).normalizedScore ∧
      (DifficultyScorer.calculate m).normalizedScore ≤ 1) ∧
    (m.atOrAboveMaxima → (DifficultyScorer.calculate m).normalizedScore = 1) ∧
    (m.atOrBelowMinima → (DifficultyScorer.calculate m).normalizedScore = 0) := by
  obtain ⟨⟨t0, t1⟩, ⟨c0, c1⟩, ⟨a0, a1⟩, ⟨l0, l1⟩⟩ := subscores_unit m
  obtain ⟨r1, r2, r3, r4, r5, r6, r7, r8⟩ := referenceRanges
  have hf := calculate_finalScore m
  have hf0 : 0 ≤ (DifficultyScorer.calculate m).finalScore := by rw [hf]; linarith
  have hf1 : (DifficultyScorer.calculate m).finalScore ≤ 10 := by rw [hf]; linarith
  have hn : (DifficultyScorer.calculate m).normalizedScore =
      (DifficultyScorer.calculate m).finalScore / 10 := by
    have h0 : 0 ≤ (DifficultyScorer.calculate m).finalScore / 10 := by linarith
    have h1 : (DifficultyScorer.calculate m).finalScore / 10 ≤ 1 := by linarith
    exact constrain_id h0 h1
  refine ⟨⟨⟨t0, t1⟩, ⟨c0, c1⟩, ⟨a0, a1⟩, ⟨l0, l1⟩⟩, ?_, ⟨hf0, hf1⟩, hn, ?_, ?_, ?_⟩
  · rw [hf]
    show _ = 20 / 100 * DifficultyScorer.calculateTimeDensityScore m +
      30 / 100 * DifficultyScorer.calculateComplexityScore m +
      30 / 100 * DifficultyScorer.calculateCameraActionScore m +
      20 / 100 * DifficultyScorer.calculateTextLengthScore m
    ring
  · rw [hn]
    constructor <;> linarith
  · rintro ⟨h1, h2, h3, h4, h5, h6, h7, h8⟩
    rw [hn, hf]
    simp only [DifficultyScorer.calculateTimeDensityScore,
      DifficultyScorer.calculateComplexityScore, DifficultyScorer.calculateCameraActionScore,
      DifficultyScorer.calculateTextLengthScore]
    rw [normalizeValue_max r1 h1, normalizeValue_max r2 h2,
      normalizeValue_max r3 h3, normalizeValue_max r4 h4,
      normalizeValue_max r5 h5, normalizeValue_max r6 h6,
      normalizeValue_max r7 h7, normalizeValue_max r8 h8]
    norm_num
  · rintro ⟨h1, h2, h3, h4, h5, h6, h7, h8⟩
    rw [hn, hf]
    simp only [DifficultyScorer.calculateTimeDensityScore,
      DifficultyScorer.calculateComplexityScore, DifficultyScorer.calculateCameraActionScore,
      DifficultyScorer.calculateTextLengthScore]
    rw [normalizeValue_min r1 h1, normalizeValue_min r2 h2,
      normalizeValue_min r3 h3, normalizeValue_min r4 h4,
      normalizeValue_min r5 h5, normalizeValue_min r6 h6,
      normalizeValue_min r7 h7, normalizeValue_min r8 h8]
    norm_num

theorem calculate_score_ranges_witness :
    (DifficultyScorer.calculate sampleHardTask).normalizedScore = 1 ∧
      (DifficultyScorer.calculate sampleEasyTask).normalizedScore = 0 :=
  ⟨(calculate_score_ranges sampleHardTask).2.2.2.2.2.1
      (by simp [TaskMetrics.atOrAboveMaxima, sampleHardTask, ReferenceValues.MAX_CHARS_PER_SEC,
        ReferenceValues.MAX_WORDS_PER_SEC, ReferenceValues.MAX_TIMEFRAMES_PER_CLIP,
        ReferenceValues.MAX_OVERLAP_PERCENT, ReferenceValues.MAX_ACTIONS_PER_CLIP,
        ReferenceValues.MAX_TRANSITIONS_PER_MIN, ReferenceValues.MAX_WORDS_PER_CLIP,
        ReferenceValues.MAX_DESC_DENSITY]),
    (calculate_score_ranges sampleEasyTask).2.2.2.2.2.2
      (by simp [TaskMetrics.atOrBelowMinima, sampleEasyTask, ReferenceValues.MIN_CHARS_PER_SEC,
        ReferenceValues.MIN_WORDS_PER_SEC, ReferenceValues.MIN_TIMEFRAMES_PER_CLIP,
        ReferenceValues.MIN_OVERLAP_PERCENT, ReferenceValues.MIN_ACTIONS_PER_CLIP,
        ReferenceValues.MIN_TRANSITIONS_PER_MIN, ReferenceValues.MIN_WORDS_PER_CLIP,
        ReferenceValues.MIN_DESC_DENSITY])⟩

/-! ## Behavioural simulator -/

theorem HumanSimulator.SameControl.refl (a : HumanSimulator) : a.SameControl a := ⟨rfl, rfl, rfl⟩

theorem HumanSimulator.SameControl.trans {a b c : HumanSimulator} (h1 : a.SameControl b)
    (h2 : b.SameControl c) : a.SameControl c :=
  ⟨h1.1.trans h2.1, h1.2.1.trans h2.2.1, h1.2.2.trans h2.2.2⟩

theorem random_sameControl (sim : HumanSimulator) (howbig : Int) :
    (sim.random howbig).2.SameControl sim := by
  unfold HumanSimulator.random
  split_ifs <;> exact ⟨rfl, rfl, rfl⟩

theorem type_sameControl (sim : HumanSimulator) (text : String) :
    (sim.type text).SameControl sim := ⟨rfl, rfl, rfl⟩

theorem behavior_sameControl (sim : HumanSimulator) (b : BehaviorState) :
    ({ sim with behavior := b } : HumanSimulator).SameControl sim := ⟨rfl, rfl, rfl⟩

theorem typeChars_sameControl (chars : List Char) :
    ∀ sim : HumanSimulator, (sim.typeChars chars).1.SameControl sim := by
  induction chars with
  | nil => intro sim; exact HumanSimulator.SameControl.refl sim
  | cons c cs ih =>
    intro sim
    unfold HumanSimulator.typeChars
    split_ifs
    · exact HumanSimulator.SameControl.refl sim
    · exact (ih _).trans (type_sameControl sim _)

theorem getRandomTypo_sameControl (sim : HumanSimulator) (c : Char) :
    (sim.getRandomTypo c).2.SameControl sim := by
  unfold HumanSimulator.getRandomTypo
  split <;> exact random_sameControl sim _

theorem decideCorrectionStrategy_sameControl (sim : HumanSimulator) (word : String)
    (typoPos : Int) : (sim.decideCorrectionStrategy word typoPos).2.SameControl sim :=
  random_sameControl sim 100

theorem correctTypo_sameControl (sim : HumanSimulator) (word : String) (typoPos : Int) :
    (sim.correctTypo word typoPos).SameControl sim := by
  unfold HumanSimulator.correctTypo
  exact (typeChars_sameControl _ _).trans ((type_sameControl _ _).trans ⟨rfl, rfl, rfl⟩)

theorem makeTypo_sameControl (sim : HumanSimulator) (word : String) :
    (sim.makeTypo word).SameControl sim := by
  have h1 := random_sameControl sim (word.length : Int)
  have h2 := (typeChars_sameControl (word.data.take (sim.random (word.length : Int)).1.toNat)
    (sim.random (word.length : Int)).2).trans h1
  unfold HumanSimulator.makeTypo
  simp only
  split_ifs with hret hcorr
  · exact h2
  · exact (behavior_sameControl _ _).trans ((correctTypo_sameControl _ _ _).trans
      ((decideCorrectionStrategy_sameControl _ _ _).trans ((type_sameControl _ _).trans
        ((getRandomTypo_sameControl _ _).trans h2))))
  · exact (behavior_sameControl _ _).trans ((type_sameControl _ _).trans
      ((decideCorrectionStrategy_sameControl _ _ _).trans ((type_sameControl _ _).trans
        ((getRandomTypo_sameControl _ _).trans h2))))

theorem typeWordNormally_sameControl (sim : HumanSimulator) (word : String) :
    (sim.typeWordNormally word).SameControl sim :=
  typeChars_sameControl _ _

theorem updateAlertness_sameControl (sim : HumanSimulator) :
    sim.updateAlertness.SameControl sim := by
  unfold HumanSimulator.updateAlertness
  simp only
  split_ifs <;> exact ⟨rfl, rfl, rfl⟩

theorem simulateThinking_sameControl (sim : HumanSimulator) :
    sim.simulateThinking.SameControl sim := by
  unfold HumanSimulator.simulateThinking
  split_ifs
  · exact HumanSimulator.SameControl.refl sim
  · exact (behavior_sameControl _ _).trans (random_sameControl sim 100)
  · exact random_sameControl sim 100

theorem handleWord_control (sim : HumanSimulator) (word : String) :
    (sim.handleWord word).isPaused = sim.isPaused ∧
      (sim.handleWord word).currentWord = sim.currentWord ∧
      (sim.handleWord word).wordsHandled = sim.wordsHandled ++ [word] := by
  have h1 := random_sameControl sim 100
  unfold HumanSimulator.handleWord
  simp only
  split_ifs with htypo
  · have h2 := (makeTypo_sameControl (sim.random 100).2 word).trans h1
    have h3 := updateAlertness_sameControl
      { (sim.random 100).2.makeTypo word with
        behavior := { ((sim.random 100).2.makeTypo word).behavior with
          wordsWithoutBreak := ((sim.random 100).2.makeTypo word).behavior.wordsWithoutBreak + 1 }
        wordsHandled := ((sim.random 100).2.makeTypo word).wordsHandled ++ [word] }
    exact ⟨h3.1.trans h2.1, h3.2.1.trans h2.2.1, by rw [h3.2.2, h2.2.2]⟩
  · have h2 := (typeWordNormally_sameControl (sim.random 100).2 word).trans h1
    have h3 := updateAlertness_sameControl
      { (sim.random 100).2.typeWordNormally word with
        behavior := { ((sim.random 100).2.typeWordNormally word).behavior with
          wordsWithoutBreak :=
            ((sim.random 100).2.typeWordNormally word).behavior.wordsWithoutBreak + 1 }
        wordsHandled := ((sim.random 100).2.typeWordNormally word).wordsHandled ++ [word] }
    exact ⟨h3.1.trans h2.1, h3.2.1.trans h2.2.1, by rw [h3.2.2, h2.2.2]⟩

theorem finishWord_control (sim : HumanSimulator) :
    sim.finishWord.isPaused = sim.isPaused ∧
      sim.finishWord.currentWord = "" ∧
      sim.finishWord.wordsHandled =
        sim.wordsHandled ++ (if sim.currentWord = "" then [] else [sim.currentWord]) := by
  have hw := handleWord_control sim sim.currentWord
  by_cases hempty : sim.currentWord = ""
  · have he : sim.currentWord.isEmpty = true := (String.isEmpty_iff _).2 hempty
    have hfin : sim.finishWord = sim := by
      unfold HumanSimulator.finishWord
      rw [if_neg (by rw [he]; decide)]
    rw [hfin, if_pos hempty, List.append_nil]
    exact ⟨rfl, hempty, rfl⟩
  · have he : sim.currentWord.isEmpty = false := by
      rw [Bool.eq_false_iff]
      exact fun h => hempty ((String.isEmpty_iff _).1 h)
    rw [if_neg hempty]
    unfold HumanSimulator.finishWord
    rw [if_pos (by rw [he]; decide)]
    simp only
    split_ifs with hburst
    · have ht := simulateThinking_sameControl { sim.handleWord sim.currentWord with
          currentWord := ""
          wordsInBurst := (sim.handleWord sim.currentWord).wordsInBurst + 1 }
      exact ⟨ht.1.trans hw.1, ht.2.1, ht.2.2.trans hw.2.2⟩
    · exact ⟨hw.1, rfl, hw.2.2⟩

theorem typeBoundary_control (sim : HumanSimulator) (c : Char) :
    (sim.typeBoundary c).isPaused = sim.isPaused ∧
      (sim.typeBoundary c).currentWord = "" ∧
      (sim.typeBoundary c).wordsHandled =
        sim.wordsHandled ++ (if sim.currentWord = "" then [] else [sim.currentWord]) := by
  have hf := finishWord_control sim
  have key : (sim.typeBoundary c).SameControl sim.finishWord := by
    unfold HumanSimulator.typeBoundary
    refine (type_sameControl _ _).trans ?_
    split_ifs
    · exact (type_sameControl _ _).trans (random_sameControl _ 100)
    · exact random_sameControl _ 100
  exact ⟨key.1.trans hf.1, key.2.1.trans hf.2.1, key.2.2.trans hf.2.2⟩

theorem runs_of_word (cur : String) (h : ∀ x ∈ cur.data, ¬ isWordBoundary x = true) :
    ((cur.data.splitOnP isWordBoundary).filter (fun run => run ≠ [])).map String.mk =
      if cur = "" then [] else [cur] := by
  rw [List.splitOnP_eq_single _ _ h]
  by_cases hc : cur = ""
  · subst hc
    simp
  · have hd : cur.data ≠ [] := fun hd => hc (String.ext hd)
    simp [hd, hc]

theorem runs_append_boundary (cur : String) (c : Char) (cs : List Char)
    (h : ∀ x ∈ cur.data, ¬ isWordBoundary x = true) (hc : isWordBoundary c = true) :
    (((cur.data ++ c :: cs).splitOnP isWordBoundary).filter (fun run => run ≠ [])).map
        String.mk =
      (if cur = "" then [] else [cur]) ++
        ((cs.splitOnP isWordBoundary).filter (fun run => run ≠ [])).map String.mk := by
  rw [List.splitOnP_first _ _ h c hc]
  by_cases hcur : cur = ""
  · subst hcur
    simp
  · have hd : cur.data ≠ [] := fun hd => hcur (String.ext hd)
    simp [hd, hcur]

theorem typeTextLoop_words (applyFatigue : BehaviorState → BehaviorState) (cs : List Char) :
    ∀ sim : HumanSimulator, sim.isPaused = false →
      (∀ x ∈ sim.currentWord.data, ¬ isWordBoundary x = true) →
      (HumanSimulator.typeTextLoop applyFatigue sim cs).2 = false ∧
        (HumanSimulator.typeTextLoop applyFatigue sim cs).1.isPaused = false ∧
        (HumanSimulator.typeTextLoop applyFatigue sim cs).1.wordsHandled ++
            (if (HumanSimulator.typeTextLoop applyFatigue sim cs).1.currentWord = "" then []
              else [(HumanSimulator.typeTextLoop applyFatigue sim cs).1.currentWord]) =
          sim.wordsHandled ++
            (((sim.currentWord.data ++ cs).splitOnP isWordBoundary).filter
              (fun run => run ≠ [])).map String.mk := by
  induction cs with
  | nil =>
    intro sim hp hcur
    simp only [HumanSimulator.typeTextLoop, List.append_nil]
    exact ⟨trivial, hp, by rw [runs_of_word _ hcur]⟩
  | cons c cs ih =>
    intro sim hp hcur
    unfold HumanSimulator.typeTextLoop
    rw [if_neg (by rw [hp]; decide)]
    simp only
    by_cases hb : c = ' ' ∨ c = '\n'
    · have hbc : isWordBoundary c = true := by
        simpa [isWordBoundary] using hb
      have htb := typeBoundary_control sim c
      simp only [if_pos hb]
      have h := ih { sim.typeBoundary c with behavior := applyFatigue (sim.typeBoundary c).behavior }
        (htb.1.trans hp) (by
          show ∀ x ∈ (sim.typeBoundary c).currentWord.data, _
          rw [htb.2.1]
          intro x hx
          cases hx)
      refine ⟨h.1, h.2.1, h.2.2.trans ?_⟩
      show (sim.typeBoundary c).wordsHandled ++
        (((sim.typeBoundary c).currentWord.data ++ cs).splitOnP isWordBoundary |>.filter
          (fun run => run ≠ [])).map String.mk = _
      rw [htb.2.1, htb.2.2, runs_append_boundary _ c cs hcur hbc, List.append_assoc]
      rfl
    · have hbc : ¬ isWordBoundary c = true := by
        simpa [isWordBoundary] using hb
      simp only [if_neg hb]
      have h := ih { ({ sim with currentWord := sim.currentWord.push c } : HumanSimulator) with
          behavior := applyFatigue sim.behavior } hp (by
          show ∀ x ∈ (sim.currentWord.push c).data, _
          rw [String.data_push]
          intro x hx
          rcases List.mem_append.1 hx with hx | hx
          · exact hcur x hx
          · rw [List.mem_singleton.1 hx]
            exact hbc)
      refine ⟨h.1, h.2.1, h.2.2.trans ?_⟩
      show sim.wordsHandled ++
        ((((sim.currentWord.push c).data ++ cs).splitOnP isWordBoundary).filter
          (fun run => run ≠ [])).map String.mk = _
      rw [String.data_push, List.append_assoc]
      rfl

/-- C26.  With the pause flag not set, `typeText(text)` calls `handleWord` exactly once for
each maximal run of characters of `text` without space and newline, in text order and with
that run as the word: the record of the calls grows by `wordRuns text`.  For `"hi there"`
these are the 2 words `"hi"` and `"there"`. -/
theorem typeText_handles_word_runs (applyFatigue : BehaviorState → BehaviorState)
    (sim : HumanSimulator) (text : String) (hpause : sim.isPaused = false) :
    ((sim.typeText applyFatigue text).wordsHandled = sim.wordsHandled ++ wordRuns text ∧
        (sim.typeText applyFatigue text).isPaused = false) ∧
      wordRuns "hi there" = ["hi", "there"] := by
  refine ⟨?_, by decide⟩
  by_cases hempty : text = ""
  · subst hempty
    have ht : sim.typeText applyFatigue "" = sim := by
      unfold HumanSimulator.typeText
      rw [if_pos (by decide)]
    rw [ht]
    exact ⟨by simp [wordRuns, List.splitOnP_nil], hpause⟩
  · have he : text.isEmpty = false := by
      rw [Bool.eq_false_iff]
      exact fun h => hempty ((String.isEmpty_iff _).1 h)
    have h := typeTextLoop_words applyFatigue text.data
      { sim with currentWord := "", wordsInBurst := 0 } hpause (by intro x hx; cases hx)
    have hr : sim.wordsHandled ++ wordRuns text = _ := h.2.2.symm
    rw [hr]
    unfold HumanSimulator.typeText
    rw [if_neg (by rw [he]; decide)]
    simp only
    generalize HumanSimulator.typeTextLoop applyFatigue _ text.data = looped at h ⊢
    obtain ⟨h1, h2, -⟩ := h
    rw [if_neg (by rw [h1]; decide)]
    by_cases hcur : looped.1.currentWord = ""
    · have hce := (String.isEmpty_iff _).2 hcur
      rw [if_neg (by rw [hce]; simp), if_pos hcur, List.append_nil]
      exact ⟨rfl, h2⟩
    · have hce : looped.1.currentWord.isEmpty = false := by
        rw [Bool.eq_false_iff]
        exact fun h => hcur ((String.isEmpty_iff _).1 h)
      rw [if_pos (by rw [hce, h2]; rfl), if_neg hcur]
      exact ⟨(handleWord_control _ _).2.2, (handleWord_control _ _).1.trans h2⟩

theorem typeText_handles_word_runs_witness :
    ((HumanSimulator.started sampleKeyboard (some sampleHiThere) [50, 50, 50, 50]).typeText id
        "hi there").wordsHandled = ["hi", "there"] :=
  (typeText_handles_word_runs id
    (HumanSimulator.started sampleKeyboard (some sampleHiThere) [50, 50, 50, 50]) "hi there"
    (by decide)).1.1

/-- C27.  The code never reaches the typing state machine from `processClip`: for every
transcript, simulator state and clip number `processClip` handles no word and types nothing,
because `parseTimeframes` returns the empty list for every content; for the transcript with
the one typing timeframe `"hi there"` the clip content is read but no frame comes out of
it. -/
theorem processClip_handles_no_word (applyFatigue : BehaviorState → BehaviorState)
    (file : Option (List String)) (sim : HumanSimulator) (clipNumber : Int) :
    ((sim.processClip applyFatigue file clipNumber).wordsHandled = sim.wordsHandled ∧
        (sim.processClip applyFatigue file clipNumber).keyboard = sim.keyboard) ∧
      readClipContent (some sampleHiThere) 1 = "<00:00.000><00:05.000>hi there\n" ∧
      HumanSimulator.parseTimeframes (readClipContent (some sampleHiThere) 1) = [] ∧
      ((HumanSimulator.started sampleKeyboard (some sampleHiThere) []).processClip applyFatigue
        (some sampleHiThere) 1).wordsHandled = [] := by
  have hnav : ∀ (s : HumanSimulator) (n : Int), (s.navigateToClip n).keyboard = s.keyboard ∧
      (s.navigateToClip n).wordsHandled = s.wordsHandled := by
    intro s n
    refine ⟨?_, rfl⟩
    simp only [HumanSimulator.navigateToClip, Keyboard.navigateWithSpeed, FIRST_CLIP_TAB_COUNT,
      NEXT_CLIP_TAB_COUNT, ite_self, Int.toNat_zero, List.range_zero, List.foldl_nil]
  have hgen : ∀ (s : HumanSimulator) (f : Option (List String)) (n : Int),
      (s.processClip applyFatigue f n).wordsHandled = s.wordsHandled ∧
        (s.processClip applyFatigue f n).keyboard = s.keyboard := by
    intro s f n
    unfold HumanSimulator.processClip
    simp only [HumanSimulator.parseTimeframes, HumanSimulator.processFrames]
    split_ifs <;>
      first
      | exact ⟨rfl, rfl⟩
      | exact ⟨(hnav _ _).2, (hnav _ _).1⟩
  exact ⟨hgen sim file clipNumber, by decide, rfl, (hgen _ _ _).1⟩

theorem random_keyboard (sim : HumanSimulator) (howbig : Int) :
    (sim.random howbig).2.keyboard = sim.keyboard := by
  unfold HumanSimulator.random
  split_ifs <;> rfl

theorem getRandomTypo_keyboard (sim : HumanSimulator) (c : Char) :
    (sim.getRandomTypo c).2.keyboard = sim.keyboard := by
  unfold HumanSimulator.getRandomTypo
  split <;> exact random_keyboard sim _

theorem type_written (sim : HumanSimulator) (text : String)
    (hconn : sim.keyboard.connected = true) :
    (sim.type text).keyboard.connected = true ∧
      (sim.type text).keyboard.written = sim.keyboard.written ++ text.data.map Key.char := by
  simp [HumanSimulator.type, Keyboard.type, hconn]

theorem typeChars_written (chars : List Char) :
    ∀ sim : HumanSimulator, sim.isPaused = false → sim.keyboard.connected = true →
      (sim.typeChars chars).2 = false ∧ (sim.typeChars chars).1.keyboard.connected = true ∧
        (sim.typeChars chars).1.keyboard.written =
          sim.keyboard.written ++ chars.map Key.char := by
  induction chars with
  | nil =>
    intro sim _ hconn
    simp [HumanSimulator.typeChars, hconn]
  | cons c cs ih =>
    intro sim hp hconn
    unfold HumanSimulator.typeChars
    rw [if_neg (by rw [hp]; decide)]
    have ht := type_written sim (String.mk [c]) hconn
    have h := ih (sim.type (String.mk [c])) hp ht.1
    refine ⟨h.1, h.2.1, ?_⟩
    rw [h.2.2, ht.2]
    simp

theorem random_lt (sim : HumanSimulator) {n : Nat} (hn : 0 < n) :
    (sim.random (n : Int)).1.toNat < n ∧ 0 ≤ (sim.random (n : Int)).1 := by
  have hn0 : (n : Int) ≠ 0 := by omega
  have hpos : (0 : Int) < n := by omega
  simp only [HumanSimulator.random, if_neg hn0]
  have h1 := Int.emod_nonneg (sim.rng.headD 0 : Int) hn0
  have h2 := Int.emod_lt_of_pos (sim.rng.headD 0 : Int) hpos
  omega

theorem substringFrom_data (word : String) (k : Nat) (hlen : word.length < U32) (hk : k < U32) :
    (substringFrom word (k : Int)).data = word.data.drop k := by
  have h1 : toUnsigned (k : Int) = k := by
    unfold toUnsigned
    rw [Int.emod_eq_of_lt (by omega) (by exact_mod_cast hk)]
    simp
  have h2 : toUnsigned (word.length : Int) = word.length := by
    unfold toUnsigned
    rw [Int.emod_eq_of_lt (by omega) (by exact_mod_cast hlen)]
    simp
  unfold substringFrom substring
  simp only [h1, h2]
  have hl : word.length = word.data.length := rfl
  by_cases hge : min k word.length ≥ word.length
  · rw [if_pos hge]
    have : word.data.length ≤ k := by
      rcases Nat.le_total k word.length with h | h
      · rw [min_eq_left h] at hge
        omega
      · omega
    rw [List.drop_eq_nil_of_le this]
  · rw [if_neg hge]
    have hkl : k < word.length := by
      rcases Nat.lt_or_ge k word.length with h | h
      · exact h
      · rw [min_eq_right h] at hge
        omega
    rw [min_eq_left hkl.le, max_eq_right hkl.le, min_self, hl, List.take_length]

theorem applyKeys_append (keys1 keys2 : List Key) :
    ∀ text, applyKeys (keys1 ++ keys2) text = applyKeys keys2 (applyKeys keys1 text) := by
  induction keys1 with
  | nil => intro text; rfl
  | cons k ks ih =>
    intro text
    cases k with
    | char c => exact ih _
    | code k => exact ih _

theorem applyKeys_chars (chars : List Char) :
    ∀ text, applyKeys (chars.map Key.char) text = text ++ chars := by
  induction chars with
  | nil => intro text; simp [applyKeys]
  | cons c cs ih =>
    intro text
    simp only [List.map_cons, applyKeys, ih, List.append_assoc, List.singleton_append]

theorem applyKeys_typoKeys (word : String) (p : Nat) (w : Char) (hp : p < word.length) :
    applyKeys (typoKeys word p w true) [] = word.data ∧
      applyKeys (typoKeys word p w false) [] = word.data.set p w ∧
      (applyKeys (typoKeys word p w false) []).length = word.length := by
  have hset : applyKeys (typoKeys word p w false) [] = word.data.set p w := by
    simp only [typoKeys, Bool.false_eq_true, if_false, applyKeys_append, applyKeys_chars,
      List.nil_append]
    rw [List.set_eq_take_cons_drop w hp]
    simp [applyKeys]
  refine ⟨?_, hset, ?_⟩
  · simp only [typoKeys, if_true, applyKeys_append, applyKeys_chars, List.nil_append]
    simp only [applyKeys, if_true, List.dropLast_concat, applyKeys_chars, List.take_append_drop]
  · rw [hset, List.length_set]
    rfl

theorem correctTypo_written (sim : HumanSimulator) (word : String) (typoPos : Int)
    (hpause : sim.isPaused = false) (hconn : sim.keyboard.connected = true) :
    (sim.correctTypo word typoPos).keyboard.written =
      sim.keyboard.written ++
        Key.code KEY_BACKSPACE :: Key.char (word.data.getD typoPos.toNat (Char.ofNat 0)) ::
          (word.data.drop (typoPos.toNat + 1)).map Key.char := by
  unfold HumanSimulator.correctTypo
  simp only
  have h1c : ({ sim with keyboard := sim.keyboard.pressKey KEY_BACKSPACE } :
      HumanSimulator).keyboard.connected = true := by
    simp [Keyboard.pressKey, hconn]
  have h1w : ({ sim with keyboard := sim.keyboard.pressKey KEY_BACKSPACE } :
      HumanSimulator).keyboard.written = sim.keyboard.written ++ [Key.code KEY_BACKSPACE] := by
    simp [Keyboard.pressKey, hconn]
  have h2 := type_written ({ sim with keyboard := sim.keyboard.pressKey KEY_BACKSPACE } :
      HumanSimulator) (String.mk [word.data.getD typoPos.toNat (Char.ofNat 0)]) h1c
  have h3 := typeChars_written (word.data.drop (typoPos.toNat + 1))
    (({ sim with keyboard := sim.keyboard.pressKey KEY_BACKSPACE } : HumanSimulator).type
      (String.mk [word.data.getD typoPos.toNat (Char.ofNat 0)])) hpause h2.1
  rw [h3.2.2, h2.2, h1w]
  simp

/-- C28.  For every non-empty word, with the pause flag not set and the keyboard connected,
`makeTypo` writes the keystrokes `word[0..p)`, `w`, and then `KEY_BACKSPACE` followed by
`word[p..end)` when it chooses to correct, `word[p+1..end)` otherwise, where `p` is the typo
position and `w` the substituted character it draws.  Replaying the corrected keystrokes
gives exactly the word; replaying the uncorrected ones gives the word with position `p`
replaced by `w`, of the same length. -/
theorem makeTypo_keystrokes (sim : HumanSimulator) (word : String) (hword : word ≠ "")
    (hlen : word.length < U32) (hpause : sim.isPaused = false)
    (hconn : sim.keyboard.connected = true) :
    sim.typoPos word < word.length ∧
      (sim.makeTypo word).keyboard.written =
        sim.keyboard.written ++
          typoKeys word (sim.typoPos word) (sim.typoChar word) (sim.correctionChosen word) ∧
      applyKeys (typoKeys word (sim.typoPos word) (sim.typoChar word) true) [] = word.data ∧
      applyKeys (typoKeys word (sim.typoPos word) (sim.typoChar word) false) [] =
        word.data.set (sim.typoPos word) (sim.typoChar word) ∧
      (applyKeys (typoKeys word (sim.typoPos word) (sim.typoChar word) false) []).length =
        word.length := by
  have hpos : 0 < word.length := by
    rcases Nat.eq_zero_or_pos word.length with h | h
    · exact absurd (String.ext (List.length_eq_zero.1 h)) hword
    · exact h
  obtain ⟨hp, hp0⟩ := random_lt sim hpos
  have hpInt : (sim.random (word.length : Int)).1 = ((sim.typoPos word : Nat) : Int) :=
    (Int.toNat_of_nonneg hp0).symm
  have happly := applyKeys_typoKeys word (sim.typoPos word) (sim.typoChar word) hp
  refine ⟨hp, ?_, happly⟩
  -- the state after the characters before the typo
  have hs1p : (sim.random (word.length : Int)).2.isPaused = false :=
    (random_sameControl sim _).1.trans hpause
  have hs1c : (sim.random (word.length : Int)).2.keyboard.connected = true := by
    rw [random_keyboard]; exact hconn
  obtain ⟨ht2, htc, htw⟩ := typeChars_written (word.data.take (sim.typoPos word))
    (sim.random (word.length : Int)).2 hs1p hs1c
  rw [random_keyboard] at htw
  have htp : (sim.beforeTypo word).isPaused = false :=
    (typeChars_sameControl _ _).1.trans hs1p
  -- the state after the substituted character
  have hwc := type_written ((sim.beforeTypo word).getRandomTypo
      (word.data.getD (sim.typoPos word) (Char.ofNat 0))).2 (String.mk [sim.typoChar word])
    (by rw [getRandomTypo_keyboard]; exact htc)
  rw [getRandomTypo_keyboard] at hwc
  have hwp : ((((sim.beforeTypo word).getRandomTypo
      (word.data.getD (sim.typoPos word) (Char.ofNat 0))).2.type
        (String.mk [sim.typoChar word])).decideCorrectionStrategy word
          (sim.random (word.length : Int)).1).2.isPaused = false :=
    ((decideCorrectionStrategy_sameControl _ _ _).trans ((type_sameControl _ _).trans
      (getRandomTypo_sameControl _ _))).1.trans htp
  have hdk : ((((sim.beforeTypo word).getRandomTypo
      (word.data.getD (sim.typoPos word) (Char.ofNat 0))).2.type
        (String.mk [sim.typoChar word])).decideCorrectionStrategy word
          (sim.random (word.length : Int)).1).2.keyboard =
      (((sim.beforeTypo word).getRandomTypo
        (word.data.getD (sim.typoPos word) (Char.ofNat 0))).2.type
          (String.mk [sim.typoChar word])).keyboard := random_keyboard _ 100
  unfold HumanSimulator.makeTypo
  simp only
  rw [if_neg (by exact fun h => Bool.noConfusion (ht2.symm.trans h))]
  dsimp only
  have hXw : ((((sim.beforeTypo word).getRandomTypo
      (word.data.getD (sim.typoPos word) (Char.ofNat 0))).2.type
        (String.mk [sim.typoChar word])).decideCorrectionStrategy word
          (sim.random (word.length : Int)).1).2.keyboard.written =
      sim.keyboard.written ++ (word.data.take (sim.typoPos word)).map Key.char ++
        [Key.char (sim.typoChar word)] := by
    rw [hdk, hwc.2, show (sim.beforeTypo word).keyboard.written = _ from htw]
    rfl
  have hXc : ((((sim.beforeTypo word).getRandomTypo
      (word.data.getD (sim.typoPos word) (Char.ofNat 0))).2.type
        (String.mk [sim.typoChar word])).decideCorrectionStrategy word
          (sim.random (word.length : Int)).1).2.keyboard.connected = true := by
    rw [hdk]
    exact hwc.1
  by_cases hcorr : sim.correctionChosen word = true
  · rw [if_pos (by
      show (sim.correctionChosen word && !_) = true
      rw [hcorr]
      exact (congrArg (fun b => (true && !b)) hwp).trans rfl)]
    refine (correctTypo_written _ word _ hwp hXc).trans ?_
    rw [hXw, hcorr]
    have hd : word.data.drop (sim.typoPos word) =
        word.data.getD (sim.typoPos word) (Char.ofNat 0) ::
          word.data.drop (sim.typoPos word + 1) := by
      have hp1 : sim.typoPos word < word.data.length := hp
      rw [List.getD_eq_getElem _ _ hp1]
      exact List.drop_eq_getElem_cons hp1
    simp only [typoKeys, if_true, hd, List.map_cons, List.append_assoc]
    rfl
  · have hcf : sim.correctionChosen word = false := by
      simpa using hcorr
    rw [if_neg (by
      show ¬ (sim.correctionChosen word && !_) = true
      rw [hcf]
      simp)]
    have hsub : substringFrom word ((sim.random (word.length : Int)).1 + 1) =
        String.mk (word.data.drop (sim.typoPos word + 1)) := by
      apply String.ext
      rw [hpInt]
      have h := substringFrom_data word (sim.typoPos word + 1) hlen
        (by have := hp; unfold HumanSimulator.typoPos; omega)
      rw [← h]
      rfl
    refine ((type_written _ _ hXc).2.trans ?_)
    rw [hXw, hcf]
    show _ ++ (substringFrom word ((sim.random (word.length : Int)).1 + 1)).data.map Key.char = _
    rw [hsub]
    simp only [typoKeys, Bool.false_eq_true, if_false, List.append_assoc]

theorem random_behavior (sim : HumanSimulator) (howbig : Int) :
    (sim.random howbig).2.behavior = sim.behavior := by
  unfold HumanSimulator.random
  split_ifs <;> rfl

theorem typeChars_behavior (chars : List Char) :
    ∀ sim : HumanSimulator, (sim.typeChars chars).1.behavior = sim.behavior := by
  induction chars with
  | nil => intro sim; rfl
  | cons c cs ih =>
    intro sim
    unfold HumanSimulator.typeChars
    split_ifs
    · rfl
    · exact ih _

theorem typeChars_not_paused (chars : List Char) :
    ∀ sim : HumanSimulator, sim.isPaused = false → (sim.typeChars chars).2 = false := by
  induction chars with
  | nil => intro sim _; rfl
  | cons c cs ih =>
    intro sim hp
    unfold HumanSimulator.typeChars
    rw [if_neg (by rw [hp]; decide)]
    exact ih _ hp

theorem getRandomTypo_behavior (sim : HumanSimulator) (c : Char) :
    (sim.getRandomTypo c).2.behavior = sim.behavior := by
  unfold HumanSimulator.getRandomTypo
  split <;> exact random_behavior sim _

theorem correctTypo_behavior (sim : HumanSimulator) (word : String) (typoPos : Int) :
    (sim.correctTypo word typoPos).behavior = sim.behavior := by
  unfold HumanSimulator.correctTypo
  exact typeChars_behavior _ _

theorem makeTypo_consecutiveErrors (sim : HumanSimulator) (word : String)
    (hpause : sim.isPaused = false) :
    (sim.makeTypo word).behavior.consecutiveErrors = sim.behavior.consecutiveErrors + 1 := by
  have h1 : (sim.random (word.length : Int)).2.isPaused = false :=
    (random_sameControl sim _).1.trans hpause
  have h2 := typeChars_not_paused (word.data.take (sim.random (word.length : Int)).1.toNat)
    (sim.random (word.length : Int)).2 h1
  have hb : ((sim.random (word.length : Int)).2.typeChars
      (word.data.take (sim.random (word.length : Int)).1.toNat)).1.behavior = sim.behavior :=
    (typeChars_behavior _ _).trans (random_behavior sim _)
  unfold HumanSimulator.makeTypo
  simp only
  rw [if_neg (by rw [h2]; decide)]
  dsimp only
  split_ifs
  · rw [correctTypo_behavior]
    show ((((sim.random (word.length : Int)).2.typeChars _).1.getRandomTypo _).2.random
      100).2.behavior.consecutiveErrors + 1 = _
    rw [random_behavior, getRandomTypo_behavior, hb]
  · show ((((sim.random (word.length : Int)).2.typeChars _).1.getRandomTypo _).2.random
      100).2.behavior.consecutiveErrors + 1 = _
    rw [random_behavior, getRandomTypo_behavior, hb]

/-! ## Edge cases of the timeline analysis -/

/-- C31, counterexample.  The code guards only the case of no clips: for a `ParseResult` built
by hand with one clip that has no timeframes, `findGlobalTimeRange` stores
`0 - UINT32_MAX = 1` in `totalMillis` and `analyzeTimeframes` reads `events[0]` of the empty
event vector (the model's `none`); with no clips `analyze` returns the zero-valued analysis. -/
theorem analyze_no_frames_reads_empty_events :
    frameMillis sampleNoFrames = [] ∧ findGlobalTimeRange sampleNoFrames = 1 ∧
      analyze sampleNoFrames = none ∧ analyze (resultOf []) = some DurationAnalysis.zero := by
  refine ⟨by decide, by decide, rfl, rfl⟩

/-- C36.  The code reports a zero-length gap between two frames of which the second starts
exactly when the first ends: for the frames `[0, 1000]` and `[1000, 2000]`, which both have
`endTime > startTime`, the `gaps` list of `analyze` is `[{1000, 1000}]` (and `gapMillis` is
0). -/
theorem analyze_back_to_back_zero_length_gap :
    (∀ c ∈ sampleBackToBack.clips, ∀ f ∈ c.timeframes,
        f.startTime.toMillis < f.endTime.toMillis) ∧
      (analyze sampleBackToBack).map (fun a => (a.gaps, a.gapMillis)) =
        some ([⟨1000, 1000⟩], 0) := by
  refine ⟨by decide, by decide⟩

/-! ## Restarting a paused tracker -/

/-- C35.  The code lets `start()` restart a paused tracker without clearing the accumulated
pause total: for every paused tracker with `totalPausedTime > 0`, `start()` at the clock value
`now` gives a Running tracker with `startTime + totalPausedTime > now`, and `getSnapshot` at
that same `now` reports the wrapped `elapsedMillis == 2^32 - totalPausedTime`. -/
theorem start_while_paused_wraps_elapsed (tr : ProgressTracker) (now : Nat)
    (hpaused : tr.isRunning = false) (hnow : 0 < now) (htotal : 0 < tr.totalPausedTime)
    (hlt : tr.totalPausedTime < U32) :
    (tr.start now).isRunning = true ∧
      now < (tr.start now).startTime + (tr.start now).totalPausedTime ∧
      ((tr.start now).getSnapshot now).elapsedMillis = U32 - tr.totalPausedTime := by
  have hs : tr.start now = { tr with startTime := now, isRunning := true } := by
    simp [ProgressTracker.start, hpaused]
  have hrun : (tr.start now).isRunning = true := by rw [hs]
  have hstart : (tr.start now).startTime ≠ 0 := by
    rw [hs]
    exact hnow.ne'
  refine ⟨hrun, ?_, ?_⟩
  · rw [hs]
    show now < now + tr.totalPausedTime
    omega
  · rw [getSnapshot_elapsedMillis now hrun hstart, hs]
    show sub32 (sub32 now now) tr.totalPausedTime = U32 - tr.totalPausedTime
    have h0 : sub32 now now = 0 := by
      unfold sub32
      have hU : 0 < U32 := Nat.pos_of_ne_zero (by decide)
      have hm := Nat.mod_lt now hU
      have : now + U32 - now % U32 = U32 + (now - now % U32) := by
        have := Nat.mod_le now U32
        omega
      rw [this, Nat.add_mod, Nat.mod_self, Nat.zero_add, Nat.mod_mod]
      have hdvd : U32 ∣ now - now % U32 := Nat.dvd_sub_mod now
      exact Nat.mod_eq_zero_of_dvd hdvd
    rw [h0]
    unfold sub32
    rw [Nat.mod_eq_of_lt hlt, Nat.zero_add]
    exact Nat.mod_eq_of_lt (by omega)

theorem start_while_paused_wraps_elapsed_witness :
    sampleRestarted.isRunning = true ∧
      5000 < sampleRestarted.startTime + sampleRestarted.totalPausedTime ∧
      (sampleRestarted.getSnapshot 5000).elapsedMillis = 4294966296 :=
  start_while_paused_wraps_elapsed
    (((((ProgressTracker.new sampleDuration).start 1000).pause 2000).resume 3000).pause 4000)
    5000 (by decide) (by decide) (by decide) (by decide)

/-! ## Compliance values of the progress snapshot -/

theorem getSnapshot_flags {tr : ProgressTracker} (now : Nat)
    (hrun : tr.isRunning = true) (hstart : tr.startTime ≠ 0) :
    (tr.getSnapshot now).isBehindSchedule =
        XFloat.lt (XFloat.fin 110) (tr.getSnapshot now).compliance.timeUtilization ∧
      (tr.getSnapshot now).isAheadOfSchedule =
        XFloat.lt (tr.getSnapshot now).compliance.timeUtilization (XFloat.fin 90) ∧
      (tr.getSnapshot now).needsSpeedAdjustment =
        XFloat.lt (XFloat.fin 10) (XFloat.abs (tr.getSnapshot now).compliance.speedDeviation) := by
  rw [getSnapshot_running now hrun hstart]
  exact ⟨rfl, rfl, rfl⟩

theorem getSnapshot_speedDeviation {tr : ProgressTracker} (now : Nat)
    (hrun : tr.isRunning = true) (hstart : tr.startTime ≠ 0) :
    (tr.getSnapshot now).compliance.speedDeviation =
      XFloat.mul
        (XFloat.div
          (XFloat.sub (XFloat.ofNat tr.activityProgress.wordsTyped)
            (XFloat.mul (XFloat.ofNat tr.activityProgress.wordsTyped)
              (XFloat.div (XFloat.ofNat (tr.getSnapshot now).elapsedMillis)
                (XFloat.ofNat tr.videoDuration.totalMillis))))
          (XFloat.mul (XFloat.ofNat tr.activityProgress.wordsTyped)
            (XFloat.div (XFloat.ofNat (tr.getSnapshot now).elapsedMillis)
              (XFloat.ofNat tr.videoDuration.totalMillis))))
        (XFloat.fin 100) := by
  rw [getSnapshot_elapsedMillis now hrun hstart, getSnapshot_running now hrun hstart]
  simp only [ProgressTracker.updateStatusFlags, ProgressTracker.calculateETA]
  split_ifs <;> rfl

/-! ## The speed limits are never reached -/

theorem updateSpeed_limit_flags (s : SpeedAdjuster) (progress : ProgressSnapshot) (now : Nat) :
    (s.updateSpeed progress now).1.isAtMaxSpeed =
        decide ((s.updateSpeed progress now).1.speedFactor ≥ s.config.maxSpeedFactor) ∧
      (s.updateSpeed progress now).1.isAtMinSpeed =
        decide ((s.updateSpeed progress now).1.speedFactor ≤ s.config.minSpeedFactor) := by
  have hc := updateSpeed_config s progress now
  constructor
  · simp only [SpeedAdjuster.updateSpeed] at hc ⊢
    simp only [SpeedAdjuster.updateSpeedTracking, SpeedAdjuster.enforceSpeedLimits, hc]
  · simp only [SpeedAdjuster.updateSpeed] at hc ⊢
    simp only [SpeedAdjuster.updateSpeedTracking, SpeedAdjuster.enforceSpeedLimits, hc]

/-- C33.  In every state reachable from a newly constructed adjuster by `reset`, `updateSpeed`,
`addFatigue(a >= 0)` and `applyRecovery(a >= 0)` the stored speed factor lies in `[0.9, 1.1]`;
with the default `SpeedConfig` every `speedFactor` that `updateSpeed` returns from such a state
lies in `[0.72, 1.1]`, equals the unclamped product of the stored factor and the fatigue
modifier, and comes with `isAtMaxSpeed == false` and `isAtMinSpeed == false`. -/
theorem reachable_speedFactor_within_limits (config : SpeedConfig) (s : SpeedAdjuster)
    (hs : SpeedAdjuster.Reachable config s) :
    (9 / 10 ≤ s.getCurrentSpeedFactor ∧ s.getCurrentSpeedFactor ≤ 11 / 10) ∧
      (config = SpeedConfig.default → ∀ (progress : ProgressSnapshot) (now : Nat),
        (72 / 100 ≤ (s.updateSpeed progress now).1.speedFactor ∧
          (s.updateSpeed progress now).1.speedFactor ≤ 11 / 10) ∧
        (s.updateSpeed progress now).1.speedFactor =
          (s.updateSpeed progress now).2.currentSpeedFactor *
            (1 - (s.updateSpeed progress now).2.currentFatigue * FATIGUE_SPEED_IMPACT) ∧
        (s.updateSpeed progress now).1.isAtMaxSpeed = false ∧
        (s.updateSpeed progress now).1.isAtMinSpeed = false) := by
  obtain ⟨hcfg, h1, h2, -, -⟩ := reachable_invariant hs
  refine ⟨⟨h1, h2⟩, fun hdef progress now => ?_⟩
  obtain ⟨-, g1, g2, g3, g4⟩ :=
    reachable_invariant (SpeedAdjuster.Reachable.updateSpeed s progress now hs)
  have hc : s.config = SpeedConfig.default := hcfg.trans hdef
  have hmin : s.config.minSpeedFactor = 1 / 2 := by rw [hc]; rfl
  have hmax : s.config.maxSpeedFactor = 2 := by rw [hc]; rfl
  have himp : s.config.fatigueImpact = FATIGUE_SPEED_IMPACT := by rw [hc]; rfl
  have hsf := updateSpeed_speedFactor s progress now
  rw [himp, hmin, hmax] at hsf
  have hF : FATIGUE_SPEED_IMPACT = 1 / 5 := rfl
  have hlo : 72 / 100 ≤ (s.updateSpeed progress now).2.currentSpeedFactor *
      (1 - (s.updateSpeed progress now).2.currentFatigue * FATIGUE_SPEED_IMPACT) := by
    rw [hF]
    nlinarith
  have hhi : (s.updateSpeed progress now).2.currentSpeedFactor *
      (1 - (s.updateSpeed progress now).2.currentFatigue * FATIGUE_SPEED_IMPACT) ≤ 11 / 10 := by
    rw [hF]
    nlinarith
  have hval : (s.updateSpeed progress now).1.speedFactor =
      (s.updateSpeed progress now).2.currentSpeedFactor *
        (1 - (s.updateSpeed progress now).2.currentFatigue * FATIGUE_SPEED_IMPACT) := by
    rw [hsf]
    unfold clamp
    rw [if_neg (by linarith), if_neg (by linarith)]
  obtain ⟨hAtMax, hAtMin⟩ := updateSpeed_limit_flags s progress now
  rw [hmax] at hAtMax
  rw [hmin] at hAtMin
  refine ⟨⟨by rw [hval]; exact hlo, by rw [hval]; exact hhi⟩, hval, ?_, ?_⟩
  · rw [Bool.eq_false_iff]
    intro h
    have := of_decide_eq_true (hAtMax.symm.trans h)
    rw [hval] at this
    linarith
  · rw [Bool.eq_false_iff]
    intro h
    have := of_decide_eq_true (hAtMin.symm.trans h)
    rw [hval] at this
    linarith

theorem reachable_speedFactor_within_limits_witness :
    ((SpeedAdjuster.new SpeedConfig.default).updateSpeed sampleBehind 1000).1.isAtMaxSpeed =
        false ∧
      ((SpeedAdjuster.new SpeedConfig.default).updateSpeed sampleBehind 1000).1.isAtMinSpeed =
        false :=
  have h := (reachable_speedFactor_within_limits SpeedConfig.default
    (SpeedAdjuster.new SpeedConfig.default) SpeedAdjuster.Reachable.new).2 rfl sampleBehind 1000
  ⟨h.2.2.1, h.2.2.2⟩

/-! ## Global order of the clip windows -/

theorem clipPrecedes_trans {c d e : ClipData} (hd : d.timeframes ≠ [])
    (hvalid : ∀ f ∈ d.timeframes, f.startTime.toMillis < f.endTime.toMillis)
    (hcd : clipPrecedes c d) (hde : clipPrecedes d e) : clipPrecedes c e := by
  obtain ⟨g, hg⟩ := List.exists_mem_of_ne_nil _ hd
  intro f hf h hh
  exact le_trans (hcd f hf g hg) (le_trans (hvalid g hg).le (hde g hg h hh))

theorem pairwise_of_chain_clipPrecedes :
    ∀ clips : List ClipData, (∀ c ∈ clips, c.timeframes ≠ []) →
      (∀ c ∈ clips, ∀ f ∈ c.timeframes, f.startTime.toMillis < f.endTime.toMillis) →
      clips.Chain' clipPrecedes → clips.Pairwise clipPrecedes := by
  intro clips
  induction clips with
  | nil => intro _ _ _; exact List.Pairwise.nil
  | cons c rest ih =>
    intro hne hvalid hchain
    have hrest := ih (fun d hd => hne d (List.mem_cons_of_mem _ hd))
      (fun d hd => hvalid d (List.mem_cons_of_mem _ hd)) (List.Chain'.tail hchain)
    refine List.Pairwise.cons ?_ hrest
    cases rest with
    | nil => intro d hd; cases hd
    | cons d0 rest' =>
      have hc0 : clipPrecedes c d0 := (List.chain'_cons.1 hchain).1
      intro d hd
      rcases List.mem_cons.1 hd with rfl | hd'
      · exact hc0
      · exact clipPrecedes_trans (hne d0 (List.mem_cons_of_mem _ (List.mem_cons_self _ _)))
          (hvalid d0 (List.mem_cons_of_mem _ (List.mem_cons_self _ _))) hc0
          ((List.pairwise_cons.1 hrest).1 d hd')

/-- C37.  If `validateTiming` accepts a parse result in which every clip has at least one
timeframe, the time windows of the clips are globally ordered: for all clip positions `i < j`
the latest frame end of clip `i` is at most the earliest frame start of clip `j` (every frame
of clip `i` ends at or before the start of every frame of clip `j`). -/
theorem validateTiming_windows_globally_ordered (pr : ParseResult) (msg : String)
    (haccept : (validateTiming pr msg).1 = true)
    (hframes : ∀ c ∈ pr.clips, c.timeframes ≠ []) :
    pr.clips.Pairwise clipPrecedes ∧
      ∀ (i j : Nat) (hij : i < j) (hj : j < pr.clips.length),
        clipPrecedes (pr.clips.get ⟨i, lt_trans hij hj⟩) (pr.clips.get ⟨j, hj⟩) := by
  have hne : pr.clips ≠ [] := by
    intro h
    simp [validateTiming, h] at haccept
  rw [validateTiming_eq msg hne] at haccept
  have hseq : (validateClipSequenceLoop pr.clips 0 1 msg).1 = true := by
    by_contra h
    rw [if_neg h] at haccept
    exact h haccept
  obtain ⟨-, hchain, -, hvalid⟩ := validateClipSequenceLoop_true pr.clips 0 1 msg hseq
  have hp := pairwise_of_chain_clipPrecedes pr.clips hframes hvalid hchain
  exact ⟨hp, fun i j hij hj => List.pairwise_iff_getElem.1 hp i j (lt_trans hij hj) hj hij⟩

theorem validateTiming_windows_globally_ordered_witness :
    sampleNumbering123.clips.Pairwise clipPrecedes :=
  (validateTiming_windows_globally_ordered sampleNumbering123 "" (by decide) (by decide)).1

/-! ## Order of the interpolated curves -/

theorem curve_rows_ordered (k : Nat) (hk : k < 9) :
    curveLower.getD k 0 < curveTarget.getD k 0 ∧ curveTarget.getD k 0 < curveUpper.getD k 0 := by
  interval_cases k <;>
    simp only [curveLower, curveTarget, curveUpper, CURVE_POINTS, List.map, List.getD_cons_zero,
      List.getD_cons_succ] <;>
    norm_num

theorem curve_lookup_ordered_between (i : Nat) (hi : i + 1 < 9) (x : ℚ)
    (hlo : ((curveDurations.getD i 0 : Nat) : ℚ) < x)
    (hhi : x ≤ ((curveDurations.getD (i + 1) 0 : Nat) : ℚ)) :
    multiLerp curveDurations curveLower (NUM_POINTS : Int) x <
        multiLerp curveDurations curveTarget (NUM_POINTS : Int) x ∧
      multiLerp curveDurations curveTarget (NUM_POINTS : Int) x <
        multiLerp curveDurations curveUpper (NUM_POINTS : Int) x := by
  have hlen : curveDurations.length = 9 := rfl
  have hN : (NUM_POINTS : Int) = (curveDurations.length : Int) := rfl
  rw [hN]
  rcases eq_or_lt_of_le hhi with heq | hlt
  · rw [heq, multiLerp_at_point curveLower curveDurations_sorted (by omega),
      multiLerp_at_point curveTarget curveDurations_sorted (by omega),
      multiLerp_at_point curveUpper curveDurations_sorted (by omega)]
    exact curve_rows_ordered (i + 1) hi
  · rw [multiLerp_between curveLower curveDurations_sorted (by omega) hlo hlt,
      multiLerp_between curveTarget curveDurations_sorted (by omega) hlo hlt,
      multiLerp_between curveUpper curveDurations_sorted (by omega) hlo hlt]
    have hi8 : i < 8 := by omega
    interval_cases i <;>
      simp only [curveLower, curveTarget, curveUpper, curveDurations, CURVE_POINTS, List.map,
        List.getD_cons_zero, List.getD_cons_succ] at hlo hlt ⊢ <;>
      norm_num at hlo hlt ⊢ <;>
      constructor <;> linarith

/-- C38.  For every duration `x`, inside or outside the table domain, the three columns of
`CURVE_POINTS` interpolated with `multiLerp` satisfy
`lowerBound(x) < targetAHT(x) < upperBound(x)`. -/
theorem curve_lookup_target_strictly_inside (x : ℚ) :
    multiLerp curveDurations curveLower (NUM_POINTS : Int) x <
        multiLerp curveDurations curveTarget (NUM_POINTS : Int) x ∧
      multiLerp curveDurations curveTarget (NUM_POINTS : Int) x <
        multiLerp curveDurations curveUpper (NUM_POINTS : Int) x := by
  have hlen : 2 ≤ curveDurations.length := by decide
  have hN : (NUM_POINTS : Int) = (curveDurations.length : Int) := rfl
  have hp : ∀ k : Nat, k < 9 → ((curveDurations.getD k 0 : Nat) : ℚ) = 5 * ((k : ℚ) + 1) := by
    intro k hk
    interval_cases k <;>
      simp only [curveDurations, CURVE_POINTS, List.map, List.getD_cons_zero,
        List.getD_cons_succ] <;>
      norm_num
  by_cases h0 : x ≤ ((curveDurations.getD 0 0 : Nat) : ℚ)
  · rw [hN, (multiLerp_outside curveDurations curveLower hlen x).1 h0,
      (multiLerp_outside curveDurations curveTarget hlen x).1 h0,
      (multiLerp_outside curveDurations curveUpper hlen x).1 h0]
    exact curve_rows_ordered 0 (by decide)
  have h0 : ((curveDurations.getD 0 0 : Nat) : ℚ) < x := not_le.1 h0
  by_cases h8 : ((curveDurations.getD (curveDurations.length - 1) 0 : Nat) : ℚ) ≤ x
  · rw [hN, (multiLerp_outside curveDurations curveLower hlen x).2 h0 h8,
      (multiLerp_outside curveDurations curveTarget hlen x).2 h0 h8,
      (multiLerp_outside curveDurations curveUpper hlen x).2 h0 h8]
    exact curve_rows_ordered 8 (by decide)
  have h8 : x < ((curveDurations.getD 8 0 : Nat) : ℚ) := not_le.1 h8
  rw [hp 0 (by decide)] at h0
  rw [hp 8 (by decide)] at h8
  -- the row below `x`
  have hex : ∃ i : Nat, i + 1 < 9 ∧ 5 * ((i : ℚ) + 1) < x ∧ x ≤ 5 * (((i + 1 : Nat) : ℚ) + 1) := by
    by_cases c1 : x ≤ 10
    · exact ⟨0, by decide, by norm_num at h0 ⊢; exact h0, by norm_num; exact c1⟩
    by_cases c2 : x ≤ 15
    · exact ⟨1, by decide, by norm_num; exact not_le.1 c1, by norm_num; exact c2⟩
    by_cases c3 : x ≤ 20
    · exact ⟨2, by decide, by norm_num; exact not_le.1 c2, by norm_num; exact c3⟩
    by_cases c4 : x ≤ 25
    · exact ⟨3, by decide, by norm_num; exact not_le.1 c3, by norm_num; exact c4⟩
    by_cases c5 : x ≤ 30
    · exact ⟨4, by decide, by norm_num; exact not_le.1 c4, by norm_num; exact c5⟩
    by_cases c6 : x ≤ 35
    · exact ⟨5, by decide, by norm_num; exact not_le.1 c5, by norm_num; exact c6⟩
    by_cases c7 : x ≤ 40
    · exact ⟨6, by decide, by norm_num; exact not_le.1 c6, by norm_num; exact c7⟩
    · exact ⟨7, by decide, by norm_num; exact not_le.1 c7, by norm_num at h8 ⊢; exact h8.le⟩
  obtain ⟨i, hi, hlo, hhi⟩ := hex
  exact curve_lookup_ordered_between i hi x (by rw [hp i (by omega)]; exact hlo)
    (by rw [hp (i + 1) hi]; exact hhi)

/-! ## The button never fires -/

theorem sub32_self (a : Nat) : sub32 a a = 0 := by
  unfold sub32
  have hU : 0 < U32 := Nat.pos_of_ne_zero (by decide)
  have hle := Nat.mod_le a U32
  have h : a + U32 - a % U32 = U32 + (a - a % U32) := by omega
  rw [h, Nat.add_mod, Nat.mod_self, Nat.zero_add, Nat.mod_mod]
  exact Nat.mod_eq_zero_of_dvd (Nat.dvd_sub_mod a)

theorem detectButtonEvent_eq (hw : Hardware) (reading : Int) (now : Nat) :
    hw.detectButtonEvent reading now =
      (ButtonEvent.NONE,
        { hw with
          lastDebounceTime := if reading ≠ hw.lastButtonState then now else hw.lastDebounceTime
          lastButtonState := reading }) := by
  unfold Hardware.detectButtonEvent
  by_cases h : reading = hw.lastButtonState
  · have hpress : ¬ (reading = LOW ∧ hw.lastButtonState = HIGH) := by
      rintro ⟨h1, h2⟩
      rw [h, h2] at h1
      exact absurd h1 (by decide)
    have hrelease : ¬ (reading = HIGH ∧ hw.lastButtonState = LOW) := by
      rintro ⟨h1, h2⟩
      rw [h, h2] at h1
      exact absurd h1 (by decide)
    have hne : ¬ reading ≠ hw.lastButtonState := not_not.mpr h
    simp only [if_neg hne, hpress, hrelease, if_false, ite_self]
  · have hd : ¬ sub32 now now > DEBOUNCE_DELAY := by
      rw [sub32_self]
      decide
    simp only [ne_eq, h, not_false_eq_true, if_true, hd, if_false]

theorem handleButton_eq (hw : Hardware) (reading : Int) (now : Nat) :
    hw.handleButton reading now =
      (ButtonEvent.NONE,
        { hw with
          lastDebounceTime := if reading ≠ hw.lastButtonState then now else hw.lastDebounceTime
          lastButtonState := reading }) := by
  unfold Hardware.handleButton
  rw [detectButtonEvent_eq]

theorem handleButtons_eq (calls : List (Int × Nat)) :
    ∀ hw : Hardware,
      (handleButtons hw calls).1 = List.replicate calls.length ButtonEvent.NONE ∧
        (handleButtons hw calls).2 =
          { hw with
            lastDebounceTime := (handleButtons hw calls).2.lastDebounceTime
            lastButtonState := (handleButtons hw calls).2.lastButtonState } := by
  induction calls with
  | nil => intro hw; exact ⟨rfl, rfl⟩
  | cons c cs ih =>
    intro hw
    obtain ⟨h1, h2⟩ := ih (hw.handleButton c.1 c.2).2
    refine ⟨?_, ?_⟩
    · show (hw.handleButton c.1 c.2).1 :: (handleButtons (hw.handleButton c.1 c.2).2 cs).1 = _
      rw [h1, handleButton_eq]
      rfl
    · show (handleButtons (hw.handleButton c.1 c.2).2 cs).2 =
        { hw with
          lastDebounceTime := (handleButtons (hw.handleButton c.1 c.2).2 cs).2.lastDebounceTime
          lastButtonState := (handleButtons (hw.handleButton c.1 c.2).2 cs).2.lastButtonState }
      rw [h2, handleButton_eq]

/-- C34.  For every state of the hardware, every pin reading and every clock value,
`detectButtonEvent` returns `NONE` and changes only `lastDebounceTime` (set to the clock when
the reading differs from `lastButtonState`) and `lastButtonState` (set to the reading), and
`handleButton` does the same.  Hence over every sequence of calls of `handleButton` every event
is `NONE`, `paused` and `sectionComplete` keep their values, `reset()` is never called, and no
member other than `lastDebounceTime` and `lastButtonState` changes. -/
theorem detectButtonEvent_always_none (hw : Hardware) (reading : Int) (now : Nat)
    (calls : List (Int × Nat)) :
    (hw.detectButtonEvent reading now).1 = ButtonEvent.NONE ∧
      (hw.detectButtonEvent reading now).2 =
        { hw with
          lastDebounceTime := if reading ≠ hw.lastButtonState then now else hw.lastDebounceTime
          lastButtonState := reading } ∧
      hw.handleButton reading now = hw.detectButtonEvent reading now ∧
      (handleButtons hw calls).1 = List.replicate calls.length ButtonEvent.NONE ∧
      (handleButtons hw calls).2.paused = hw.paused ∧
      (handleButtons hw calls).2.sectionComplete = hw.sectionComplete ∧
      (handleButtons hw calls).2.resetCalls = hw.resetCalls ∧
      (handleButtons hw calls).2 =
        { hw with
          lastDebounceTime := (handleButtons hw calls).2.lastDebounceTime
          lastButtonState := (handleButtons hw calls).2.lastButtonState } := by
  obtain ⟨h1, h2⟩ := handleButtons_eq calls hw
  refine ⟨?_, ?_, ?_, h1, ?_, ?_, ?_, h2⟩
  · rw [detectButtonEvent_eq]
  · rw [detectButtonEvent_eq]
  · rw [handleButton_eq, detectButtonEvent_eq]
  · rw [h2]
  · rw [h2]
  · rw [h2]

/-! ## The substituted character of a typo -/

theorem toLower_of_lowercase (c : Char) (h : 97 ≤ c.toNat) : c.toLower = c := by
  unfold Char.toLower
  simp only
  rw [if_neg]
  omega

theorem fallback_letter_toNat : ∀ k, k < 26 → (Char.ofNat ('a'.toNat + k)).toNat = 97 + k := by
  decide

theorem adjacent_not_key :
    ∀ m ∈ keyMaps, ∀ k, k < m.2.length →
      (m.2.data.getD k (Char.ofNat 0)).toLower ≠ m.1 := by
  decide

theorem keyMaps_nonempty : ∀ m ∈ keyMaps, 0 < m.2.length := by
  decide

theorem keyMaps_keys : ∀ m ∈ keyMaps, m.1.toNat < 100 := by
  decide

theorem keyMaps_covers : ∀ n, 97 ≤ n → n < 100 →
    (keyMaps.find? (fun m => m.1 = Char.ofNat n)).isSome = true := by
  decide

theorem getRandomTypo_fallback (sim : HumanSimulator) (c : Char)
    (h : keyMaps.find? (fun m => m.1 = c.toLower) = none) :
    (sim.getRandomTypo c).1 = Char.ofNat ('a'.toNat + (sim.rng.headD 0) % 26) := by
  unfold HumanSimulator.getRandomTypo
  rw [h]
  show Char.ofNat ('a'.toNat + (sim.random 26).1.toNat) = _
  unfold HumanSimulator.random
  rw [if_neg (by decide)]
  show Char.ofNat ('a'.toNat + (((sim.rng.headD 0 : Nat) : Int) % 26).toNat) = _
  have : (((sim.rng.headD 0 : Nat) : Int) % 26).toNat = (sim.rng.headD 0) % 26 := by
    omega
  rw [this]

theorem getRandomTypo_table (sim : HumanSimulator) (c : Char) (m : Char × String)
    (h : keyMaps.find? (fun m => m.1 = c.toLower) = some m) :
    (sim.getRandomTypo c).1 ≠ c := by
  have hmem : m ∈ keyMaps := List.mem_of_find?_eq_some h
  have hkey : m.1 = c.toLower := by
    have := List.find?_some h
    exact of_decide_eq_true this
  have hpos : 0 < m.2.length := keyMaps_nonempty m hmem
  obtain ⟨hlt, h0⟩ := random_lt sim hpos
  unfold HumanSimulator.getRandomTypo
  rw [h]
  intro heq
  have := adjacent_not_key m hmem _ hlt
  apply this
  rw [hkey]
  exact congrArg Char.toLower heq

/-- C39, counterexample.  With the draw 3 the substituted character for `'d'` is `'d'` itself,
and with the draws 3 (position) and 4 (letter) the character substituted at position 3 of
`"stretch"` is the `'e'` that stands there. -/
theorem getRandomTypo_can_return_original :
    (sampleDrawThree.getRandomTypo 'd').1 = 'd' ∧
      sampleSameLetter.typoPos "stretch" = 3 ∧ sampleSameLetter.typoChar "stretch" = 'e' ∧
      "stretch".data.set 3 'e' = "stretch".data := by
  decide

/-- C39, amended.  For every character `c` and every state of the random source,
`getRandomTypo(c)` returns a character different from `c` unless `c` is one of the lowercase
letters `'d'` to `'z'`, which have no entry in the adjacent-key table: for such a `c` the
result is the letter `'a' + (draw mod 26)`, which is `c` itself exactly when the draw modulo 26
is the position of `c` in the alphabet. -/
theorem getRandomTypo_differs_unless_fallback_hits (sim : HumanSimulator) (c : Char) :
    (isUnmappedLowercase c = false → (sim.getRandomTypo c).1 ≠ c) ∧
      (isUnmappedLowercase c = true →
        (sim.getRandomTypo c).1 = Char.ofNat ('a'.toNat + (sim.rng.headD 0) % 26) ∧
          ((sim.getRandomTypo c).1 = c ↔ (sim.rng.headD 0) % 26 = c.toNat - 'a'.toNat)) := by
  have hk : (sim.rng.headD 0) % 26 < 26 := Nat.mod_lt _ (by decide)
  have hto := fallback_letter_toNat _ hk
  have hd : 'd'.toNat = 100 := by decide
  have hz : 'z'.toNat = 122 := by decide
  have ha : 'a'.toNat = 97 := by decide
  constructor
  · intro hc
    have hc1 : ¬ (100 ≤ c.toNat ∧ c.toNat ≤ 122) := by
      have := of_decide_eq_false hc
      rwa [hd, hz] at this
    cases hfind : keyMaps.find? (fun m => m.1 = c.toLower) with
    | some m => exact getRandomTypo_table sim c m hfind
    | none =>
      rw [getRandomTypo_fallback sim c hfind]
      intro heq
      have hcn : c.toNat = 97 + (sim.rng.headD 0) % 26 := by rw [← heq]; exact hto
      have hlow : c.toLower = c := toLower_of_lowercase c (by omega)
      have hcov := keyMaps_covers c.toNat (by omega) (by omega)
      rw [Char.ofNat_toNat, ← hlow, hfind] at hcov
      exact absurd hcov (by decide)
  · intro hc
    have hc1 : 100 ≤ c.toNat ∧ c.toNat ≤ 122 := by
      have := of_decide_eq_true hc
      rwa [hd, hz] at this
    have hlow : c.toLower = c := toLower_of_lowercase c (by omega)
    have hfind : keyMaps.find? (fun m => m.1 = c.toLower) = none := by
      cases hf : keyMaps.find? (fun m => m.1 = c.toLower) with
      | none => rfl
      | some m =>
        have hmem : m ∈ keyMaps := List.mem_of_find?_eq_some hf
        have hkey : m.1 = c.toLower := by
          have := List.find?_some hf
          exact of_decide_eq_true this
        have := keyMaps_keys m hmem
        rw [hkey, hlow] at this
        omega
    have hres := getRandomTypo_fallback sim c hfind
    refine ⟨hres, ?_⟩
    rw [hres, ha]
    constructor
    · intro heq
      have hcn : c.toNat = 97 + (sim.rng.headD 0) % 26 := by rw [← heq]; rw [← ha]; exact hto
      omega
    · intro hn
      have : 97 + (sim.rng.headD 0) % 26 = c.toNat := by omega
      rw [this, Char.ofNat_toNat]

theorem getRandomTypo_differs_unless_fallback_hits_witness :
    isUnmappedLowercase 'B' = false ∧ isUnmappedLowercase 'd' = true ∧
      (sampleDrawThree.getRandomTypo 'B').1 ≠ 'B' ∧
      ((sampleDrawThree.getRandomTypo 'd').1 = 'd' ↔ 3 % 26 = 'd'.toNat - 'a'.toNat) :=
  ⟨by decide, by decide,
    (getRandomTypo_differs_unless_fallback_hits sampleDrawThree 'B').1 (by decide),
    ((getRandomTypo_differs_unless_fallback_hits sampleDrawThree 'd').2 (by decide)).2⟩

/-- Evaluation of `F32.round` at a positive number: `e` is its binary exponent and `m` the
nearest multiple of the unit in the last place. -/
theorem F32.round_eval {x r : ℚ} (e m : Int) (he : -126 ≤ e) (h1 : (2 : ℚ) ^ e ≤ x)
    (h2 : x < (2 : ℚ) ^ (e + 1)) (h3 : (m : ℚ) - 1 / 2 < x / (2 : ℚ) ^ (e - 23))
    (h4 : x / (2 : ℚ) ^ (e - 23) < (m : ℚ) + 1 / 2) (hr : r = (m : ℚ) * (2 : ℚ) ^ (e - 23)) :
    F32.round x = r := by
  have hpos : 0 < x := lt_of_lt_of_le (F32.two_zpow_pos e) h1
  rw [hr]
  exact F32.round_eq e m he (by rw [abs_of_pos hpos]; exact h1)
    (by rw [abs_of_pos hpos]; exact h2) h3 h4

theorem F32.abs_round_le (x : ℚ) :
    |F32.round x| ≤ (1 + (2 : ℚ) ^ (-24 : Int)) * |x| + (2 : ℚ) ^ (-150 : Int) := by
  have h := F32.round_err_any x
  have h2 : |F32.round x| ≤ |F32.round x - x| + |x| := by
    have := abs_add (F32.round x - x) x
    simpa using this
  linarith

theorem XFloat.ofRat_of_abs_le {x : ℚ} (h : |x| ≤ (2 : ℚ) ^ (127 : Int)) :
    XFloat.ofRat x = XFloat.fin (F32.round x) := by
  unfold XFloat.ofRat
  rw [if_neg]
  rw [not_le]
  have h1 := F32.abs_round_le x
  have h2 : (1 + (2 : ℚ) ^ (-24 : Int)) * |x| ≤ (1 + (2 : ℚ) ^ (-24 : Int)) * (2 : ℚ) ^ (127 : Int) :=
    mul_le_mul_of_nonneg_left h (by norm_num)
  have h3 : (1 + (2 : ℚ) ^ (-24 : Int)) * (2 : ℚ) ^ (127 : Int) + (2 : ℚ) ^ (-150 : Int) <
      (2 : ℚ) ^ (128 : Int) := by norm_num
  linarith

theorem XFloat.ofRat_zero : XFloat.ofRat 0 = XFloat.fin 0 := by
  rw [XFloat.ofRat_of_abs_le (by norm_num), F32.round_zero]

theorem XFloat.ofRat_eval {x r : ℚ} (e m : Int) (he : -126 ≤ e) (he2 : e ≤ 126)
    (h1 : (2 : ℚ) ^ e ≤ x) (h2 : x < (2 : ℚ) ^ (e + 1))
    (h3 : (m : ℚ) - 1 / 2 < x / (2 : ℚ) ^ (e - 23))
    (h4 : x / (2 : ℚ) ^ (e - 23) < (m : ℚ) + 1 / 2) (hr : r = (m : ℚ) * (2 : ℚ) ^ (e - 23)) :
    XFloat.ofRat x = XFloat.fin r := by
  have hpos : 0 < x := lt_of_lt_of_le (F32.two_zpow_pos e) h1
  rw [XFloat.ofRat_of_abs_le, F32.round_eval e m he h1 h2 h3 h4 hr]
  rw [abs_of_pos hpos]
  exact le_trans h2.le (zpow_le_zpow_right₀ (by norm_num) (by omega))

theorem XFloat.ofNat_of_lt {n : Nat} (h : n < 2 ^ 24) : XFloat.ofNat n = XFloat.fin (n : ℚ) := by
  unfold XFloat.ofNat
  rw [F32.round_natCast h]

theorem XFloat.ofNat_zero : XFloat.ofNat 0 = XFloat.fin 0 := XFloat.ofNat_of_lt (by norm_num)

theorem XFloat.mul_fin (a b : ℚ) :
    XFloat.mul (XFloat.fin a) (XFloat.fin b) = XFloat.ofRat (a * b) := rfl

theorem XFloat.sub_fin (a b : ℚ) :
    XFloat.sub (XFloat.fin a) (XFloat.fin b) = XFloat.ofRat (a - b) := rfl

theorem XFloat.div_fin (a : ℚ) {b : ℚ} (hb : b ≠ 0) :
    XFloat.div (XFloat.fin a) (XFloat.fin b) = XFloat.ofRat (a / b) := by
  simp only [XFloat.div, if_neg hb]

theorem XFloat.div_fin_zero (a : ℚ) :
    XFloat.div (XFloat.fin a) (XFloat.fin 0) = XFloat.infOfSign a := by
  simp only [XFloat.div, if_true]

/-- C21.  The code does not guard the division of `calculateCompliance` by `expectedElapsed`: for
every running tracker read at elapsed time 0 (whatever `totalMillis` and `wordsTyped` are), the
divisor `expectedElapsed = totalMillis * (percentComplete / 100)` is zero and `getSnapshot`
stores the result of `0 / 0`, a NaN, in `compliance.timeUtilization` instead of a defined zero
or neutral value. -/
theorem getSnapshot_timeUtilization_nan_at_start (tr : ProgressTracker) (now : Nat)
    (hrun : tr.isRunning = true) (hstart : tr.startTime ≠ 0)
    (helapsed : sub32 (sub32 now tr.startTime) tr.totalPausedTime = 0) :
    XFloat.mul (XFloat.ofNat tr.videoDuration.totalMillis)
        (XFloat.div (tr.getSnapshot now).percentComplete (XFloat.fin 100)) = XFloat.fin 0 ∧
      (tr.getSnapshot now).compliance.timeUtilization = XFloat.nan := by
  have he : (tr.getSnapshot now).elapsedMillis = 0 := by
    rw [getSnapshot_elapsedMillis now hrun hstart, helapsed]
  have h100 : XFloat.div (XFloat.fin 100) (XFloat.fin 100) = XFloat.fin 1 := by
    rw [XFloat.div_fin 100 (by norm_num)]
    have : (100 : ℚ) / 100 = ((1 : Nat) : ℚ) := by norm_num
    rw [this, XFloat.ofRat_of_abs_le (by norm_num), F32.round_natCast (by norm_num)]
    norm_num
  have h0 : XFloat.div (XFloat.fin 0) (XFloat.fin 100) = XFloat.fin 0 := by
    rw [XFloat.div_fin 0 (by norm_num), zero_div, XFloat.ofRat_zero]
  have hd : XFloat.mul (XFloat.ofNat tr.videoDuration.totalMillis)
      (XFloat.div (tr.getSnapshot now).percentComplete (XFloat.fin 100)) = XFloat.fin 0 := by
    rw [getSnapshot_percentComplete now hrun hstart, he, XFloat.ofNat_zero]
    by_cases hT : F32.round (tr.videoDuration.totalMillis : ℚ) = 0
    · have hnan : XFloat.div (XFloat.fin 0) (XFloat.ofNat tr.videoDuration.totalMillis) =
          XFloat.nan := by
        unfold XFloat.ofNat
        rw [hT, XFloat.div_fin_zero]
        simp [XFloat.infOfSign]
      rw [hnan]
      have hmin : XFloat.min (XFloat.fin 100) (XFloat.mul XFloat.nan (XFloat.fin 100)) =
          XFloat.fin 100 := by
        simp [XFloat.mul, XFloat.min, XFloat.lt]
      rw [hmin, h100]
      unfold XFloat.ofNat
      rw [hT, XFloat.mul_fin, zero_mul, XFloat.ofRat_zero]
    · have hq : XFloat.div (XFloat.fin 0) (XFloat.ofNat tr.videoDuration.totalMillis) =
          XFloat.fin 0 := by
        unfold XFloat.ofNat
        rw [XFloat.div_fin 0 hT, zero_div, XFloat.ofRat_zero]
      rw [hq, XFloat.mul_fin, zero_mul, XFloat.ofRat_zero]
      have hmin : XFloat.min (XFloat.fin 100) (XFloat.fin 0) = XFloat.fin 0 := by
        simp [XFloat.min, XFloat.lt]
      rw [hmin, h0]
      unfold XFloat.ofNat
      rw [XFloat.mul_fin, mul_zero, XFloat.ofRat_zero]
  refine ⟨hd, ?_⟩
  rw [getSnapshot_timeUtilization now hrun hstart, hd, he, XFloat.ofNat_zero, XFloat.div_fin_zero]
  simp [XFloat.infOfSign, XFloat.mul]

theorem getSnapshot_timeUtilization_nan_at_start_witness :
    XFloat.mul (XFloat.ofNat sampleDuration.totalMillis)
        (XFloat.div (((ProgressTracker.new sampleDuration).start 1000).getSnapshot
          1000).percentComplete (XFloat.fin 100)) = XFloat.fin 0 ∧
      (((ProgressTracker.new sampleDuration).start 1000).getSnapshot
        1000).compliance.timeUtilization = XFloat.nan :=
  getSnapshot_timeUtilization_nan_at_start ((ProgressTracker.new sampleDuration).start 1000) 1000
    (by decide) (by decide) (by decide)

/-! ## The estimate of the remaining time -/

theorem XFloat.toU32_fin (q : ℚ) (n : Nat) (h1 : (n : ℚ) ≤ q) (h2 : q < (n : ℚ) + 1)
    (h3 : n < U32) : XFloat.toU32 (XFloat.fin q) = n := by
  have hf : ⌊q⌋ = (n : Int) := by
    rw [Int.floor_eq_iff]
    exact ⟨by exact_mod_cast h1, by exact_mod_cast h2⟩
  simp only [XFloat.toU32, hf, Int.toNat_ofNat]
  exact Nat.mod_eq_of_lt h3

/-- C20.  The code returns a wrapped `estimatedRemaining` once the tracker runs past its total
time: for a tracker of 10 seconds started at 1000 and read at 13000, `percentComplete` is capped
at 100, the completion rate `100.0f / 12000` and the estimated total `100.0f / rate` are rounded
to binary32, the conversion to `uint32_t` truncates the total to 11999, and the unsigned
difference `11999 - 12000` wraps to 4294967295, which `std::max(0UL, ...)` leaves as it is.
Read at 4000, the same tracker reports 6999 instead of `10000 - 3000`. -/
theorem getSnapshot_estimatedRemaining_wraps :
    (sampleStarted.getSnapshot 13000).elapsedMillis = 12000 ∧
      (sampleStarted.getSnapshot 13000).percentComplete = XFloat.fin 100 ∧
      (sampleStarted.getSnapshot 13000).estimatedRemaining = 4294967295 ∧
      sampleStarted.videoDuration.totalMillis = 10000 ∧
      (sampleStarted.getSnapshot 4000).elapsedMillis = 3000 ∧
      (sampleStarted.getSnapshot 4000).estimatedRemaining = 6999 := by
  have hrun : sampleStarted.isRunning = true := rfl
  have hstart : sampleStarted.startTime ≠ 0 := by decide
  have hT : sampleStarted.videoDuration.totalMillis = 10000 := rfl
  have hE : (sampleStarted.getSnapshot 13000).elapsedMillis = 12000 :=
    (getSnapshot_elapsedMillis 13000 hrun hstart).trans (by decide)
  have hE2 : (sampleStarted.getSnapshot 4000).elapsedMillis = 3000 :=
    (getSnapshot_elapsedMillis 4000 hrun hstart).trans (by decide)
  have n1 : XFloat.ofNat 12000 = XFloat.fin 12000 := by
    rw [XFloat.ofNat_of_lt (by norm_num)]
    norm_num
  have n2 : XFloat.ofNat 10000 = XFloat.fin 10000 := by
    rw [XFloat.ofNat_of_lt (by norm_num)]
    norm_num
  have n3 : XFloat.ofNat 3000 = XFloat.fin 3000 := by
    rw [XFloat.ofNat_of_lt (by norm_num)]
    norm_num
  have h1 : XFloat.ofRat (12000 / 10000) = XFloat.fin (5033165 / 4194304) :=
    XFloat.ofRat_eval 0 10066330 (by norm_num) (by norm_num) (by norm_num) (by norm_num) (by norm_num) (by norm_num) (by norm_num)
  have h2 : XFloat.ofRat (5033165 / 4194304 * 100) = XFloat.fin (15728641 / 131072) :=
    XFloat.ofRat_eval 6 15728641 (by norm_num) (by norm_num) (by norm_num) (by norm_num) (by norm_num) (by norm_num) (by norm_num)
  have h3 : XFloat.ofRat (100 / 12000) = XFloat.fin (8947849 / 1073741824) :=
    XFloat.ofRat_eval (-7) 8947849 (by norm_num) (by norm_num) (by norm_num) (by norm_num) (by norm_num) (by norm_num) (by norm_num)
  have h4 : XFloat.ofRat (100 / (8947849 / 1073741824)) = XFloat.fin (12287999 / 1024) :=
    XFloat.ofRat_eval 13 12287999 (by norm_num) (by norm_num) (by norm_num) (by norm_num) (by norm_num) (by norm_num) (by norm_num)
  have g1 : XFloat.ofRat (3000 / 10000) = XFloat.fin (5033165 / 16777216) :=
    XFloat.ofRat_eval (-2) 10066330 (by norm_num) (by norm_num) (by norm_num) (by norm_num) (by norm_num) (by norm_num) (by norm_num)
  have g2 : XFloat.ofRat (5033165 / 16777216 * 100) = XFloat.fin (15728641 / 524288) :=
    XFloat.ofRat_eval 4 15728641 (by norm_num) (by norm_num) (by norm_num) (by norm_num) (by norm_num) (by norm_num) (by norm_num)
  have g3 : XFloat.ofRat (15728641 / 524288 / 3000) = XFloat.fin (10737419 / 1073741824) :=
    XFloat.ofRat_eval (-7) 10737419 (by norm_num) (by norm_num) (by norm_num) (by norm_num) (by norm_num) (by norm_num) (by norm_num)
  have g4 : XFloat.ofRat (100 / (10737419 / 1073741824)) = XFloat.fin (10239999 / 1024) :=
    XFloat.ofRat_eval 13 10239999 (by norm_num) (by norm_num) (by norm_num) (by norm_num) (by norm_num) (by norm_num) (by norm_num)
  have hP : (sampleStarted.getSnapshot 13000).percentComplete = XFloat.fin 100 := by
    rw [getSnapshot_percentComplete 13000 hrun hstart, hE, hT, n1, n2,
      XFloat.div_fin _ (by norm_num), h1, XFloat.mul_fin, h2]
    simp only [XFloat.min, XFloat.lt, decide_eq_true_eq]
    rw [if_neg (by norm_num)]
  have hP2 : (sampleStarted.getSnapshot 4000).percentComplete =
      XFloat.fin (15728641 / 524288) := by
    rw [getSnapshot_percentComplete 4000 hrun hstart, hE2, hT, n3, n2,
      XFloat.div_fin _ (by norm_num), g1, XFloat.mul_fin, g2]
    simp only [XFloat.min, XFloat.lt, decide_eq_true_eq]
    rw [if_pos (by norm_num)]
  refine ⟨hE, hP, ?_, hT, hE2, ?_⟩
  · rw [getSnapshot_estimatedRemaining 13000 hrun hstart, hP, hE, n1]
    simp only [XFloat.le, decide_eq_true_eq]
    rw [if_neg (by norm_num), XFloat.div_fin _ (by norm_num), h3,
      XFloat.div_fin _ (by norm_num), h4,
      XFloat.toU32_fin _ 11999 (by norm_num) (by norm_num) (by decide)]
    decide
  · rw [getSnapshot_estimatedRemaining 4000 hrun hstart, hP2, hE2, n3]
    simp only [XFloat.le, decide_eq_true_eq]
    rw [if_neg (by norm_num), XFloat.div_fin _ (by norm_num), g3,
      XFloat.div_fin _ (by norm_num), g4,
      XFloat.toU32_fin _ 9999 (by norm_num) (by norm_num) (by decide)]
    decide

/-! ## Error bounds of binary32 operations -/

theorem F32.within_round {a : ℚ} (h : (2 : ℚ) ^ (-126 : Int) ≤ a) :
    F32.Within (16777215 / 16777216) (16777217 / 16777216) (F32.round a) a := by
  have hpos : 0 < a := lt_of_lt_of_le (F32.two_zpow_pos _) h
  have h1 := F32.round_rel (by rw [abs_of_pos hpos]; exact h : (2 : ℚ) ^ (-126 : Int) ≤ |a|)
  rw [abs_of_pos hpos, abs_le] at h1
  have hu : (2 : ℚ) ^ (-24 : Int) = 1 / 16777216 := by norm_num
  rw [hu] at h1
  constructor <;> linarith [h1.1, h1.2]

theorem F32.Within.self (a : ℚ) : F32.Within 1 1 a a := by
  constructor <;> simp

theorem F32.Within.chain {lo1 hi1 lo2 hi2 a b c : ℚ} (h1 : F32.Within lo1 hi1 a b)
    (h2 : F32.Within lo2 hi2 b c) (hlo : 0 ≤ lo1) (hhi : 0 ≤ hi1) :
    F32.Within (lo1 * lo2) (hi1 * hi2) a c := by
  constructor
  · calc lo1 * lo2 * c = lo1 * (lo2 * c) := by ring
      _ ≤ lo1 * b := mul_le_mul_of_nonneg_left h2.1 hlo
      _ ≤ a := h1.1
  · calc a ≤ hi1 * b := h1.2
      _ ≤ hi1 * (hi2 * c) := mul_le_mul_of_nonneg_left h2.2 hhi
      _ = hi1 * hi2 * c := by ring

theorem F32.Within.mul {lo1 hi1 lo2 hi2 a1 b1 a2 b2 : ℚ} (h1 : F32.Within lo1 hi1 a1 b1)
    (h2 : F32.Within lo2 hi2 a2 b2) (hlo1 : 0 ≤ lo1) (hlo2 : 0 ≤ lo2) (hb1 : 0 ≤ b1)
    (hb2 : 0 ≤ b2) : F32.Within (lo1 * lo2) (hi1 * hi2) (a1 * a2) (b1 * b2) := by
  have ha1 : 0 ≤ a1 := le_trans (mul_nonneg hlo1 hb1) h1.1
  have ha2 : 0 ≤ a2 := le_trans (mul_nonneg hlo2 hb2) h2.1
  constructor
  · calc lo1 * lo2 * (b1 * b2) = (lo1 * b1) * (lo2 * b2) := by ring
      _ ≤ a1 * a2 := mul_le_mul h1.1 h2.1 (mul_nonneg hlo2 hb2) ha1
  · calc a1 * a2 ≤ (hi1 * b1) * (hi2 * b2) :=
        mul_le_mul h1.2 h2.2 ha2 (le_trans ha1 h1.2)
      _ = hi1 * hi2 * (b1 * b2) := by ring

theorem F32.Within.mul_const {lo hi a b : ℚ} (h : F32.Within lo hi a b) {c : ℚ} (hc : 0 ≤ c) :
    F32.Within lo hi (a * c) (b * c) := by
  constructor
  · calc lo * (b * c) = (lo * b) * c := by ring
      _ ≤ a * c := mul_le_mul_of_nonneg_right h.1 hc
  · calc a * c ≤ (hi * b) * c := mul_le_mul_of_nonneg_right h.2 hc
      _ = hi * (b * c) := by ring

theorem F32.Within.div_const {lo hi a b : ℚ} (h : F32.Within lo hi a b) {c : ℚ} (hc : 0 ≤ c) :
    F32.Within lo hi (a / c) (b / c) := by
  rw [div_eq_mul_inv, div_eq_mul_inv]
  exact h.mul_const (inv_nonneg.2 hc)

theorem F32.Within.div {lo1 hi1 lo2 hi2 a1 b1 a2 b2 : ℚ} (h1 : F32.Within lo1 hi1 a1 b1)
    (h2 : F32.Within lo2 hi2 a2 b2) (hlo1 : 0 ≤ lo1) (hhi1 : 0 ≤ hi1) (hlo2 : 0 < lo2)
    (hb1 : 0 ≤ b1) (hb2 : 0 < b2) :
    F32.Within (lo1 / hi2) (hi1 / lo2) (a1 / a2) (b1 / b2) := by
  have ha2 : 0 < a2 := lt_of_lt_of_le (mul_pos hlo2 hb2) h2.1
  have hhi2 : 0 < hi2 := by
    by_contra hc
    have : hi2 * b2 ≤ 0 := mul_nonpos_of_nonpos_of_nonneg (not_lt.1 hc) hb2.le
    linarith [h2.2]
  constructor
  · rw [le_div_iff₀ ha2]
    calc lo1 / hi2 * (b1 / b2) * a2 ≤ lo1 / hi2 * (b1 / b2) * (hi2 * b2) :=
        mul_le_mul_of_nonneg_left h2.2
          (mul_nonneg (div_nonneg hlo1 hhi2.le) (div_nonneg hb1 hb2.le))
      _ = lo1 * b1 := by field_simp
      _ ≤ a1 := h1.1
  · rw [div_le_iff₀ ha2]
    calc a1 ≤ hi1 * b1 := h1.2
      _ = hi1 / lo2 * (b1 / b2) * (lo2 * b2) := by field_simp
      _ ≤ hi1 / lo2 * (b1 / b2) * a2 :=
        mul_le_mul_of_nonneg_left h2.1
          (mul_nonneg (div_nonneg hhi1 hlo2.le) (div_nonneg hb1 hb2.le))

theorem F32.round_one : F32.round 1 = 1 := by
  have := @F32.round_natCast 1 (by norm_num)
  simpa using this

theorem F32.round_hundred : F32.round 100 = 100 := by
  have := @F32.round_natCast 100 (by norm_num)
  simpa using this

theorem F32.round_two_pow_32 : F32.round 4294967296 = 4294967296 :=
  F32.round_eval 32 8388608 (by norm_num) (by norm_num) (by norm_num) (by norm_num) (by norm_num)
    (by norm_num)

/-- The conversion of a positive `uint32_t` to `float`: between 1 and `2 ^ 32`, with a relative
error of at most `2 ^ -24`. -/
theorem F32.round_uint32 {n : Nat} (h0 : 0 < n) (h32 : n < U32) :
    1 ≤ F32.round (n : ℚ) ∧ F32.round (n : ℚ) ≤ 4294967296 ∧
      F32.Within (16777215 / 16777216) (16777217 / 16777216) (F32.round (n : ℚ)) (n : ℚ) := by
  have h1 : (1 : ℚ) ≤ (n : ℚ) := by exact_mod_cast h0
  have h2 : (n : ℚ) ≤ 4294967296 := by
    have : n ≤ 4294967296 := le_of_lt h32
    exact_mod_cast this
  refine ⟨?_, ?_, F32.within_round (le_trans (by norm_num) h1)⟩
  · have := F32.round_mono (by norm_num : (0 : ℚ) ≤ 1) h1
    rwa [F32.round_one] at this
  · have := F32.round_mono (le_trans (by norm_num) h1 : (0 : ℚ) ≤ (n : ℚ)) h2
    rwa [F32.round_two_pow_32] at this

theorem F32.within_round_of_le {a : ℚ} (h : 1 / 1099511627776 ≤ a) :
    F32.Within (16777215 / 16777216) (16777217 / 16777216) (F32.round a) a :=
  F32.within_round (le_trans (by norm_num) h)

theorem XFloat.div_fin_pos (a : ℚ) {b : ℚ} (ha : 0 ≤ a) (hb : 0 < b)
    (h : a / b ≤ 1267650600228229401496703205376) :
    XFloat.div (XFloat.fin a) (XFloat.fin b) = XFloat.fin (F32.round (a / b)) := by
  rw [XFloat.div_fin a hb.ne', XFloat.ofRat_of_abs_le]
  rw [abs_of_nonneg (div_nonneg ha hb.le)]
  exact le_trans h (by norm_num)

theorem XFloat.mul_fin_pos {a b : ℚ} (ha : 0 ≤ a) (hb : 0 ≤ b)
    (h : a * b ≤ 1267650600228229401496703205376) :
    XFloat.mul (XFloat.fin a) (XFloat.fin b) = XFloat.fin (F32.round (a * b)) := by
  rw [XFloat.mul_fin, XFloat.ofRat_of_abs_le]
  rw [abs_of_nonneg (mul_nonneg ha hb)]
  exact le_trans h (by norm_num)

theorem F32.Within.lower {lo hi a b B : ℚ} (h : F32.Within lo hi a b) (hlo : 0 ≤ lo)
    (hb : B ≤ b) : lo * B ≤ a :=
  le_trans (mul_le_mul_of_nonneg_left hb hlo) h.1

theorem F32.Within.upper {lo hi a b B : ℚ} (h : F32.Within lo hi a b) (hhi : 0 ≤ hi)
    (hb : b ≤ B) : a ≤ hi * B :=
  le_trans h.2 (mul_le_mul_of_nonneg_left hb hhi)

theorem F32.Within.weaken {lo hi lo2 hi2 a b : ℚ} (h : F32.Within lo hi a b) (hb : 0 ≤ b)
    (h1 : lo2 ≤ lo) (h2 : hi ≤ hi2) : F32.Within lo2 hi2 a b :=
  ⟨le_trans (mul_le_mul_of_nonneg_right h1 hb) h.1,
    le_trans h.2 (mul_le_mul_of_nonneg_right h2 hb)⟩

/-- The values of `percentComplete` and `timeUtilization` that `getSnapshot` computes from a
positive elapsed time `E` and a positive total time `T`: the utilization is 100 up to rounding
while `E <= T` and `E / T * 100` up to rounding afterwards. -/
theorem timeUtilization_bounds (E T : Nat) (hE : 0 < E) (hE32 : E < U32) (hT : 0 < T)
    (hT32 : T < U32) :
    ∃ p v : ℚ,
      XFloat.min (XFloat.fin 100)
          (XFloat.mul (XFloat.div (XFloat.ofNat E) (XFloat.ofNat T)) (XFloat.fin 100)) =
        XFloat.fin p ∧
      XFloat.mul
          (XFloat.div (XFloat.ofNat E)
            (XFloat.mul (XFloat.ofNat T) (XFloat.div (XFloat.fin p) (XFloat.fin 100))))
          (XFloat.fin 100) = XFloat.fin v ∧
      (E ≤ T → 999999 / 10000 ≤ v ∧ v ≤ 1000001 / 10000) ∧
      (T < E →
        F32.Within (9999997 / 10000000) (10000003 / 10000000) v ((E : ℚ) / (T : ℚ) * 100)) := by
  obtain ⟨he1, he2, heW⟩ := F32.round_uint32 hE hE32
  obtain ⟨ht1, ht2, htW⟩ := F32.round_uint32 hT hT32
  have hEq : (0 : ℚ) < (E : ℚ) := by exact_mod_cast hE
  have hTq : (0 : ℚ) < (T : ℚ) := by exact_mod_cast hT
  have hmono0 : T ≤ E → F32.round (T : ℚ) ≤ F32.round (E : ℚ) := fun h =>
    F32.round_mono hTq.le (by exact_mod_cast h)
  unfold XFloat.ofNat
  generalize F32.round (E : ℚ) = e at he1 he2 heW hmono0 ⊢
  generalize F32.round (T : ℚ) = t at ht1 ht2 htW hmono0 ⊢
  have he0 : 0 < e := by linarith
  have ht0 : 0 < t := by linarith
  have hb1 : (1 : ℚ) / 4294967296 ≤ e / t := by
    rw [le_div_iff₀ ht0]
    linarith
  have hb2 : e / t ≤ 4294967296 := by
    rw [div_le_iff₀ ht0]
    nlinarith
  have hb0 : 0 < e / t := div_pos he0 ht0
  have hbW := heW.div htW (by norm_num) (by norm_num) (by norm_num) hEq.le hTq
  have hET0 : (0 : ℚ) < (E : ℚ) / (T : ℚ) := div_pos hEq hTq
  -- the quotient and percentComplete before the cap
  have hq := @F32.within_round_of_le (e / t) (by linarith)
  have hdiv1 : XFloat.div (XFloat.fin e) (XFloat.fin t) = XFloat.fin (F32.round (e / t)) :=
    XFloat.div_fin_pos e he0.le ht0 (by linarith)
  have hmono1 : T ≤ E → 1 ≤ F32.round (e / t) := by
    intro hTE
    have h1 : (1 : ℚ) ≤ e / t := by
      rw [le_div_iff₀ ht0]
      linarith [hmono0 hTE]
    have := F32.round_mono (by norm_num : (0 : ℚ) ≤ 1) h1
    rwa [F32.round_one] at this
  generalize F32.round (e / t) = q at hq hdiv1 hmono1
  have hq1 := hq.lower (by norm_num) hb1
  have hq2 := hq.upper (by norm_num) hb2
  have hq0 : 0 < q := lt_of_lt_of_le (by norm_num) hq1
  have hp0 := @F32.within_round_of_le (q * 100) (by linarith)
  have hmul1 : XFloat.mul (XFloat.fin q) (XFloat.fin 100) = XFloat.fin (F32.round (q * 100)) :=
    XFloat.mul_fin_pos hq0.le (by norm_num) (by linarith)
  have hmono : T ≤ E → 100 ≤ F32.round (q * 100) := by
    intro hTE
    have h1 : (100 : ℚ) ≤ q * 100 := by linarith [hmono1 hTE]
    have := F32.round_mono (by norm_num : (0 : ℚ) ≤ 100) h1
    rwa [F32.round_hundred] at this
  generalize F32.round (q * 100) = p0 at hp0 hmul1 hmono
  have hp0b := hp0.chain (hq.mul_const (by norm_num : (0 : ℚ) ≤ 100)) (by norm_num) (by norm_num)
  have hp01 := hp0b.lower (by norm_num)
    (mul_le_mul_of_nonneg_right hb1 (by norm_num : (0 : ℚ) ≤ 100))
  have hp0pos : 0 < p0 := lt_of_lt_of_le (by norm_num) hp01
  rw [hdiv1, hmul1]
  by_cases hp : p0 < 100
  · -- percentComplete below the cap: elapsed < total
    have hET : ¬ T ≤ E := fun h => absurd hp (not_lt.2 (hmono h))
    have hmin : XFloat.min (XFloat.fin 100) (XFloat.fin p0) = XFloat.fin p0 := by
      simp only [XFloat.min, XFloat.lt, decide_eq_true_eq]
      rw [if_pos hp]
    have hr := @F32.within_round_of_le (p0 / 100) (by linarith)
    have hdiv2 : XFloat.div (XFloat.fin p0) (XFloat.fin 100) =
        XFloat.fin (F32.round (p0 / 100)) :=
      XFloat.div_fin_pos p0 hp0pos.le (by norm_num) (by linarith)
    generalize F32.round (p0 / 100) = r at hr hdiv2
    have hrb := hr.chain (hp0b.div_const (by norm_num : (0 : ℚ) ≤ 100)) (by norm_num)
      (by norm_num)
    have hcancel : e / t * 100 / 100 = e / t := by ring
    rw [hcancel] at hrb
    have hr0 : 0 < r := lt_of_lt_of_le (by norm_num) (hrb.lower (by norm_num) hb1)
    have htr := (F32.Within.self t).mul hrb (by norm_num) (by norm_num) ht0.le hb0.le
    have hte : t * (e / t) = e := by field_simp
    rw [hte] at htr
    have htr1 := htr.lower (by norm_num) he1
    have htr2 := htr.upper (by norm_num) he2
    have hx := @F32.within_round_of_le (t * r) (by linarith)
    have hmul2 : XFloat.mul (XFloat.fin t) (XFloat.fin r) = XFloat.fin (F32.round (t * r)) :=
      XFloat.mul_fin_pos ht0.le hr0.le (by linarith)
    generalize F32.round (t * r) = x at hx hmul2
    have hxe := hx.chain htr (by norm_num) (by norm_num)
    have hx0 : 0 < x := lt_of_lt_of_le (by norm_num) (hxe.lower (by norm_num) he1)
    have hex := (F32.Within.self e).div hxe (by norm_num) (by norm_num) (by norm_num) he0.le he0
    have hee : e / e = 1 := div_self he0.ne'
    rw [hee] at hex
    have hex1 := hex.1
    have hex2 := hex.2
    have hd := @F32.within_round_of_le (e / x) (by linarith)
    have hdiv3 : XFloat.div (XFloat.fin e) (XFloat.fin x) = XFloat.fin (F32.round (e / x)) :=
      XFloat.div_fin_pos e he0.le hx0 (by linarith)
    generalize F32.round (e / x) = d at hd hdiv3
    have hd1 := hd.chain hex (by norm_num) (by norm_num)
    have hd11 := hd1.1
    have hd12 := hd1.2
    have hd0 : 0 < d := by linarith
    have hv := @F32.within_round_of_le (d * 100) (by linarith)
    have hmul3 : XFloat.mul (XFloat.fin d) (XFloat.fin 100) = XFloat.fin (F32.round (d * 100)) :=
      XFloat.mul_fin_pos hd0.le (by norm_num) (by linarith)
    generalize F32.round (d * 100) = v at hv hmul3
    have hv100 := hv.chain (hd1.mul_const (by norm_num : (0 : ℚ) ≤ 100)) (by norm_num)
      (by norm_num)
    refine ⟨p0, v, hmin, ?_, ?_, fun h => absurd h.le hET⟩
    · rw [hdiv2, hmul2, hdiv3, hmul3]
    · intro _
      have h1 := hv100.1
      have h2 := hv100.2
      constructor <;> linarith
  · have hmin : XFloat.min (XFloat.fin 100) (XFloat.fin p0) = XFloat.fin 100 := by
      simp only [XFloat.min, XFloat.lt, decide_eq_true_eq]
      rw [if_neg hp]
    have h100 : XFloat.div (XFloat.fin 100) (XFloat.fin 100) = XFloat.fin 1 := by
      rw [XFloat.div_fin_pos 100 (by norm_num) (by norm_num) (by norm_num)]
      have : (100 : ℚ) / 100 = 1 := by norm_num
      rw [this, F32.round_one]
    have hx := @F32.within_round_of_le (t * 1) (by linarith)
    have hmul2 : XFloat.mul (XFloat.fin t) (XFloat.fin 1) = XFloat.fin (F32.round (t * 1)) :=
      XFloat.mul_fin_pos ht0.le (by norm_num) (by linarith)
    generalize F32.round (t * 1) = x at hx hmul2
    rw [mul_one] at hx
    have hx0 : 0 < x := lt_of_lt_of_le (by norm_num) (hx.lower (by norm_num) ht1)
    have hex := (F32.Within.self e).div hx (by norm_num) (by norm_num) (by norm_num) he0.le ht0
    have hex1 := hex.lower (by norm_num) hb1
    have hex2 := hex.upper (by norm_num) hb2
    have hd := @F32.within_round_of_le (e / x) (by linarith)
    have hdiv3 : XFloat.div (XFloat.fin e) (XFloat.fin x) = XFloat.fin (F32.round (e / x)) :=
      XFloat.div_fin_pos e he0.le hx0 (by linarith)
    generalize F32.round (e / x) = d at hd hdiv3
    have hdb := hd.chain hex (by norm_num) (by norm_num)
    have hd11 := hdb.lower (by norm_num) hb1
    have hd12 := hdb.upper (by norm_num) hb2
    have hd0 : 0 < d := by linarith
    have hv := @F32.within_round_of_le (d * 100) (by linarith)
    have hmul3 : XFloat.mul (XFloat.fin d) (XFloat.fin 100) = XFloat.fin (F32.round (d * 100)) :=
      XFloat.mul_fin_pos hd0.le (by norm_num) (by linarith)
    generalize F32.round (d * 100) = v at hv hmul3
    have hvb := hv.chain (hdb.mul_const (by norm_num : (0 : ℚ) ≤ 100)) (by norm_num)
      (by norm_num)
    have hvE := hvb.chain (hbW.mul_const (by norm_num : (0 : ℚ) ≤ 100)) (by norm_num)
      (by norm_num)
    refine ⟨100, v, hmin, ?_, ?_, ?_⟩
    · rw [h100, hmul2, hdiv3, hmul3]
    · intro hle
      have hET1 : (E : ℚ) / (T : ℚ) ≤ 1 := by
        rw [div_le_one hTq]
        exact_mod_cast hle
      have hp100 : 100 ≤ p0 := not_lt.1 hp
      have h3 := hp0b.2
      have h4 := hvb.1
      have h5 := hvE.2
      constructor <;> linarith
    · intro _
      exact hvE.weaken (by positivity) (by norm_num) (by norm_num)

/-! ## Time utilization in binary32 -/

/-- C32, counterexample.  Three milliseconds into a total of 10 seconds the code computes
`percentComplete = 0.030000001`, `expectedElapsed = 3.0000002` and
`timeUtilization = 99.99999`, which is below 100; and at a total of `2 ^ 24` ms with
18454938 ms elapsed, which is more than 1.1 times the total, it computes
`timeUtilization = 110` exactly, so `isBehindSchedule` is false. -/
theorem getSnapshot_timeUtilization_below_100 :
    ((sampleStarted.getSnapshot 1003).elapsedMillis = 3 ∧
        (sampleStarted.getSnapshot 1003).compliance.timeUtilization =
          XFloat.fin (13107199 / 131072) ∧
        XFloat.le (XFloat.fin 100) (sampleStarted.getSnapshot 1003).compliance.timeUtilization =
          false) ∧
      (sampleLongStarted.getSnapshot 18455938).elapsedMillis = 18454938 ∧
      sampleLongStarted.videoDuration.totalMillis = 16777216 ∧
      (11 / 10 : ℚ) * 16777216 < 18454938 ∧
      (sampleLongStarted.getSnapshot 18455938).compliance.timeUtilization = XFloat.fin 110 ∧
      (sampleLongStarted.getSnapshot 18455938).isBehindSchedule = false := by
  have hrun : sampleStarted.isRunning = true := rfl
  have hstart : sampleStarted.startTime ≠ 0 := by decide
  have hT : sampleStarted.videoDuration.totalMillis = 10000 := rfl
  have hE : (sampleStarted.getSnapshot 1003).elapsedMillis = 3 :=
    (getSnapshot_elapsedMillis 1003 hrun hstart).trans (by decide)
  have n1 : XFloat.ofNat 3 = XFloat.fin 3 := by
    rw [XFloat.ofNat_of_lt (by norm_num)]
    norm_num
  have n2 : XFloat.ofNat 10000 = XFloat.fin 10000 := by
    rw [XFloat.ofNat_of_lt (by norm_num)]
    norm_num
  have a1 : XFloat.ofRat (3 / 10000) = XFloat.fin (5153961 / 17179869184) :=
    XFloat.ofRat_eval (-12) 10307922 (by norm_num) (by norm_num) (by norm_num) (by norm_num) (by norm_num) (by norm_num) (by norm_num)
  have a2 : XFloat.ofRat (5153961 / 17179869184 * 100) = XFloat.fin (1006633 / 33554432) :=
    XFloat.ofRat_eval (-6) 16106128 (by norm_num) (by norm_num) (by norm_num) (by norm_num) (by norm_num) (by norm_num) (by norm_num)
  have a3 : XFloat.ofRat (1006633 / 33554432 / 100) = XFloat.fin (5153961 / 17179869184) :=
    XFloat.ofRat_eval (-12) 10307922 (by norm_num) (by norm_num) (by norm_num) (by norm_num) (by norm_num) (by norm_num) (by norm_num)
  have a4 : XFloat.ofRat (10000 * (5153961 / 17179869184)) = XFloat.fin (12582913 / 4194304) :=
    XFloat.ofRat_eval 1 12582913 (by norm_num) (by norm_num) (by norm_num) (by norm_num) (by norm_num) (by norm_num) (by norm_num)
  have a5 : XFloat.ofRat (3 / (12582913 / 4194304)) = XFloat.fin (16777215 / 16777216) :=
    XFloat.ofRat_eval (-1) 16777215 (by norm_num) (by norm_num) (by norm_num) (by norm_num) (by norm_num) (by norm_num) (by norm_num)
  have a6 : XFloat.ofRat (16777215 / 16777216 * 100) = XFloat.fin (13107199 / 131072) :=
    XFloat.ofRat_eval 6 13107199 (by norm_num) (by norm_num) (by norm_num) (by norm_num) (by norm_num) (by norm_num) (by norm_num)
  have hP : (sampleStarted.getSnapshot 1003).percentComplete =
      XFloat.fin (1006633 / 33554432) := by
    rw [getSnapshot_percentComplete 1003 hrun hstart, hE, hT, n1, n2,
      XFloat.div_fin _ (by norm_num), a1, XFloat.mul_fin, a2]
    simp only [XFloat.min, XFloat.lt, decide_eq_true_eq]
    rw [if_pos (by norm_num)]
  have hU : (sampleStarted.getSnapshot 1003).compliance.timeUtilization =
      XFloat.fin (13107199 / 131072) := by
    rw [getSnapshot_timeUtilization 1003 hrun hstart, hP, hE, hT, n1, n2,
      XFloat.div_fin _ (by norm_num), a3, XFloat.mul_fin, a4, XFloat.div_fin _ (by norm_num), a5,
      XFloat.mul_fin, a6]
  have hrun2 : sampleLongStarted.isRunning = true := rfl
  have hstart2 : sampleLongStarted.startTime ≠ 0 := by decide
  have hT2 : sampleLongStarted.videoDuration.totalMillis = 16777216 := rfl
  have hE2 : (sampleLongStarted.getSnapshot 18455938).elapsedMillis = 18454938 :=
    (getSnapshot_elapsedMillis 18455938 hrun2 hstart2).trans (by decide)
  have be : F32.round (18454938) = 18454938 :=
    F32.round_eval 24 9227469 (by norm_num) (by norm_num) (by norm_num) (by norm_num) (by norm_num) (by norm_num)
  have bt : F32.round (16777216) = 16777216 :=
    F32.round_eval 24 8388608 (by norm_num) (by norm_num) (by norm_num) (by norm_num) (by norm_num) (by norm_num)
  have m1 : XFloat.ofNat 18454938 = XFloat.fin 18454938 := by
    unfold XFloat.ofNat
    norm_num [be]
  have m2 : XFloat.ofNat 16777216 = XFloat.fin 16777216 := by
    unfold XFloat.ofNat
    norm_num [bt]
  have b1 : XFloat.ofRat (18454938 / 16777216) = XFloat.fin (9227469 / 8388608) :=
    XFloat.ofRat_eval 0 9227469 (by norm_num) (by norm_num) (by norm_num) (by norm_num) (by norm_num) (by norm_num) (by norm_num)
  have b2 : XFloat.ofRat (9227469 / 8388608 * 100) = XFloat.fin (110) :=
    XFloat.ofRat_eval 6 14417920 (by norm_num) (by norm_num) (by norm_num) (by norm_num) (by norm_num) (by norm_num) (by norm_num)
  have b3 : XFloat.ofRat (100 / 100) = XFloat.fin 1 := by
    have : (100 : ℚ) / 100 = 1 := by norm_num
    rw [this, XFloat.ofRat_of_abs_le (by norm_num), F32.round_one]
  have b4 : XFloat.ofRat (16777216 * 1) = XFloat.fin 16777216 := by
    rw [mul_one, XFloat.ofRat_of_abs_le (by norm_num), bt]
  have hP2 : (sampleLongStarted.getSnapshot 18455938).percentComplete = XFloat.fin 100 := by
    rw [getSnapshot_percentComplete 18455938 hrun2 hstart2, hE2, hT2, m1, m2,
      XFloat.div_fin _ (by norm_num), b1, XFloat.mul_fin, b2]
    simp only [XFloat.min, XFloat.lt, decide_eq_true_eq]
    rw [if_neg (by norm_num)]
  have hU2 : (sampleLongStarted.getSnapshot 18455938).compliance.timeUtilization =
      XFloat.fin 110 := by
    rw [getSnapshot_timeUtilization 18455938 hrun2 hstart2, hP2, hE2, hT2, m1, m2,
      XFloat.div_fin _ (by norm_num), b3, XFloat.mul_fin, b4, XFloat.div_fin _ (by norm_num), b1,
      XFloat.mul_fin, b2]
  refine ⟨⟨hE, hU, ?_⟩, hE2, hT2, by norm_num, hU2, ?_⟩
  · rw [hU]
    simp only [XFloat.le, decide_eq_false_iff_not, not_le]
    norm_num
  · rw [(getSnapshot_flags 18455938 hrun2 hstart2).1, hU2]
    simp only [XFloat.lt, decide_eq_false_iff_not, not_lt]
    exact le_refl _

/-- C32, amended.  For every running tracker (started at a positive clock reading) with a
positive `uint32_t` total and a positive elapsed time, `getSnapshot` computes a finite
`timeUtilization` that is 100 up to binary32 rounding while `elapsed <= totalMillis` (between
99.9999 and 100.0001) and `elapsed / totalMillis * 100` up to a relative error of `3e-7`
afterwards; hence `isAheadOfSchedule` is false in every such snapshot, `isBehindSchedule` is
true when `elapsed > 1.100001 * totalMillis` and false when
`elapsed <= 1.099999 * totalMillis`. -/
theorem getSnapshot_timeUtilization_near_100 (tr : ProgressTracker) (now : Nat)
    (hrun : tr.isRunning = true) (hstart : tr.startTime ≠ 0)
    (htotal : 0 < tr.videoDuration.totalMillis) (htotal32 : tr.videoDuration.totalMillis < U32)
    (helapsed : 0 < (tr.getSnapshot now).elapsedMillis) :
    ∃ v : ℚ,
      (tr.getSnapshot now).compliance.timeUtilization = XFloat.fin v ∧
      ((tr.getSnapshot now).elapsedMillis ≤ tr.videoDuration.totalMillis →
        999999 / 10000 ≤ v ∧ v ≤ 1000001 / 10000) ∧
      (tr.videoDuration.totalMillis < (tr.getSnapshot now).elapsedMillis →
        F32.Within (9999997 / 10000000) (10000003 / 10000000) v
          (((tr.getSnapshot now).elapsedMillis : ℚ) / (tr.videoDuration.totalMillis : ℚ) *
            100)) ∧
      (tr.getSnapshot now).isAheadOfSchedule = false ∧
      (1100001 * tr.videoDuration.totalMillis < 1000000 * (tr.getSnapshot now).elapsedMillis →
        (tr.getSnapshot now).isBehindSchedule = true) ∧
      (1000000 * (tr.getSnapshot now).elapsedMillis ≤ 1099999 * tr.videoDuration.totalMillis →
        (tr.getSnapshot now).isBehindSchedule = false) := by
  have hE32 : (tr.getSnapshot now).elapsedMillis < U32 := by
    rw [getSnapshot_elapsedMillis now hrun hstart]
    exact sub32_lt _ _
  obtain ⟨hb, ha, -⟩ := getSnapshot_flags now hrun hstart
  have hU := getSnapshot_timeUtilization now hrun hstart
  have hP := getSnapshot_percentComplete now hrun hstart
  rw [hb, ha, hU, hP]
  generalize (tr.getSnapshot now).elapsedMillis = E at helapsed hE32 ⊢
  generalize tr.videoDuration.totalMillis = T at htotal htotal32 ⊢
  obtain ⟨p, v, hp, hv, hle, hgt⟩ := timeUtilization_bounds E T helapsed hE32 htotal htotal32
  rw [hp, hv]
  have hEq : (0 : ℚ) < (E : ℚ) := by exact_mod_cast helapsed
  have hTq : (0 : ℚ) < (T : ℚ) := by exact_mod_cast htotal
  have hlow : (90 : ℚ) ≤ v := by
    rcases Nat.lt_or_ge T E with h | h
    · have h1 := (hgt h).1
      have h2 : (1 : ℚ) ≤ (E : ℚ) / (T : ℚ) := by
        rw [le_div_iff₀ hTq]
        have : (T : ℚ) < (E : ℚ) := by exact_mod_cast h
        linarith
      linarith
    · have := (hle h).1
      linarith
  refine ⟨v, rfl, hle, hgt, ?_, ?_, ?_⟩
  · simp only [XFloat.lt, decide_eq_false_iff_not, not_lt]
    exact hlow
  · intro h
    have hq : (1100001 : ℚ) * (T : ℚ) < 1000000 * (E : ℚ) := by exact_mod_cast h
    have hTE : T < E := by
      by_contra hc
      have : (E : ℚ) ≤ (T : ℚ) := by exact_mod_cast not_lt.1 hc
      linarith
    have h1 := (hgt hTE).1
    have h2 : (1100001 : ℚ) / 1000000 < (E : ℚ) / (T : ℚ) := by
      rw [lt_div_iff₀ hTq]
      linarith
    simp only [XFloat.lt, decide_eq_true_eq]
    linarith
  · intro h
    have hq : (1000000 : ℚ) * (E : ℚ) ≤ 1099999 * (T : ℚ) := by exact_mod_cast h
    simp only [XFloat.lt, decide_eq_false_iff_not, not_lt]
    rcases Nat.lt_or_ge T E with h3 | h3
    · have h1 := (hgt h3).2
      have h2 : (E : ℚ) / (T : ℚ) ≤ 1099999 / 1000000 := by
        rw [div_le_iff₀ hTq]
        linarith
      linarith
    · have := (hle h3).2
      linarith

/-- C32, amended, at a tracker of 10 seconds started at 1000 and read at 13000 (12 seconds
elapsed): the utilization is within `3e-7` of 120, the tracker is behind schedule and not
ahead of it. -/
theorem getSnapshot_timeUtilization_near_100_witness :
    (sampleStarted.getSnapshot 13000).elapsedMillis = 12000 ∧
      ∃ v : ℚ,
        (sampleStarted.getSnapshot 13000).compliance.timeUtilization = XFloat.fin v ∧
        F32.Within (9999997 / 10000000) (10000003 / 10000000) v
          (((sampleStarted.getSnapshot 13000).elapsedMillis : ℚ) /
            (sampleStarted.videoDuration.totalMillis : ℚ) * 100) ∧
        (sampleStarted.getSnapshot 13000).isAheadOfSchedule = false ∧
        (sampleStarted.getSnapshot 13000).isBehindSchedule = true :=
  have he : (sampleStarted.getSnapshot 13000).elapsedMillis = 12000 :=
    (getSnapshot_elapsedMillis 13000 (by decide) (by decide)).trans (by decide)
  have h := getSnapshot_timeUtilization_near_100 sampleStarted 13000 (by decide) (by decide)
    (by decide) (by decide) (by rw [he]; decide)
  ⟨he, h.choose, h.choose_spec.1, h.choose_spec.2.2.1 (by rw [he]; decide),
    h.choose_spec.2.2.2.1, h.choose_spec.2.2.2.2.1 (by rw [he]; decide)⟩

/-! ## Speed deviation in binary32 -/

theorem F32.round_abs_err (x : ℚ) :
    |F32.round x - x| ≤ |x| / 16777216 + 1 / 1000000000000000000000000000000000000000000000 := by
  have h := F32.round_err_any x
  have h1 : (2 : ℚ) ^ (-24 : Int) * |x| = |x| / 16777216 := by
    norm_num
    ring
  have h2 : (2 : ℚ) ^ (-150 : Int) ≤ 1 / 1000000000000000000000000000000000000000000000 := by norm_num
  rw [h1] at h
  linarith

set_option maxHeartbeats 1000000 in
/-- The value of `speedDeviation` that `getSnapshot` computes from a positive elapsed time `E`,
a positive total time `T` and a positive word count `W`: it is `(T - E) / E * 100` up to an
error of `5e-7 * (|(T - E) / E * 100| + 100)`. -/
theorem speedDeviation_bounds (E T W : Nat) (hE : 0 < E) (hE32 : E < U32) (hT : 0 < T)
    (hT32 : T < U32) (hW : 0 < W) (hW32 : W < U32) :
    ∃ v : ℚ,
      XFloat.mul
          (XFloat.div
            (XFloat.sub (XFloat.ofNat W)
              (XFloat.mul (XFloat.ofNat W) (XFloat.div (XFloat.ofNat E) (XFloat.ofNat T))))
            (XFloat.mul (XFloat.ofNat W) (XFloat.div (XFloat.ofNat E) (XFloat.ofNat T))))
          (XFloat.fin 100) = XFloat.fin v ∧
      |v - ((T : ℚ) - (E : ℚ)) / (E : ℚ) * 100| ≤
        5 / 10000000 * (|((T : ℚ) - (E : ℚ)) / (E : ℚ) * 100| + 100) := by
  obtain ⟨he1, he2, heW⟩ := F32.round_uint32 hE hE32
  obtain ⟨ht1, ht2, htW⟩ := F32.round_uint32 hT hT32
  obtain ⟨hw1, hw2, -⟩ := F32.round_uint32 hW hW32
  have hEq : (0 : ℚ) < (E : ℚ) := by exact_mod_cast hE
  have hTq : (0 : ℚ) < (T : ℚ) := by exact_mod_cast hT
  unfold XFloat.ofNat
  generalize F32.round (E : ℚ) = e at he1 he2 heW ⊢
  generalize F32.round (T : ℚ) = t at ht1 ht2 htW ⊢
  generalize F32.round (W : ℚ) = w at hw1 hw2 ⊢
  have he0 : 0 < e := by linarith
  have ht0 : 0 < t := by linarith
  have hw0 : 0 < w := by linarith
  have hb1 : (1 : ℚ) / 4294967296 ≤ e / t := by
    rw [le_div_iff₀ ht0]
    linarith
  have hb2 : e / t ≤ 4294967296 := by
    rw [div_le_iff₀ ht0]
    nlinarith
  have hb0 : 0 < e / t := div_pos he0 ht0
  -- the quotient elapsed / total
  have hq := @F32.within_round_of_le (e / t) (by linarith)
  have hdiv1 : XFloat.div (XFloat.fin e) (XFloat.fin t) = XFloat.fin (F32.round (e / t)) :=
    XFloat.div_fin_pos e he0.le ht0 (by linarith)
  generalize F32.round (e / t) = q at hq hdiv1
  have hq1 := hq.lower (by norm_num) hb1
  have hq2 := hq.upper (by norm_num) hb2
  have hq0 : 0 < q := lt_of_lt_of_le (by norm_num) hq1
  -- expectedWords
  have hwq1 : 1 / 8589934592 ≤ w * q := by
    have h1 : q ≤ w * q := le_mul_of_one_le_left hq0.le hw1
    have h2 : (1 : ℚ) / 8589934592 ≤ 16777215 / 16777216 * (1 / 4294967296) := by norm_num
    linarith
  have hwq2 : w * q ≤ 18446744073709551616 * 2 := by
    have h1 : w * q ≤ 4294967296 * (16777217 / 16777216 * 4294967296) :=
      mul_le_mul hw2 hq2 hq0.le (by norm_num)
    have h2 : (4294967296 : ℚ) * (16777217 / 16777216 * 4294967296) ≤
        18446744073709551616 * 2 := by norm_num
    linarith
  have hew := @F32.within_round_of_le (w * q) (by linarith)
  have hmul1 : XFloat.mul (XFloat.fin w) (XFloat.fin q) = XFloat.fin (F32.round (w * q)) :=
    XFloat.mul_fin_pos hw0.le hq0.le (by linarith)
  generalize F32.round (w * q) = ew at hew hmul1
  have hew1 := hew.lower (by norm_num) hwq1
  have hew2 := hew.upper (by norm_num) hwq2
  have hew0 : 0 < ew := lt_of_lt_of_le (by norm_num) hew1
  have hewb := hew.chain ((F32.Within.self w).mul hq (by norm_num) (by norm_num) hw0.le hb0.le)
    (by norm_num) (by norm_num)
  -- the ratio w / ew against T / E
  have hrho0 := (F32.Within.self w).div hewb (by norm_num) (by norm_num) (by norm_num) hw0.le
    (mul_pos hw0 hb0)
  have hcancel : w / (w * (e / t)) = t / e := by
    field_simp
    ring
  rw [hcancel] at hrho0
  have hte := htW.div heW (by norm_num) (by norm_num) (by norm_num) hTq.le hEq
  have hX0 : 0 < (T : ℚ) / (E : ℚ) := div_pos hTq hEq
  have hrho := (hrho0.chain hte (by norm_num) (by norm_num)).weaken hX0.le
    (by norm_num : (1 : ℚ) - 24 / 100000000 ≤ _) (by norm_num : _ ≤ (1 : ℚ) + 24 / 100000000)
  have hX32 : (T : ℚ) / (E : ℚ) ≤ 4294967296 := by
    rw [div_le_iff₀ hEq]
    have h1 : (T : ℚ) ≤ 4294967296 := by
      have : T ≤ 4294967296 := le_of_lt hT32
      exact_mod_cast this
    have h2 : (1 : ℚ) ≤ (E : ℚ) := by exact_mod_cast hE
    nlinarith
  have hD : ((T : ℚ) - (E : ℚ)) / (E : ℚ) * 100 = ((T : ℚ) / (E : ℚ) - 1) * 100 := by
    field_simp
  rw [hD, hdiv1, hmul1]
  generalize (T : ℚ) / (E : ℚ) = X at hrho hX0 hX32 ⊢
  have hr1 := hrho.1
  have hr2 := hrho.2
  -- the difference w - ew
  have hsabs : |w - ew| ≤ (2 : ℚ) ^ (127 : Int) := by
    rw [abs_le]
    constructor
    · have : (-(2 : ℚ) ^ (127 : Int)) ≤ -(16777217 / 16777216 * (18446744073709551616 * 2)) := by
        norm_num
      linarith
    · have : (4294967296 : ℚ) ≤ (2 : ℚ) ^ (127 : Int) := by norm_num
      linarith
  have hsub : XFloat.sub (XFloat.fin w) (XFloat.fin ew) = XFloat.fin (F32.round (w - ew)) := by
    rw [XFloat.sub_fin, XFloat.ofRat_of_abs_le hsabs]
  have hs := F32.round_abs_err (w - ew)
  generalize F32.round (w - ew) = s at hs hsub
  have hwew : |w - ew| = |w / ew - 1| * ew := by
    have : w - ew = (w / ew - 1) * ew := by field_simp
    rw [this, abs_mul, abs_of_pos hew0]
  have hkappa : (1 : ℚ) / 1000000000000000000000000000000000000000000000 / ew ≤ 1 / 1000000000000000000000000000000 := by
    rw [div_le_iff₀ hew0]
    have : (1 : ℚ) / 1000000000000000000000000000000000000000000000 ≤ 1 / 1000000000000000000000000000000 * (16777215 / 16777216 * (1 / 8589934592)) := by
      norm_num
    have h2 : (1 : ℚ) / 1000000000000000000000000000000 * (16777215 / 16777216 * (1 / 8589934592)) ≤
        1 / 1000000000000000000000000000000 * ew := mul_le_mul_of_nonneg_left hew1 (by norm_num)
    linarith
  have hy : |s / ew - (w / ew - 1)| ≤ |w / ew - 1| / 16777216 + 1 / 1000000000000000000000000000000 := by
    have h1 : s / ew - (w / ew - 1) = (s - (w - ew)) / ew := by
      field_simp
    rw [h1, abs_div, abs_of_pos hew0, div_le_iff₀ hew0]
    have h2 : |w - ew| / 16777216 + 1 / 1000000000000000000000000000000000000000000000 =
        (|w / ew - 1| / 16777216 + 1 / 1000000000000000000000000000000000000000000000 / ew) * ew := by
      rw [hwew]
      generalize |w / ew - 1| = A
      field_simp
      ring
    have h3 : (|w / ew - 1| / 16777216 + 1 / 1000000000000000000000000000000000000000000000 / ew) * ew ≤
        (|w / ew - 1| / 16777216 + 1 / 1000000000000000000000000000000) * ew :=
      mul_le_mul_of_nonneg_right (by linarith) hew0.le
    linarith
  generalize w / ew = rho at hr1 hr2 hy hrho
  -- bounds on the absolute values
  have hA : |rho - 1| ≤ |X - 1| + 24 / 100000000 * X := by
    rw [abs_le]
    constructor <;> linarith [le_abs_self (X - 1), neg_abs_le (X - 1)]
  have hZ : |X - 1| ≤ 4294967296 := by
    rw [abs_le]
    constructor <;> linarith
  have hY : |s / ew| ≤ |rho - 1| + (|rho - 1| / 16777216 + 1 / 1000000000000000000000000000000) := by
    have h := abs_le.1 hy
    rw [abs_le]
    constructor <;> linarith [le_abs_self (rho - 1), neg_abs_le (rho - 1), h.1, h.2]
  have hdiv2 : XFloat.div (XFloat.fin s) (XFloat.fin ew) = XFloat.fin (F32.round (s / ew)) := by
    rw [XFloat.div_fin s hew0.ne', XFloat.ofRat_of_abs_le]
    have : (3 * 4294967296 : ℚ) ≤ (2 : ℚ) ^ (127 : Int) := by norm_num
    linarith
  have hd := F32.round_abs_err (s / ew)
  generalize F32.round (s / ew) = d at hd hdiv2
  generalize s / ew = y at hy hY hd
  have hDd : |d| ≤ |y| + (|y| / 16777216 + 1 / 1000000000000000000000000000000000000000000000) := by
    have h := abs_le.1 hd
    rw [abs_le]
    constructor <;> linarith [le_abs_self y, neg_abs_le y, h.1, h.2]
  have hd100 : |d * 100| = |d| * 100 := by
    rw [abs_mul]
    norm_num
  have hmul2 : XFloat.mul (XFloat.fin d) (XFloat.fin 100) = XFloat.fin (F32.round (d * 100)) := by
    rw [XFloat.mul_fin, XFloat.ofRat_of_abs_le]
    rw [hd100]
    have : (400 * 4294967296 : ℚ) ≤ (2 : ℚ) ^ (127 : Int) := by norm_num
    linarith
  have hv := F32.round_abs_err (d * 100)
  rw [hd100] at hv
  generalize F32.round (d * 100) = v at hv hmul2
  refine ⟨v, ?_, ?_⟩
  · rw [hsub, hdiv2, hmul2]
  · have h1 := abs_le.1 hv
    have h2 := abs_le.1 hd
    have h3 := abs_le.1 hy
    have h100 : |(X - 1) * 100| = |X - 1| * 100 := by
      rw [abs_mul]
      norm_num
    rw [h100, abs_le]
    have hZ0 := abs_nonneg (X - 1)
    have hXZ : X ≤ |X - 1| + 1 := by linarith [le_abs_self (X - 1)]
    constructor <;> linarith [h1.1, h1.2, h2.1, h2.2, h3.1, h3.2]

theorem updateWordsTyped_snapshot (tr : ProgressTracker) (now w : Nat)
    (hrun : tr.isRunning = true) (hstart : tr.startTime ≠ 0) :
    ((tr.updateWordsTyped w).getSnapshot now).elapsedMillis = (tr.getSnapshot now).elapsedMillis ∧
      ((tr.updateWordsTyped w).getSnapshot now).compliance.speedDeviation =
        XFloat.mul
          (XFloat.div
            (XFloat.sub (XFloat.ofNat w)
              (XFloat.mul (XFloat.ofNat w)
                (XFloat.div (XFloat.ofNat (tr.getSnapshot now).elapsedMillis)
                  (XFloat.ofNat tr.videoDuration.totalMillis))))
            (XFloat.mul (XFloat.ofNat w)
              (XFloat.div (XFloat.ofNat (tr.getSnapshot now).elapsedMillis)
                (XFloat.ofNat tr.videoDuration.totalMillis))))
          (XFloat.fin 100) ∧
      ((tr.updateWordsTyped w).getSnapshot now).needsSpeedAdjustment =
        XFloat.lt (XFloat.fin 10)
          (XFloat.abs ((tr.updateWordsTyped w).getSnapshot now).compliance.speedDeviation) := by
  have hrun2 : (tr.updateWordsTyped w).isRunning = true := hrun
  have hstart2 : (tr.updateWordsTyped w).startTime ≠ 0 := hstart
  have hel : ((tr.updateWordsTyped w).getSnapshot now).elapsedMillis =
      (tr.getSnapshot now).elapsedMillis := by
    rw [getSnapshot_elapsedMillis now hrun2 hstart2, getSnapshot_elapsedMillis now hrun hstart]
    rfl
  refine ⟨hel, ?_, (getSnapshot_flags now hrun2 hstart2).2.2⟩
  rw [getSnapshot_speedDeviation now hrun2 hstart2, hel]
  rfl

/-- C40, counterexample.  With a total of 11 seconds and 10 seconds elapsed the code computes
`speedDeviation = 9.999996` and `needsSpeedAdjustment = false` after `updateWordsTyped(1)`, and
`speedDeviation = 10.000001` and `needsSpeedAdjustment = true` after `updateWordsTyped(5)`:
the rounding of `expectedWords = wordsTyped * (elapsed / total)` depends on the word count. -/
theorem getSnapshot_speedDeviation_depends_on_words :
    (sampleElevenStarted.getSnapshot 11000).elapsedMillis = 10000 ∧
      ((sampleElevenStarted.updateWordsTyped 1).getSnapshot 11000).compliance.speedDeviation =
        XFloat.fin (2621439 / 262144) ∧
      ((sampleElevenStarted.updateWordsTyped 1).getSnapshot 11000).needsSpeedAdjustment = false ∧
      ((sampleElevenStarted.updateWordsTyped 5).getSnapshot 11000).compliance.speedDeviation =
        XFloat.fin (10485761 / 1048576) ∧
      ((sampleElevenStarted.updateWordsTyped 5).getSnapshot 11000).needsSpeedAdjustment = true := by
  have hrun : sampleElevenStarted.isRunning = true := rfl
  have hstart : sampleElevenStarted.startTime ≠ 0 := by decide
  have hT : sampleElevenStarted.videoDuration.totalMillis = 11000 := rfl
  have hE : (sampleElevenStarted.getSnapshot 11000).elapsedMillis = 10000 :=
    (getSnapshot_elapsedMillis 11000 hrun hstart).trans (by decide)
  have n1 : XFloat.ofNat 10000 = XFloat.fin 10000 := by
    rw [XFloat.ofNat_of_lt (by norm_num)]
    norm_num
  have n2 : XFloat.ofNat 11000 = XFloat.fin 11000 := by
    rw [XFloat.ofNat_of_lt (by norm_num)]
    norm_num
  have n3 : XFloat.ofNat 1 = XFloat.fin 1 := by
    rw [XFloat.ofNat_of_lt (by norm_num)]
    norm_num
  have n4 : XFloat.ofNat 5 = XFloat.fin 5 := by
    rw [XFloat.ofNat_of_lt (by norm_num)]
    norm_num
  have a1 : XFloat.ofRat (10000 / 11000) = XFloat.fin (15252015 / 16777216) :=
    XFloat.ofRat_eval (-1) 15252015 (by norm_num) (by norm_num) (by norm_num) (by norm_num) (by norm_num) (by norm_num) (by norm_num)
  have a2 : XFloat.ofRat (1 * (15252015 / 16777216)) = XFloat.fin (15252015 / 16777216) :=
    XFloat.ofRat_eval (-1) 15252015 (by norm_num) (by norm_num) (by norm_num) (by norm_num) (by norm_num) (by norm_num) (by norm_num)
  have a3 : XFloat.ofRat (1 - 15252015 / 16777216) = XFloat.fin (1525201 / 16777216) :=
    XFloat.ofRat_eval (-4) 12201608 (by norm_num) (by norm_num) (by norm_num) (by norm_num) (by norm_num) (by norm_num) (by norm_num)
  have a4 : XFloat.ofRat (1525201 / 16777216 / (15252015 / 16777216)) = XFloat.fin (1677721 / 16777216) :=
    XFloat.ofRat_eval (-4) 13421768 (by norm_num) (by norm_num) (by norm_num) (by norm_num) (by norm_num) (by norm_num) (by norm_num)
  have a5 : XFloat.ofRat (1677721 / 16777216 * 100) = XFloat.fin (2621439 / 262144) :=
    XFloat.ofRat_eval 3 10485756 (by norm_num) (by norm_num) (by norm_num) (by norm_num) (by norm_num) (by norm_num) (by norm_num)
  have b2 : XFloat.ofRat (5 * (15252015 / 16777216)) = XFloat.fin (9532509 / 2097152) :=
    XFloat.ofRat_eval 2 9532509 (by norm_num) (by norm_num) (by norm_num) (by norm_num) (by norm_num) (by norm_num) (by norm_num)
  have b3 : XFloat.ofRat (5 - 9532509 / 2097152) = XFloat.fin (953251 / 2097152) :=
    XFloat.ofRat_eval (-2) 15252016 (by norm_num) (by norm_num) (by norm_num) (by norm_num) (by norm_num) (by norm_num) (by norm_num)
  have b4 : XFloat.ofRat (953251 / 2097152 / (9532509 / 2097152)) = XFloat.fin (6710887 / 67108864) :=
    XFloat.ofRat_eval (-4) 13421774 (by norm_num) (by norm_num) (by norm_num) (by norm_num) (by norm_num) (by norm_num) (by norm_num)
  have b5 : XFloat.ofRat (6710887 / 67108864 * 100) = XFloat.fin (10485761 / 1048576) :=
    XFloat.ofRat_eval 3 10485761 (by norm_num) (by norm_num) (by norm_num) (by norm_num) (by norm_num) (by norm_num) (by norm_num)
  obtain ⟨-, hs1, hf1⟩ := updateWordsTyped_snapshot sampleElevenStarted 11000 1 hrun hstart
  obtain ⟨-, hs5, hf5⟩ := updateWordsTyped_snapshot sampleElevenStarted 11000 5 hrun hstart
  have hv1 : ((sampleElevenStarted.updateWordsTyped 1).getSnapshot 11000).compliance.speedDeviation =
      XFloat.fin (2621439 / 262144) := by
    rw [hs1, hE, hT, n1, n2, n3, XFloat.div_fin _ (by norm_num), a1, XFloat.mul_fin, a2,
      XFloat.sub_fin, a3, XFloat.div_fin _ (by norm_num), a4, XFloat.mul_fin, a5]
  have hv5 : ((sampleElevenStarted.updateWordsTyped 5).getSnapshot 11000).compliance.speedDeviation =
      XFloat.fin (10485761 / 1048576) := by
    rw [hs5, hE, hT, n1, n2, n4, XFloat.div_fin _ (by norm_num), a1, XFloat.mul_fin, b2,
      XFloat.sub_fin, b3, XFloat.div_fin _ (by norm_num), b4, XFloat.mul_fin, b5]
  refine ⟨hE, hv1, ?_, hv5, ?_⟩
  · rw [hf1, hv1]
    simp only [XFloat.abs, XFloat.lt, decide_eq_false_iff_not, not_lt]
    rw [abs_of_pos (by norm_num)]
    norm_num
  · rw [hf5, hv5]
    simp only [XFloat.abs, XFloat.lt, decide_eq_true_eq]
    rw [abs_of_pos (by norm_num)]
    norm_num

/-- C40, amended.  For a running tracker (started at a positive clock reading) with a positive
`uint32_t` total and a positive elapsed time, `getSnapshot` after `updateWordsTyped(w)` with a
positive `uint32_t` word count `w` computes a finite `speedDeviation` that differs from
`(totalMillis - elapsed) / elapsed * 100` by at most `5e-7` times the magnitude of that value
plus 100, whatever `w` is; so two positive word counts give values that differ by at most twice
that bound, and `needsSpeedAdjustment` is true for every `w` when the magnitude of the exact
value is above 10.0001 and false for every `w` when it is below 9.9999. -/
theorem getSnapshot_speedDeviation_near_exact (tr : ProgressTracker) (now w : Nat)
    (hrun : tr.isRunning = true) (hstart : tr.startTime ≠ 0)
    (htotal : 0 < tr.videoDuration.totalMillis) (htotal32 : tr.videoDuration.totalMillis < U32)
    (helapsed : 0 < (tr.getSnapshot now).elapsedMillis) (hw : 0 < w) (hw32 : w < U32) :
    ∃ v : ℚ,
      ((tr.updateWordsTyped w).getSnapshot now).compliance.speedDeviation = XFloat.fin v ∧
      |v - ((tr.videoDuration.totalMillis : ℚ) - ((tr.getSnapshot now).elapsedMillis : ℚ)) /
          ((tr.getSnapshot now).elapsedMillis : ℚ) * 100| ≤
        5 / 10000000 *
          (|((tr.videoDuration.totalMillis : ℚ) - ((tr.getSnapshot now).elapsedMillis : ℚ)) /
            ((tr.getSnapshot now).elapsedMillis : ℚ) * 100| + 100) ∧
      (100001 / 10000 <
          |((tr.videoDuration.totalMillis : ℚ) - ((tr.getSnapshot now).elapsedMillis : ℚ)) /
            ((tr.getSnapshot now).elapsedMillis : ℚ) * 100| →
        ((tr.updateWordsTyped w).getSnapshot now).needsSpeedAdjustment = true) ∧
      (|((tr.videoDuration.totalMillis : ℚ) - ((tr.getSnapshot now).elapsedMillis : ℚ)) /
            ((tr.getSnapshot now).elapsedMillis : ℚ) * 100| < 99999 / 10000 →
        ((tr.updateWordsTyped w).getSnapshot now).needsSpeedAdjustment = false) ∧
      ∀ w2 : Nat, 0 < w2 → w2 < U32 →
        ∃ v2 : ℚ,
          ((tr.updateWordsTyped w2).getSnapshot now).compliance.speedDeviation = XFloat.fin v2 ∧
          |v2 - v| ≤ 1 / 1000000 *
            (|((tr.videoDuration.totalMillis : ℚ) - ((tr.getSnapshot now).elapsedMillis : ℚ)) /
              ((tr.getSnapshot now).elapsedMillis : ℚ) * 100| + 100) := by
  have hE32 : (tr.getSnapshot now).elapsedMillis < U32 := by
    rw [getSnapshot_elapsedMillis now hrun hstart]
    exact sub32_lt _ _
  obtain ⟨-, hs, hf⟩ := updateWordsTyped_snapshot tr now w hrun hstart
  obtain ⟨v, hv, hb⟩ := speedDeviation_bounds (tr.getSnapshot now).elapsedMillis
    tr.videoDuration.totalMillis w helapsed hE32 htotal htotal32 hw hw32
  have hval : ((tr.updateWordsTyped w).getSnapshot now).compliance.speedDeviation =
      XFloat.fin v := hs.trans hv
  have key : ∀ w2 : Nat, 0 < w2 → w2 < U32 →
      ∃ v2 : ℚ,
        ((tr.updateWordsTyped w2).getSnapshot now).compliance.speedDeviation = XFloat.fin v2 ∧
        |v2 - ((tr.videoDuration.totalMillis : ℚ) - ((tr.getSnapshot now).elapsedMillis : ℚ)) /
            ((tr.getSnapshot now).elapsedMillis : ℚ) * 100| ≤
          5 / 10000000 *
            (|((tr.videoDuration.totalMillis : ℚ) - ((tr.getSnapshot now).elapsedMillis : ℚ)) /
              ((tr.getSnapshot now).elapsedMillis : ℚ) * 100| + 100) := by
    intro w2 hw2 hw232
    obtain ⟨-, hs2, -⟩ := updateWordsTyped_snapshot tr now w2 hrun hstart
    obtain ⟨v2, hv2, hb2⟩ := speedDeviation_bounds (tr.getSnapshot now).elapsedMillis
      tr.videoDuration.totalMillis w2 helapsed hE32 htotal htotal32 hw2 hw232
    exact ⟨v2, hs2.trans hv2, hb2⟩
  rw [hf, hval]
  generalize ((tr.videoDuration.totalMillis : ℚ) - ((tr.getSnapshot now).elapsedMillis : ℚ)) /
    ((tr.getSnapshot now).elapsedMillis : ℚ) * 100 = D at hb key ⊢
  have hD0 := abs_nonneg D
  have hbb := abs_le.1 hb
  have hvD : |D| - 5 / 10000000 * (|D| + 100) ≤ |v| := by
    have h1 : |D| ≤ |D - v| + |v| := by
      have := abs_add (D - v) v
      simpa using this
    have h2 : |D - v| = |v - D| := abs_sub_comm D v
    linarith
  have hvD2 : |v| ≤ |D| + 5 / 10000000 * (|D| + 100) := by
    have h1 : |v| ≤ |v - D| + |D| := by
      have := abs_add (v - D) D
      simpa using this
    linarith
  refine ⟨v, rfl, hb, ?_, ?_, ?_⟩
  · intro h
    simp only [XFloat.abs, XFloat.lt, decide_eq_true_eq]
    linarith
  · intro h
    simp only [XFloat.abs, XFloat.lt, decide_eq_false_iff_not, not_lt]
    linarith
  · intro w2 hw2 hw232
    obtain ⟨v2, hv2, hb2⟩ := key w2 hw2 hw232
    refine ⟨v2, hv2, ?_⟩
    have h2 := abs_le.1 hb2
    rw [abs_le]
    constructor <;> linarith [hbb.1, hbb.2, h2.1, h2.2]

/-- C40, amended, at a tracker of 10 seconds started at 1000 and read at 5000 with 7 words: the
exact deviation is 150, the computed one is within `5e-7 * 250` of it, a speed adjustment is
needed, and the value for 300 words is within `1e-6 * 250` of the value for 7 words. -/
theorem getSnapshot_speedDeviation_near_exact_witness :
    (sampleStarted.getSnapshot 5000).elapsedMillis = 4000 ∧
      ∃ v : ℚ,
        ((sampleStarted.updateWordsTyped 7).getSnapshot 5000).compliance.speedDeviation =
          XFloat.fin v ∧
        |v - ((sampleStarted.videoDuration.totalMillis : ℚ) -
            ((sampleStarted.getSnapshot 5000).elapsedMillis : ℚ)) /
            ((sampleStarted.getSnapshot 5000).elapsedMillis : ℚ) * 100| ≤
          5 / 10000000 *
            (|((sampleStarted.videoDuration.totalMillis : ℚ) -
              ((sampleStarted.getSnapshot 5000).elapsedMillis : ℚ)) /
              ((sampleStarted.getSnapshot 5000).elapsedMillis : ℚ) * 100| + 100) ∧
        ((sampleStarted.updateWordsTyped 7).getSnapshot 5000).needsSpeedAdjustment = true ∧
        ∃ v2 : ℚ,
          ((sampleStarted.updateWordsTyped 300).getSnapshot 5000).compliance.speedDeviation =
            XFloat.fin v2 ∧
          |v2 - v| ≤ 1 / 1000000 *
            (|((sampleStarted.videoDuration.totalMillis : ℚ) -
              ((sampleStarted.getSnapshot 5000).elapsedMillis : ℚ)) /
              ((sampleStarted.getSnapshot 5000).elapsedMillis : ℚ) * 100| + 100) :=
  have he : (sampleStarted.getSnapshot 5000).elapsedMillis = 4000 :=
    (getSnapshot_elapsedMillis 5000 (by decide) (by decide)).trans (by decide)
  have h := getSnapshot_speedDeviation_near_exact sampleStarted 5000 7 (by decide) (by decide)
    (by decide) (by decide) (by rw [he]; decide) (by decide) (by decide)
  ⟨he, h.choose, h.choose_spec.1, h.choose_spec.2.1,
    h.choose_spec.2.2.1 (by
      rw [he]
      show (100001 / 10000 : ℚ) < |(((10000 : Nat) : ℚ) - ((4000 : Nat) : ℚ)) /
        ((4000 : Nat) : ℚ) * 100|
      rw [abs_of_pos (by norm_num)]
      norm_num),
    h.choose_spec.2.2.2.2 300 (by decide) (by decide)⟩

/-! ## Time distribution -/

theorem TYPO_CHANCE_eq : TYPO_CHANCE = 5033165 / 33554432 :=
  F32.round_eval (-3) 10066330 (by norm_num) (by norm_num) (by norm_num) (by norm_num)
    (by norm_num) (by norm_num)

theorem UNCORRECTED_TYPO_CHANCE_eq : UNCORRECTED_TYPO_CHANCE = 4429185 / 67108864 :=
  F32.round_eval (-4) 8858370 (by norm_num) (by norm_num) (by norm_num) (by norm_num)
    (by norm_num) (by norm_num)

theorem F32.round_fifteenHundredths : F32.round (15 / 100) = 5033165 / 33554432 :=
  TYPO_CHANCE_eq

theorem correctionChance_started_eq :
    F32.round (1 - UNCORRECTED_TYPO_CHANCE) = 489685 / 524288 := by
  rw [UNCORRECTED_TYPO_CHANCE_eq]
  exact F32.round_eval (-1) 15669920 (by norm_num) (by norm_num) (by norm_num) (by norm_num)
    (by norm_num) (by norm_num)

theorem sampleCorrecting_draws :
    sampleCorrecting.typoPos "cat" = 1 ∧ sampleCorrecting.typoChar "cat" = 's' ∧
      sampleCorrecting.correctionChosen "cat" = true := by
  refine ⟨by decide, by decide, ?_⟩
  simp only [HumanSimulator.correctionChosen, HumanSimulator.decideCorrectionStrategy,
    decide_eq_true_eq]
  show (((0 : Int) : ℚ)) <
    F32.round (F32.round (F32.round (F32.round (F32.round (1 - UNCORRECTED_TYPO_CHANCE) +
      F32.round (2 / 10)) + F32.round (15 / 100)) * 1) * 100)
  have h02 : F32.round (2 / 10) = 13421773 / 67108864 :=
    F32.round_eval (-3) 13421773 (by norm_num) (by norm_num) (by norm_num) (by norm_num)
      (by norm_num) (by norm_num)
  have hP1 : F32.round (489685 / 524288 + 13421773 / 67108864) = 4756341 / 4194304 :=
    F32.round_eval 0 9512682 (by norm_num) (by norm_num) (by norm_num) (by norm_num)
      (by norm_num) (by norm_num)
  have hP2 : F32.round (4756341 / 4194304 + 5033165 / 33554432) = 10770973 / 8388608 :=
    F32.round_eval 0 10770973 (by norm_num) (by norm_num) (by norm_num) (by norm_num)
      (by norm_num) (by norm_num)
  have hP3 : F32.round (10770973 / 8388608 * 1) = 10770973 / 8388608 :=
    F32.round_eval 0 10770973 (by norm_num) (by norm_num) (by norm_num) (by norm_num)
      (by norm_num) (by norm_num)
  have hT : F32.round (10770973 / 8388608 * 100) = 8414823 / 65536 :=
    F32.round_eval 7 8414823 (by norm_num) (by norm_num) (by norm_num) (by norm_num)
      (by norm_num) (by norm_num)
  rw [correctionChance_started_eq, h02, hP1, F32.round_fifteenHundredths, hP2, hP3, hT]
  norm_num

theorem sampleNotCorrecting_draws :
    sampleNotCorrecting.typoPos "stretch" = 3 ∧ sampleNotCorrecting.typoChar "stretch" = 'f' ∧
      sampleNotCorrecting.correctionChosen "stretch" = false := by
  refine ⟨by decide, by decide, ?_⟩
  simp only [HumanSimulator.correctionChosen, HumanSimulator.decideCorrectionStrategy,
    decide_eq_false_iff_not]
  show ¬ (((99 : Int) : ℚ)) <
    F32.round (F32.round (F32.round (1 - UNCORRECTED_TYPO_CHANCE) * 1) * 100)
  have hQ3 : F32.round (489685 / 524288 * 1) = 489685 / 524288 :=
    F32.round_eval (-1) 15669920 (by norm_num) (by norm_num) (by norm_num) (by norm_num)
      (by norm_num) (by norm_num)
  have hT2 : F32.round (489685 / 524288 * 100) = 12242125 / 131072 :=
    F32.round_eval 6 12242125 (by norm_num) (by norm_num) (by norm_num) (by norm_num)
      (by norm_num) (by norm_num)
  rw [correctionChance_started_eq, hQ3, hT2]
  norm_num

theorem makeTypo_keystrokes_witness :
    (sampleCorrecting.makeTypo "cat").keyboard.written =
        [Key.char 'c', Key.char 's', Key.code KEY_BACKSPACE, Key.char 'a', Key.char 't'] ∧
      (sampleNotCorrecting.makeTypo "stretch").keyboard.written =
        [Key.char 's', Key.char 't', Key.char 'r', Key.char 'f', Key.char 't', Key.char 'c',
          Key.char 'h'] :=
  ⟨(makeTypo_keystrokes sampleCorrecting "cat" (by decide) (by decide) (by decide)
      (by decide)).2.1.trans (by
        rw [sampleCorrecting_draws.1, sampleCorrecting_draws.2.1, sampleCorrecting_draws.2.2]
        decide),
    (makeTypo_keystrokes sampleNotCorrecting "stretch" (by decide) (by decide) (by decide)
      (by decide)).2.1.trans (by
        rw [sampleNotCorrecting_draws.1, sampleNotCorrecting_draws.2.1,
          sampleNotCorrecting_draws.2.2]
        decide)⟩

theorem finalizeClip_timeframes (clip : ClipData) :
    (finalizeClip clip).timeframes = clip.timeframes := by
  unfold finalizeClip
  rcases clip.timeframes.head? with _ | a <;> rcases clip.timeframes.getLast? with _ | b <;> rfl

theorem parseClipHeader_timeframes_ne_nil (fromString : String → TimeStamp) (line : String)
    (clip : ClipData) : (parseClipHeader fromString line clip).timeframes ≠ [] := by
  unfold parseClipHeader
  simp

theorem parseTimeFrame_timeframes_ne_nil (fromString : String → TimeStamp) (line : String)
    (clip : ClipData) : (parseTimeFrame fromString line clip).timeframes ≠ [] := by
  unfold parseTimeFrame
  simp

theorem parseLine_frames (fromString : String → TimeStamp) (st : ParserState) (line : String)
    (h : (∀ c ∈ st.clips, c.timeframes ≠ []) ∧
      (st.inClip = true → st.currentClip.timeframes ≠ [])) :
    (∀ c ∈ (parseLine fromString st line).clips, c.timeframes ≠ []) ∧
      ((parseLine fromString st line).inClip = true →
        (parseLine fromString st line).currentClip.timeframes ≠ []) := by
  unfold parseLine
  simp only
  by_cases h1 : startsWith (trim line) "Clip #" = true
  · rw [if_pos h1]
    refine ⟨?_, fun _ => parseClipHeader_timeframes_ne_nil _ _ _⟩
    intro c hc
    by_cases h6 : st.inClip = true
    · have hc2 : c ∈ st.clips ++ [finalizeClip st.currentClip] := by
        simpa only [if_pos h6] using hc
      rcases List.mem_append.mp hc2 with hc3 | hc3
      · exact h.1 c hc3
      · rw [List.mem_singleton.mp hc3, finalizeClip_timeframes]
        exact h.2 h6
    · have hc2 : c ∈ st.clips := by
        simpa only [if_neg h6] using hc
      exact h.1 c hc2
  · rw [if_neg h1]
    by_cases h2 : st.inClip = true
    · rw [if_pos h2]
      by_cases h3 : indexOf (trim line) (Char.ofNat 60) ≥ 0
      · rw [if_pos h3]
        refine ⟨?_, fun _ => parseTimeFrame_timeframes_ne_nil _ _ _⟩
        intro c hc
        by_cases h4 : (!st.contentBuffer.isEmpty) = true
        · have hc2 : c ∈ st.clips := by
            simpa only [if_pos h4] using hc
          exact h.1 c hc2
        · have hc2 : c ∈ st.clips := by
            simpa only [if_neg h4] using hc
          exact h.1 c hc2
      · rw [if_neg h3]
        by_cases h5 : (!(trim line).isEmpty) = true
        · rw [if_pos h5]
          exact h
        · rw [if_neg h5]
          exact h
    · rw [if_neg h2]
      exact h

theorem parseLines_frames (fromString : String → TimeStamp) (lines : List String) :
    ∀ st : ParserState,
      ((∀ c ∈ st.clips, c.timeframes ≠ []) ∧
        (st.inClip = true → st.currentClip.timeframes ≠ [])) →
      (∀ c ∈ (lines.foldl (parseLine fromString) st).clips, c.timeframes ≠ []) ∧
        ((lines.foldl (parseLine fromString) st).inClip = true →
          (lines.foldl (parseLine fromString) st).currentClip.timeframes ≠ []) := by
  induction lines with
  | nil => intro st h; exact h
  | cons l ls ih =>
    intro st h
    exact ih _ (parseLine_frames fromString st l h)

theorem parseFile_clips_have_frames (fromString : String → TimeStamp)
    (file : Option (List String)) :
    ∀ c ∈ (parseFile fromString file).clips, c.timeframes ≠ [] := by
  intro c hc
  unfold parseFile at hc
  rcases file with _ | lines
  · simp at hc
  · simp only at hc
    split_ifs at hc with h1 h2
    · have h := parseLines_frames fromString lines.tail ⟨[], ClipData.zero, false, ""⟩
        ⟨by simp, by simp⟩
      rcases List.mem_append.mp hc with hc | hc
      · exact h.1 c hc
      · rw [List.mem_singleton.mp hc, finalizeClip_timeframes]
        exact h.2 h2
    · have h := parseLines_frames fromString lines.tail ⟨[], ClipData.zero, false, ""⟩
        ⟨by simp, by simp⟩
      exact h.1 c hc
    · simp at hc

theorem clips_eq_nil_of_frameMillis (pr : ParseResult) (h : frameMillis pr = [])
    (hframes : ∀ c ∈ pr.clips, c.timeframes ≠ []) : pr.clips = [] := by
  rcases hc : pr.clips with _ | ⟨c, cs⟩
  · rfl
  · exfalso
    have hne := hframes c (by rw [hc]; exact List.mem_cons_self _ _)
    unfold frameMillis at h
    rw [hc] at h
    rcases hf : c.timeframes with _ | ⟨f, fs⟩
    · exact hne hf
    · rw [List.flatMap_cons, hf] at h
      simp at h

/-- C31, amended.  For every `ParseResult` that contains no timeframes and has no clips or is
produced by `TextParser::parseFile` (every clip the parser creates holds the `CLIP_BOUNDARY`
frame of its header, so that such a result has no clips), `analyze` returns the zero-valued
analysis and does not read an element of an empty event vector. -/
theorem analyze_no_frames_zero (pr : ParseResult) (h : frameMillis pr = [])
    (hparsed : pr.clips = [] ∨
      ∃ (fromString : String → TimeStamp) (file : Option (List String)),
        pr = parseFile fromString file) :
    analyze pr = some DurationAnalysis.zero := by
  have hclips : pr.clips = [] := by
    rcases hparsed with hp | ⟨fromString, file, hp⟩
    · exact hp
    · exact clips_eq_nil_of_frameMillis pr h (by
        rw [hp]
        exact parseFile_clips_have_frames fromString file)
  unfold analyze
  rw [hclips]
  rfl

theorem analyze_no_frames_zero_witness :
    frameMillis (parseFile sampleFromString (some sampleVideoOnly)) = [] ∧
      analyze (parseFile sampleFromString (some sampleVideoOnly)) =
        some DurationAnalysis.zero :=
  ⟨by decide, analyze_no_frames_zero (parseFile sampleFromString (some sampleVideoOnly))
    (by decide) (Or.inr ⟨sampleFromString, some sampleVideoOnly, rfl⟩)⟩

end BleKeyboard
